import Mathlib

/-!
# CloudGraph: layout and bounding-box engine

A shallow embedding of `cloudgraph.c` / `cloudgraph.h`.

* `float` values are elements of a linear ordered field `F` (exact arithmetic,
  no rounding: in particular `(float)` of an `int` is the exact cast); every
  definition is computable and can be run with `F := ℚ`.
* The two arrangements are given a second time with the roundings of the C
  arithmetic as a parameter (`Rounding`, `CloudGraphArrangeR`): with no
  rounding they are the arrangements above (`CloudGraphArrangeR_exact`), with
  the roundings of binary32 and binary64 (`Rounding.ieee`) they give the
  values that the C code stores.
* `CloudGraphMode` has a third value for the integers that are neither of the
  two enumerators: `CloudGraphArrange` tests the two enumerators and has no
  other branch.
* `int` values are `Int`; C arrays are lists, and an index outside the array
  makes the enclosing function return `none` (undefined behaviour in C).
* `GSet` collections are lists in insertion order (head first).
* The libraries `pbmath`, `gset`, `bcurve`, `shapoid` and `tgapaint` are not
  part of the sources: the transcendental functions, the font metrics, the
  curve bound and the union of boxes are parameters (`PBMath`, `Ext`); the
  elementary vector operations are written out.
* Memory allocation is assumed to succeed.
* The input stream of `CloudGraphLoad` is a list of characters read with the
  `%d` and `fgets` of the C standard; undefined behaviour is a result of its
  own (`none`), apart from the return codes.
* The random source of `CloudGraphCreateRnd` is the sequence of the values
  returned by the successive calls of `rand()`.
-/

namespace CG

/-! ## Data model -/

/-- A `VecFloat` of dimension 2. -/
structure VecFloat (F : Type) where
  x : F
  y : F
deriving DecidableEq, Repr

/-- A `Shapoid` of dimension 2 (a Facoid): origin and two axes. -/
structure Shapoid (F : Type) where
  _pos : VecFloat F
  _axis0 : VecFloat F
  _axis1 : VecFloat F
deriving DecidableEq, Repr

/-- A `BCurve` of order 3 and dimension 2: four control points. -/
structure BCurve (F : Type) where
  _ctrl0 : VecFloat F
  _ctrl1 : VecFloat F
  _ctrl2 : VecFloat F
  _ctrl3 : VecFloat F
deriving DecidableEq, Repr

/-- The part of a `TGAFont` that `cloudgraph.c` sets. -/
structure TGAFont (F : Type) where
  _size : F
  _right : VecFloat F
  _scale : VecFloat F
deriving DecidableEq, Repr

/-- Node of the cloud (`struct CloudGraphNode`). -/
structure CloudGraphNode (F : Type) where
  _id : Int
  _family : Int
  _label : Option String
  _pos : VecFloat F
  _boundingBox : Shapoid F
  _boundingBoxLbl : Option (Shapoid F)
  _right : VecFloat F
  _theta : F
deriving DecidableEq, Repr

/-- Family of nodes (`struct CloudGraphFamily`). -/
structure CloudGraphFamily (F : Type) where
  _id : Int
  _rgba : List Nat
  _label : Option String
  _boundingBox : Option (Shapoid F)
  _pos : VecFloat F
  _right : VecFloat F
deriving DecidableEq, Repr

/-- Link of the cloud (`struct CloudGraphLink`). -/
structure CloudGraphLink (F : Type) where
  _nodes0 : Int
  _nodes1 : Int
  _curve : BCurve F
  _boundingBox : Option (Shapoid F)
  _families0 : Int
  _families1 : Int
deriving DecidableEq, Repr

/-- The cloud (`struct CloudGraph`). -/
structure CloudGraph (F : Type) where
  _nodes : List (CloudGraphNode F)
  _families : List (CloudGraphFamily F)
  _links : List (CloudGraphLink F)
  _font : TGAFont F
  _boundingBox : Shapoid F
deriving DecidableEq, Repr

/-- Modes of representation (`enum CloudGraphMode`). The enum declares
`CloudGraphModeLine` and `CloudGraphModeCircle`; `CloudGraphModeOther` stands
for every other value that the field `_mode` can hold (`CloudGraphOptSetMode`
stores its argument unchecked, and the comments of the sources still name a
mode `CloudGraphModeFree`): `CloudGraphArrange` tests the two declared values
and has no `else` branch. -/
inductive CloudGraphMode where
  | CloudGraphModeLine
  | CloudGraphModeCircle
  | CloudGraphModeOther
deriving DecidableEq, Repr

/-- Modes of the labels of nodes (`enum CloudGraphOptNodeLabel`). -/
inductive CloudGraphOptNodeLabel where
  | CloudGraphOptNodeLabelNone
  | CloudGraphOptNodeLabelAll
deriving DecidableEq, Repr

/-- Modes of the labels of families (`enum CloudGraphOptFamilyLabel`). -/
inductive CloudGraphOptFamilyLabel where
  | CloudGraphOptFamilyLabelNone
  | CloudGraphOptFamilyLabelAll
deriving DecidableEq, Repr

/-- Graphical options (`struct CloudGraphOpt`). -/
structure CloudGraphOpt (F : Type) where
  _mode : CloudGraphMode
  _curvedLink : Bool
  _curvature : F
  _nodeLabelMode : CloudGraphOptNodeLabel
  _familyLabelMode : CloudGraphOptFamilyLabel
  _fontSizeNode : F
  _fontSizeFamily : F
deriving DecidableEq, Repr

/-- Modelled from the spec: the transcendental part of `pbmath` / `math.h`
(`cos`, `sin`, `sqrt`, `PBMATH_PI`), not in the sources. -/
structure PBMath (F : Type) where
  cos : F → F
  sin : F → F
  sqrt : F → F
  pi : F

/-- Modelled from the spec: the external collaborators of the engine, not in
the sources: `TGAFontGetStringBound` (font metrics), `BCurveGetBoundingBox`
and `ShapoidGetBoundingBox` (union of a set of boxes). -/
structure Ext (F : Type) extends PBMath F where
  TGAFontGetStringBound : TGAFont F → Option String → Shapoid F
  BCurveGetBoundingBox : BCurve F → Shapoid F
  ShapoidGetBoundingBox : List (Shapoid F) → Shapoid F

section Defs

variable {F : Type} [LinearOrderedField F]

/-! ## Vector operations (pbmath) -/

/-- Modelled from the spec: `VecOp(that, a, tho, b)` stores `a * that + b * tho`
in `that`. -/
def VecOp (that : VecFloat F) (a : F) (tho : VecFloat F) (b : F) : VecFloat F :=
  ⟨a * that.x + b * tho.x, a * that.y + b * tho.y⟩

/-- Modelled from the spec: `VecRot2D(v, theta)` rotates `v` by `theta`
(counter-clockwise). -/
def VecRot2D (m : PBMath F) (v : VecFloat F) (theta : F) : VecFloat F :=
  ⟨m.cos theta * v.x - m.sin theta * v.y, m.sin theta * v.x + m.cos theta * v.y⟩

/-- Modelled from the spec: `VecNorm(v)`, the Euclidean norm. -/
def VecNorm (m : PBMath F) (v : VecFloat F) : F :=
  m.sqrt (v.x * v.x + v.y * v.y)

/-- Modelled from the spec: `VecDist(a, b)`, the Euclidean distance. -/
def VecDist (m : PBMath F) (a b : VecFloat F) : F :=
  m.sqrt ((a.x - b.x) * (a.x - b.x) + (a.y - b.y) * (a.y - b.y))

/-! ## Collections (gset) -/

/-- Modelled from the spec: `GSetSort`, a stable sort of the elements of a set
by increasing `_sortVal` (first component). -/
def GSetSort {α : Type} (s : List (F × α)) : List (F × α) :=
  s.insertionSort (fun a b => a.1 ≤ b.1)

/-- Index into a C array of `len` cells: defined for `0 ≤ i < len` only. -/
def arrIdx (len : Nat) (i : Int) : Option Nat :=
  if 0 ≤ i ∧ i < (len : Int) then some i.toNat else none

/-! ## Lookup -/

/-- `CloudGraphGetNode`: the first node whose id is `id`. -/
def CloudGraphGetNode (cloud : CloudGraph F) (id : Int) : Option (CloudGraphNode F) :=
  cloud._nodes.find? (fun n => n._id == id)

/-- `CloudGraphGetFamily`: the first family whose id is `id`. -/
def CloudGraphGetFamily (cloud : CloudGraph F) (id : Int) : Option (CloudGraphFamily F) :=
  cloud._families.find? (fun f => f._id == id)

/-! ## Layout -/

/-- `CloudGraphSortNodeByFamily`: the sort value of each element is the family
of its node, then the set is sorted. -/
def CloudGraphSortNodeByFamily (cloud : CloudGraph F) : CloudGraph F :=
  { cloud with
    _nodes := (GSetSort (cloud._nodes.map (fun node => ((node._family : F), node)))).map
      Prod.snd }

/-- The final loop of both arrangements over `posFamily` and `nbFamily`:
divide where the count is not zero. -/
def averageFamily (posFamily : List F) (nbFamily : List Int) : List F :=
  List.zipWith (fun (p : F) (n : Int) => if n ≠ 0 then p / (n : F) else p) posFamily nbFamily

/-- The body of the loop on the links of both arrangements; `k` is the factor
applied to the distance (`_curvature` in line, `_curvature * 0.5` in circle). -/
def arrangeLink (m : PBMath F) (cloud : CloudGraph F) (k : F) (link : CloudGraphLink F) :
    CloudGraphLink F :=
  match CloudGraphGetNode cloud link._nodes0, CloudGraphGetNode cloud link._nodes1 with
  | some n0, some n1 =>
    let dist := VecDist m n0._pos n1._pos
    { link with
      _curve :=
        { _ctrl0 := n0._pos
          _ctrl1 := VecOp n0._pos 1 n0._right (-1 * dist * k)
          _ctrl2 := VecOp n1._pos 1 n1._right (-1 * dist * k)
          _ctrl3 := n1._pos }
      _families0 := n0._family
      _families1 := n1._family }
  | _, _ => link

/-- The loop on the links of both arrangements. -/
def arrangeLinks (m : PBMath F) (cloud : CloudGraph F) (k : F)
    (links : List (CloudGraphLink F)) : List (CloudGraphLink F) :=
  links.map (arrangeLink m cloud k)

/-- The loop on the nodes of `CloudGraphArrangeLine`, from index `iNode`. -/
def arrangeLineNodes (opt : CloudGraphOpt F) :
    Nat → List (CloudGraphNode F) → List F → List Int →
      Option (List (CloudGraphNode F) × List F × List Int)
  | _, [], posFamily, nbFamily => some ([], posFamily, nbFamily)
  | iNode, node :: rest, posFamily, nbFamily =>
    let y : F := 2 * opt._fontSizeNode * ((iNode : F) + 1 / 2)
    match arrIdx posFamily.length node._family with
    | none => none
    | some i =>
      match arrangeLineNodes opt (iNode + 1) rest
          (posFamily.set i (posFamily.getD i 0 + y))
          (nbFamily.set i (nbFamily.getD i 0 + 1)) with
      | none => none
      | some (rest1, posFamily1, nbFamily1) =>
        some ({ node with _pos := ⟨0, y⟩, _right := ⟨1, 0⟩, _theta := 0 } :: rest1,
          posFamily1, nbFamily1)

/-- The loop on the families of `CloudGraphArrangeLine`. -/
def arrangeLineFamilies (opt : CloudGraphOpt F) (posFamily : List F) :
    List (CloudGraphFamily F) → Option (List (CloudGraphFamily F))
  | [] => some []
  | family :: rest =>
    match arrIdx posFamily.length family._id with
    | none => none
    | some i =>
      match arrangeLineFamilies opt posFamily rest with
      | none => none
      | some rest1 =>
        some ({ family with
          _pos := ⟨opt._fontSizeNode, posFamily.getD i 0⟩, _right := ⟨1, 0⟩ } :: rest1)

/-- `CloudGraphArrangeLine`. -/
def CloudGraphArrangeLine (m : PBMath F) (cloud : CloudGraph F) (opt : CloudGraphOpt F) :
    Option (CloudGraph F) :=
  let nbElem := cloud._families.length
  match arrangeLineNodes opt 0 cloud._nodes (List.replicate nbElem 0)
      (List.replicate nbElem 0) with
  | none => none
  | some (nodes, posFamily, nbFamily) =>
    let posFamily1 := averageFamily posFamily nbFamily
    let cloud1 := { cloud with _nodes := nodes }
    let cloud2 := { cloud1 with _links := arrangeLinks m cloud1 opt._curvature cloud1._links }
    match arrangeLineFamilies opt posFamily1 cloud2._families with
    | none => none
    | some families => some { cloud2 with _families := families }

/-- The loop on the nodes of `CloudGraphArrangeCircle`, from angle `theta`. -/
def arrangeCircleNodes (m : PBMath F) (r dTheta : F) :
    F → List (CloudGraphNode F) → List F → List Int →
      Option (List (CloudGraphNode F) × List F × List Int)
  | _, [], posFamily, nbFamily => some ([], posFamily, nbFamily)
  | theta, node :: rest, posFamily, nbFamily =>
    match arrIdx posFamily.length node._family with
    | none => none
    | some i =>
      match arrangeCircleNodes m r dTheta (theta + dTheta) rest
          (posFamily.set i (posFamily.getD i 0 + theta))
          (nbFamily.set i (nbFamily.getD i 0 + 1)) with
      | none => none
      | some (rest1, posFamily1, nbFamily1) =>
        some ({ node with
            _pos := ⟨r * m.cos theta, r * m.sin theta⟩
            _right := VecRot2D m ⟨1, 0⟩ theta
            _theta := theta } :: rest1,
          posFamily1, nbFamily1)

/-- The loop on the families of `CloudGraphArrangeCircle`. -/
def arrangeCircleFamilies (m : PBMath F) (r : F) (opt : CloudGraphOpt F) (posFamily : List F) :
    List (CloudGraphFamily F) → Option (List (CloudGraphFamily F))
  | [] => some []
  | family :: rest =>
    match arrIdx posFamily.length family._id with
    | none => none
    | some i =>
      match arrangeCircleFamilies m r opt posFamily rest with
      | none => none
      | some rest1 =>
        some ({ family with
          _pos := VecRot2D m ⟨r + opt._fontSizeNode, 0⟩ (posFamily.getD i 0)
          _right := VecRot2D m ⟨1, 0⟩ (posFamily.getD i 0) } :: rest1)

/-- `CloudGraphArrangeCircle`. -/
def CloudGraphArrangeCircle (m : PBMath F) (cloud : CloudGraph F) (opt : CloudGraphOpt F) :
    Option (CloudGraph F) :=
  let nbElem := cloud._families.length
  let r : F := (cloud._nodes.length : F) * opt._fontSizeNode / m.pi
  let dTheta : F := 2 * m.pi / (cloud._nodes.length : F)
  match arrangeCircleNodes m r dTheta 0 cloud._nodes (List.replicate nbElem 0)
      (List.replicate nbElem 0) with
  | none => none
  | some (nodes, posFamily, nbFamily) =>
    let posFamily1 := averageFamily posFamily nbFamily
    let cloud1 := { cloud with _nodes := nodes }
    let cloud2 :=
      { cloud1 with _links := arrangeLinks m cloud1 (opt._curvature * (1 / 2)) cloud1._links }
    match arrangeCircleFamilies m r opt posFamily1 cloud2._families with
    | none => none
    | some families => some { cloud2 with _families := families }

/-! ## Bounding boxes -/

/-- The box around the marker of a node: a square of side `_fontSizeNode`
centred on the node. -/
def nodeBox (opt : CloudGraphOpt F) (pos : VecFloat F) : Shapoid F :=
  let axis0 : VecFloat F := ⟨opt._fontSizeNode, 0⟩
  let axis1 : VecFloat F := ⟨0, opt._fontSizeNode⟩
  { _pos := VecOp (VecOp pos 1 axis0 (-(1 / 2))) 1 axis1 (-(1 / 2))
    _axis0 := axis0
    _axis1 := axis1 }

/-- The loop on the nodes of `CloudGraphUpdateBoundingBox`: the updated nodes,
the font, the length of the longest label and the boxes appended to the set. -/
def updateNodes (ext : Ext F) (opt : CloudGraphOpt F) :
    List (CloudGraphNode F) → TGAFont F → F →
      List (CloudGraphNode F) × TGAFont F × F × List (Shapoid F)
  | [], font, maxLength => ([], font, maxLength, [])
  | node :: rest, font, maxLength =>
    let box := nodeBox opt node._pos
    let font1 := { font with _right := node._right }
    let lbl0 := ext.TGAFontGetStringBound font1 node._label
    let l := VecNorm ext.toPBMath lbl0._axis0
    let maxLength1 := if l > maxLength then l else maxLength
    let lbl := { lbl0 with _pos := VecOp node._pos 1 node._right opt._fontSizeNode }
    let res := updateNodes ext opt rest font1 maxLength1
    ({ node with _boundingBox := box, _boundingBoxLbl := some lbl } :: res.1,
      res.2.1, res.2.2.1,
      box :: (if opt._nodeLabelMode ≠ CloudGraphOptNodeLabel.CloudGraphOptNodeLabelNone
        then lbl :: res.2.2.2 else res.2.2.2))

/-- The loop on the links of `CloudGraphUpdateBoundingBox`. -/
def updateLinks (ext : Ext F) :
    List (CloudGraphLink F) → List (CloudGraphLink F) × List (Shapoid F)
  | [] => ([], [])
  | link :: rest =>
    let box := ext.BCurveGetBoundingBox link._curve
    let res := updateLinks ext rest
    ({ link with _boundingBox := some box } :: res.1, box :: res.2)

/-- The loop on the families of `CloudGraphUpdateBoundingBox`. -/
def updateFamilies (ext : Ext F) (opt : CloudGraphOpt F) (maxLength : F) :
    List (CloudGraphFamily F) → TGAFont F →
      List (CloudGraphFamily F) × TGAFont F × List (Shapoid F)
  | [], font => ([], font, [])
  | family :: rest, font =>
    let font1 := { font with _right := family._right }
    let box0 := ext.TGAFontGetStringBound font1 family._label
    let pos :=
      if opt._nodeLabelMode ≠ CloudGraphOptNodeLabel.CloudGraphOptNodeLabelNone
      then VecOp family._pos 1 family._right (maxLength + opt._fontSizeNode)
      else family._pos
    let box := { box0 with _pos := pos }
    let res := updateFamilies ext opt maxLength rest font1
    ({ family with _boundingBox := some box, _pos := pos } :: res.1, res.2.1,
      if opt._familyLabelMode ≠ CloudGraphOptFamilyLabel.CloudGraphOptFamilyLabelNone
      then box :: res.2.2 else res.2.2)

/-- The last loop of `CloudGraphUpdateBoundingBox`: some pixels are added to
the border. -/
def addBorder (opt : CloudGraphOpt F) (b : Shapoid F) : Shapoid F :=
  { _pos := ⟨b._pos.x - opt._fontSizeNode, b._pos.y - opt._fontSizeNode⟩
    _axis0 := ⟨b._axis0.x + opt._fontSizeNode * 2, b._axis0.y⟩
    _axis1 := ⟨b._axis1.x, b._axis1.y + opt._fontSizeNode * 2⟩ }

/-- `CloudGraphUpdateBoundingBox`. -/
def CloudGraphUpdateBoundingBox (ext : Ext F) (cloud : CloudGraph F) (opt : CloudGraphOpt F) :
    CloudGraph F :=
  let font := { cloud._font with _size := opt._fontSizeNode }
  let rn := updateNodes ext opt cloud._nodes font 0
  let rl := updateLinks ext cloud._links
  let rf := updateFamilies ext opt rn.2.2.1 cloud._families rn.2.1
  { _nodes := rn.1
    _families := rf.1
    _links := rl.1
    _font := rf.2.1
    _boundingBox := addBorder opt (ext.ShapoidGetBoundingBox (rn.2.2.2 ++ (rl.2 ++ rf.2.2))) }

/-- `CloudGraphArrange`: `none` stands for undefined behaviour (an index out
of the arrays of the arrangement), `some` for the return value `true`. When
the mode is neither circle nor line, no arrangement is run (`ret` keeps its
initial value `true`) and the boxes are updated on the sorted cloud. -/
def CloudGraphArrange (ext : Ext F) (cloud : CloudGraph F) (opt : CloudGraphOpt F) :
    Option (CloudGraph F) :=
  let cloud1 := CloudGraphSortNodeByFamily cloud
  let ret :=
    match opt._mode with
    | CloudGraphMode.CloudGraphModeCircle => CloudGraphArrangeCircle ext.toPBMath cloud1 opt
    | CloudGraphMode.CloudGraphModeLine => CloudGraphArrangeLine ext.toPBMath cloud1 opt
    | CloudGraphMode.CloudGraphModeOther => some cloud1
  match ret with
  | none => none
  | some cloud2 => some (CloudGraphUpdateBoundingBox ext cloud2 opt)

/-! ## Auxiliary definitions used to state the properties -/

/-- The relation underlying `GSetSort`. -/
abbrev sortRel {α : Type} : F × α → F × α → Prop := fun a b => a.1 ≤ b.1

instance sortRel_total {α : Type} : IsTotal (F × α) sortRel := ⟨fun a b => le_total a.1 b.1⟩

instance sortRel_trans {α : Type} : IsTrans (F × α) sortRel :=
  ⟨fun _ _ _ h1 h2 => le_trans h1 h2⟩

/-- Every index used by the arrangements lies in the per-family arrays: the
family of every node and the id of every family are in `[0, nbElem)`. -/
def WellIndexed (cloud : CloudGraph F) : Prop :=
  (∀ n ∈ cloud._nodes, 0 ≤ n._family ∧ n._family < (cloud._families.length : Int)) ∧
  (∀ f ∈ cloud._families, 0 ≤ f._id ∧ f._id < (cloud._families.length : Int))

instance WellIndexed.decidable (cloud : CloudGraph F) : Decidable (WellIndexed cloud) := by
  unfold WellIndexed
  infer_instance

/-- The nodes of family `k`. -/
def members (k : Int) (nodes : List (CloudGraphNode F)) : List (CloudGraphNode F) :=
  nodes.filter (fun n => decide (n._family = k))

/-- Sum of `val` over the nodes of family `k`. -/
def famSum (k : Int) (val : CloudGraphNode F → F) (nodes : List (CloudGraphNode F)) : F :=
  ((members k nodes).map val).sum

/-- Mean of `val` over the nodes of family `k`. -/
def famMean (k : Int) (val : CloudGraphNode F → F) (nodes : List (CloudGraphNode F)) : F :=
  famSum k val nodes / ((members k nodes).length : F)

/-- Common shape of the loops on the nodes of the two arrangements: a state `s`
(the index, or the angle) gives the value added to `posFamily` and the new
fields of the node. -/
def accumNodes {σ : Type} (val : σ → F) (upd : σ → CloudGraphNode F → CloudGraphNode F)
    (next : σ → σ) :
    σ → List (CloudGraphNode F) → List F → List Int →
      Option (List (CloudGraphNode F) × List F × List Int)
  | _, [], posFamily, nbFamily => some ([], posFamily, nbFamily)
  | s, node :: rest, posFamily, nbFamily =>
    match arrIdx posFamily.length node._family with
    | none => none
    | some i =>
      match accumNodes val upd next (next s) rest
          (posFamily.set i (posFamily.getD i 0 + val s))
          (nbFamily.set i (nbFamily.getD i 0 + 1)) with
      | none => none
      | some (rest1, posFamily1, nbFamily1) => some (upd s node :: rest1, posFamily1, nbFamily1)

/-- The fields written on a node by the loop of `CloudGraphArrangeLine`. -/
def lineNode (opt : CloudGraphOpt F) (iNode : Nat) (node : CloudGraphNode F) :
    CloudGraphNode F :=
  { node with
    _pos := ⟨0, 2 * opt._fontSizeNode * ((iNode : F) + 1 / 2)⟩, _right := ⟨1, 0⟩, _theta := 0 }

/-- The fields written on a node by the loop of `CloudGraphArrangeCircle`. -/
def circleNode (m : PBMath F) (r theta : F) (node : CloudGraphNode F) : CloudGraphNode F :=
  { node with
    _pos := ⟨r * m.cos theta, r * m.sin theta⟩
    _right := VecRot2D m ⟨1, 0⟩ theta
    _theta := theta }

/-- The fields written on a family by the last loop of `CloudGraphArrangeLine`,
with the anchor of the family given by `anchor`. -/
def lineFamily (opt : CloudGraphOpt F) (anchor : Int → F) (family : CloudGraphFamily F) :
    CloudGraphFamily F :=
  { family with _pos := ⟨opt._fontSizeNode, anchor family._id⟩, _right := ⟨1, 0⟩ }

/-- The fields written on a family by the last loop of
`CloudGraphArrangeCircle`, with the angle of the family given by `anchor`. -/
def circleFamily (m : PBMath F) (r : F) (opt : CloudGraphOpt F) (anchor : Int → F)
    (family : CloudGraphFamily F) : CloudGraphFamily F :=
  { family with
    _pos := VecRot2D m ⟨r + opt._fontSizeNode, 0⟩ (anchor family._id)
    _right := VecRot2D m ⟨1, 0⟩ (anchor family._id) }

/-- The nodes after the loop of `CloudGraphArrangeLine`. -/
def lineNodes (opt : CloudGraphOpt F) (nodes : List (CloudGraphNode F)) :
    List (CloudGraphNode F) :=
  List.zipWith (lineNode opt) (List.iterate (fun i => i + 1) 0 nodes.length) nodes

/-- The nodes after the loop of `CloudGraphArrangeCircle`. -/
def circleNodes (m : PBMath F) (opt : CloudGraphOpt F) (nodes : List (CloudGraphNode F)) :
    List (CloudGraphNode F) :=
  List.zipWith (circleNode m ((nodes.length : F) * opt._fontSizeNode / m.pi))
    (List.iterate (fun theta => theta + 2 * m.pi / (nodes.length : F)) 0 nodes.length) nodes

/-- The cloud after `CloudGraphArrangeLine`, in closed form. -/
def lineLayout (m : PBMath F) (cloud : CloudGraph F) (opt : CloudGraphOpt F) : CloudGraph F :=
  { cloud with
    _nodes := lineNodes opt cloud._nodes
    _links := arrangeLinks m { cloud with _nodes := lineNodes opt cloud._nodes } opt._curvature
      cloud._links
    _families := cloud._families.map
      (lineFamily opt (fun k => famMean k (fun n => n._pos.y) (lineNodes opt cloud._nodes))) }

/-- The cloud after `CloudGraphArrangeCircle`, in closed form. -/
def circleLayout (m : PBMath F) (cloud : CloudGraph F) (opt : CloudGraphOpt F) :
    CloudGraph F :=
  { cloud with
    _nodes := circleNodes m opt cloud._nodes
    _links := arrangeLinks m { cloud with _nodes := circleNodes m opt cloud._nodes }
      (opt._curvature * (1 / 2)) cloud._links
    _families := cloud._families.map
      (circleFamily m ((cloud._nodes.length : F) * opt._fontSizeNode / m.pi) opt
        (fun k => famMean k (fun n => n._theta) (circleNodes m opt cloud._nodes))) }

/-- The box of the label of a node, as `CloudGraphUpdateBoundingBox` builds it
with the font `font` turned to the right of the node. -/
def labelBox (ext : Ext F) (opt : CloudGraphOpt F) (font : TGAFont F)
    (node : CloudGraphNode F) : Shapoid F :=
  { ext.TGAFontGetStringBound { font with _right := node._right } node._label with
    _pos := VecOp node._pos 1 node._right opt._fontSizeNode }

/-- The length of the label of a node (`VecNorm` of the first axis of its box). -/
def labelLength (ext : Ext F) (font : TGAFont F) (node : CloudGraphNode F) : F :=
  VecNorm ext.toPBMath
    (ext.TGAFontGetStringBound { font with _right := node._right } node._label)._axis0

/-- The fields written on a node by `CloudGraphUpdateBoundingBox`. -/
def boxNode (ext : Ext F) (opt : CloudGraphOpt F) (font : TGAFont F)
    (node : CloudGraphNode F) : CloudGraphNode F :=
  { node with
    _boundingBox := nodeBox opt node._pos
    _boundingBoxLbl := some (labelBox ext opt font node) }

/-- The running maximum of the lengths of the labels, from `maxLength`. -/
def maxLabelLength (ext : Ext F) (font : TGAFont F) (maxLength : F)
    (nodes : List (CloudGraphNode F)) : F :=
  nodes.foldl
    (fun acc node => if labelLength ext font node > acc then labelLength ext font node else acc)
    maxLength

/-- The font after `TGAFontSetRight` has been called with each of `rights`. -/
def fontAfter (font : TGAFont F) (rights : List (VecFloat F)) : TGAFont F :=
  rights.foldl (fun f r => { f with _right := r }) font

/-- The fields written on a link by `CloudGraphUpdateBoundingBox`. -/
def boxLink (ext : Ext F) (link : CloudGraphLink F) : CloudGraphLink F :=
  { link with _boundingBox := some (ext.BCurveGetBoundingBox link._curve) }

/-- The position of a family after `CloudGraphUpdateBoundingBox`. -/
def familyPos (opt : CloudGraphOpt F) (maxLength : F) (family : CloudGraphFamily F) :
    VecFloat F :=
  if opt._nodeLabelMode ≠ CloudGraphOptNodeLabel.CloudGraphOptNodeLabelNone
  then VecOp family._pos 1 family._right (maxLength + opt._fontSizeNode)
  else family._pos

/-- The fields written on a family by `CloudGraphUpdateBoundingBox`. -/
def boxFamily (ext : Ext F) (opt : CloudGraphOpt F) (font : TGAFont F) (maxLength : F)
    (family : CloudGraphFamily F) : CloudGraphFamily F :=
  { family with
    _boundingBox := some
      { ext.TGAFontGetStringBound { font with _right := family._right } family._label with
        _pos := familyPos opt maxLength family }
    _pos := familyPos opt maxLength family }

/-- The boxes of the elements of the cloud that are displayed: the box of
every node, the box of its label if the labels of nodes are displayed, the box
of every link, the box of every family if the labels of families are
displayed. -/
def visibleBoxes (opt : CloudGraphOpt F) (cloud : CloudGraph F) : List (Shapoid F) :=
  cloud._nodes.flatMap (fun n =>
      n._boundingBox ::
        (if opt._nodeLabelMode ≠ CloudGraphOptNodeLabel.CloudGraphOptNodeLabelNone
          then n._boundingBoxLbl.toList else [])) ++
    (cloud._links.flatMap (fun l => l._boundingBox.toList) ++
      (if opt._familyLabelMode ≠ CloudGraphOptFamilyLabel.CloudGraphOptFamilyLabelNone
        then cloud._families.flatMap (fun f => f._boundingBox.toList) else []))

/-! ## Concrete inputs -/

/-- The four corners of a box. -/
def Shapoid.corners (b : Shapoid F) : List (VecFloat F) :=
  [b._pos, VecOp b._pos 1 b._axis0 1, VecOp b._pos 1 b._axis1 1,
    VecOp (VecOp b._pos 1 b._axis0 1) 1 b._axis1 1]

/-- The axis-aligned box around a list of points (a point box at the origin
for no point). -/
def aabb : List (VecFloat F) → Shapoid F
  | [] => ⟨⟨0, 0⟩, ⟨0, 0⟩, ⟨0, 0⟩⟩
  | p :: ps =>
    let xmin := ps.foldl (fun a q => min a q.x) p.x
    let xmax := ps.foldl (fun a q => max a q.x) p.x
    let ymin := ps.foldl (fun a q => min a q.y) p.y
    let ymax := ps.foldl (fun a q => max a q.y) p.y
    ⟨⟨xmin, ymin⟩, ⟨xmax - xmin, 0⟩, ⟨0, ymax - ymin⟩⟩

/-- A concrete instance of the external collaborators over the mathematics `m`:
a label of `n` characters is `n * size * scale.x` long and `size * scale.y`
high along the right of the font, the bound of a curve is the axis-aligned box
around its control points, the union of boxes is the axis-aligned box around
their corners. -/
def exampleExt (m : PBMath F) : Ext F :=
  { toPBMath := m
    TGAFontGetStringBound := fun font label =>
      { _pos := ⟨0, 0⟩
        _axis0 := VecOp ⟨0, 0⟩ 0 font._right
          (((label.getD "").length : F) * font._size * font._scale.x)
        _axis1 := VecOp ⟨0, 0⟩ 0 ⟨-font._right.y, font._right.x⟩ (font._size * font._scale.y) }
    BCurveGetBoundingBox := fun c => aabb [c._ctrl0, c._ctrl1, c._ctrl2, c._ctrl3]
    ShapoidGetBoundingBox := fun boxes => aabb (boxes.flatMap Shapoid.corners) }

/-- A node as `CloudGraphCreateNode` makes it, with the given id, family and
label. -/
def exampleNode (F : Type) [LinearOrderedField F] (id family : Int) (label : String) :
    CloudGraphNode F :=
  { _id := id, _family := family, _label := some label, _pos := ⟨0, 0⟩
    _boundingBox := ⟨⟨0, 0⟩, ⟨1, 0⟩, ⟨0, 1⟩⟩, _boundingBoxLbl := none, _right := ⟨0, 0⟩
    _theta := 0 }

/-- A family as `CloudGraphCreateFamily` makes it, with the given id and label. -/
def exampleFamily (F : Type) [LinearOrderedField F] (id : Int) (label : String) :
    CloudGraphFamily F :=
  { _id := id, _rgba := [0, 0, 0, 255], _label := some label, _boundingBox := none
    _pos := ⟨0, 0⟩, _right := ⟨0, 0⟩ }

/-- A link as `CloudGraphCreateLink` makes it, between the given nodes. -/
def exampleLink (F : Type) [LinearOrderedField F] (a b : Int) : CloudGraphLink F :=
  { _nodes0 := a, _nodes1 := b, _curve := ⟨⟨0, 0⟩, ⟨0, 0⟩, ⟨0, 0⟩, ⟨0, 0⟩⟩
    _boundingBox := none, _families0 := 0, _families1 := 0 }

/-- A cloud as `CloudGraphCreate` makes it, with the given content. -/
def exampleCloud (F : Type) [LinearOrderedField F] (nodes : List (CloudGraphNode F))
    (families : List (CloudGraphFamily F)) (links : List (CloudGraphLink F)) : CloudGraph F :=
  { _nodes := nodes, _families := families, _links := links
    _font := { _size := 0, _right := ⟨1, 0⟩, _scale := ⟨1 / 2, 1⟩ }
    _boundingBox := ⟨⟨0, 0⟩, ⟨1, 0⟩, ⟨0, 1⟩⟩ }

/-- Three nodes (ids 0, 1, 2) of the family 0, no link. -/
def cloud3 (F : Type) [LinearOrderedField F] : CloudGraph F :=
  exampleCloud F [exampleNode F 0 0 "a", exampleNode F 1 0 "b", exampleNode F 2 0 "c"]
    [exampleFamily F 0 "f"] []

/-- Four nodes (ids 0 to 3) of the family 0, no link. -/
def cloud4 (F : Type) [LinearOrderedField F] : CloudGraph F :=
  exampleCloud F
    [exampleNode F 0 0 "a", exampleNode F 1 0 "b", exampleNode F 2 0 "c", exampleNode F 3 0 "d"]
    [exampleFamily F 0 "f"] []

/-- Four nodes of two families in mixed order, a link that resolves and a link
that does not. -/
def cloudMixed (F : Type) [LinearOrderedField F] : CloudGraph F :=
  exampleCloud F
    [exampleNode F 0 1 "a", exampleNode F 1 0 "b", exampleNode F 2 1 "c", exampleNode F 3 0 "d"]
    [exampleFamily F 1 "g", exampleFamily F 0 "f"] [exampleLink F 0 1, exampleLink F 2 7]

/-- The options of `CloudGraphOptCreate` with the given mode, modes of labels
and size of the font of nodes. -/
def exampleOpt (F : Type) [LinearOrderedField F] (mode : CloudGraphMode)
    (nodeLabel : CloudGraphOptNodeLabel) (familyLabel : CloudGraphOptFamilyLabel)
    (fontSizeNode : F) : CloudGraphOpt F :=
  { _mode := mode, _curvedLink := false, _curvature := 1, _nodeLabelMode := nodeLabel
    _familyLabelMode := familyLabel, _fontSizeNode := fontSizeNode, _fontSizeFamily := 22 }

/-- Common shape of the two arrangements in closed form: `layoutNodes` gives
the nodes after the loop on the nodes, `layoutFamily` the fields written on a
family from those nodes, `k` the factor applied to the distance in the loop
on the links. -/
def layoutWith (m : PBMath F) (k : F)
    (layoutNodes : List (CloudGraphNode F) → List (CloudGraphNode F))
    (layoutFamily : List (CloudGraphNode F) → CloudGraphFamily F → CloudGraphFamily F)
    (cloud : CloudGraph F) : CloudGraph F :=
  { cloud with
    _nodes := layoutNodes cloud._nodes
    _links := cloud._links.map
      (arrangeLink m { cloud with _nodes := layoutNodes cloud._nodes } k)
    _families := cloud._families.map (layoutFamily (layoutNodes cloud._nodes)) }

/-! ## Containment of boxes -/

/-- Modelled from the spec: `FacoidCreate(2)` (shapoid library), the unit
square at the origin. -/
def FacoidCreate2 : Shapoid F :=
  ⟨⟨0, 0⟩, ⟨1, 0⟩, ⟨0, 1⟩⟩

/-- `CloudGraphCreate`: an empty cloud; `tgaFontDefault` is the font returned
by `TGAFontCreate(tgaFontDefault)` (tgapaint library), whose scale is set to
`(0.5, 1.0)`. -/
def CloudGraphCreate (tgaFontDefault : TGAFont F) : CloudGraph F :=
  { _nodes := [], _families := [], _links := []
    _font := { tgaFontDefault with _scale := ⟨1 / 2, 1⟩ }
    _boundingBox := FacoidCreate2 }

/-- `CloudGraphCreateFamily`: id 0, colour `{0, 0, 0, 255}`, no label, no box. -/
def CloudGraphCreateFamily : CloudGraphFamily F :=
  { _id := 0, _rgba := [0, 0, 0, 255], _label := none, _boundingBox := none
    _pos := ⟨0, 0⟩, _right := ⟨0, 0⟩ }

/-- `CloudGraphCreateNode`: id 0, family 0, no label (`_theta` is left
uninitialised by the source and is never read before being written; it is 0
here). -/
def CloudGraphCreateNode : CloudGraphNode F :=
  { _id := 0, _family := 0, _label := none, _pos := ⟨0, 0⟩, _boundingBox := FacoidCreate2
    _boundingBoxLbl := none, _right := ⟨0, 0⟩, _theta := 0 }

/-- `CloudGraphCreateLink`: both nodes -1, no box (`_families` is left
uninitialised by the source; it is 0 here). -/
def CloudGraphCreateLink : CloudGraphLink F :=
  { _nodes0 := -1, _nodes1 := -1, _curve := ⟨⟨0, 0⟩, ⟨0, 0⟩, ⟨0, 0⟩, ⟨0, 0⟩⟩
    _boundingBox := none, _families0 := 0, _families1 := 0 }

/-- `CloudGraphAddFamily` (non null arguments, allocation succeeds): the
returned flag and the cloud after the call. -/
def CloudGraphAddFamily (cloud : CloudGraph F) (f : CloudGraphFamily F) :
    Bool × CloudGraph F :=
  if cloud._families.any (fun g => f._id == g._id) then (false, cloud)
  else
    (true,
      { cloud with
        _families := cloud._families ++
          [{ _id := f._id, _rgba := f._rgba, _label := f._label
             _boundingBox := f._boundingBox, _pos := f._pos, _right := f._right }] })

/-- `CloudGraphAddNode` (non null arguments, allocation succeeds): the returned
flag and the cloud after the call. `_theta` is not copied. -/
def CloudGraphAddNode (cloud : CloudGraph F) (n : CloudGraphNode F) : Bool × CloudGraph F :=
  (true,
    { cloud with
      _nodes := cloud._nodes ++
        [{ _id := n._id, _family := n._family, _label := n._label, _pos := n._pos
           _boundingBox := n._boundingBox, _boundingBoxLbl := n._boundingBoxLbl
           _right := n._right, _theta := (CloudGraphCreateNode : CloudGraphNode F)._theta }] })

/-- `CloudGraphAddLink` (non null arguments, allocation succeeds): the returned
flag and the cloud after the call. The box of the link is not copied. -/
def CloudGraphAddLink (cloud : CloudGraph F) (l : CloudGraphLink F) : Bool × CloudGraph F :=
  if l._nodes0 = l._nodes1 then (false, cloud)
  else
    (true,
      { cloud with
        _links := cloud._links ++
          [{ _nodes0 := l._nodes0, _nodes1 := l._nodes1, _curve := l._curve
             _boundingBox := (CloudGraphCreateLink : CloudGraphLink F)._boundingBox
             _families0 := l._families0, _families1 := l._families1 }] })

end Defs

/-! ## Input stream (stdio) -/

/-- The value of the macro `EOF`. -/
def EOF : Int := -1

/-- The value of the macro `INT_MAX` (32 bit `int`). -/
def INT_MAX : Int := 2147483647

/-- The value of the macro `INT_MIN` (32 bit `int`). -/
def INT_MIN : Int := -2147483648

/-- Modelled from the C standard: `isspace` in the C locale. -/
def isspace (c : Char) : Bool :=
  c == ' ' || (9 ≤ c.toNat && c.toNat ≤ 13)

/-- Modelled from the C standard: what a white-space directive of `fscanf`
consumes. -/
def skipSpace : List Char → List Char
  | [] => []
  | c :: cs => if isspace c then skipSpace cs else c :: cs

/-- The digits at the head of the stream, accumulated in base 10, and the rest
of the stream. -/
def scanDigits : List Char → Nat → Nat × List Char
  | [], acc => (acc, [])
  | c :: cs, acc =>
    if c.isDigit then scanDigits cs (acc * 10 + (c.toNat - 48)) else (acc, c :: cs)

/-- Outcome of one `%d` directive of `fscanf`. -/
inductive ScanInt where
  | inputFailure
  | matchingFailure (rest : List Char)
  | value (v : Int) (rest : List Char)
  | overflow
deriving DecidableEq, Repr

/-- Modelled from the C standard: one `%d` directive. White space is skipped;
the end of the stream is an input failure; an optional sign and decimal digits
are converted; anything else is a matching failure; a value that does not fit
an `int` is undefined behaviour (`overflow`). -/
def scanInt (s : List Char) : ScanInt :=
  match skipSpace s with
  | [] => ScanInt.inputFailure
  | c :: cs =>
    if c == '-' || c == '+' then
      match cs with
      | [] => ScanInt.matchingFailure []
      | d :: ds =>
        if d.isDigit then
          let v : Int := if c == '-' then -((scanDigits (d :: ds) 0).1 : Int)
            else ((scanDigits (d :: ds) 0).1 : Int)
          if INT_MIN ≤ v ∧ v ≤ INT_MAX then ScanInt.value v (scanDigits (d :: ds) 0).2
          else ScanInt.overflow
        else ScanInt.matchingFailure (d :: ds)
    else if c.isDigit then
      if ((scanDigits (c :: cs) 0).1 : Int) ≤ INT_MAX
      then ScanInt.value (scanDigits (c :: cs) 0).1 (scanDigits (c :: cs) 0).2
      else ScanInt.overflow
    else ScanInt.matchingFailure (c :: cs)

/-- The `%d` directives of one `fscanf`, in order: the values converted, the
rest of the stream and whether an input failure stopped the scan; `none` is
undefined behaviour. -/
def scanInts : Nat → List Char → Option (List Int × List Char × Bool)
  | 0, s => some ([], s, false)
  | n + 1, s =>
    match scanInt s with
    | ScanInt.inputFailure => some ([], [], true)
    | ScanInt.matchingFailure rest => some ([], rest, false)
    | ScanInt.overflow => none
    | ScanInt.value v rest =>
      match scanInts n rest with
      | none => none
      | some (vs, r, e) => some (v :: vs, r, e)

/-- What a call of `fscanf` returns and leaves. -/
structure ScanOut where
  ret : Int
  vals : List Int
  rest : List Char
deriving DecidableEq, Repr

/-- Modelled from the C standard: `fscanf(stream, "%d ... %d")` with `n`
directives `%d` separated by white space, followed by a white-space directive
when `trailing` is set. It returns `EOF` when an input failure occurs before
the first conversion, else the number of values converted and assigned. -/
def fscanf_d (n : Nat) (trailing : Bool) (s : List Char) : Option ScanOut :=
  match scanInts n s with
  | none => none
  | some (vs, rest, e) =>
    some
      { ret := if vs = [] ∧ e = true then EOF else (vs.length : Int)
        vals := vs
        rest := if trailing = true ∧ vs.length = n then skipSpace rest else rest }

/-- The characters stored by `fgets` when room is left for `n` of them, and
the rest of the stream. -/
def fgetsLine : Nat → List Char → List Char × List Char
  | 0, s => ([], s)
  | _ + 1, [] => ([], [])
  | n + 1, c :: cs =>
    if c == Char.ofNat 10 then ([c], cs) else ((c :: (fgetsLine n cs).1), (fgetsLine n cs).2)

/-- Modelled from the C standard: `fgets(buf, size, stream)`; `none` is the
return value `NULL` (end of the stream and nothing read). -/
def fgets (size : Nat) (s : List Char) : Option (List Char × List Char) :=
  if s = [] then none else some (fgetsLine (size - 1) s)

/-- The C string held by a buffer: its characters before the first NUL. -/
def cstring (buf : List Char) : List Char :=
  buf.takeWhile (fun c => c != Char.ofNat 0)

/-- The effect of `label[strlen(label) - 1] = 0` on the string held by the
buffer: the last character is removed; on an empty string the write is out of
the buffer (`none`). -/
def cutLast (buf : List Char) : Option (List Char) :=
  if cstring buf = [] then none else some (cstring buf).dropLast

/-- The value of the macro `CLOUDGRAPH_MAXLENGTHLABEL`. -/
def CLOUDGRAPH_MAXLENGTHLABEL : Nat := 500

/-- Conversion of an `int` to `unsigned char`. -/
def toUChar (v : Int) : Nat := (v % 256).toNat

section Defs2

variable {F : Type} [LinearOrderedField F]

/-! ## Loading -/

/-- The local variables of `CloudGraphLoad` and the cloud being built. -/
structure LoadLocals (F : Type) where
  stream : List Char
  cloud : CloudGraph F
  family : CloudGraphFamily F
  node : CloudGraphNode F
  link : CloudGraphLink F
  rgb0 : Int
  rgb1 : Int
  rgb2 : Int
  nbFamily : Int
  nbNode : Int
  nbLink : Int

/-- What a part of `CloudGraphLoad` does: undefined behaviour, `return code`
after everything has been freed, or going on with the local variables. -/
inductive LoadStep (α : Type) where
  | undefined
  | stop (code : Int)
  | go (a : α)

/-- A `for` loop of `CloudGraphLoad` running `body` a number of times. -/
def loadLoop {α : Type} (body : α → LoadStep α) : Nat → α → LoadStep α
  | 0, st => LoadStep.go st
  | n + 1, st =>
    match body st with
    | LoadStep.undefined => LoadStep.undefined
    | LoadStep.stop code => LoadStep.stop code
    | LoadStep.go st1 => loadLoop body n st1

/-- The body of the loop of `CloudGraphLoad` on the families. -/
def loadFamily (st : LoadLocals F) : LoadStep (LoadLocals F) :=
  match fscanf_d 4 true st.stream with
  | none => LoadStep.undefined
  | some out =>
    let id := out.vals.getD 0 st.family._id
    let r := out.vals.getD 1 st.rgb0
    let g := out.vals.getD 2 st.rgb1
    let b := out.vals.getD 3 st.rgb2
    if out.ret = EOF ∨ id < 0 ∨ id ≥ st.nbFamily ∨ r < 0 ∨ r > 255 ∨ g < 0 ∨ g > 255 ∨
        b < 0 ∨ b > 255 then LoadStep.stop 3
    else
      match fgets CLOUDGRAPH_MAXLENGTHLABEL out.rest with
      | none => LoadStep.stop 3
      | some (buf, rest) =>
        match cutLast buf with
        | none => LoadStep.undefined
        | some label =>
          let family : CloudGraphFamily F :=
            { st.family with
              _id := id
              _label := some (String.mk label)
              _rgba := ((st.family._rgba.set 2 (toUChar b)).set 1 (toUChar g)).set 0
                (toUChar r) }
          match CloudGraphAddFamily st.cloud family with
          | (false, _) => LoadStep.stop 3
          | (true, cloud) =>
            LoadStep.go
              { st with
                stream := rest, cloud := cloud, family := family, rgb0 := r, rgb1 := g
                rgb2 := b }

/-- The body of the loop of `CloudGraphLoad` on the nodes. -/
def loadNode (st : LoadLocals F) : LoadStep (LoadLocals F) :=
  match fscanf_d 2 true st.stream with
  | none => LoadStep.undefined
  | some out =>
    let id := out.vals.getD 0 st.node._id
    let fam := out.vals.getD 1 st.node._family
    if out.ret = EOF ∨ id < 0 ∨ id ≥ st.nbNode ∨ fam < 0 ∨ fam ≥ st.nbFamily
    then LoadStep.stop 3
    else
      match fgets CLOUDGRAPH_MAXLENGTHLABEL out.rest with
      | none => LoadStep.stop 3
      | some (buf, rest) =>
        match cutLast buf with
        | none => LoadStep.undefined
        | some label =>
          let node : CloudGraphNode F :=
            { st.node with _id := id, _family := fam, _label := some (String.mk label) }
          match CloudGraphAddNode st.cloud node with
          | (false, _) => LoadStep.stop 3
          | (true, cloud) => LoadStep.go { st with stream := rest, cloud := cloud, node := node }

/-- The body of the loop of `CloudGraphLoad` on the links: the value returned
by `fscanf` is not looked at. -/
def loadLink (st : LoadLocals F) : LoadStep (LoadLocals F) :=
  match fscanf_d 2 false st.stream with
  | none => LoadStep.undefined
  | some out =>
    let n0 := out.vals.getD 0 st.link._nodes0
    let n1 := out.vals.getD 1 st.link._nodes1
    if n0 < 0 ∨ n0 ≥ st.nbNode ∨ n1 < 0 ∨ n1 ≥ st.nbNode then LoadStep.stop 3
    else
      let link : CloudGraphLink F := { st.link with _nodes0 := n0, _nodes1 := n1 }
      match CloudGraphAddLink st.cloud link with
      | (false, _) => LoadStep.stop 3
      | (true, cloud) => LoadStep.go { st with stream := out.rest, cloud := cloud, link := link }

/-- The part of `CloudGraphLoad` that reads the number of families and the
families. -/
def loadFamilies (st : LoadLocals F) : LoadStep (LoadLocals F) :=
  match fscanf_d 1 false st.stream with
  | none => LoadStep.undefined
  | some out =>
    let nbFamily := out.vals.getD 0 0
    if out.ret = EOF then LoadStep.stop 4
    else if nbFamily ≤ 0 then LoadStep.stop 3
    else loadLoop loadFamily nbFamily.toNat { st with stream := out.rest, nbFamily := nbFamily }

/-- The part of `CloudGraphLoad` that reads the number of nodes and the nodes. -/
def loadNodes (st : LoadLocals F) : LoadStep (LoadLocals F) :=
  match fscanf_d 1 false st.stream with
  | none => LoadStep.undefined
  | some out =>
    let nbNode := out.vals.getD 0 0
    if out.ret = EOF then LoadStep.stop 4
    else if nbNode ≤ 0 then LoadStep.stop 3
    else loadLoop loadNode nbNode.toNat { st with stream := out.rest, nbNode := nbNode }

/-- The part of `CloudGraphLoad` that reads the number of links and the links.
`nbLink` is not initialised: after a matching failure its value is
indeterminate (`undefined`). -/
def loadLinks (st : LoadLocals F) : LoadStep (LoadLocals F) :=
  match fscanf_d 1 false st.stream with
  | none => LoadStep.undefined
  | some out =>
    if out.ret = EOF then LoadStep.stop 4
    else
      match out.vals with
      | [] => LoadStep.undefined
      | nbLink :: _ =>
        if nbLink < 0 then LoadStep.stop 3
        else loadLoop loadLink nbLink.toNat { st with stream := out.rest, nbLink := nbLink }

/-- The local variables of `CloudGraphLoad` before the first read. -/
def loadStart (tgaFontDefault : TGAFont F) (s : List Char) : LoadLocals F :=
  { stream := s
    cloud := CloudGraphCreate tgaFontDefault
    family := { (CloudGraphCreateFamily : CloudGraphFamily F) with
      _rgba := (CloudGraphCreateFamily : CloudGraphFamily F)._rgba.set 3 255 }
    node := CloudGraphCreateNode
    link := CloudGraphCreateLink
    rgb0 := 0, rgb1 := 0, rgb2 := 0
    nbFamily := 0, nbNode := 0, nbLink := 0 }

/-- The body of `CloudGraphLoad` once the arguments are checked. -/
def loadRun (tgaFontDefault : TGAFont F) (s : List Char) : LoadStep (LoadLocals F) :=
  match loadFamilies (loadStart tgaFontDefault s) with
  | LoadStep.undefined => LoadStep.undefined
  | LoadStep.stop code => LoadStep.stop code
  | LoadStep.go st1 =>
    match loadNodes st1 with
    | LoadStep.undefined => LoadStep.undefined
    | LoadStep.stop code => LoadStep.stop code
    | LoadStep.go st2 => loadLinks st2

/-- `CloudGraphLoad` (allocation succeeds): `cloud` is `*cloud` at the call
(`none` for `NULL`), `stream` is the stream (`none` for `NULL`); the result is
the value returned and `*cloud` after the call, or `none` when the behaviour
is undefined. -/
def CloudGraphLoad (tgaFontDefault : TGAFont F) (cloud : Option (CloudGraph F))
    (stream : Option (List Char)) : Option (Int × Option (CloudGraph F)) :=
  match cloud, stream with
  | some _, some s =>
    match loadRun tgaFontDefault s with
    | LoadStep.undefined => none
    | LoadStep.stop code => some (code, none)
    | LoadStep.go st => some (0, some st.cloud)
  | _, _ => some (1, cloud)

/-- A cloud without node whose only family looks to the right. -/
def cloudFamilyOnly (F : Type) [LinearOrderedField F] : CloudGraph F :=
  exampleCloud F [] [{ exampleFamily F 0 "f" with _right := ⟨1, 0⟩ }] []

/-- `CloudGraphAddNode` called with each node of `nodes` in turn. -/
def addNodes (cloud : CloudGraph F) (nodes : List (CloudGraphNode F)) : CloudGraph F :=
  nodes.foldl (fun c n => (CloudGraphAddNode c n).2) cloud

/-- The families 0 and 1, then a node of id 0 and family 1 labelled "first",
then a node of id 0 and family 0 labelled "second", added in this order. -/
def cloudTwice (F : Type) [LinearOrderedField F] : CloudGraph F :=
  addNodes (exampleCloud F [] [exampleFamily F 0 "f", exampleFamily F 1 "g"] [])
    [exampleNode F 0 1 "first", exampleNode F 0 0 "second"]

/-- The data contract of a loaded cloud for the declared numbers of families,
nodes and links. -/
def DataContract (nbFamily nbNode nbLink : Int) (g : CloudGraph F) : Prop :=
  1 ≤ nbFamily ∧ 1 ≤ nbNode ∧ 0 ≤ nbLink ∧
  (g._families.length : Int) = nbFamily ∧ (g._nodes.length : Int) = nbNode ∧
  (g._links.length : Int) = nbLink ∧
  (g._families.map (fun f => f._id)).Nodup ∧
  (∀ f ∈ g._families, 0 ≤ f._id ∧ f._id < nbFamily ∧
    ∃ r g b : Nat, r ≤ 255 ∧ g ≤ 255 ∧ b ≤ 255 ∧ f._rgba = [r, g, b, 255]) ∧
  (∀ n ∈ g._nodes, 0 ≤ n._id ∧ n._id < nbNode ∧ ∃ f ∈ g._families, f._id = n._family) ∧
  (∀ l ∈ g._links, l._nodes0 ≠ l._nodes1 ∧ 0 ≤ l._nodes0 ∧ l._nodes0 < nbNode ∧
    0 ≤ l._nodes1 ∧ l._nodes1 < nbNode)

/-! ## Queries and drawing -/

/-- `CloudGraphGetMaxLengthLblNode` (non null arguments): the running maximum,
from 0, of the first component of the first axis of `_boundingBox` of the
nodes when the labels of nodes are displayed, else 0. -/
def CloudGraphGetMaxLengthLblNode (cloud : CloudGraph F) (opt : CloudGraphOpt F) : F :=
  if opt._nodeLabelMode ≠ CloudGraphOptNodeLabel.CloudGraphOptNodeLabelNone then
    cloud._nodes.foldl
      (fun maxLength node =>
        if node._boundingBox._axis0.x > maxLength then node._boundingBox._axis0.x
        else maxLength)
      0
  else 0

/-- Modelled from the spec: `GSetGet` (gset library, not in the sources), the
element at position `iElem` of the set, `NULL` when there is none. -/
def GSetGet {α : Type} (s : List α) (iElem : Int) : Option α :=
  if 0 ≤ iElem then s[iElem.toNat]? else none

/-- The family whose colour `CloudGraphToTGA` gives to the marker and to the
label of a node: `GSetGet(cloud->_families, node->_family)`. -/
def toTGANodeFamily (cloud : CloudGraph F) (node : CloudGraphNode F) :
    Option (CloudGraphFamily F) :=
  GSetGet cloud._families node._family

/-- The family whose colour `CloudGraphToTGA` gives to the end `iNode` of a
link: `CloudGraphGetFamily(cloud, link->_families[iNode])`. -/
def toTGALinkFamily (cloud : CloudGraph F) (link : CloudGraphLink F) (iNode : Nat) :
    Option (CloudGraphFamily F) :=
  CloudGraphGetFamily cloud (if iNode = 0 then link._families0 else link._families1)

/-- The nodes after the loop of `CloudGraphArrangeLine` run on `nodes` with
the index starting at `iNode`. -/
def lineNodesFrom (opt : CloudGraphOpt F) (iNode : Nat) (nodes : List (CloudGraphNode F)) :
    List (CloudGraphNode F) :=
  List.zipWith (lineNode opt) (List.iterate (fun i => i + 1) iNode nodes.length) nodes

/-- A cloud built with `CloudGraphCreate`, `CloudGraphAddFamily` and
`CloudGraphAddNode`: one family, of id 1, and one node, of id 0 and of that
family. Neither function checks the id of the family or the family of the
node; the value 1 is outside the arrays `posFamily` and `nbFamily` of the
arrangements, which have one cell (the number of families). -/
def cloudOutside (F : Type) [LinearOrderedField F] : CloudGraph F :=
  (CloudGraphAddNode
    (CloudGraphAddFamily (CloudGraphCreate (exampleCloud F [] [] [])._font)
      { (CloudGraphCreateFamily : CloudGraphFamily F) with _id := 1 }).2
    { (CloudGraphCreateNode : CloudGraphNode F) with _id := 0, _family := 1 }).2

/-- A cloud built with the public functions: one family, of id 1, two nodes
(ids 0 and 1) of that family and one link between them. The family value 1 is
outside the arrays of the arrangements, which have one cell. -/
def cloudOutsideLinked (F : Type) [LinearOrderedField F] : CloudGraph F :=
  (CloudGraphAddLink
    (CloudGraphAddNode
      (CloudGraphAddNode
        (CloudGraphAddFamily (CloudGraphCreate (exampleCloud F [] [] [])._font)
          { (CloudGraphCreateFamily : CloudGraphFamily F) with _id := 1 }).2
        { (CloudGraphCreateNode : CloudGraphNode F) with _id := 0, _family := 1 }).2
      { (CloudGraphCreateNode : CloudGraphNode F) with _id := 1, _family := 1 }).2
    { (CloudGraphCreateLink : CloudGraphLink F) with _nodes0 := 0, _nodes1 := 1 }).2

/-- Three nodes (ids 0, 1, 2) of the family 0 and a link between the nodes 0
and 1. -/
def cloudLinked3 (F : Type) [LinearOrderedField F] : CloudGraph F :=
  exampleCloud F [exampleNode F 0 0 "a", exampleNode F 1 0 "b", exampleNode F 2 0 "c"]
    [exampleFamily F 0 "f"] [exampleLink F 0 1]

/-- A cloud built with `CloudGraphCreate` and `CloudGraphAddNode`: no family
and two nodes, the first (id 0) of family 16777217 and the second (id 1) of
family 16777216. Both families have the same conversion to `float`,
16777216 (`2 ^ 24`). -/
def cloudFar (F : Type) [LinearOrderedField F] : CloudGraph F :=
  (CloudGraphAddNode
    (CloudGraphAddNode (CloudGraphCreate (exampleCloud F [] [] [])._font)
      { (CloudGraphCreateNode : CloudGraphNode F) with _id := 0, _family := 16777217 }).2
    { (CloudGraphCreateNode : CloudGraphNode F) with _id := 1, _family := 16777216 }).2

/-- What identifies a node through the operations: its id, its family and
its label (`CloudGraphAddNode` stores a copy, the arrangements write the other
fields). -/
def nodeIdentity (n : CloudGraphNode F) : Int × Int × Option String :=
  (n._id, n._family, n._label)

/-- A call of one of the two public operations that change the set of nodes
or its order. -/
inductive CloudGraphCall (F : Type) where
  | addNode (n : CloudGraphNode F)
  | arrange (opt : CloudGraphOpt F)

/-- The nodes given to `CloudGraphAddNode` by a sequence of calls, in the
order of the calls. -/
def addedNodes : List (CloudGraphCall F) → List (CloudGraphNode F)
  | [] => []
  | CloudGraphCall.addNode n :: rest => n :: addedNodes rest
  | CloudGraphCall.arrange _ :: rest => addedNodes rest

/-- The sequence holds calls of `CloudGraphAddNode` only. -/
def onlyAdds : List (CloudGraphCall F) → Bool
  | [] => true
  | CloudGraphCall.addNode _ :: rest => onlyAdds rest
  | CloudGraphCall.arrange _ :: _ => false

/-! ## The arrangements with the roundings of the C arithmetic

The definitions above compute in the field `F` without rounding. The
definitions below are the same functions of the sources with every rounding of
their own arithmetic made explicit: an operation between two `float` yields a
`float`, an operation with a constant of type `double` is computed in `double`,
and a value stored in a `float` (a variable, a cell of `posFamily`, an argument
of `VecSet` or `VecOp`) is converted to `float`. With `Rounding.exact` they are
the definitions above (`CloudGraphArrangeR_exact`). The arithmetic inside the
libraries (`VecOp`, `VecRot2D`, `VecDist`) and inside
`CloudGraphUpdateBoundingBox` is left exact: it does not bear on the positions
of the nodes, nor on the positions of the families when the labels of nodes are
not displayed. -/

/-- The roundings of the C arithmetic: `toFloat x` is the `float` and
`toDouble x` the `double` that an operation of exact result `x` yields. -/
structure Rounding (F : Type) where
  toFloat : F → F
  toDouble : F → F

/-- Exact arithmetic: no rounding. -/
def Rounding.exact : Rounding F :=
  { toFloat := fun x => x, toDouble := fun x => x }

/-- `CloudGraphSortNodeByFamily` with the conversion `(float)(node->_family)`
of the sort value. -/
def CloudGraphSortNodeByFamilyR (R : Rounding F) (cloud : CloudGraph F) : CloudGraph F :=
  { cloud with
    _nodes := (GSetSort (cloud._nodes.map
      (fun node => (R.toFloat (node._family : F), node)))).map Prod.snd }

/-- The ordinate `2.0 * opt->_fontSizeNode * ((float)iNode + 0.5)` given to the
node of index `iNode` by `CloudGraphArrangeLine`: `2.0` and `0.5` are of type
`double`, so the two products and the sum are computed in `double`, and
`VecSet` stores the result in a `float`. -/
def lineY (R : Rounding F) (opt : CloudGraphOpt F) (iNode : Nat) : F :=
  R.toFloat (R.toDouble
    (R.toDouble (2 * opt._fontSizeNode) * R.toDouble (R.toFloat (iNode : F) + 1 / 2)))

/-- The loop on the nodes of `CloudGraphArrangeLine`, from index `iNode`:
`posFamily[node->_family] += VecGet(node->_pos, 1)` is an addition of two
`float`. -/
def arrangeLineNodesR (R : Rounding F) (opt : CloudGraphOpt F) :
    Nat → List (CloudGraphNode F) → List F → List Int →
      Option (List (CloudGraphNode F) × List F × List Int)
  | _, [], posFamily, nbFamily => some ([], posFamily, nbFamily)
  | iNode, node :: rest, posFamily, nbFamily =>
    match arrIdx posFamily.length node._family with
    | none => none
    | some i =>
      match arrangeLineNodesR R opt (iNode + 1) rest
          (posFamily.set i (R.toFloat (posFamily.getD i 0 + lineY R opt iNode)))
          (nbFamily.set i (nbFamily.getD i 0 + 1)) with
      | none => none
      | some (rest1, posFamily1, nbFamily1) =>
        some ({ node with _pos := ⟨0, lineY R opt iNode⟩, _right := ⟨1, 0⟩, _theta := 0 } ::
            rest1,
          posFamily1, nbFamily1)

/-- The loop `posFamily[iFamily] /= (float)(nbFamily[iFamily])` of both
arrangements: a division of two `float`. -/
def averageFamilyR (R : Rounding F) (posFamily : List F) (nbFamily : List Int) : List F :=
  List.zipWith
    (fun (p : F) (n : Int) => if n ≠ 0 then R.toFloat (p / R.toFloat (n : F)) else p)
    posFamily nbFamily

/-- The body of the loop on the links of both arrangements; `factor dist` is
the last argument of `VecOp`. -/
def arrangeLinkR (m : PBMath F) (cloud : CloudGraph F) (factor : F → F)
    (link : CloudGraphLink F) : CloudGraphLink F :=
  match CloudGraphGetNode cloud link._nodes0, CloudGraphGetNode cloud link._nodes1 with
  | some n0, some n1 =>
    let dist := VecDist m n0._pos n1._pos
    { link with
      _curve :=
        { _ctrl0 := n0._pos
          _ctrl1 := VecOp n0._pos 1 n0._right (factor dist)
          _ctrl2 := VecOp n1._pos 1 n1._right (factor dist)
          _ctrl3 := n1._pos }
      _families0 := n0._family
      _families1 := n1._family }
  | _, _ => link

/-- `CloudGraphArrangeLine` with the roundings; the last argument of `VecOp`
is `-1.0 * dist * opt->_curvature`, computed in `double` and converted to
`float`. -/
def CloudGraphArrangeLineR (R : Rounding F) (m : PBMath F) (cloud : CloudGraph F)
    (opt : CloudGraphOpt F) : Option (CloudGraph F) :=
  let nbElem := cloud._families.length
  match arrangeLineNodesR R opt 0 cloud._nodes (List.replicate nbElem 0)
      (List.replicate nbElem 0) with
  | none => none
  | some (nodes, posFamily, nbFamily) =>
    let posFamily1 := averageFamilyR R posFamily nbFamily
    let cloud1 := { cloud with _nodes := nodes }
    let cloud2 := { cloud1 with
      _links := cloud1._links.map (arrangeLinkR m cloud1
        (fun dist => R.toFloat (R.toDouble (R.toDouble (-1 * dist) * opt._curvature)))) }
    match arrangeLineFamilies opt posFamily1 cloud2._families with
    | none => none
    | some families => some { cloud2 with _families := families }

/-- The loop on the nodes of `CloudGraphArrangeCircle`, from angle `theta`:
`r * cos(theta)` is computed in `double` and stored in a `float`;
`posFamily[node->_family] += theta` and `theta += dTheta` are additions of two
`float`. -/
def arrangeCircleNodesR (R : Rounding F) (m : PBMath F) (r dTheta : F) :
    F → List (CloudGraphNode F) → List F → List Int →
      Option (List (CloudGraphNode F) × List F × List Int)
  | _, [], posFamily, nbFamily => some ([], posFamily, nbFamily)
  | theta, node :: rest, posFamily, nbFamily =>
    match arrIdx posFamily.length node._family with
    | none => none
    | some i =>
      match arrangeCircleNodesR R m r dTheta (R.toFloat (theta + dTheta)) rest
          (posFamily.set i (R.toFloat (posFamily.getD i 0 + theta)))
          (nbFamily.set i (nbFamily.getD i 0 + 1)) with
      | none => none
      | some (rest1, posFamily1, nbFamily1) =>
        some ({ node with
            _pos := ⟨R.toFloat (R.toDouble (r * m.cos theta)),
              R.toFloat (R.toDouble (r * m.sin theta))⟩
            _right := VecRot2D m ⟨1, 0⟩ theta
            _theta := theta } :: rest1,
          posFamily1, nbFamily1)

/-- The loop on the families of `CloudGraphArrangeCircle`: `r + fontSizeNode`
is an addition of two `float`. -/
def arrangeCircleFamiliesR (R : Rounding F) (m : PBMath F) (r : F) (opt : CloudGraphOpt F)
    (posFamily : List F) : List (CloudGraphFamily F) → Option (List (CloudGraphFamily F))
  | [] => some []
  | family :: rest =>
    match arrIdx posFamily.length family._id with
    | none => none
    | some i =>
      match arrangeCircleFamiliesR R m r opt posFamily rest with
      | none => none
      | some rest1 =>
        some ({ family with
          _pos := VecRot2D m ⟨R.toFloat (r + opt._fontSizeNode), 0⟩ (posFamily.getD i 0)
          _right := VecRot2D m ⟨1, 0⟩ (posFamily.getD i 0) } :: rest1)

/-- `CloudGraphArrangeCircle` with the roundings. The header that defines
`PBMATH_PI` is not among the sources; the constant is taken to be of type
`double`, as the literals `2.0` and `0.5` beside it: `r` is a product of two
`float` divided in `double`, `dTheta` is computed in `double`; both are stored
in a `float`. -/
def CloudGraphArrangeCircleR (R : Rounding F) (m : PBMath F) (cloud : CloudGraph F)
    (opt : CloudGraphOpt F) : Option (CloudGraph F) :=
  let nbElem := cloud._families.length
  let r : F := R.toFloat (R.toDouble
    (R.toFloat (R.toFloat (cloud._nodes.length : F) * opt._fontSizeNode) / m.pi))
  let dTheta : F :=
    R.toFloat (R.toDouble (R.toDouble (2 * m.pi) / R.toFloat (cloud._nodes.length : F)))
  match arrangeCircleNodesR R m r dTheta 0 cloud._nodes (List.replicate nbElem 0)
      (List.replicate nbElem 0) with
  | none => none
  | some (nodes, posFamily, nbFamily) =>
    let posFamily1 := averageFamilyR R posFamily nbFamily
    let cloud1 := { cloud with _nodes := nodes }
    let cloud2 := { cloud1 with
      _links := cloud1._links.map (arrangeLinkR m cloud1
        (fun dist => R.toFloat (R.toDouble
          (R.toDouble (R.toDouble (-1 * dist) * opt._curvature) * (1 / 2))))) }
    match arrangeCircleFamiliesR R m r opt posFamily1 cloud2._families with
    | none => none
    | some families => some { cloud2 with _families := families }

/-- `CloudGraphArrange` with the roundings of the sort value and of the two
arrangements. -/
def CloudGraphArrangeR (R : Rounding F) (ext : Ext F) (cloud : CloudGraph F)
    (opt : CloudGraphOpt F) : Option (CloudGraph F) :=
  let cloud1 := CloudGraphSortNodeByFamilyR R cloud
  let ret :=
    match opt._mode with
    | CloudGraphMode.CloudGraphModeCircle =>
      CloudGraphArrangeCircleR R ext.toPBMath cloud1 opt
    | CloudGraphMode.CloudGraphModeLine => CloudGraphArrangeLineR R ext.toPBMath cloud1 opt
    | CloudGraphMode.CloudGraphModeOther => some cloud1
  match ret with
  | none => none
  | some cloud2 => some (CloudGraphUpdateBoundingBox ext cloud2 opt)

/-- The cloud after a sequence of calls of `CloudGraphAddNode` and
`CloudGraphArrange`, run in turn; `none` when a call of `CloudGraphArrange` is
undefined. -/
def runCalls (R : Rounding F) (ext : Ext F) :
    CloudGraph F → List (CloudGraphCall F) → Option (CloudGraph F)
  | cloud, [] => some cloud
  | cloud, CloudGraphCall.addNode n :: rest => runCalls R ext (CloudGraphAddNode cloud n).2 rest
  | cloud, CloudGraphCall.arrange opt :: rest =>
    match CloudGraphArrangeR R ext cloud opt with
    | none => none
    | some cloud1 => runCalls R ext cloud1 rest

end Defs2

section Defs3

variable {F : Type} [LinearOrderedField F] [FloorRing F]

/-! ## Random generation -/

/-- The macro `rnd()`, `(float)(rand())/(float)(RAND_MAX)`, for the value `r`
returned by `rand()`. -/
def rnd (RAND_MAX : Int) (r : Int) : F :=
  (r : F) / (RAND_MAX : F)

/-- Modelled from the C standard: the string written by
`sprintf(label, "<pre>%03d", i)` for `i ≥ 0`. -/
def sprintf03d (pre : String) (i : Int) : String :=
  pre ++ String.mk (List.replicate (3 - (toString i.toNat).length) '0') ++ toString i.toNat

/-- A loop `for (int i = from; i < to; ++i)` running `body` a number of times
from `i`; `none` is `return false` after everything has been freed. -/
def forLoop {σ : Type} (body : Int → σ → Option σ) : Nat → Int → σ → Option σ
  | 0, _, s => some s
  | n + 1, i, s =>
    match body i s with
    | none => none
    | some s1 => forLoop body n (i + 1) s1

/-- The local variables of `CloudGraphCreateRnd`, the cloud being built and
the number of calls of `rand()` made so far. -/
structure RndLocals (F : Type) where
  cloud : CloudGraph F
  family : CloudGraphFamily F
  n : CloudGraphNode F
  l : CloudGraphLink F
  calls : Nat

/-- The body of the loop of `CloudGraphCreateRnd` on the families; `rand k` is
the value returned by the call number `k` of `rand()`. The conversion of the
colour through `char` keeps the value modulo 256. -/
def rndFamily (RAND_MAX : Int) (rand : Nat → Int) (iFamily : Int) (st : RndLocals F) :
    Option (RndLocals F) :=
  let family : CloudGraphFamily F :=
    { st.family with
      _id := iFamily
      _label := some (sprintf03d "Family" iFamily)
      _rgba := ((st.family._rgba.set 0
          (toUChar ⌊(rnd RAND_MAX (rand st.calls) : F) * 255⌋)).set 1
          (toUChar ⌊(rnd RAND_MAX (rand (st.calls + 1)) : F) * 255⌋)).set 2
          (toUChar ⌊(rnd RAND_MAX (rand (st.calls + 2)) : F) * 255⌋) }
  match CloudGraphAddFamily st.cloud family with
  | (false, _) => none
  | (true, cloud) => some { st with cloud := cloud, family := family, calls := st.calls + 3 }

/-- The body of the loop of `CloudGraphCreateRnd` on the nodes; the value
returned by `CloudGraphAddNode` is not looked at. -/
def rndNode (RAND_MAX : Int) (rand : Nat → Int) (nbFamily : Int) (iNode : Int)
    (st : RndLocals F) : Option (RndLocals F) :=
  let n : CloudGraphNode F :=
    { st.n with
      _id := iNode
      _family := ⌊(rnd RAND_MAX (rand st.calls) : F) * (nbFamily : F)⌋
      _label := some (sprintf03d "Node" iNode) }
  some
    { st with
      cloud := (CloudGraphAddNode st.cloud n).2
      n := { n with _label := none }
      calls := st.calls + 1 }

/-- The body of the inner loop of `CloudGraphCreateRnd` on the pairs of nodes. -/
def rndLink (RAND_MAX : Int) (rand : Nat → Int) (density : F) (iNode jNode : Int)
    (st : RndLocals F) : Option (RndLocals F) :=
  if (rnd RAND_MAX (rand st.calls) : F) ≤ density then
    let l : CloudGraphLink F := { st.l with _nodes0 := iNode, _nodes1 := jNode }
    match CloudGraphAddLink st.cloud l with
    | (false, _) => none
    | (true, cloud) => some { st with cloud := cloud, l := l, calls := st.calls + 1 }
  else some { st with calls := st.calls + 1 }

/-- The body of the outer loop of `CloudGraphCreateRnd` on the pairs of nodes:
`for (int jNode = iNode + 1; jNode < nbNode; ++jNode)`. -/
def rndLinks (RAND_MAX : Int) (rand : Nat → Int) (density : F) (nbNode : Int) (iNode : Int)
    (st : RndLocals F) : Option (RndLocals F) :=
  forLoop (rndLink RAND_MAX rand density iNode) (nbNode - (iNode + 1)).toNat (iNode + 1) st

/-- `CloudGraphCreateRnd` (non null `cloud`, allocation succeeds):
`tgaFontDefault` is the font of `CloudGraphCreate`, `rand k` the value returned
by the call number `k` of `rand()`, `cloud` is `*cloud` at the call; the result
is the value returned and `*cloud` after the call. -/
def CloudGraphCreateRnd (tgaFontDefault : TGAFont F) (RAND_MAX : Int) (rand : Nat → Int)
    (cloud : Option (CloudGraph F)) (nbNodeMin nbNodeMax nbFamilyMin nbFamilyMax : Int)
    (density : F) : Bool × Option (CloudGraph F) :=
  if nbNodeMin < 1 ∨ nbNodeMax < nbNodeMin ∨ nbFamilyMin < 1 ∨ nbFamilyMax < nbFamilyMin ∨
      density < 0 ∨ density > 1 then (false, cloud)
  else
    let nbNode : Int :=
      nbNodeMin + ⌊(rnd RAND_MAX (rand 0) : F) * ((nbNodeMax - nbNodeMin : Int) : F)⌋
    let nbFamily : Int :=
      nbFamilyMin + ⌊(rnd RAND_MAX (rand 1) : F) * ((nbFamilyMax - nbFamilyMin : Int) : F)⌋
    let st0 : RndLocals F :=
      { cloud := CloudGraphCreate tgaFontDefault, family := CloudGraphCreateFamily
        n := CloudGraphCreateNode, l := CloudGraphCreateLink, calls := 2 }
    match forLoop (rndFamily RAND_MAX rand) nbFamily.toNat 0 st0 with
    | none => (false, none)
    | some st1 =>
      match forLoop (rndNode RAND_MAX rand nbFamily) nbNode.toNat 0 st1 with
      | none => (false, none)
      | some st2 =>
        match forLoop (rndLinks RAND_MAX rand density nbNode) (nbNode - 1).toNat 0 st2 with
        | none => (false, none)
        | some st3 => (true, some st3.cloud)

/-- The pairs `(iNode, jNode)` in the order in which the two loops of
`CloudGraphCreateRnd` on the pairs of nodes meet them, for `n` nodes. -/
def nodePairs (n : Nat) : List (Int × Int) :=
  (List.range (n - 1)).flatMap
    (fun i : Nat => (List.range (n - 1 - i)).map
      (fun t : Nat => ((i : Int), (i : Int) + 1 + (t : Int))))

/-- The integer nearest to `x`, the even one when two are as near (the
rounding of IEEE 754 by default). -/
def roundHalfEven (x : F) : Int :=
  if x - (⌊x⌋ : F) < 1 / 2 then ⌊x⌋
  else if 1 / 2 < x - (⌊x⌋ : F) then ⌊x⌋ + 1
  else if ⌊x⌋ % 2 = 0 then ⌊x⌋ else ⌊x⌋ + 1

/-- The binary floating-point number of precision `p` bits nearest to `x`
(IEEE 754, round to nearest, ties to even), for `x` in the range of the normal
numbers (neither overflow nor subnormal numbers are modelled): with
`2 ^ l ≤ |x| < 2 ^ (l + 1)`, the multiple of `2 ^ (l - (p - 1))` nearest to
`x`. -/
def roundBinary (p : Nat) (x : F) : F :=
  if x = 0 then 0
  else
    (roundHalfEven (x / (2 : F) ^ (Int.log 2 |x| - ((p : Int) - 1))) : F) *
      (2 : F) ^ (Int.log 2 |x| - ((p : Int) - 1))

/-- The roundings of `float` (binary32, 24 bits) and `double` (binary64,
53 bits). -/
def Rounding.ieee : Rounding F :=
  { toFloat := roundBinary 24, toDouble := roundBinary 53 }

end Defs3

end CG

/-! # Properties -/

namespace CG

section SortLemmas

variable {F : Type} [LinearOrderedField F]

theorem GSetSort_perm {α : Type} (s : List (F × α)) : (GSetSort s).Perm s :=
  List.perm_insertionSort _ s

theorem GSetSort_sorted {α : Type} (s : List (F × α)) :
    (GSetSort s).Pairwise (fun a b => a.1 ≤ b.1) :=
  List.sorted_insertionSort sortRel s

theorem GSetSort_of_sorted {α : Type} (s : List (F × α))
    (h : s.Pairwise (fun a b => a.1 ≤ b.1)) : GSetSort s = s :=
  List.Sorted.insertionSort_eq (r := sortRel) h

/-- Stability: the elements carrying one sort value keep their order. -/
theorem GSetSort_filter {α : Type} (s : List (F × α)) (v : F) :
    (GSetSort s).filter (fun e => decide (e.1 = v)) = s.filter (fun e => decide (e.1 = v)) := by
  have hsub : List.Sublist (s.filter (fun e => decide (e.1 = v))) (GSetSort s) := by
    apply List.sublist_insertionSort (r := sortRel)
    · rw [List.pairwise_iff_forall_sublist]
      intro a b hab
      have ha : a ∈ s.filter (fun e => decide (e.1 = v)) := hab.subset (by simp)
      have hb : b ∈ s.filter (fun e => decide (e.1 = v)) := hab.subset (by simp)
      simp only [List.mem_filter, decide_eq_true_eq] at ha hb
      show a.1 ≤ b.1
      rw [ha.2, hb.2]
    · exact List.filter_sublist s
  have hsub2 := hsub.filter (fun e => decide (e.1 = v))
  rw [List.filter_filter] at hsub2
  simp only [Bool.and_self] at hsub2
  have hlen := ((GSetSort_perm s).filter (fun e => decide (e.1 = v))).length_eq
  exact (hsub2.eq_of_length hlen.symm).symm

theorem sortNodes_eq (cloud : CloudGraph F) :
    (CloudGraphSortNodeByFamily cloud)._nodes =
      (GSetSort (cloud._nodes.map (fun node => ((node._family : F), node)))).map Prod.snd := rfl

theorem sortNodes_perm (cloud : CloudGraph F) :
    (CloudGraphSortNodeByFamily cloud)._nodes.Perm cloud._nodes := by
  rw [sortNodes_eq]
  have h := (GSetSort_perm (cloud._nodes.map (fun node => ((node._family : F), node)))).map
    Prod.snd
  simpa [List.map_map, Function.comp_def] using h

theorem sortNodes_key (cloud : CloudGraph F) :
    ∀ e ∈ GSetSort (cloud._nodes.map (fun node => ((node._family : F), node))),
      e.1 = (e.2._family : F) := by
  intro e he
  have := (GSetSort_perm _).mem_iff.mp he
  simp only [List.mem_map] at this
  obtain ⟨n, _, rfl⟩ := this
  rfl

theorem sortNodes_sorted (cloud : CloudGraph F) :
    (CloudGraphSortNodeByFamily cloud)._nodes.Pairwise (fun a b => a._family ≤ b._family) := by
  rw [sortNodes_eq, List.pairwise_map]
  refine (GSetSort_sorted _).imp_of_mem ?_
  intro a b ha hb hab
  rw [sortNodes_key cloud a ha, sortNodes_key cloud b hb] at hab
  exact_mod_cast hab

theorem sortNodes_filter (cloud : CloudGraph F) (f : Int) :
    (CloudGraphSortNodeByFamily cloud)._nodes.filter (fun n => decide (n._family = f)) =
      cloud._nodes.filter (fun n => decide (n._family = f)) := by
  rw [sortNodes_eq]
  have h1 : ∀ l : List (F × CloudGraphNode F), (∀ e ∈ l, e.1 = (e.2._family : F)) →
      (l.map Prod.snd).filter (fun n => decide (n._family = f)) =
        (l.filter (fun e => decide (e.1 = (f : F)))).map Prod.snd := by
    intro l hl
    induction l with
    | nil => rfl
    | cons e l ih =>
      have he := hl e (List.mem_cons_self _ _)
      have ih1 := ih (fun e1 h1 => hl e1 (List.mem_cons_of_mem _ h1))
      simp only [List.map_cons, List.filter_cons, he, Int.cast_inj]
      split <;> simp [ih1]
  rw [h1 _ (sortNodes_key cloud), GSetSort_filter, ← h1]
  · simp [List.map_map, Function.comp_def]
  · intro e he
    simp only [List.mem_map] at he
    obtain ⟨n, _, rfl⟩ := he
    rfl

theorem sortNodes_of_sorted (cloud : CloudGraph F)
    (h : cloud._nodes.Pairwise (fun a b => a._family ≤ b._family)) :
    CloudGraphSortNodeByFamily cloud = cloud := by
  have h2 : (CloudGraphSortNodeByFamily cloud)._nodes = cloud._nodes := by
    rw [sortNodes_eq, GSetSort_of_sorted]
    · simp [List.map_map, Function.comp_def]
    · rw [List.pairwise_map]
      exact h.imp (fun hab => Int.cast_le.mpr hab)
  cases cloud
  simp only [CloudGraphSortNodeByFamily] at h2 ⊢
  simp [h2]

end SortLemmas

section PlainLemmas
variable {F : Type}

theorem members_cons (k : Int) (n : CloudGraphNode F) (ns : List (CloudGraphNode F)) :
    ((members k (n :: ns)).length : Int) =
      (if n._family = k then 1 else 0) + ((members k ns).length : Int) := by
  unfold members
  by_cases h : n._family = k <;> simp [List.filter_cons, h]
  omega

theorem updateLinks_spec (ext : Ext F) :
    ∀ links : List (CloudGraphLink F),
      updateLinks ext links =
        (links.map (boxLink ext),
          (links.map (boxLink ext)).flatMap (fun l => l._boundingBox.toList)) := by
  intro links
  induction links with
  | nil => rfl
  | cons link rest ih =>
    simp only [updateLinks, ih, List.map_cons, List.flatMap_cons, boxLink]
    rfl

theorem fontAfter_eq (rights : List (VecFloat F)) :
    ∀ font : TGAFont F,
      fontAfter font rights =
        { _size := font._size, _right := (rights.getLast?).getD font._right
          _scale := font._scale } := by
  induction rights with
  | nil => intro font; rfl
  | cons r rs ih =>
    intro font
    have h := ih { font with _right := r }
    simp only [fontAfter, List.foldl_cons] at h ⊢
    rw [h]
    cases rs with
    | nil => rfl
    | cons r2 rs2 =>
      obtain ⟨x, hx⟩ : ∃ x, (r2 :: rs2).getLast? = some x :=
        ⟨_, List.getLast?_eq_getLast _ (List.cons_ne_nil _ _)⟩
      simp [List.getLast?_cons_cons, hx]

theorem fontAfter_append (font : TGAFont F) (a b : List (VecFloat F)) :
    fontAfter (fontAfter font a) b = fontAfter font (a ++ b) := by
  simp only [fontAfter, List.foldl_append]

theorem visibleBoxes_congr (opt : CloudGraphOpt F) (c1 c2 : CloudGraph F)
    (hn : c1._nodes = c2._nodes) (hf : c1._families = c2._families)
    (hl : c1._links = c2._links) : visibleBoxes opt c1 = visibleBoxes opt c2 := by
  simp only [visibleBoxes, hn, hf, hl]

theorem cloud_eta (c : CloudGraph F) :
    c = { _nodes := c._nodes, _families := c._families, _links := c._links, _font := c._font
          _boundingBox := c._boundingBox } := rfl

theorem fontAfter_idem (font : TGAFont F) (fs : F) (rights : List (VecFloat F)) :
    fontAfter { fontAfter { font with _size := fs } rights with _size := fs } rights =
      fontAfter { font with _size := fs } rights := by
  rw [fontAfter_eq rights, fontAfter_eq rights]
  cases rights.getLast? <;> rfl

end PlainLemmas
section LoopLemmas
variable {F : Type} [LinearOrderedField F]

theorem arrIdx_of_mem {len : Nat} {i : Int} (h : 0 ≤ i ∧ i < (len : Int)) :
    arrIdx len i = some i.toNat ∧ i.toNat < len ∧ ((i.toNat : Nat) : Int) = i := by
  refine ⟨by simp [arrIdx, h], ?_, Int.toNat_of_nonneg h.1⟩
  have := h.2
  omega

theorem arrIdx_eq_none {len : Nat} {i : Int} (h : ¬ (0 ≤ i ∧ i < (len : Int))) :
    arrIdx len i = none := by
  simp [arrIdx, h]

theorem getD_set_same {α : Type} (l : List α) (i : Nat) (v d : α) (h : i < l.length) :
    (l.set i v).getD i d = v := by
  simp [List.getD_eq_getElem?_getD, List.getElem?_set, h]

theorem getD_set_other {α : Type} (l : List α) (i k : Nat) (v d : α) (h : i ≠ k) :
    (l.set i v).getD k d = l.getD k d := by
  simp [List.getD_eq_getElem?_getD, List.getElem?_set, h]

theorem famSum_cons (k : Int) (val : CloudGraphNode F → F) (n : CloudGraphNode F)
    (ns : List (CloudGraphNode F)) :
    famSum k val (n :: ns) = (if n._family = k then val n else 0) + famSum k val ns := by
  unfold famSum members
  by_cases h : n._family = k <;> simp [List.filter_cons, h]

theorem accumNodes_spec {σ : Type} (val : σ → F)
    (upd : σ → CloudGraphNode F → CloudGraphNode F) (next : σ → σ)
    (proj : CloudGraphNode F → F) (hproj : ∀ s n, proj (upd s n) = val s)
    (hfam : ∀ s n, (upd s n)._family = n._family) :
    ∀ (nodes : List (CloudGraphNode F)) (s : σ) (pf : List F) (nf : List Int),
      nf.length = pf.length →
      (∀ n ∈ nodes, 0 ≤ n._family ∧ n._family < (pf.length : Int)) →
      ∃ pf1 nf1,
        accumNodes val upd next s nodes pf nf =
          some (List.zipWith upd (List.iterate next s nodes.length) nodes, pf1, nf1) ∧
        pf1.length = pf.length ∧ nf1.length = pf.length ∧
        ∀ k : Nat, k < pf.length →
          pf1.getD k 0 = pf.getD k 0 +
            famSum (k : Int) proj (List.zipWith upd (List.iterate next s nodes.length) nodes) ∧
          nf1.getD k 0 = nf.getD k 0 +
            ((members (k : Int)
              (List.zipWith upd (List.iterate next s nodes.length) nodes)).length : Int) := by
  intro nodes
  induction nodes with
  | nil =>
    intro s pf nf hlen _
    refine ⟨pf, nf, rfl, rfl, hlen, ?_⟩
    intro k _
    simp [famSum, members]
  | cons node rest ih =>
    intro s pf nf hlen hin
    obtain ⟨hidx, hlt, hcast⟩ := arrIdx_of_mem (hin node (List.mem_cons_self _ _))
    have hin2 : ∀ n ∈ rest, 0 ≤ n._family ∧
        n._family < (((pf.set node._family.toNat
          (pf.getD node._family.toNat 0 + val s)).length : Nat) : Int) := by
      intro n hn
      simpa using hin n (List.mem_cons_of_mem _ hn)
    obtain ⟨pf1, nf1, hrun, hl1, hl2, hk⟩ :=
      ih (next s) (pf.set node._family.toNat (pf.getD node._family.toNat 0 + val s))
        (nf.set node._family.toNat (nf.getD node._family.toNat 0 + 1))
        (by simp [hlen]) hin2
    refine ⟨pf1, nf1, ?_, by simpa using hl1, by simpa using hl2, ?_⟩
    · simp only [accumNodes, hidx, hrun, List.length_cons, List.iterate, List.zipWith_cons_cons]
    · intro k hklt
      have hk1 := hk k (by simpa using hklt)
      simp only [List.length_cons, List.iterate, List.zipWith_cons_cons, famSum_cons,
        members_cons, hfam, hproj]
      by_cases hki : node._family.toNat = k
      · have hfk : node._family = (k : Int) := by rw [← hki, hcast]
        rw [hk1.1, hk1.2, hki, getD_set_same _ _ _ _ hklt, getD_set_same _ _ _ _ (hlen ▸ hklt)]
        simp only [hfk, if_true]
        constructor <;> ring
      · have hfk : node._family ≠ (k : Int) := by
          intro h
          apply hki
          rw [h]
          simp
        rw [hk1.1, hk1.2, getD_set_other _ _ _ _ _ hki, getD_set_other _ _ _ _ _ hki]
        simp only [hfk, if_false]
        constructor <;> ring

end LoopLemmas
section LayoutLemmas
variable {F : Type} [LinearOrderedField F]

theorem arrangeLineNodes_eq (opt : CloudGraphOpt F) :
    ∀ (nodes : List (CloudGraphNode F)) (i : Nat) (pf : List F) (nf : List Int),
      arrangeLineNodes opt i nodes pf nf =
        accumNodes (fun i : Nat => 2 * opt._fontSizeNode * ((i : F) + 1 / 2)) (lineNode opt)
          (fun i => i + 1) i nodes pf nf := by
  intro nodes
  induction nodes with
  | nil => intro i pf nf; rfl
  | cons node rest ih =>
    intro i pf nf
    simp only [arrangeLineNodes, accumNodes, ih, lineNode]

theorem arrangeCircleNodes_eq (m : PBMath F) (r dTheta : F) :
    ∀ (nodes : List (CloudGraphNode F)) (theta : F) (pf : List F) (nf : List Int),
      arrangeCircleNodes m r dTheta theta nodes pf nf =
        accumNodes (fun t : F => t) (circleNode m r) (fun t => t + dTheta) theta nodes pf nf := by
  intro nodes
  induction nodes with
  | nil => intro i pf nf; rfl
  | cons node rest ih =>
    intro i pf nf
    simp only [arrangeCircleNodes, accumNodes, ih, circleNode]

theorem averageFamily_length (pf : List F) (nf : List Int) (h : nf.length = pf.length) :
    (averageFamily pf nf).length = pf.length := by
  unfold averageFamily
  rw [List.length_zipWith, h, min_self]

theorem averageFamily_getD (pf : List F) (nf : List Int) (h : nf.length = pf.length) (k : Nat)
    (hk : k < pf.length) :
    (averageFamily pf nf).getD k 0 =
      if nf.getD k 0 ≠ 0 then pf.getD k 0 / ((nf.getD k 0 : Int) : F) else pf.getD k 0 := by
  have hk2 : k < nf.length := h ▸ hk
  unfold averageFamily
  simp only [List.getD_eq_getElem?_getD]
  rw [List.getElem?_zipWith, List.getElem?_eq_getElem hk, List.getElem?_eq_getElem hk2]
  simp only [Option.getD_some]

theorem arrangeLineFamilies_spec (opt : CloudGraphOpt F) (pf : List F) (anchor : Int → F)
    (hpf : ∀ k : Nat, k < pf.length → pf.getD k 0 = anchor (k : Int)) :
    ∀ fams : List (CloudGraphFamily F),
      (∀ f ∈ fams, 0 ≤ f._id ∧ f._id < (pf.length : Int)) →
      arrangeLineFamilies opt pf fams = some (fams.map (lineFamily opt anchor)) := by
  intro fams
  induction fams with
  | nil => intro _; rfl
  | cons f rest ih =>
    intro h
    obtain ⟨hidx, hlt, hcast⟩ := arrIdx_of_mem (h f (List.mem_cons_self _ _))
    simp only [arrangeLineFamilies, hidx, ih (fun f1 h1 => h f1 (List.mem_cons_of_mem _ h1)),
      List.map_cons, lineFamily, hpf _ hlt, hcast]

theorem arrangeCircleFamilies_spec (m : PBMath F) (r : F) (opt : CloudGraphOpt F) (pf : List F)
    (anchor : Int → F) (hpf : ∀ k : Nat, k < pf.length → pf.getD k 0 = anchor (k : Int)) :
    ∀ fams : List (CloudGraphFamily F),
      (∀ f ∈ fams, 0 ≤ f._id ∧ f._id < (pf.length : Int)) →
      arrangeCircleFamilies m r opt pf fams = some (fams.map (circleFamily m r opt anchor)) := by
  intro fams
  induction fams with
  | nil => intro _; rfl
  | cons f rest ih =>
    intro h
    obtain ⟨hidx, hlt, hcast⟩ := arrIdx_of_mem (h f (List.mem_cons_self _ _))
    simp only [arrangeCircleFamilies, hidx,
      ih (fun f1 h1 => h f1 (List.mem_cons_of_mem _ h1)),
      List.map_cons, circleFamily, hpf _ hlt, hcast]

/-- After the loop on the nodes and the averaging, cell `k` of `posFamily` is the
mean over the nodes of family `k` of the accumulated value. -/
theorem average_accum (proj : CloudGraphNode F → F) (nodes : List (CloudGraphNode F))
    (pf : List F) (nf : List Int) (len : Nat) (hl1 : pf.length = len) (hl2 : nf.length = len)
    (hk : ∀ k : Nat, k < len →
      pf.getD k 0 = (List.replicate len (0 : F)).getD k 0 + famSum (k : Int) proj nodes ∧
      nf.getD k 0 = (List.replicate len (0 : Int)).getD k 0 +
        ((members (k : Int) nodes).length : Int)) :
    (averageFamily pf nf).length = len ∧
    ∀ k : Nat, k < (averageFamily pf nf).length →
      (averageFamily pf nf).getD k 0 = famMean (k : Int) proj nodes := by
  have hlen : (averageFamily pf nf).length = len := by
    rw [averageFamily_length pf nf (by rw [hl1, hl2]), hl1]
  refine ⟨hlen, ?_⟩
  intro k hklt
  rw [hlen] at hklt
  obtain ⟨h1, h2⟩ := hk k hklt
  have hr1 : (List.replicate len (0 : F)).getD k 0 = 0 := by
    simp [List.getD_eq_getElem?_getD, List.getElem?_replicate, hklt]
  have hr2 : (List.replicate len (0 : Int)).getD k 0 = 0 := by
    simp [List.getD_eq_getElem?_getD, List.getElem?_replicate, hklt]
  rw [hr1, zero_add] at h1
  rw [hr2, zero_add] at h2
  rw [averageFamily_getD pf nf (by rw [hl1, hl2]) k (by rw [hl1]; exact hklt), h1, h2]
  unfold famMean
  by_cases hz : ((members (k : Int) nodes).length : Int) = 0
  · have hz2 : (members (k : Int) nodes).length = 0 := by exact_mod_cast hz
    have hz3 : members (k : Int) nodes = [] := List.length_eq_zero.mp hz2
    simp [hz2, famSum, hz3]
  · simp [hz]

theorem arrangeLine_spec (m : PBMath F) (cloud : CloudGraph F) (opt : CloudGraphOpt F)
    (hW : WellIndexed cloud) :
    CloudGraphArrangeLine m cloud opt = some (lineLayout m cloud opt) := by
  obtain ⟨pf1, nf1, hrun, hl1, hl2, hk⟩ :=
    accumNodes_spec (fun i : Nat => 2 * opt._fontSizeNode * ((i : F) + 1 / 2)) (lineNode opt)
      (fun i => i + 1) (fun n => n._pos.y) (fun _ _ => rfl) (fun _ _ => rfl) cloud._nodes 0
      (List.replicate cloud._families.length 0) (List.replicate cloud._families.length 0)
      (by simp) (by simpa using hW.1)
  simp only [List.length_replicate] at hl1 hl2 hk
  obtain ⟨hal, hak⟩ := average_accum (fun n => n._pos.y) _ pf1 nf1 _ hl1 hl2 hk
  simp only [CloudGraphArrangeLine, arrangeLineNodes_eq, hrun]
  rw [arrangeLineFamilies_spec opt _ (fun k => famMean k (fun n => n._pos.y) (lineNodes opt cloud._nodes)) hak cloud._families (by rw [hal]; exact hW.2)]
  rfl

theorem arrangeCircle_spec (m : PBMath F) (cloud : CloudGraph F) (opt : CloudGraphOpt F)
    (hW : WellIndexed cloud) :
    CloudGraphArrangeCircle m cloud opt = some (circleLayout m cloud opt) := by
  obtain ⟨pf1, nf1, hrun, hl1, hl2, hk⟩ :=
    accumNodes_spec (fun t : F => t)
      (circleNode m ((cloud._nodes.length : F) * opt._fontSizeNode / m.pi))
      (fun t => t + 2 * m.pi / (cloud._nodes.length : F)) (fun n => n._theta)
      (fun _ _ => rfl) (fun _ _ => rfl) cloud._nodes 0
      (List.replicate cloud._families.length 0) (List.replicate cloud._families.length 0)
      (by simp) (by simpa using hW.1)
  simp only [List.length_replicate] at hl1 hl2 hk
  obtain ⟨hal, hak⟩ := average_accum (fun n => n._theta) _ pf1 nf1 _ hl1 hl2 hk
  simp only [CloudGraphArrangeCircle, arrangeCircleNodes_eq, hrun]
  rw [arrangeCircleFamilies_spec m _ opt _ (fun k => famMean k (fun n => n._theta) (circleNodes m opt cloud._nodes)) hak cloud._families (by rw [hal]; exact hW.2)]
  rfl

end LayoutLemmas
section BoxLemmas
variable {F : Type} [LinearOrderedField F]

theorem updateNodes_spec (ext : Ext F) (opt : CloudGraphOpt F) :
    ∀ (nodes : List (CloudGraphNode F)) (font : TGAFont F) (ml : F),
      updateNodes ext opt nodes font ml =
        (nodes.map (boxNode ext opt font),
          fontAfter font (nodes.map (fun n => n._right)),
          maxLabelLength ext font ml nodes,
          (nodes.map (boxNode ext opt font)).flatMap (fun n =>
            n._boundingBox ::
              (if opt._nodeLabelMode ≠ CloudGraphOptNodeLabel.CloudGraphOptNodeLabelNone
                then n._boundingBoxLbl.toList else []))) := by
  intro nodes
  induction nodes with
  | nil => intro font ml; rfl
  | cons node rest ih =>
    intro font ml
    have h1 : boxNode ext opt { font with _right := node._right } = boxNode ext opt font := rfl
    have h2 : ∀ x, maxLabelLength ext { font with _right := node._right } x rest =
        maxLabelLength ext font x rest := fun _ => rfl
    simp only [updateNodes, ih, h1, h2, List.map_cons, List.flatMap_cons]
    refine Prod.ext rfl (Prod.ext rfl (Prod.ext rfl ?_))
    by_cases hm : opt._nodeLabelMode = CloudGraphOptNodeLabel.CloudGraphOptNodeLabelNone
    · simp [hm, boxNode]
    · simp [hm, boxNode, labelBox]

theorem updateFamilies_spec (ext : Ext F) (opt : CloudGraphOpt F) (ml : F) :
    ∀ (fams : List (CloudGraphFamily F)) (font : TGAFont F),
      updateFamilies ext opt ml fams font =
        (fams.map (boxFamily ext opt font ml),
          fontAfter font (fams.map (fun f => f._right)),
          if opt._familyLabelMode ≠ CloudGraphOptFamilyLabel.CloudGraphOptFamilyLabelNone
          then (fams.map (boxFamily ext opt font ml)).flatMap (fun f => f._boundingBox.toList)
          else []) := by
  intro fams
  induction fams with
  | nil => intro font; simp [updateFamilies, fontAfter]
  | cons fam rest ih =>
    intro font
    have h1 : boxFamily ext opt { font with _right := fam._right } ml =
        boxFamily ext opt font ml := rfl
    simp only [updateFamilies, ih, h1, List.map_cons, List.flatMap_cons]
    refine Prod.ext rfl (Prod.ext rfl ?_)
    by_cases hm : opt._familyLabelMode = CloudGraphOptFamilyLabel.CloudGraphOptFamilyLabelNone
    · simp [hm]
    · simp [hm, boxFamily, familyPos]

theorem boxFamily_fontAfter (ext : Ext F) (opt : CloudGraphOpt F) :
    ∀ (rs : List (VecFloat F)) (font : TGAFont F) (ml : F),
      boxFamily ext opt (fontAfter font rs) ml = boxFamily ext opt font ml := by
  intro rs
  induction rs with
  | nil => intro font ml; rfl
  | cons r rs ih => intro font ml; exact ih _ ml

theorem updateBoundingBox_nodes (ext : Ext F) (cloud : CloudGraph F) (opt : CloudGraphOpt F) :
    (CloudGraphUpdateBoundingBox ext cloud opt)._nodes =
      cloud._nodes.map (boxNode ext opt { cloud._font with _size := opt._fontSizeNode }) := by
  simp only [CloudGraphUpdateBoundingBox, updateNodes_spec]

theorem updateBoundingBox_links (ext : Ext F) (cloud : CloudGraph F) (opt : CloudGraphOpt F) :
    (CloudGraphUpdateBoundingBox ext cloud opt)._links = cloud._links.map (boxLink ext) := by
  simp only [CloudGraphUpdateBoundingBox, updateLinks_spec]

theorem updateBoundingBox_families (ext : Ext F) (cloud : CloudGraph F)
    (opt : CloudGraphOpt F) :
    (CloudGraphUpdateBoundingBox ext cloud opt)._families =
      cloud._families.map
        (boxFamily ext opt { cloud._font with _size := opt._fontSizeNode }
          (maxLabelLength ext { cloud._font with _size := opt._fontSizeNode } 0
            cloud._nodes)) := by
  simp only [CloudGraphUpdateBoundingBox, updateNodes_spec, updateFamilies_spec,
    boxFamily_fontAfter]

theorem updateBoundingBox_font (ext : Ext F) (cloud : CloudGraph F) (opt : CloudGraphOpt F) :
    (CloudGraphUpdateBoundingBox ext cloud opt)._font =
      fontAfter
        (fontAfter { cloud._font with _size := opt._fontSizeNode }
          (cloud._nodes.map (fun n => n._right)))
        (cloud._families.map (fun f => f._right)) := by
  simp only [CloudGraphUpdateBoundingBox, updateNodes_spec, updateFamilies_spec]

theorem updateBoundingBox_box (ext : Ext F) (cloud : CloudGraph F) (opt : CloudGraphOpt F) :
    (CloudGraphUpdateBoundingBox ext cloud opt)._boundingBox =
      addBorder opt (ext.ShapoidGetBoundingBox
        (visibleBoxes opt (CloudGraphUpdateBoundingBox ext cloud opt))) := by
  simp only [CloudGraphUpdateBoundingBox, visibleBoxes, updateNodes_spec, updateLinks_spec,
    updateFamilies_spec, boxFamily_fontAfter]

theorem sort_wellIndexed (cloud : CloudGraph F) (hW : WellIndexed cloud) :
    WellIndexed (CloudGraphSortNodeByFamily cloud) := by
  refine ⟨fun n hn => ?_, hW.2⟩
  exact hW.1 n ((sortNodes_perm cloud).mem_iff.mp hn)

theorem arrange_line_spec (ext : Ext F) (cloud : CloudGraph F) (opt : CloudGraphOpt F)
    (hmode : opt._mode = CloudGraphMode.CloudGraphModeLine) (hW : WellIndexed cloud) :
    CloudGraphArrange ext cloud opt =
      some (CloudGraphUpdateBoundingBox ext
        (lineLayout ext.toPBMath (CloudGraphSortNodeByFamily cloud) opt) opt) := by
  simp only [CloudGraphArrange, hmode, arrangeLine_spec _ _ _ (sort_wellIndexed cloud hW)]

theorem arrange_circle_spec (ext : Ext F) (cloud : CloudGraph F) (opt : CloudGraphOpt F)
    (hmode : opt._mode = CloudGraphMode.CloudGraphModeCircle) (hW : WellIndexed cloud) :
    CloudGraphArrange ext cloud opt =
      some (CloudGraphUpdateBoundingBox ext
        (circleLayout ext.toPBMath (CloudGraphSortNodeByFamily cloud) opt) opt) := by
  simp only [CloudGraphArrange, hmode, arrangeCircle_spec _ _ _ (sort_wellIndexed cloud hW)]

/-- In a mode that is neither line nor circle, `CloudGraphArrange` sorts the
nodes and updates the boxes; it is defined on every cloud. -/
theorem arrange_other_spec (ext : Ext F) (cloud : CloudGraph F) (opt : CloudGraphOpt F)
    (hmode : opt._mode = CloudGraphMode.CloudGraphModeOther) :
    CloudGraphArrange ext cloud opt =
      some (CloudGraphUpdateBoundingBox ext (CloudGraphSortNodeByFamily cloud) opt) := by
  simp only [CloudGraphArrange, hmode]

end BoxLemmas
section NodeLemmas
variable {F : Type} [LinearOrderedField F]

theorem iterate_succ_zero (i : Nat) : (fun j : Nat => j + 1)^[i] 0 = i := by
  induction i with
  | zero => rfl
  | succ i ih => rw [Function.iterate_succ_apply', ih]

theorem iterate_add_zero (d : F) (i : Nat) : (fun t : F => t + d)^[i] 0 = (i : F) * d := by
  induction i with
  | zero => simp
  | succ i ih =>
    rw [Function.iterate_succ_apply', ih]
    push_cast
    ring

theorem lineNodes_length (opt : CloudGraphOpt F) (nodes : List (CloudGraphNode F)) :
    (lineNodes opt nodes).length = nodes.length := by
  simp [lineNodes, List.length_iterate]

theorem lineNodes_getElem (opt : CloudGraphOpt F) (nodes : List (CloudGraphNode F)) (i : Nat)
    (h : i < nodes.length) (h2 : i < (lineNodes opt nodes).length) :
    (lineNodes opt nodes)[i] = lineNode opt i nodes[i] := by
  simp only [lineNodes, List.getElem_zipWith, List.getElem_iterate, iterate_succ_zero]

theorem circleNodes_length (m : PBMath F) (opt : CloudGraphOpt F)
    (nodes : List (CloudGraphNode F)) : (circleNodes m opt nodes).length = nodes.length := by
  simp [circleNodes, List.length_iterate]

theorem circleNodes_getElem (m : PBMath F) (opt : CloudGraphOpt F)
    (nodes : List (CloudGraphNode F)) (i : Nat) (h : i < nodes.length)
    (h2 : i < (circleNodes m opt nodes).length) :
    (circleNodes m opt nodes)[i] =
      circleNode m ((nodes.length : F) * opt._fontSizeNode / m.pi)
        ((i : F) * (2 * m.pi / (nodes.length : F))) nodes[i] := by
  simp only [circleNodes, List.getElem_zipWith, List.getElem_iterate, iterate_add_zero]

theorem sortNodes_length (cloud : CloudGraph F) :
    (CloudGraphSortNodeByFamily cloud)._nodes.length = cloud._nodes.length :=
  (sortNodes_perm cloud).length_eq

end NodeLemmas
section Claims
variable {F : Type} [LinearOrderedField F]

/-- C1, as amended: after `CloudGraphArrange` in line mode, in exact
arithmetic, on a cloud whose family ids and node families lie in
`[0, number of families)`, the node at index `i` of the (family-sorted)
sequence of nodes is at `(0, 2 * fontSizeNode * (i + 0.5))`
with right `(1, 0)` and theta `0`; the nodes carry the ids and families of the
sorted input; two consecutive nodes are `2 * fontSizeNode` apart on the
ordinate, strictly increasing when `fontSizeNode > 0`. -/
theorem C1_line_node_positions (ext : Ext F) (cloud : CloudGraph F) (opt : CloudGraphOpt F)
    (hmode : opt._mode = CloudGraphMode.CloudGraphModeLine) (hW : WellIndexed cloud) :
    ∃ cloud1, CloudGraphArrange ext cloud opt = some cloud1 ∧
      cloud1._nodes.map (fun n => (n._id, n._family)) =
        (CloudGraphSortNodeByFamily cloud)._nodes.map (fun n => (n._id, n._family)) ∧
      (∀ (i : Nat) (h : i < cloud1._nodes.length),
        cloud1._nodes[i]._pos = ⟨0, 2 * opt._fontSizeNode * ((i : F) + 1 / 2)⟩ ∧
        cloud1._nodes[i]._right = ⟨1, 0⟩ ∧ cloud1._nodes[i]._theta = 0) ∧
      (∀ (i : Nat) (h : i + 1 < cloud1._nodes.length),
        cloud1._nodes[i + 1]._pos.y - cloud1._nodes[i]._pos.y = 2 * opt._fontSizeNode) ∧
      (0 < opt._fontSizeNode → ∀ (i : Nat) (h : i + 1 < cloud1._nodes.length),
        cloud1._nodes[i]._pos.y < cloud1._nodes[i + 1]._pos.y) := by
  refine ⟨_, arrange_line_spec ext cloud opt hmode hW, ?_, ?_⟩
  · rw [updateBoundingBox_nodes]
    simp only [lineLayout, List.map_map]
    apply List.ext_getElem
    · simp [lineNodes_length]
    · intro i h1 h2
      have h3 : i < (CloudGraphSortNodeByFamily cloud)._nodes.length := by simpa using h2
      simp [lineNodes_getElem opt _ i h3, lineNode, boxNode]
  have key : ∀ (i : Nat)
      (h : i < (CloudGraphUpdateBoundingBox ext
        (lineLayout ext.toPBMath (CloudGraphSortNodeByFamily cloud) opt) opt)._nodes.length),
      (CloudGraphUpdateBoundingBox ext
        (lineLayout ext.toPBMath (CloudGraphSortNodeByFamily cloud) opt) opt)._nodes[i]._pos =
          ⟨0, 2 * opt._fontSizeNode * ((i : F) + 1 / 2)⟩ ∧
      (CloudGraphUpdateBoundingBox ext
        (lineLayout ext.toPBMath (CloudGraphSortNodeByFamily cloud) opt) opt)._nodes[i]._right =
          ⟨1, 0⟩ ∧
      (CloudGraphUpdateBoundingBox ext
        (lineLayout ext.toPBMath (CloudGraphSortNodeByFamily cloud) opt) opt)._nodes[i]._theta =
          0 := by
    intro i h
    have h3 : i < (CloudGraphSortNodeByFamily cloud)._nodes.length := by
      rw [updateBoundingBox_nodes] at h
      simpa [lineLayout, lineNodes_length] using h
    simp only [updateBoundingBox_nodes, lineLayout, List.getElem_map,
      lineNodes_getElem opt _ i h3, lineNode, boxNode, and_self]
  refine ⟨key, ?_, ?_⟩
  · intro i h
    rw [(key (i + 1) h).1, (key i (by omega)).1]
    push_cast
    ring
  · intro hfs i h
    rw [(key (i + 1) h).1, (key i (by omega)).1]
    show 2 * opt._fontSizeNode * ((i : F) + 1 / 2) <
      2 * opt._fontSizeNode * (((i + 1 : Nat) : F) + 1 / 2)
    push_cast
    nlinarith

end Claims

/-- Witness of C1: three nodes of family 0 and font size 10 in line mode give the
positions `(0, 10)`, `(0, 30)`, `(0, 50)`. -/
theorem C1_line_node_positions_witness :
    WellIndexed (cloud3 ℝ) ∧
    ∃ cloud1,
      CloudGraphArrange (exampleExt ⟨Real.cos, Real.sin, Real.sqrt, Real.pi⟩) (cloud3 ℝ)
        (exampleOpt ℝ CloudGraphMode.CloudGraphModeLine
          CloudGraphOptNodeLabel.CloudGraphOptNodeLabelNone
          CloudGraphOptFamilyLabel.CloudGraphOptFamilyLabelNone 10) = some cloud1 ∧
      cloud1._nodes.map (fun n => n._pos) = [⟨0, 10⟩, ⟨0, 30⟩, ⟨0, 50⟩] := by
  have hW : WellIndexed (cloud3 ℝ) := by
    simp [WellIndexed, cloud3, exampleCloud, exampleNode, exampleFamily]
  refine ⟨hW, ?_⟩
  obtain ⟨cloud1, h1, hids, hpos, -, -⟩ :=
    C1_line_node_positions (exampleExt ⟨Real.cos, Real.sin, Real.sqrt, Real.pi⟩) (cloud3 ℝ)
      (exampleOpt ℝ CloudGraphMode.CloudGraphModeLine
        CloudGraphOptNodeLabel.CloudGraphOptNodeLabelNone
        CloudGraphOptFamilyLabel.CloudGraphOptFamilyLabelNone 10) rfl hW
  refine ⟨cloud1, h1, ?_⟩
  have hlen : cloud1._nodes.length = 3 := by
    have := congrArg List.length hids
    simpa [sortNodes_length, cloud3, exampleCloud] using this
  apply List.ext_getElem
  · simp [hlen]
  · intro i h2 h3
    have hi : i < 3 := by simpa using h3
    have hp := (hpos i (by omega)).1
    simp only [List.getElem_map, hp, exampleOpt]
    interval_cases i <;> norm_num

section Claims2
variable {F : Type} [LinearOrderedField F]

theorem arrange_circle_node (ext : Ext F) (cloud : CloudGraph F) (opt : CloudGraphOpt F)
    (i : Nat)
    (h : i < (CloudGraphUpdateBoundingBox ext
      (circleLayout ext.toPBMath (CloudGraphSortNodeByFamily cloud) opt) opt)._nodes.length) :
    (CloudGraphUpdateBoundingBox ext
      (circleLayout ext.toPBMath (CloudGraphSortNodeByFamily cloud) opt) opt)._nodes[i]._theta =
        (i : F) * (2 * ext.pi / (cloud._nodes.length : F)) ∧
    (CloudGraphUpdateBoundingBox ext
      (circleLayout ext.toPBMath (CloudGraphSortNodeByFamily cloud) opt) opt)._nodes[i]._pos =
        ⟨(cloud._nodes.length : F) * opt._fontSizeNode / ext.pi *
            ext.cos ((i : F) * (2 * ext.pi / (cloud._nodes.length : F))),
          (cloud._nodes.length : F) * opt._fontSizeNode / ext.pi *
            ext.sin ((i : F) * (2 * ext.pi / (cloud._nodes.length : F)))⟩ ∧
    (CloudGraphUpdateBoundingBox ext
      (circleLayout ext.toPBMath (CloudGraphSortNodeByFamily cloud) opt) opt)._nodes[i]._right =
        ⟨ext.cos ((i : F) * (2 * ext.pi / (cloud._nodes.length : F))),
          ext.sin ((i : F) * (2 * ext.pi / (cloud._nodes.length : F)))⟩ := by
  have h3 : i < (CloudGraphSortNodeByFamily cloud)._nodes.length := by
    rw [updateBoundingBox_nodes] at h
    simpa [circleLayout, circleNodes_length] using h
  simp only [updateBoundingBox_nodes, circleLayout, List.getElem_map,
    circleNodes_getElem ext.toPBMath opt _ i h3, circleNode, boxNode, sortNodes_length,
    VecRot2D, mul_one, mul_zero, sub_zero, add_zero, and_self]

/-- C2, as amended: after `CloudGraphArrange` in circle mode, in exact
arithmetic, on a cloud whose family ids and node families lie in
`[0, number of families)`, the nodes carry the ids and families of the sorted
input and the node at index `i` of the sorted sequence of the `n` nodes has
theta `i * (2 * pi / n)`, position `(r * cos theta, r * sin theta)` with `r = n * fontSizeNode / pi`, and right
`(cos theta, sin theta)`; the angles of two consecutive nodes differ by
`2 * pi / n`. -/
theorem C2_circle_node_positions (ext : Ext F) (cloud : CloudGraph F) (opt : CloudGraphOpt F)
    (hmode : opt._mode = CloudGraphMode.CloudGraphModeCircle) (hW : WellIndexed cloud) :
    ∃ cloud1, CloudGraphArrange ext cloud opt = some cloud1 ∧
      cloud1._nodes.map (fun n => (n._id, n._family)) =
        (CloudGraphSortNodeByFamily cloud)._nodes.map (fun n => (n._id, n._family)) ∧
      (∀ (i : Nat) (h : i < cloud1._nodes.length),
        cloud1._nodes[i]._theta = (i : F) * (2 * ext.pi / (cloud._nodes.length : F)) ∧
        cloud1._nodes[i]._pos =
          ⟨(cloud._nodes.length : F) * opt._fontSizeNode / ext.pi *
              ext.cos ((i : F) * (2 * ext.pi / (cloud._nodes.length : F))),
            (cloud._nodes.length : F) * opt._fontSizeNode / ext.pi *
              ext.sin ((i : F) * (2 * ext.pi / (cloud._nodes.length : F)))⟩ ∧
        cloud1._nodes[i]._right =
          ⟨ext.cos ((i : F) * (2 * ext.pi / (cloud._nodes.length : F))),
            ext.sin ((i : F) * (2 * ext.pi / (cloud._nodes.length : F)))⟩) ∧
      (∀ (i : Nat) (h : i + 1 < cloud1._nodes.length),
        cloud1._nodes[i + 1]._theta - cloud1._nodes[i]._theta =
          2 * ext.pi / (cloud._nodes.length : F)) := by
  refine ⟨_, arrange_circle_spec ext cloud opt hmode hW, ?_, arrange_circle_node ext cloud opt,
    ?_⟩
  · rw [updateBoundingBox_nodes]
    simp only [circleLayout, List.map_map]
    apply List.ext_getElem
    · simp [circleNodes_length]
    · intro i h1 h2
      have h3 : i < (CloudGraphSortNodeByFamily cloud)._nodes.length := by simpa using h2
      simp [circleNodes_getElem ext.toPBMath opt _ i h3, circleNode, boxNode]
  · intro i h
    rw [(arrange_circle_node ext cloud opt (i + 1) h).1,
      (arrange_circle_node ext cloud opt i (by omega)).1]
    push_cast
    ring

/-- C3, as amended: after `CloudGraphArrange` in circle mode on a cloud whose
family ids and node families lie in `[0, number of families)`, when `fontSizeNode` is not
negative, `pi` is positive, `cos² + sin² = 1` and `sqrt` inverts the square of
a non negative number (exact arithmetic): the nodes after the call are the `n`
nodes of the cloud (same ids and families, in the sorted order), and every one
of them is at distance `r = n * fontSizeNode / pi` from the origin. -/
theorem C3_circle_radius (ext : Ext F) (cloud : CloudGraph F) (opt : CloudGraphOpt F)
    (hmode : opt._mode = CloudGraphMode.CloudGraphModeCircle) (hW : WellIndexed cloud)
    (hfs : 0 ≤ opt._fontSizeNode) (hpi : 0 < ext.pi)
    (htrig : ∀ t, ext.cos t * ext.cos t + ext.sin t * ext.sin t = 1)
    (hsqrt : ∀ x, 0 ≤ x → ext.sqrt (x * x) = x) :
    ∃ cloud1, CloudGraphArrange ext cloud opt = some cloud1 ∧
      cloud1._nodes.length = cloud._nodes.length ∧
      cloud1._nodes.map (fun n => (n._id, n._family)) =
        (CloudGraphSortNodeByFamily cloud)._nodes.map (fun n => (n._id, n._family)) ∧
      (∀ (i : Nat) (h : i < cloud1._nodes.length),
        VecDist ext.toPBMath ⟨0, 0⟩ cloud1._nodes[i]._pos =
          (cloud._nodes.length : F) * opt._fontSizeNode / ext.pi) ∧
      ∀ n ∈ cloud1._nodes,
        VecDist ext.toPBMath ⟨0, 0⟩ n._pos =
          (cloud._nodes.length : F) * opt._fontSizeNode / ext.pi := by
  have hids : (CloudGraphUpdateBoundingBox ext
      (circleLayout ext.toPBMath (CloudGraphSortNodeByFamily cloud) opt) opt)._nodes.map
        (fun n => (n._id, n._family)) =
      (CloudGraphSortNodeByFamily cloud)._nodes.map (fun n => (n._id, n._family)) := by
    rw [updateBoundingBox_nodes]
    simp only [circleLayout, List.map_map]
    apply List.ext_getElem
    · simp [circleNodes_length]
    · intro i h1 h2
      have h3 : i < (CloudGraphSortNodeByFamily cloud)._nodes.length := by simpa using h2
      simp [circleNodes_getElem ext.toPBMath opt _ i h3, circleNode, boxNode]
  have hlen : (CloudGraphUpdateBoundingBox ext
      (circleLayout ext.toPBMath (CloudGraphSortNodeByFamily cloud) opt) opt)._nodes.length =
      cloud._nodes.length := by
    have := congrArg List.length hids
    simpa [sortNodes_length] using this
  have hall : ∀ n ∈ (CloudGraphUpdateBoundingBox ext
      (circleLayout ext.toPBMath (CloudGraphSortNodeByFamily cloud) opt) opt)._nodes,
      VecDist ext.toPBMath ⟨0, 0⟩ n._pos =
        (cloud._nodes.length : F) * opt._fontSizeNode / ext.pi := ?_
  · exact ⟨_, arrange_circle_spec ext cloud opt hmode hW, hlen, hids,
      fun i h => hall _ (List.getElem_mem h), hall⟩
  intro n hn
  obtain ⟨i, hi, rfl⟩ := List.getElem_of_mem hn
  rw [(arrange_circle_node ext cloud opt i hi).2.1]
  have hr : 0 ≤ (cloud._nodes.length : F) * opt._fontSizeNode / ext.pi :=
    div_nonneg (mul_nonneg (Nat.cast_nonneg _) hfs) hpi.le
  have hsq : ∀ r t : F, (0 - r * ext.cos t) * (0 - r * ext.cos t) +
      (0 - r * ext.sin t) * (0 - r * ext.sin t) = r * r := by
    intro r t
    have := htrig t
    linear_combination (r * r) * this
  simp only [VecDist]
  rw [hsq, hsqrt _ hr]

end Claims2

/-- Witness of C2: four nodes and font size 10 in circle mode, with the real
`cos`, `sin` and `pi`, give the angles `0`, `pi / 2`, `pi`, `3 pi / 2` and the
positions `(r, 0)`, `(0, r)`, `(-r, 0)`, `(0, -r)` with `r = 40 / pi`. -/
theorem C2_circle_node_positions_witness :
    WellIndexed (cloud4 ℝ) ∧
    ∃ cloud1,
      CloudGraphArrange (exampleExt ⟨Real.cos, Real.sin, Real.sqrt, Real.pi⟩) (cloud4 ℝ)
        (exampleOpt ℝ CloudGraphMode.CloudGraphModeCircle
          CloudGraphOptNodeLabel.CloudGraphOptNodeLabelNone
          CloudGraphOptFamilyLabel.CloudGraphOptFamilyLabelNone 10) = some cloud1 ∧
      cloud1._nodes.map (fun n => n._theta) =
        [0, Real.pi / 2, Real.pi, 3 * Real.pi / 2] ∧
      cloud1._nodes.map (fun n => n._pos) =
        [⟨40 / Real.pi, 0⟩, ⟨0, 40 / Real.pi⟩, ⟨-(40 / Real.pi), 0⟩, ⟨0, -(40 / Real.pi)⟩] := by
  have hW : WellIndexed (cloud4 ℝ) := by
    simp [WellIndexed, cloud4, exampleCloud, exampleNode, exampleFamily]
  refine ⟨hW, ?_⟩
  obtain ⟨cloud1, h1, hids, hpos, -⟩ :=
    C2_circle_node_positions (exampleExt ⟨Real.cos, Real.sin, Real.sqrt, Real.pi⟩) (cloud4 ℝ)
      (exampleOpt ℝ CloudGraphMode.CloudGraphModeCircle
        CloudGraphOptNodeLabel.CloudGraphOptNodeLabelNone
        CloudGraphOptFamilyLabel.CloudGraphOptFamilyLabelNone 10) rfl hW
  refine ⟨cloud1, h1, ?_⟩
  have hlen : cloud1._nodes.length = 4 := by
    have := congrArg List.length hids
    simpa [sortNodes_length, cloud4, exampleCloud] using this
  have hn : ((cloud4 ℝ)._nodes.length : ℝ) = 4 := by
    simp [cloud4, exampleCloud]
  have e1 : (1 : ℝ) * (2 * Real.pi / 4) = Real.pi / 2 := by ring
  have e2 : (2 : ℝ) * (2 * Real.pi / 4) = Real.pi := by ring
  have e3 : (3 : ℝ) * (2 * Real.pi / 4) = Real.pi / 2 + Real.pi := by ring
  have c3 : Real.cos (Real.pi / 2 + Real.pi) = 0 := by
    rw [Real.cos_add_pi, Real.cos_pi_div_two, neg_zero]
  have s3 : Real.sin (Real.pi / 2 + Real.pi) = -1 := by
    rw [Real.sin_add_pi, Real.sin_pi_div_two]
  constructor
  · apply List.ext_getElem
    · simp [hlen]
    · intro i h2 h3
      have hi : i < 4 := by simpa using h3
      have hp := (hpos i (by omega)).1
      simp only [List.getElem_map, hp, exampleExt, hn]
      interval_cases i <;> norm_num <;> ring
  · apply List.ext_getElem
    · simp [hlen]
    · intro i h2 h3
      have hi : i < 4 := by simpa using h3
      have hp := (hpos i (by omega)).2.1
      simp only [List.getElem_map, hp, exampleExt, exampleOpt, hn]
      interval_cases i <;>
        simp [e1, e2, e3, c3, s3, Real.cos_pi_div_two, Real.sin_pi_div_two] <;> ring

/-- Witness of C3: with the real `cos`, `sin`, `sqrt` and `pi`, four nodes and font
size 10, every node is at distance `40 / pi` from the origin. -/
theorem C3_circle_radius_witness :
    WellIndexed (cloud4 ℝ) ∧
    ∃ cloud1,
      CloudGraphArrange (exampleExt ⟨Real.cos, Real.sin, Real.sqrt, Real.pi⟩) (cloud4 ℝ)
        (exampleOpt ℝ CloudGraphMode.CloudGraphModeCircle
          CloudGraphOptNodeLabel.CloudGraphOptNodeLabelNone
          CloudGraphOptFamilyLabel.CloudGraphOptFamilyLabelNone 10) = some cloud1 ∧
      cloud1._nodes.length = 4 ∧
      ∀ n ∈ cloud1._nodes,
        VecDist ⟨Real.cos, Real.sin, Real.sqrt, Real.pi⟩ ⟨0, 0⟩ n._pos = 40 / Real.pi := by
  have hW : WellIndexed (cloud4 ℝ) := by
    simp [WellIndexed, cloud4, exampleCloud, exampleNode, exampleFamily]
  refine ⟨hW, ?_⟩
  obtain ⟨cloud1, h1, hlen, -, -, hd⟩ :=
    C3_circle_radius (exampleExt ⟨Real.cos, Real.sin, Real.sqrt, Real.pi⟩) (cloud4 ℝ)
      (exampleOpt ℝ CloudGraphMode.CloudGraphModeCircle
        CloudGraphOptNodeLabel.CloudGraphOptNodeLabelNone
        CloudGraphOptFamilyLabel.CloudGraphOptFamilyLabelNone 10) rfl hW
      (by simp [exampleOpt]) Real.pi_pos
      (fun t => by
        have := Real.cos_sq_add_sin_sq t
        simpa [exampleExt, sq] using this)
      (fun x hx => Real.sqrt_mul_self hx)
  refine ⟨cloud1, h1, hlen, ?_⟩
  intro n hn
  have := hd n hn
  simp only [exampleExt, exampleOpt, cloud4, exampleCloud, List.length_cons, List.length_nil]
    at this
  rw [this]
  norm_num

section Claims4
variable {F : Type} [LinearOrderedField F]

/-- Whatever the mode, the nodes after `CloudGraphArrange` carry, in the same
order, the ids, families and labels of the sorted nodes. -/
theorem arrange_nodes_identity (ext : Ext F) (cloud : CloudGraph F) (opt : CloudGraphOpt F)
    (hD : opt._mode = CloudGraphMode.CloudGraphModeOther ∨ WellIndexed cloud) :
    ∃ cloud1, CloudGraphArrange ext cloud opt = some cloud1 ∧
      cloud1._nodes.map (fun n => (n._id, n._family, n._label)) =
        (CloudGraphSortNodeByFamily cloud)._nodes.map (fun n => (n._id, n._family, n._label)) := by
  cases hmode : opt._mode with
  | CloudGraphModeOther =>
    refine ⟨_, arrange_other_spec ext cloud opt hmode, ?_⟩
    rw [updateBoundingBox_nodes, List.map_map]
    rfl
  | CloudGraphModeLine =>
    have hW : WellIndexed cloud := by
      rcases hD with h | h
      · rw [hmode] at h; cases h
      · exact h
    refine ⟨_, arrange_line_spec ext cloud opt hmode hW, ?_⟩
    rw [updateBoundingBox_nodes]
    simp only [lineLayout, List.map_map]
    apply List.ext_getElem
    · simp [lineNodes_length]
    · intro i h1 h2
      have h3 : i < (CloudGraphSortNodeByFamily cloud)._nodes.length := by simpa using h2
      simp [lineNodes_getElem opt _ i h3, lineNode, boxNode]
  | CloudGraphModeCircle =>
    have hW : WellIndexed cloud := by
      rcases hD with h | h
      · rw [hmode] at h; cases h
      · exact h
    refine ⟨_, arrange_circle_spec ext cloud opt hmode hW, ?_⟩
    rw [updateBoundingBox_nodes]
    simp only [circleLayout, List.map_map]
    apply List.ext_getElem
    · simp [circleNodes_length]
    · intro i h1 h2
      have h3 : i < (CloudGraphSortNodeByFamily cloud)._nodes.length := by simpa using h2
      simp [circleNodes_getElem ext.toPBMath opt _ i h3, circleNode, boxNode]

end Claims4

section Claims5
variable {F : Type}

theorem members_map (k : Int) (g : CloudGraphNode F → CloudGraphNode F)
    (hg : ∀ n, (g n)._family = n._family) (l : List (CloudGraphNode F)) :
    members k (l.map g) = (members k l).map g := by
  induction l with
  | nil => rfl
  | cons n l ih =>
    unfold members at ih ⊢
    by_cases h : n._family = k <;> simp [List.filter_cons, hg, h, ih]

variable [LinearOrderedField F]

theorem famMean_map (k : Int) (val : CloudGraphNode F → F)
    (g : CloudGraphNode F → CloudGraphNode F) (hg : ∀ n, (g n)._family = n._family)
    (hval : ∀ n, val (g n) = val n) (l : List (CloudGraphNode F)) :
    famMean k val (l.map g) = famMean k val l := by
  unfold famMean famSum
  rw [members_map k g hg, List.map_map, List.length_map]
  congr 2
  apply List.map_congr_left
  intro n _
  exact hval n

/-- After `CloudGraphArrange` in line mode, in exact arithmetic, with the
labels of nodes not displayed, on a cloud whose family ids and node families
index the per-family arrays, every family with at least one node is at
`(fontSizeNode, mean of the ordinates of its nodes)` with right `(1, 0)`. -/
theorem line_family_anchor (ext : Ext F) (cloud : CloudGraph F) (opt : CloudGraphOpt F)
    (hmode : opt._mode = CloudGraphMode.CloudGraphModeLine)
    (hlbl : opt._nodeLabelMode = CloudGraphOptNodeLabel.CloudGraphOptNodeLabelNone)
    (hW : WellIndexed cloud) :
    ∃ cloud1, CloudGraphArrange ext cloud opt = some cloud1 ∧
      ∀ f ∈ cloud1._families, members f._id cloud1._nodes ≠ [] →
        f._pos = ⟨opt._fontSizeNode, famMean f._id (fun n => n._pos.y) cloud1._nodes⟩ ∧
        f._right = ⟨1, 0⟩ := by
  refine ⟨_, arrange_line_spec ext cloud opt hmode hW, ?_⟩
  intro f hf _
  rw [updateBoundingBox_families] at hf
  simp only [lineLayout, List.map_map, List.mem_map, Function.comp_apply] at hf
  obtain ⟨f0, _, rfl⟩ := hf
  rw [updateBoundingBox_nodes]
  simp only [lineLayout]
  rw [famMean_map _ (fun n => n._pos.y) (boxNode ext opt _) (fun _ => rfl) (fun _ => rfl)]
  simp [boxFamily, familyPos, hlbl, lineFamily]

/-- After `CloudGraphArrange` in circle mode, in exact arithmetic, with the
labels of nodes not displayed, on a cloud whose family ids and node families
index the per-family arrays, every family with at least one node is at
`(r + fontSizeNode, 0)` rotated by the mean theta of its nodes, with right
`(1, 0)` rotated by the same angle, where `r = nodeCount * fontSizeNode / pi`. -/
theorem circle_family_anchor (ext : Ext F) (cloud : CloudGraph F) (opt : CloudGraphOpt F)
    (hmode : opt._mode = CloudGraphMode.CloudGraphModeCircle)
    (hlbl : opt._nodeLabelMode = CloudGraphOptNodeLabel.CloudGraphOptNodeLabelNone)
    (hW : WellIndexed cloud) :
    ∃ cloud1, CloudGraphArrange ext cloud opt = some cloud1 ∧
      cloud1._nodes.length = cloud._nodes.length ∧
      ∀ f ∈ cloud1._families, members f._id cloud1._nodes ≠ [] →
        f._pos = VecRot2D ext.toPBMath
          ⟨(cloud1._nodes.length : F) * opt._fontSizeNode / ext.pi + opt._fontSizeNode, 0⟩
          (famMean f._id (fun n => n._theta) cloud1._nodes) ∧
        f._right = VecRot2D ext.toPBMath ⟨1, 0⟩
          (famMean f._id (fun n => n._theta) cloud1._nodes) := by
  have hlen : (CloudGraphUpdateBoundingBox ext
      (circleLayout ext.toPBMath (CloudGraphSortNodeByFamily cloud) opt) opt)._nodes.length =
        cloud._nodes.length := by
    rw [updateBoundingBox_nodes]
    simp [circleLayout, circleNodes_length, sortNodes_length]
  refine ⟨_, arrange_circle_spec ext cloud opt hmode hW, hlen, ?_⟩
  intro f hf _
  rw [hlen]
  rw [updateBoundingBox_families] at hf
  simp only [circleLayout, List.map_map, List.mem_map, Function.comp_apply] at hf
  obtain ⟨f0, _, rfl⟩ := hf
  rw [updateBoundingBox_nodes]
  simp only [circleLayout]
  rw [famMean_map _ (fun n => n._theta) (boxNode ext opt _) (fun _ => rfl) (fun _ => rfl)]
  simp [boxFamily, familyPos, hlbl, circleFamily, sortNodes_length]

/-- In line or circle mode, on a cloud whose family ids and node families
index the per-family arrays, the nodes after `CloudGraphArrange` are the nodes
of the cloud in the sorted order and the families are the families of the
cloud, in their order. -/
theorem arrange_ties (ext : Ext F) (cloud cloud1 : CloudGraph F) (opt : CloudGraphOpt F)
    (hmode : opt._mode = CloudGraphMode.CloudGraphModeLine ∨
      opt._mode = CloudGraphMode.CloudGraphModeCircle)
    (hW : WellIndexed cloud) (h1 : CloudGraphArrange ext cloud opt = some cloud1) :
    cloud1._nodes.map (fun n => (n._id, n._family, n._label)) =
      (CloudGraphSortNodeByFamily cloud)._nodes.map (fun n => (n._id, n._family, n._label)) ∧
    cloud1._families.map (fun f => (f._id, f._rgba, f._label)) =
      cloud._families.map (fun f => (f._id, f._rgba, f._label)) := by
  obtain ⟨c, hc, hid⟩ := arrange_nodes_identity ext cloud opt (Or.inr hW)
  rw [h1] at hc
  obtain rfl := Option.some.inj hc
  refine ⟨hid, ?_⟩
  rcases hmode with hmode | hmode
  · rw [arrange_line_spec ext cloud opt hmode hW] at h1
    obtain rfl := Option.some.inj h1
    rw [updateBoundingBox_families]
    simp only [lineLayout, List.map_map]
    rfl
  · rw [arrange_circle_spec ext cloud opt hmode hW] at h1
    obtain rfl := Option.some.inj h1
    rw [updateBoundingBox_families]
    simp only [circleLayout, List.map_map]
    rfl

/-- C5, as amended: after `CloudGraphArrange` in line mode, in exact
arithmetic, with the labels of nodes not displayed, on a cloud whose family
ids and node families index the per-family arrays: the nodes after the call
are the nodes of the cloud in the sorted order, the families are the families
of the cloud in their order, and every family with at least one node is at
`(fontSizeNode, mean of the ordinates of its nodes)` with right `(1, 0)`. -/
theorem C5_line_family_anchor (ext : Ext F) (cloud : CloudGraph F) (opt : CloudGraphOpt F)
    (hmode : opt._mode = CloudGraphMode.CloudGraphModeLine)
    (hlbl : opt._nodeLabelMode = CloudGraphOptNodeLabel.CloudGraphOptNodeLabelNone)
    (hW : WellIndexed cloud) :
    ∃ cloud1, CloudGraphArrange ext cloud opt = some cloud1 ∧
      cloud1._nodes.map (fun n => (n._id, n._family, n._label)) =
        (CloudGraphSortNodeByFamily cloud)._nodes.map (fun n => (n._id, n._family, n._label)) ∧
      cloud1._families.map (fun f => (f._id, f._rgba, f._label)) =
        cloud._families.map (fun f => (f._id, f._rgba, f._label)) ∧
      ∀ f ∈ cloud1._families, members f._id cloud1._nodes ≠ [] →
        f._pos = ⟨opt._fontSizeNode, famMean f._id (fun n => n._pos.y) cloud1._nodes⟩ ∧
        f._right = ⟨1, 0⟩ := by
  obtain ⟨cloud1, h1, h2⟩ := line_family_anchor ext cloud opt hmode hlbl hW
  obtain ⟨t1, t2⟩ := arrange_ties ext cloud cloud1 opt (Or.inl hmode) hW h1
  exact ⟨cloud1, h1, t1, t2, h2⟩

/-- C6, as amended: after `CloudGraphArrange` in circle mode, in exact
arithmetic, with the labels of nodes not displayed, on a cloud whose family
ids and node families index the per-family arrays: the nodes after the call
are the nodes of the cloud in the sorted order, the families are the families
of the cloud in their order, and every family with at least one node is at
`(r + fontSizeNode, 0)` rotated by the mean theta of its nodes, with right
`(1, 0)` rotated by the same angle, where `r = nodeCount * fontSizeNode / pi`. -/
theorem C6_circle_family_anchor (ext : Ext F) (cloud : CloudGraph F) (opt : CloudGraphOpt F)
    (hmode : opt._mode = CloudGraphMode.CloudGraphModeCircle)
    (hlbl : opt._nodeLabelMode = CloudGraphOptNodeLabel.CloudGraphOptNodeLabelNone)
    (hW : WellIndexed cloud) :
    ∃ cloud1, CloudGraphArrange ext cloud opt = some cloud1 ∧
      cloud1._nodes.map (fun n => (n._id, n._family, n._label)) =
        (CloudGraphSortNodeByFamily cloud)._nodes.map (fun n => (n._id, n._family, n._label)) ∧
      cloud1._families.map (fun f => (f._id, f._rgba, f._label)) =
        cloud._families.map (fun f => (f._id, f._rgba, f._label)) ∧
      cloud1._nodes.length = cloud._nodes.length ∧
      ∀ f ∈ cloud1._families, members f._id cloud1._nodes ≠ [] →
        f._pos = VecRot2D ext.toPBMath
          ⟨(cloud1._nodes.length : F) * opt._fontSizeNode / ext.pi + opt._fontSizeNode, 0⟩
          (famMean f._id (fun n => n._theta) cloud1._nodes) ∧
        f._right = VecRot2D ext.toPBMath ⟨1, 0⟩
          (famMean f._id (fun n => n._theta) cloud1._nodes) := by
  obtain ⟨cloud1, h1, h2, h3⟩ := circle_family_anchor ext cloud opt hmode hlbl hW
  obtain ⟨t1, t2⟩ := arrange_ties ext cloud cloud1 opt (Or.inr hmode) hW h1
  exact ⟨cloud1, h1, t1, t2, h2, h3⟩

end Claims5

/-- Witness of C5: three nodes of family 0 and font size 10 in line mode put the
family 0 at `(10, 30)` with right `(1, 0)`. -/
theorem C5_line_family_anchor_witness :
    WellIndexed (cloud3 ℝ) ∧
    ∃ cloud1,
      CloudGraphArrange (exampleExt ⟨Real.cos, Real.sin, Real.sqrt, Real.pi⟩) (cloud3 ℝ)
        (exampleOpt ℝ CloudGraphMode.CloudGraphModeLine
          CloudGraphOptNodeLabel.CloudGraphOptNodeLabelNone
          CloudGraphOptFamilyLabel.CloudGraphOptFamilyLabelNone 10) = some cloud1 ∧
      cloud1._families.map (fun f => (f._id, f._pos, f._right)) = [(0, ⟨10, 30⟩, ⟨1, 0⟩)] := by
  have hW : WellIndexed (cloud3 ℝ) := by
    simp [WellIndexed, cloud3, exampleCloud, exampleNode, exampleFamily]
  refine ⟨hW, ?_⟩
  obtain ⟨cloud1, h1, -⟩ :=
    C5_line_family_anchor (exampleExt ⟨Real.cos, Real.sin, Real.sqrt, Real.pi⟩) (cloud3 ℝ)
      (exampleOpt ℝ CloudGraphMode.CloudGraphModeLine
        CloudGraphOptNodeLabel.CloudGraphOptNodeLabelNone
        CloudGraphOptFamilyLabel.CloudGraphOptFamilyLabelNone 10) rfl rfl hW
  refine ⟨cloud1, h1, ?_⟩
  rw [arrange_line_spec _ _ _ rfl hW] at h1
  obtain rfl := Option.some.inj h1
  norm_num [updateBoundingBox_families, lineLayout, exampleOpt, cloud3, exampleCloud,
    exampleFamily, boxFamily, familyPos, lineFamily, famMean, famSum, members, lineNodes,
    CloudGraphSortNodeByFamily, GSetSort, List.orderedInsert, exampleNode, lineNode,
    List.iterate]

/-- Witness of C6: four nodes of family 0 and font size 10 in circle mode put the
family 0 at `(40 / pi + 10, 0)` rotated by the mean angle `3 pi / 4`. -/
theorem C6_circle_family_anchor_witness :
    WellIndexed (cloud4 ℝ) ∧
    ∃ cloud1,
      CloudGraphArrange (exampleExt ⟨Real.cos, Real.sin, Real.sqrt, Real.pi⟩) (cloud4 ℝ)
        (exampleOpt ℝ CloudGraphMode.CloudGraphModeCircle
          CloudGraphOptNodeLabel.CloudGraphOptNodeLabelNone
          CloudGraphOptFamilyLabel.CloudGraphOptFamilyLabelNone 10) = some cloud1 ∧
      cloud1._families.map (fun f => (f._id, f._pos, f._right)) =
        [(0, ⟨Real.cos (3 * Real.pi / 4) * (40 / Real.pi + 10),
              Real.sin (3 * Real.pi / 4) * (40 / Real.pi + 10)⟩,
            ⟨Real.cos (3 * Real.pi / 4), Real.sin (3 * Real.pi / 4)⟩)] := by
  have hW : WellIndexed (cloud4 ℝ) := by
    simp [WellIndexed, cloud4, exampleCloud, exampleNode, exampleFamily]
  refine ⟨hW, ?_⟩
  obtain ⟨cloud1, h1, -⟩ :=
    C6_circle_family_anchor (exampleExt ⟨Real.cos, Real.sin, Real.sqrt, Real.pi⟩) (cloud4 ℝ)
      (exampleOpt ℝ CloudGraphMode.CloudGraphModeCircle
        CloudGraphOptNodeLabel.CloudGraphOptNodeLabelNone
        CloudGraphOptFamilyLabel.CloudGraphOptFamilyLabelNone 10) rfl rfl hW
  refine ⟨cloud1, h1, ?_⟩
  rw [arrange_circle_spec _ _ _ rfl hW] at h1
  obtain rfl := Option.some.inj h1
  have e : (2 * Real.pi / 4 + (2 * Real.pi / 4 + 2 * Real.pi / 4 +
      (2 * Real.pi / 4 + 2 * Real.pi / 4 + 2 * Real.pi / 4))) / 4 = 3 * Real.pi / 4 := by
    ring
  norm_num [updateBoundingBox_families, circleLayout, exampleOpt, cloud4, exampleCloud,
    exampleFamily, boxFamily, familyPos, circleFamily, famMean, famSum, members, circleNodes,
    CloudGraphSortNodeByFamily, GSetSort, List.orderedInsert, exampleNode, circleNode,
    List.iterate, VecRot2D, exampleExt]
  rw [e]
  simp

section Claims7
variable {F : Type}

/-- A node with a given id is found after a permutation of the nodes exactly
when one is found before. -/
theorem getNode_isSome_perm (c1 c2 : CloudGraph F) (h : c1._nodes.Perm c2._nodes) (id : Int) :
    (CloudGraphGetNode c1 id).isSome = (CloudGraphGetNode c2 id).isSome := by
  simp only [CloudGraphGetNode]
  rw [Bool.eq_iff_iff, List.find?_isSome, List.find?_isSome]
  constructor
  · rintro ⟨n, hn, hp⟩
    exact ⟨n, h.mem_iff.mp hn, hp⟩
  · rintro ⟨n, hn, hp⟩
    exact ⟨n, h.mem_iff.mpr hn, hp⟩

theorem find_map_id (g : CloudGraphNode F → CloudGraphNode F) (hg : ∀ n, (g n)._id = n._id)
    (nodes : List (CloudGraphNode F)) (id : Int) :
    (nodes.map g).find? (fun n => n._id == id) = (nodes.find? (fun n => n._id == id)).map g := by
  induction nodes with
  | nil => rfl
  | cons n rest ih =>
    by_cases h : n._id = id <;> simp [List.find?_cons, hg, h, ih]

theorem getNode_isSome_ids (c1 c2 : CloudGraph F)
    (h : c1._nodes.map (fun n => n._id) = c2._nodes.map (fun n => n._id)) (id : Int) :
    (CloudGraphGetNode c1 id).isSome = (CloudGraphGetNode c2 id).isSome := by
  have key : ∀ c : CloudGraph F,
      (CloudGraphGetNode c id).isSome = decide (id ∈ c._nodes.map (fun n => n._id)) := by
    intro c
    simp only [CloudGraphGetNode]
    rw [Bool.eq_iff_iff, List.find?_isSome]
    simp only [beq_iff_eq, List.mem_map, decide_eq_true_eq]
  rw [key, key, h]

variable [LinearOrderedField F]

theorem getNode_update (ext : Ext F) (cloud : CloudGraph F) (opt : CloudGraphOpt F) (id : Int) :
    CloudGraphGetNode (CloudGraphUpdateBoundingBox ext cloud opt) id =
      (CloudGraphGetNode cloud id).map
        (boxNode ext opt { cloud._font with _size := opt._fontSizeNode }) := by
  simp only [CloudGraphGetNode, updateBoundingBox_nodes]
  exact find_map_id (boxNode ext opt _) (fun _ => rfl) _ _

/-- What the body of the loop on the links does to one link. -/
theorem arrangeLink_spec (m : PBMath F) (cloud : CloudGraph F) (k : F)
    (link : CloudGraphLink F) :
    (arrangeLink m cloud k link)._nodes0 = link._nodes0 ∧
    (arrangeLink m cloud k link)._nodes1 = link._nodes1 ∧
    (∀ a b, CloudGraphGetNode cloud link._nodes0 = some a →
      CloudGraphGetNode cloud link._nodes1 = some b →
      (arrangeLink m cloud k link)._curve =
        { _ctrl0 := a._pos
          _ctrl1 := ⟨a._pos.x - a._right.x * (VecDist m a._pos b._pos * k),
            a._pos.y - a._right.y * (VecDist m a._pos b._pos * k)⟩
          _ctrl2 := ⟨b._pos.x - b._right.x * (VecDist m a._pos b._pos * k),
            b._pos.y - b._right.y * (VecDist m a._pos b._pos * k)⟩
          _ctrl3 := b._pos } ∧
      (arrangeLink m cloud k link)._families0 = a._family ∧
      (arrangeLink m cloud k link)._families1 = b._family) ∧
    ((CloudGraphGetNode cloud link._nodes0 = none ∨
        CloudGraphGetNode cloud link._nodes1 = none) →
      arrangeLink m cloud k link = link) := by
  refine ⟨?_, ?_, ?_, ?_⟩
  · unfold arrangeLink; split <;> rfl
  · unfold arrangeLink; split <;> rfl
  · intro a b ha hb
    simp only [arrangeLink, ha, hb, VecOp, and_true]
    congr 1 <;> congr 1 <;> ring
  · intro h
    unfold arrangeLink
    split
    · rename_i h0 h1
      rcases h with h | h
      · rw [h] at h0; cases h0
      · rw [h] at h1; cases h1
    · rfl

/-- After `CloudGraphArrange` the links are the links before the call, each
run through the body of the loop on the links (with the nodes of the layout)
and given its box. -/
theorem arrange_links (ext : Ext F) (cloud : CloudGraph F) (opt : CloudGraphOpt F)
    (hmode : opt._mode ≠ CloudGraphMode.CloudGraphModeOther)
    (hW : WellIndexed cloud) (cloud1 : CloudGraph F)
    (h1 : CloudGraphArrange ext cloud opt = some cloud1) :
    ∃ cloudL, cloud1 = CloudGraphUpdateBoundingBox ext cloudL opt ∧
      cloud1._links = cloud._links.map (fun l => boxLink ext
        (arrangeLink ext.toPBMath cloudL
          (if opt._mode = CloudGraphMode.CloudGraphModeCircle
            then opt._curvature * (1 / 2) else opt._curvature) l)) := by
  cases hm : opt._mode with
  | CloudGraphModeOther => exact absurd hm hmode
  | CloudGraphModeLine =>
    rw [arrange_line_spec ext cloud opt hm hW] at h1
    obtain rfl := Option.some.inj h1
    refine ⟨_, rfl, ?_⟩
    rw [updateBoundingBox_links]
    simp only [lineLayout, arrangeLinks, List.map_map, reduceCtorEq, if_false]
    rfl
  | CloudGraphModeCircle =>
    rw [arrange_circle_spec ext cloud opt hm hW] at h1
    obtain rfl := Option.some.inj h1
    refine ⟨_, rfl, ?_⟩
    rw [updateBoundingBox_links]
    simp only [circleLayout, arrangeLinks, List.map_map, if_true]
    rfl

end Claims7

section Idem
variable {F : Type} [LinearOrderedField F]

theorem lineLayout_eq (m : PBMath F) (cloud : CloudGraph F) (opt : CloudGraphOpt F) :
    lineLayout m cloud opt =
      layoutWith m opt._curvature (lineNodes opt)
        (fun nodes => lineFamily opt (fun k => famMean k (fun n => n._pos.y) nodes)) cloud := rfl

theorem circleLayout_eq (m : PBMath F) (cloud : CloudGraph F) (opt : CloudGraphOpt F) :
    circleLayout m cloud opt =
      layoutWith m (opt._curvature * (1 / 2)) (circleNodes m opt)
        (fun nodes => circleFamily m ((nodes.length : F) * opt._fontSizeNode / m.pi) opt
          (fun k => famMean k (fun n => n._theta) nodes)) cloud := by
  simp only [circleLayout, layoutWith, arrangeLinks, circleNodes_length]

theorem boxNode_congr (ext : Ext F) (opt : CloudGraphOpt F) (font1 font2 : TGAFont F)
    (h1 : font1._size = font2._size) (h2 : font1._scale = font2._scale) :
    boxNode ext opt font1 = boxNode ext opt font2 := by
  funext n
  simp only [boxNode, labelBox, h1, h2]

theorem boxFamily_congr (ext : Ext F) (opt : CloudGraphOpt F) (font1 font2 : TGAFont F)
    (h1 : font1._size = font2._size) (h2 : font1._scale = font2._scale) (ml : F) :
    boxFamily ext opt font1 ml = boxFamily ext opt font2 ml := by
  funext f
  simp only [boxFamily, h1, h2]

theorem maxLabelLength_map (ext : Ext F) (opt : CloudGraphOpt F) (font1 font2 : TGAFont F)
    (h1 : font1._size = font2._size) (h2 : font1._scale = font2._scale)
    (nodes : List (CloudGraphNode F)) :
    ∀ ml : F, maxLabelLength ext font1 ml (nodes.map (boxNode ext opt font2)) =
      maxLabelLength ext font2 ml nodes := by
  induction nodes with
  | nil => intro ml; rfl
  | cons n rest ih =>
    intro ml
    simp only [maxLabelLength, List.map_cons, List.foldl_cons] at ih ⊢
    have hl : labelLength ext font1 (boxNode ext opt font2 n) = labelLength ext font2 n := by
      simp only [labelLength, boxNode, h1, h2]
    rw [hl]
    exact ih _

/-- Running the body of the loop on the links a second time, with nodes that
differ from the first ones by their boxes only, changes nothing. -/
theorem link_idem (ext : Ext F) (opt : CloudGraphOpt F) (font : TGAFont F) (k : F)
    (c1 c2 : CloudGraph F)
    (hget : ∀ id, CloudGraphGetNode c2 id =
      (CloudGraphGetNode c1 id).map (boxNode ext opt font))
    (l : CloudGraphLink F) :
    boxLink ext (arrangeLink ext.toPBMath c2 k (boxLink ext (arrangeLink ext.toPBMath c1 k l))) =
      boxLink ext (arrangeLink ext.toPBMath c1 k l) := by
  obtain ⟨s0, s1, -, -⟩ := arrangeLink_spec ext.toPBMath c1 k l
  have e0 : (boxLink ext (arrangeLink ext.toPBMath c1 k l))._nodes0 = l._nodes0 := s0
  have e1 : (boxLink ext (arrangeLink ext.toPBMath c1 k l))._nodes1 = l._nodes1 := s1
  cases ha : CloudGraphGetNode c1 l._nodes0 with
  | none =>
    have h2 : CloudGraphGetNode c2 l._nodes0 = none := by rw [hget, ha]; rfl
    have h3 : arrangeLink ext.toPBMath c1 k l = l := by
      simp only [arrangeLink, ha]
    rw [h3]
    have h4 : arrangeLink ext.toPBMath c2 k (boxLink ext l) = boxLink ext l := by
      simp only [arrangeLink, boxLink, h2]
    rw [h4]
    rfl
  | some a =>
    cases hb : CloudGraphGetNode c1 l._nodes1 with
    | none =>
      have h2 : CloudGraphGetNode c2 l._nodes1 = none := by rw [hget, hb]; rfl
      have h3 : arrangeLink ext.toPBMath c1 k l = l := by
        simp only [arrangeLink, ha, hb]
      rw [h3]
      have h4 : arrangeLink ext.toPBMath c2 k (boxLink ext l) = boxLink ext l := by
        simp only [arrangeLink, boxLink, h2]
        split
        · rename_i x y hx hy
          cases hy
        · rfl
      rw [h4]
      rfl
    | some b =>
      have h2a : CloudGraphGetNode c2 l._nodes0 = some (boxNode ext opt font a) := by
        rw [hget, ha]; rfl
      have h2b : CloudGraphGetNode c2 l._nodes1 = some (boxNode ext opt font b) := by
        rw [hget, hb]; rfl
      simp only [arrangeLink, ha, hb, boxLink, h2a, h2b, boxNode]

end Idem
section Idem2
variable {F : Type} [LinearOrderedField F]

theorem boxNode_idem (ext : Ext F) (opt : CloudGraphOpt F) (font : TGAFont F)
    (n : CloudGraphNode F) :
    boxNode ext opt font (boxNode ext opt font n) = boxNode ext opt font n := rfl

/-- Updating the boxes of a layout, laying the result out again and updating
the boxes again gives the result of the first update. -/
theorem update_layout_idem (ext : Ext F) (opt : CloudGraphOpt F) (k : F)
    (LN : List (CloudGraphNode F) → List (CloudGraphNode F))
    (LF : List (CloudGraphNode F) → CloudGraphFamily F → CloudGraphFamily F)
    (hLN : ∀ ns font, LN ((LN ns).map (boxNode ext opt font)) =
      (LN ns).map (boxNode ext opt font))
    (hLFn : ∀ ns font, LF ((LN ns).map (boxNode ext opt font)) = LF (LN ns))
    (hLF : ∀ N font ml f,
      boxFamily ext opt font ml (LF N (boxFamily ext opt font ml (LF N f))) =
        boxFamily ext opt font ml (LF N f))
    (hLFr : ∀ N font ml f,
      (LF N (boxFamily ext opt font ml (LF N f)))._right = (LF N f)._right)
    (S : CloudGraph F) :
    CloudGraphUpdateBoundingBox ext
      (layoutWith ext.toPBMath k LN LF
        (CloudGraphUpdateBoundingBox ext (layoutWith ext.toPBMath k LN LF S) opt)) opt =
      CloudGraphUpdateBoundingBox ext (layoutWith ext.toPBMath k LN LF S) opt := by
  obtain ⟨Y, hY⟩ : ∃ Y, Y = CloudGraphUpdateBoundingBox ext
      (layoutWith ext.toPBMath k LN LF S) opt := ⟨_, rfl⟩
  rw [← hY]
  have hYn : Y._nodes =
      (LN S._nodes).map (boxNode ext opt { S._font with _size := opt._fontSizeNode }) :=
    hY ▸ updateBoundingBox_nodes ext _ opt
  have hYl : Y._links =
      (S._links.map (arrangeLink ext.toPBMath { S with _nodes := LN S._nodes } k)).map
        (boxLink ext) :=
    hY ▸ updateBoundingBox_links ext _ opt
  have hYf : Y._families =
      (S._families.map (LF (LN S._nodes))).map
        (boxFamily ext opt { S._font with _size := opt._fontSizeNode }
          (maxLabelLength ext { S._font with _size := opt._fontSizeNode } 0 (LN S._nodes))) :=
    hY ▸ updateBoundingBox_families ext _ opt
  have hYfont : Y._font =
      fontAfter { S._font with _size := opt._fontSizeNode }
        ((LN S._nodes).map (fun n => n._right) ++
          (S._families.map (LF (LN S._nodes))).map (fun f => f._right)) := by
    rw [hY, updateBoundingBox_font, fontAfter_append]
    rfl
  have hsc : Y._font._scale = S._font._scale := by
    rw [hYfont, fontAfter_eq]
  have hbN : boxNode ext opt { Y._font with _size := opt._fontSizeNode } =
      boxNode ext opt { S._font with _size := opt._fontSizeNode } :=
    boxNode_congr ext opt _ _ rfl hsc
  have hbF : ∀ ml, boxFamily ext opt { Y._font with _size := opt._fontSizeNode } ml =
      boxFamily ext opt { S._font with _size := opt._fontSizeNode } ml :=
    boxFamily_congr ext opt _ _ rfl hsc
  have hML : ∀ (nodes : List (CloudGraphNode F)) (ml : F),
      maxLabelLength ext { Y._font with _size := opt._fontSizeNode } ml
        (nodes.map (boxNode ext opt { S._font with _size := opt._fontSizeNode })) =
      maxLabelLength ext { S._font with _size := opt._fontSizeNode } ml nodes :=
    maxLabelLength_map ext opt _ _ rfl hsc
  -- nodes
  have hn : (CloudGraphUpdateBoundingBox ext
      (layoutWith ext.toPBMath k LN LF Y) opt)._nodes = Y._nodes := by
    rw [updateBoundingBox_nodes]
    show (LN Y._nodes).map (boxNode ext opt { Y._font with _size := opt._fontSizeNode }) =
      Y._nodes
    rw [hYn, hLN, hbN, List.map_map]
    rfl
  -- links
  have hl : (CloudGraphUpdateBoundingBox ext
      (layoutWith ext.toPBMath k LN LF Y) opt)._links = Y._links := by
    rw [updateBoundingBox_links]
    show (Y._links.map (arrangeLink ext.toPBMath { Y with _nodes := LN Y._nodes } k)).map
      (boxLink ext) = Y._links
    rw [List.map_map]
    have hpt : ∀ l1 ∈ Y._links,
        (boxLink ext ∘ arrangeLink ext.toPBMath { Y with _nodes := LN Y._nodes } k) l1 =
          id l1 := by
      intro l1 hl1
      rw [hYl] at hl1
      simp only [List.mem_map] at hl1
      obtain ⟨_, ⟨l, _, rfl⟩, rfl⟩ := hl1
      apply link_idem ext opt { S._font with _size := opt._fontSizeNode } k
      intro id
      show (LN Y._nodes).find? (fun n => n._id == id) =
        ((LN S._nodes).find? (fun n => n._id == id)).map _
      rw [hYn, hLN]
      exact find_map_id (boxNode ext opt _) (fun _ => rfl) _ _
    rw [List.map_congr_left hpt, List.map_id]
  -- families
  have hf : (CloudGraphUpdateBoundingBox ext
      (layoutWith ext.toPBMath k LN LF Y) opt)._families = Y._families := by
    rw [updateBoundingBox_families]
    show (Y._families.map (LF (LN Y._nodes))).map
      (boxFamily ext opt { Y._font with _size := opt._fontSizeNode }
        (maxLabelLength ext { Y._font with _size := opt._fontSizeNode } 0 (LN Y._nodes))) =
      Y._families
    rw [hYn, hLN, hLFn, hbF, hML, List.map_map]
    have hpt : ∀ f1 ∈ Y._families,
        (boxFamily ext opt { S._font with _size := opt._fontSizeNode }
          (maxLabelLength ext { S._font with _size := opt._fontSizeNode } 0 (LN S._nodes)) ∘
            LF (LN S._nodes)) f1 = id f1 := by
      intro f1 hf1
      rw [hYf] at hf1
      simp only [List.mem_map] at hf1
      obtain ⟨_, ⟨f, _, rfl⟩, rfl⟩ := hf1
      exact hLF _ _ _ _
    rw [List.map_congr_left hpt, List.map_id]
  -- font
  have hfont : (CloudGraphUpdateBoundingBox ext
      (layoutWith ext.toPBMath k LN LF Y) opt)._font = Y._font := by
    rw [updateBoundingBox_font, fontAfter_append]
    show fontAfter { Y._font with _size := opt._fontSizeNode }
      ((LN Y._nodes).map (fun n => n._right) ++
        (Y._families.map (LF (LN Y._nodes))).map (fun f => f._right)) = Y._font
    have e1 : (LN Y._nodes).map (fun n => n._right) =
        (LN S._nodes).map (fun n => n._right) := by
      rw [hYn, hLN, List.map_map]; rfl
    have e2 : (Y._families.map (LF (LN Y._nodes))).map (fun f => f._right) =
        (S._families.map (LF (LN S._nodes))).map (fun f => f._right) := by
      rw [hYn, hLN, hLFn, hYf, List.map_map, List.map_map, List.map_map, List.map_map]
      apply List.map_congr_left
      intro f _
      simp only [Function.comp_apply]
      exact hLFr _ _ _ _
    rw [e1, e2, hYfont]
    exact fontAfter_idem S._font opt._fontSizeNode _
  -- canvas
  have hb : (CloudGraphUpdateBoundingBox ext
      (layoutWith ext.toPBMath k LN LF
        Y) opt)._boundingBox =
      Y._boundingBox := by
    rw [updateBoundingBox_box, visibleBoxes_congr opt _ _ hn hf hl]
    conv_rhs => rw [hY, updateBoundingBox_box, ← hY]
  rw [cloud_eta (CloudGraphUpdateBoundingBox ext
      (layoutWith ext.toPBMath k LN LF
        Y) opt),
    hn, hl, hf, hfont, hb]

end Idem2
section Idem3
variable {F : Type} [LinearOrderedField F]

theorem lineNodes_idem (ext : Ext F) (opt : CloudGraphOpt F) (ns : List (CloudGraphNode F))
    (font : TGAFont F) :
    lineNodes opt ((lineNodes opt ns).map (boxNode ext opt font)) =
      (lineNodes opt ns).map (boxNode ext opt font) := by
  apply List.ext_getElem
  · simp [lineNodes_length]
  · intro i h1 h2
    have h3 : i < ns.length := by simpa [lineNodes_length] using h2
    have h4 : i < (lineNodes opt ns).length := by rw [lineNodes_length]; exact h3
    have h5 : i < ((lineNodes opt ns).map (boxNode ext opt font)).length := by
      rw [List.length_map]; exact h4
    rw [lineNodes_getElem opt _ i h5 h1, List.getElem_map,
      lineNodes_getElem opt ns i h3 h4]
    rfl

theorem circleNodes_idem (ext : Ext F) (opt : CloudGraphOpt F) (ns : List (CloudGraphNode F))
    (font : TGAFont F) :
    circleNodes ext.toPBMath opt ((circleNodes ext.toPBMath opt ns).map (boxNode ext opt font)) =
      (circleNodes ext.toPBMath opt ns).map (boxNode ext opt font) := by
  apply List.ext_getElem
  · simp [circleNodes_length]
  · intro i h1 h2
    have h3 : i < ns.length := by simpa [circleNodes_length] using h2
    have h4 : i < (circleNodes ext.toPBMath opt ns).length := by
      rw [circleNodes_length]; exact h3
    have h5 : i < ((circleNodes ext.toPBMath opt ns).map (boxNode ext opt font)).length := by
      rw [List.length_map]; exact h4
    rw [circleNodes_getElem ext.toPBMath opt _ i h5 h1, List.getElem_map,
      circleNodes_getElem ext.toPBMath opt ns i h3 h4, List.length_map, circleNodes_length]
    rfl

/-- Laying out in line and updating the boxes, twice, is the same as once. -/
theorem line_idem (ext : Ext F) (opt : CloudGraphOpt F) (S : CloudGraph F) :
    CloudGraphUpdateBoundingBox ext
      (lineLayout ext.toPBMath
        (CloudGraphUpdateBoundingBox ext (lineLayout ext.toPBMath S opt) opt) opt) opt =
      CloudGraphUpdateBoundingBox ext (lineLayout ext.toPBMath S opt) opt := by
  rw [lineLayout_eq, lineLayout_eq]
  apply update_layout_idem
  · exact lineNodes_idem ext opt
  · intro ns font
    funext f
    simp only [lineFamily]
    rw [famMean_map _ (fun n => n._pos.y) (boxNode ext opt font) (fun _ => rfl) (fun _ => rfl)]
  · intro N font ml f
    rfl
  · intro N font ml f
    rfl

/-- Laying out in circle and updating the boxes, twice, is the same as once. -/
theorem circle_idem (ext : Ext F) (opt : CloudGraphOpt F) (S : CloudGraph F) :
    CloudGraphUpdateBoundingBox ext
      (circleLayout ext.toPBMath
        (CloudGraphUpdateBoundingBox ext (circleLayout ext.toPBMath S opt) opt) opt) opt =
      CloudGraphUpdateBoundingBox ext (circleLayout ext.toPBMath S opt) opt := by
  rw [circleLayout_eq, circleLayout_eq]
  apply update_layout_idem
  · exact circleNodes_idem ext opt
  · intro ns font
    funext f
    simp only [circleFamily, List.length_map]
    rw [famMean_map _ (fun n => n._theta) (boxNode ext opt font) (fun _ => rfl) (fun _ => rfl)]
  · intro N font ml f
    rfl
  · intro N font ml f
    rfl

/-- `CloudGraphArrange` keeps the indexes of the cloud inside the per-family
arrays, and leaves the nodes ordered by family. -/
theorem arrange_wellIndexed (ext : Ext F) (cloud cloud1 : CloudGraph F) (opt : CloudGraphOpt F)
    (hW : WellIndexed cloud) (h1 : CloudGraphArrange ext cloud opt = some cloud1) :
    WellIndexed cloud1 ∧ cloud1._nodes.Pairwise (fun a b => a._family ≤ b._family) := by
  obtain ⟨c, hc, hid⟩ := arrange_nodes_identity ext cloud opt (Or.inr hW)
  rw [h1] at hc
  obtain rfl := Option.some.inj hc
  have hfam : cloud1._nodes.map (fun n => n._family) =
      (CloudGraphSortNodeByFamily cloud)._nodes.map (fun n => n._family) := by
    have := congrArg (List.map (fun t : Int × Int × Option String => t.2.1)) hid
    simpa [List.map_map, Function.comp_def] using this
  have hfids : cloud1._families.map (fun f => f._id) = cloud._families.map (fun f => f._id) := by
    cases hmode : opt._mode with
    | CloudGraphModeOther =>
      rw [arrange_other_spec ext cloud opt hmode] at h1
      obtain rfl := Option.some.inj h1
      rw [updateBoundingBox_families, List.map_map]
      rfl
    | CloudGraphModeLine =>
      rw [arrange_line_spec ext cloud opt hmode hW] at h1
      obtain rfl := Option.some.inj h1
      rw [updateBoundingBox_families]
      simp only [lineLayout, List.map_map]
      rfl
    | CloudGraphModeCircle =>
      rw [arrange_circle_spec ext cloud opt hmode hW] at h1
      obtain rfl := Option.some.inj h1
      rw [updateBoundingBox_families]
      simp only [circleLayout, List.map_map]
      rfl
  have hflen : cloud1._families.length = cloud._families.length := by
    have := congrArg List.length hfids
    simpa using this
  refine ⟨⟨?_, ?_⟩, ?_⟩
  · intro n hn
    have h2 : n._family ∈ cloud1._nodes.map (fun n => n._family) := List.mem_map_of_mem _ hn
    rw [hfam, List.mem_map] at h2
    obtain ⟨n0, hn0, he⟩ := h2
    rw [hflen, ← he]
    exact hW.1 n0 ((sortNodes_perm cloud).mem_iff.mp hn0)
  · intro f hf
    have h2 : f._id ∈ cloud1._families.map (fun f => f._id) := List.mem_map_of_mem _ hf
    rw [hfids, List.mem_map] at h2
    obtain ⟨f0, hf0, he⟩ := h2
    rw [hflen, ← he]
    exact hW.2 f0 hf0
  · have h2 : (cloud1._nodes.map (fun n => n._family)).Pairwise (fun a b => a ≤ b) := by
      rw [hfam, List.pairwise_map]
      exact sortNodes_sorted cloud
    rwa [List.pairwise_map] at h2

/-- C8, as amended: in line or circle mode, on a cloud whose family ids and
node families index the per-family arrays, `CloudGraphArrange` succeeds, and a
second call with the same options on its result succeeds and returns the very
same cloud: same order of nodes, same positions, rights and thetas, same
curves, same boxes (and same font), whatever the other options (the labels of
nodes displayed or not). -/
theorem C8_arrange_idempotent (ext : Ext F) (cloud : CloudGraph F) (opt : CloudGraphOpt F)
    (hmode : opt._mode = CloudGraphMode.CloudGraphModeLine ∨
      opt._mode = CloudGraphMode.CloudGraphModeCircle)
    (hW : WellIndexed cloud) :
    ∃ cloud1, CloudGraphArrange ext cloud opt = some cloud1 ∧
      CloudGraphArrange ext cloud1 opt = some cloud1 := by
  obtain ⟨cloud1, h1, -⟩ := arrange_nodes_identity ext cloud opt (Or.inr hW)
  refine ⟨cloud1, h1, ?_⟩
  obtain ⟨hW1, hsorted⟩ := arrange_wellIndexed ext cloud cloud1 opt hW h1
  rcases hmode with hmode | hmode
  · rw [arrange_line_spec ext cloud1 opt hmode hW1, sortNodes_of_sorted cloud1 hsorted]
    rw [arrange_line_spec ext cloud opt hmode hW] at h1
    obtain rfl := Option.some.inj h1
    rw [line_idem]
  · rw [arrange_circle_spec ext cloud1 opt hmode hW1, sortNodes_of_sorted cloud1 hsorted]
    rw [arrange_circle_spec ext cloud opt hmode hW] at h1
    obtain rfl := Option.some.inj h1
    rw [circle_idem]

end Idem3

/-- Witness of C8: a cloud of four nodes, two families and two links, arranged in
circle with the labels of nodes and families displayed. -/
theorem C8_arrange_idempotent_witness :
    WellIndexed (cloudMixed ℝ) ∧
    ∃ cloud1,
      CloudGraphArrange (exampleExt ⟨Real.cos, Real.sin, Real.sqrt, Real.pi⟩) (cloudMixed ℝ)
        (exampleOpt ℝ CloudGraphMode.CloudGraphModeCircle
          CloudGraphOptNodeLabel.CloudGraphOptNodeLabelAll
          CloudGraphOptFamilyLabel.CloudGraphOptFamilyLabelAll 10) = some cloud1 ∧
      CloudGraphArrange (exampleExt ⟨Real.cos, Real.sin, Real.sqrt, Real.pi⟩) cloud1
        (exampleOpt ℝ CloudGraphMode.CloudGraphModeCircle
          CloudGraphOptNodeLabel.CloudGraphOptNodeLabelAll
          CloudGraphOptFamilyLabel.CloudGraphOptFamilyLabelAll 10) = some cloud1 :=
  have hW : WellIndexed (cloudMixed ℝ) := by
    simp [WellIndexed, cloudMixed, exampleCloud, exampleNode, exampleFamily]
  ⟨hW, C8_arrange_idempotent _ _ _ (Or.inr rfl) hW⟩

section Claims9
variable {F : Type} [LinearOrderedField F]

end Claims9
section Aabb
variable {F : Type} [LinearOrderedField F]

end Aabb

section Defined
variable {F : Type} [LinearOrderedField F]

theorem arrIdx_some {len : Nat} {i : Int} {k : Nat} (h : arrIdx len i = some k) :
    0 ≤ i ∧ i < (len : Int) := by
  unfold arrIdx at h
  by_contra hc
  rw [if_neg hc] at h
  cases h

theorem accumNodes_some {σ : Type} (val : σ → F)
    (upd : σ → CloudGraphNode F → CloudGraphNode F) (next : σ → σ) :
    ∀ (nodes : List (CloudGraphNode F)) (s : σ) (pf : List F) (nf : List Int)
      (res : List (CloudGraphNode F) × List F × List Int),
      accumNodes val upd next s nodes pf nf = some res →
      ∀ n ∈ nodes, 0 ≤ n._family ∧ n._family < (pf.length : Int) := by
  intro nodes
  induction nodes with
  | nil => intro s pf nf res _ n hn; cases hn
  | cons node rest ih =>
    intro s pf nf res h n hn
    simp only [accumNodes] at h
    cases hi : arrIdx pf.length node._family with
    | none => rw [hi] at h; cases h
    | some i =>
      rw [hi] at h
      simp only at h
      cases hr : accumNodes val upd next (next s) rest
          (pf.set i (pf.getD i 0 + val s)) (nf.set i (nf.getD i 0 + 1)) with
      | none => rw [hr] at h; cases h
      | some r =>
        rcases List.mem_cons.mp hn with rfl | hn
        · exact arrIdx_some hi
        · have := ih _ _ _ _ hr n hn
          simpa using this

theorem arrangeLineFamilies_some (opt : CloudGraphOpt F) (pf : List F) :
    ∀ (fams res : List (CloudGraphFamily F)), arrangeLineFamilies opt pf fams = some res →
      ∀ f ∈ fams, 0 ≤ f._id ∧ f._id < (pf.length : Int) := by
  intro fams
  induction fams with
  | nil => intro res _ f hf; cases hf
  | cons fam rest ih =>
    intro res h f hf
    simp only [arrangeLineFamilies] at h
    cases hi : arrIdx pf.length fam._id with
    | none => rw [hi] at h; cases h
    | some i =>
      rw [hi] at h
      simp only at h
      cases hr : arrangeLineFamilies opt pf rest with
      | none => rw [hr] at h; cases h
      | some r =>
        rcases List.mem_cons.mp hf with rfl | hf
        · exact arrIdx_some hi
        · exact ih _ hr f hf

theorem arrangeCircleFamilies_some (m : PBMath F) (r : F) (opt : CloudGraphOpt F)
    (pf : List F) :
    ∀ (fams res : List (CloudGraphFamily F)),
      arrangeCircleFamilies m r opt pf fams = some res →
      ∀ f ∈ fams, 0 ≤ f._id ∧ f._id < (pf.length : Int) := by
  intro fams
  induction fams with
  | nil => intro res _ f hf; cases hf
  | cons fam rest ih =>
    intro res h f hf
    simp only [arrangeCircleFamilies] at h
    cases hi : arrIdx pf.length fam._id with
    | none => rw [hi] at h; cases h
    | some i =>
      rw [hi] at h
      simp only at h
      cases hr : arrangeCircleFamilies m r opt pf rest with
      | none => rw [hr] at h; cases h
      | some r =>
        rcases List.mem_cons.mp hf with rfl | hf
        · exact arrIdx_some hi
        · exact ih _ hr f hf

theorem accumNodes_lengths {σ : Type} (val : σ → F)
    (upd : σ → CloudGraphNode F → CloudGraphNode F) (next : σ → σ) :
    ∀ (nodes : List (CloudGraphNode F)) (s : σ) (pf : List F) (nf : List Int)
      (res : List (CloudGraphNode F) × List F × List Int),
      accumNodes val upd next s nodes pf nf = some res →
      res.2.1.length = pf.length ∧ res.2.2.length = nf.length := by
  intro nodes
  induction nodes with
  | nil =>
    intro s pf nf res h
    simp only [accumNodes] at h
    obtain rfl := Option.some.inj h
    exact ⟨rfl, rfl⟩
  | cons node rest ih =>
    intro s pf nf res h
    simp only [accumNodes] at h
    cases hi : arrIdx pf.length node._family with
    | none => rw [hi] at h; cases h
    | some i =>
      rw [hi] at h
      simp only at h
      cases hr : accumNodes val upd next (next s) rest
          (pf.set i (pf.getD i 0 + val s)) (nf.set i (nf.getD i 0 + 1)) with
      | none => rw [hr] at h; cases h
      | some r =>
        rw [hr] at h
        obtain rfl := Option.some.inj h
        have := ih _ _ _ _ hr
        simpa using this

/-- The call of `CloudGraphArrange` is defined (no index out of the per-family
arrays) exactly on the clouds that are `WellIndexed`, and on every cloud when
the mode is neither line nor circle (no arrangement is run). -/
theorem arrange_defined_iff (ext : Ext F) (cloud : CloudGraph F) (opt : CloudGraphOpt F) :
    (∃ cloud1, CloudGraphArrange ext cloud opt = some cloud1) ↔
      (opt._mode = CloudGraphMode.CloudGraphModeOther ∨ WellIndexed cloud) := by
  constructor
  · rintro ⟨cloud1, h⟩
    have hperm := sortNodes_perm cloud
    have hfam : (CloudGraphSortNodeByFamily cloud)._families = cloud._families := rfl
    simp only [CloudGraphArrange] at h
    cases hmode : opt._mode with
    | CloudGraphModeOther => exact Or.inl rfl
    | CloudGraphModeLine =>
      right
      rw [hmode] at h
      simp only [CloudGraphArrangeLine, arrangeLineNodes_eq] at h
      cases hr : accumNodes (fun i : Nat => 2 * opt._fontSizeNode * ((i : F) + 1 / 2))
          (lineNode opt) (fun i => i + 1) 0 (CloudGraphSortNodeByFamily cloud)._nodes
          (List.replicate (CloudGraphSortNodeByFamily cloud)._families.length 0)
          (List.replicate (CloudGraphSortNodeByFamily cloud)._families.length 0) with
      | none => rw [hr] at h; cases h
      | some res =>
        rw [hr] at h
        simp only at h
        have hn := accumNodes_some _ _ _ _ _ _ _ _ hr
        obtain ⟨hl1, hl2⟩ := accumNodes_lengths _ _ _ _ _ _ _ _ hr
        simp only [List.length_replicate, hfam] at hn hl1 hl2
        refine ⟨fun n hn1 => hn n (hperm.mem_iff.mpr hn1), ?_⟩
        cases hf : arrangeLineFamilies opt (averageFamily res.2.1 res.2.2)
            (CloudGraphSortNodeByFamily cloud)._families with
        | none => rw [hf] at h; cases h
        | some fams =>
          have := arrangeLineFamilies_some _ _ _ _ hf
          rw [averageFamily_length _ _ (by rw [hl1, hl2]), hl1] at this
          exact this
    | CloudGraphModeCircle =>
      right
      rw [hmode] at h
      simp only [CloudGraphArrangeCircle, arrangeCircleNodes_eq] at h
      cases hr : accumNodes (fun t : F => t)
          (circleNode ext.toPBMath
            (((CloudGraphSortNodeByFamily cloud)._nodes.length : F) * opt._fontSizeNode /
              ext.pi))
          (fun t => t + 2 * ext.pi / ((CloudGraphSortNodeByFamily cloud)._nodes.length : F)) 0
          (CloudGraphSortNodeByFamily cloud)._nodes
          (List.replicate (CloudGraphSortNodeByFamily cloud)._families.length 0)
          (List.replicate (CloudGraphSortNodeByFamily cloud)._families.length 0) with
      | none => rw [hr] at h; cases h
      | some res =>
        rw [hr] at h
        simp only at h
        have hn := accumNodes_some _ _ _ _ _ _ _ _ hr
        obtain ⟨hl1, hl2⟩ := accumNodes_lengths _ _ _ _ _ _ _ _ hr
        simp only [List.length_replicate, hfam] at hn hl1 hl2
        refine ⟨fun n hn1 => hn n (hperm.mem_iff.mpr hn1), ?_⟩
        cases hf : arrangeCircleFamilies ext.toPBMath
            (((CloudGraphSortNodeByFamily cloud)._nodes.length : F) * opt._fontSizeNode /
              ext.pi) opt (averageFamily res.2.1 res.2.2)
            (CloudGraphSortNodeByFamily cloud)._families with
        | none => rw [hf] at h; cases h
        | some fams =>
          have := arrangeCircleFamilies_some _ _ _ _ _ _ hf
          rw [averageFamily_length _ _ (by rw [hl1, hl2]), hl1] at this
          exact this
  · intro hD
    obtain ⟨c, hc, -⟩ := arrange_nodes_identity ext cloud opt hD
    exact ⟨c, hc⟩

end Defined
end CG
namespace CG
section Claims11
variable {F : Type} [LinearOrderedField F]

end Claims11

end CG
namespace CG
section Claims13
variable {F : Type} [LinearOrderedField F]

/-- C14: `CloudGraphAddLink` returns false and leaves the cloud as it was when
the two node ids of the link are equal, as for the link of
`CloudGraphCreateLink`; for two different ids it returns true and appends a
copy of the link (without box) at the end of the links, whatever the nodes
of the cloud. -/
theorem C14_add_link (cloud : CloudGraph F) (l : CloudGraphLink F) :
    (l._nodes0 = l._nodes1 → CloudGraphAddLink cloud l = (false, cloud)) ∧
    CloudGraphAddLink cloud CloudGraphCreateLink = (false, cloud) ∧
    (l._nodes0 ≠ l._nodes1 →
      (CloudGraphAddLink cloud l).1 = true ∧
      (CloudGraphAddLink cloud l).2._links =
        cloud._links ++ [{ l with _boundingBox := none }] ∧
      (CloudGraphAddLink cloud l).2._nodes = cloud._nodes ∧
      (CloudGraphAddLink cloud l).2._families = cloud._families) := by
  refine ⟨?_, ?_, ?_⟩
  · intro h
    simp only [CloudGraphAddLink, h, if_true]
  · simp only [CloudGraphAddLink, CloudGraphCreateLink, if_true]
  · intro h
    rw [CloudGraphAddLink, if_neg h]
    exact ⟨rfl, rfl, rfl, rfl⟩

end Claims13

section Claims15
variable {F : Type}

/-- C13: `CloudGraphAddFamily` returns false and leaves the cloud as it was when
a family of the cloud has the id of the family to add; else it returns true
and appends a copy of the family (same id, colour, label, box, position and
right) at the end of the families, the rest of the cloud being unchanged. -/
theorem C13_add_family (cloud : CloudGraph F) (f : CloudGraphFamily F) :
    ((∃ g ∈ cloud._families, g._id = f._id) → CloudGraphAddFamily cloud f = (false, cloud)) ∧
    ((∀ g ∈ cloud._families, g._id ≠ f._id) →
      (CloudGraphAddFamily cloud f).1 = true ∧
      (CloudGraphAddFamily cloud f).2._families = cloud._families ++ [f] ∧
      (CloudGraphAddFamily cloud f).2._nodes = cloud._nodes ∧
      (CloudGraphAddFamily cloud f).2._links = cloud._links ∧
      (CloudGraphAddFamily cloud f).2._font = cloud._font ∧
      (CloudGraphAddFamily cloud f).2._boundingBox = cloud._boundingBox) := by
  constructor
  · rintro ⟨g, hg, hid⟩
    have : cloud._families.any (fun g => f._id == g._id) = true := by
      rw [List.any_eq_true]
      exact ⟨g, hg, by simp [hid]⟩
    simp only [CloudGraphAddFamily, this, if_true]
  · intro h
    have : ¬ (cloud._families.any (fun g => f._id == g._id) = true) := by
      rw [List.any_eq_true]
      rintro ⟨g, hg, hid⟩
      exact h g hg (beq_iff_eq.mp hid).symm
    rw [CloudGraphAddFamily, if_neg this]
    exact ⟨rfl, rfl, rfl, rfl, rfl, rfl⟩

/-- C15: `CloudGraphGetNode` returns `n` exactly when `n` has the requested id
and no node before it in the order of the collection has it, and returns
nothing exactly when no node of the cloud has the id; the same holds of
`CloudGraphGetFamily` and the families. -/
theorem C15_lookup_first_match (cloud : CloudGraph F) (id : Int) :
    (∀ n, CloudGraphGetNode cloud id = some n ↔
      n._id = id ∧ ∃ before after, cloud._nodes = before ++ n :: after ∧
        ∀ m ∈ before, m._id ≠ id) ∧
    (CloudGraphGetNode cloud id = none ↔ ∀ n ∈ cloud._nodes, n._id ≠ id) ∧
    (∀ f, CloudGraphGetFamily cloud id = some f ↔
      f._id = id ∧ ∃ before after, cloud._families = before ++ f :: after ∧
        ∀ g ∈ before, g._id ≠ id) ∧
    (CloudGraphGetFamily cloud id = none ↔ ∀ f ∈ cloud._families, f._id ≠ id) := by
  refine ⟨?_, ?_, ?_, ?_⟩
  · intro n
    simp only [CloudGraphGetNode, List.find?_eq_some, beq_iff_eq, Bool.not_eq_true',
      beq_eq_false_iff_ne, ne_eq]
  · simp only [CloudGraphGetNode, List.find?_eq_none, beq_iff_eq, ne_eq]
  · intro f
    simp only [CloudGraphGetFamily, List.find?_eq_some, beq_iff_eq, Bool.not_eq_true',
      beq_eq_false_iff_ne, ne_eq]
  · simp only [CloudGraphGetFamily, List.find?_eq_none, beq_iff_eq, ne_eq]

end Claims15

/-- Witness of C13: the cloud `cloud3` has the family 0; adding a family 0
fails, adding a family 1 appends it. -/
theorem C13_add_family_witness :
    CloudGraphAddFamily (cloud3 ℚ) (exampleFamily ℚ 0 "g") = (false, cloud3 ℚ) ∧
    (CloudGraphAddFamily (cloud3 ℚ) (exampleFamily ℚ 1 "g")).1 = true ∧
    (CloudGraphAddFamily (cloud3 ℚ) (exampleFamily ℚ 1 "g")).2._families =
      [exampleFamily ℚ 0 "f", exampleFamily ℚ 1 "g"] := by
  obtain ⟨h1, -⟩ := C13_add_family (cloud3 ℚ) (exampleFamily ℚ 0 "g")
  obtain ⟨-, h2⟩ := C13_add_family (cloud3 ℚ) (exampleFamily ℚ 1 "g")
  refine ⟨h1 ⟨exampleFamily ℚ 0 "f", by simp [cloud3, exampleCloud], rfl⟩, ?_⟩
  obtain ⟨h3, h4, -⟩ := h2 (by simp [cloud3, exampleCloud, exampleFamily])
  exact ⟨h3, h4⟩

/-- Witness of C14: a link from 5 to 5 is refused; a link from 5 to 9 is added
to `cloud3`, which has no such nodes. -/
theorem C14_add_link_witness :
    CloudGraphAddLink (cloud3 ℚ) (exampleLink ℚ 5 5) = (false, cloud3 ℚ) ∧
    (CloudGraphAddLink (cloud3 ℚ) (exampleLink ℚ 5 9)).1 = true ∧
    (CloudGraphAddLink (cloud3 ℚ) (exampleLink ℚ 5 9)).2._links = [exampleLink ℚ 5 9] := by
  obtain ⟨h1, -, -⟩ := C14_add_link (cloud3 ℚ) (exampleLink ℚ 5 5)
  obtain ⟨-, -, h2⟩ := C14_add_link (cloud3 ℚ) (exampleLink ℚ 5 9)
  obtain ⟨h3, h4, -⟩ := h2 (by simp [exampleLink])
  exact ⟨h1 rfl, h3, h4⟩

/-- Witness of C15: in `cloudMixed` the id 2 resolves to the third node and
the id 7 does not resolve. -/
theorem C15_lookup_first_match_witness :
    CloudGraphGetNode (cloudMixed ℚ) 2 = some (exampleNode ℚ 2 1 "c") ∧
    CloudGraphGetNode (cloudMixed ℚ) 7 = none := by
  obtain ⟨h1, h2, -⟩ := C15_lookup_first_match (cloudMixed ℚ) 2
  obtain ⟨-, h3, -⟩ := C15_lookup_first_match (cloudMixed ℚ) 7
  constructor
  · rw [h1]
    refine ⟨rfl, [exampleNode ℚ 0 1 "a", exampleNode ℚ 1 0 "b"], [exampleNode ℚ 3 0 "d"], rfl,
      ?_⟩
    simp [exampleNode]
  · rw [h3]
    simp [cloudMixed, exampleCloud, exampleNode]

end CG
namespace CG
section Claims16a
variable {F : Type}

/-- In a list sorted by family by a stable sort of `N`, the first node with a
given id has the lowest family among the nodes with this id, and is the first
node with this id among the nodes of its family in `N`. -/
theorem first_in_sorted (S N : List (CloudGraphNode F)) (hperm : S.Perm N)
    (hsorted : S.Pairwise (fun a b => a._family ≤ b._family))
    (hstable : ∀ f : Int, S.filter (fun n => decide (n._family = f)) =
      N.filter (fun n => decide (n._family = f)))
    (id : Int) (a : CloudGraphNode F) (ha : S.find? (fun n => n._id == id) = some a) :
    (∀ n ∈ N, n._id = id → a._family ≤ n._family) ∧
    (N.filter (fun n => decide (n._family = a._family))).find? (fun n => n._id == id) =
      some a := by
  obtain ⟨hpa, as, bs, hS, has⟩ := List.find?_eq_some.mp ha
  constructor
  · intro n hn hid
    have hnS : n ∈ S := hperm.mem_iff.mpr hn
    rw [hS] at hnS hsorted
    rcases List.mem_append.mp hnS with h | h
    · have := has n h
      simp [hid] at this
    · rcases List.mem_cons.mp h with rfl | h
      · exact le_refl _
      · exact List.rel_of_pairwise_cons (List.pairwise_append.mp hsorted).2.1 h
  · rw [← hstable, hS, List.filter_append, List.find?_append]
    have h1 : ((as.filter (fun n => decide (n._family = a._family))).find?
        (fun n => n._id == id)) = none := by
      rw [List.find?_eq_none]
      intro x hx
      have := has x (List.mem_filter.mp hx).1
      simpa using this
    rw [h1, Option.none_or, List.filter_cons_of_pos (by simp)]
    simp only [List.find?_cons, hpa]

theorem find_same_identity :
    ∀ (l1 l2 : List (CloudGraphNode F)),
      l1.map (fun n => (n._id, n._family, n._label)) =
        l2.map (fun n => (n._id, n._family, n._label)) →
      ∀ (id : Int) (a : CloudGraphNode F), l1.find? (fun n => n._id == id) = some a →
        ∃ b, l2.find? (fun n => n._id == id) = some b ∧
          (a._id, a._family, a._label) = (b._id, b._family, b._label) := by
  intro l1
  induction l1 with
  | nil => intro l2 _ id a ha; cases ha
  | cons x xs ih =>
    intro l2 h id a ha
    cases l2 with
    | nil => cases h
    | cons y ys =>
      simp only [List.map_cons, List.cons.injEq] at h
      obtain ⟨hxy, hrest⟩ := h
      have hid : x._id = y._id := congrArg Prod.fst hxy
      by_cases hx : x._id = id
      · have hy : y._id = id := hid ▸ hx
        simp only [List.find?_cons, hx, beq_self_eq_true] at ha
        obtain rfl := Option.some.inj ha
        exact ⟨y, by simp only [List.find?_cons, hy, beq_self_eq_true], hxy⟩
      · have hy : ¬ y._id = id := hid ▸ hx
        have hxb : (x._id == id) = false := beq_eq_false_iff_ne.mpr hx
        have hyb : (y._id == id) = false := beq_eq_false_iff_ne.mpr hy
        simp only [List.find?_cons, hxb] at ha
        obtain ⟨b, hb, hab⟩ := ih ys hrest id a ha
        exact ⟨b, by simp only [List.find?_cons, hyb]; exact hb, hab⟩

end Claims16a

section Claims16
variable {F : Type} [LinearOrderedField F]

theorem addNodes_spec (nodes : List (CloudGraphNode F)) :
    ∀ cloud : CloudGraph F,
      (addNodes cloud nodes)._nodes =
        cloud._nodes ++ nodes.map (fun n : CloudGraphNode F => { n with _theta := 0 }) ∧
      (addNodes cloud nodes)._families = cloud._families ∧
      (addNodes cloud nodes)._links = cloud._links := by
  induction nodes with
  | nil => intro cloud; simp [addNodes]
  | cons n rest ih =>
    intro cloud
    obtain ⟨h1, h2, h3⟩ := ih (CloudGraphAddNode cloud n).2
    simp only [addNodes, List.foldl_cons] at h1 h2 h3 ⊢
    rw [h1, h2, h3]
    simp [CloudGraphAddNode, CloudGraphCreateNode]

end Claims16

/-- Counterexample to C16: two nodes of id 0 are added, the first of family 1
and the second of family 0; before `CloudGraphArrange` the id 0 resolves to the
first one, after it to the second one. -/
theorem C16_second_inserted_wins :
    (CloudGraphGetNode (cloudTwice ℝ) 0).map (fun n => n._label) = some (some "first") ∧
    ∃ cloud1,
      CloudGraphArrange (exampleExt ⟨Real.cos, Real.sin, Real.sqrt, Real.pi⟩) (cloudTwice ℝ)
        (exampleOpt ℝ CloudGraphMode.CloudGraphModeLine
          CloudGraphOptNodeLabel.CloudGraphOptNodeLabelNone
          CloudGraphOptFamilyLabel.CloudGraphOptFamilyLabelNone 10) = some cloud1 ∧
      (CloudGraphGetNode cloud1 0).map (fun n => n._label) = some (some "second") := by
  have hW : WellIndexed (cloudTwice ℝ) := by
    simp [WellIndexed, cloudTwice, addNodes, CloudGraphAddNode, exampleCloud, exampleNode,
      exampleFamily]
  constructor
  · simp [CloudGraphGetNode, cloudTwice, addNodes, CloudGraphAddNode, exampleCloud,
      exampleNode]
  · refine ⟨_, arrange_line_spec _ _ _ rfl hW, ?_⟩
    rw [getNode_update]
    norm_num [CloudGraphGetNode, lineLayout, lineNodes, CloudGraphSortNodeByFamily, GSetSort,
      List.orderedInsert, cloudTwice, addNodes, CloudGraphAddNode, exampleCloud, exampleNode,
      List.iterate, lineNode, boxNode]

end CG
namespace CG

/-- What `fscanf(stream, "%d", &n)` returns and leaves when the stream holds
an integer. -/
theorem fscanf_d_one (s : List Char) (v : Int) (rest : List Char)
    (h : scanInt s = ScanInt.value v rest) :
    fscanf_d 1 false s = some { ret := 1, vals := [v], rest := rest } := by
  simp [fscanf_d, scanInts, h]

section Claims17
variable {F : Type} [LinearOrderedField F]

/-- C17: called with a cloud and a stream, `CloudGraphLoad` returns 3 and
leaves `*cloud` freed (`NULL`) when the number of families declared in the
stream is at most 0; when, the families being loaded, the number of nodes
declared is at most 0; and when, the families and the nodes being loaded, the
number of links declared is negative. -/
theorem C17_bad_count_is_invalid_data (tgaFontDefault : TGAFont F) (cloud : CloudGraph F)
    (s : List Char) :
    (∀ (v : Int) (rest : List Char), scanInt s = ScanInt.value v rest → v ≤ 0 →
      CloudGraphLoad tgaFontDefault (some cloud) (some s) = some (3, none)) ∧
    (∀ (st1 : LoadLocals F) (v : Int) (rest : List Char),
      loadFamilies (loadStart tgaFontDefault s) = LoadStep.go st1 →
      scanInt st1.stream = ScanInt.value v rest → v ≤ 0 →
      CloudGraphLoad tgaFontDefault (some cloud) (some s) = some (3, none)) ∧
    (∀ (st1 st2 : LoadLocals F) (v : Int) (rest : List Char),
      loadFamilies (loadStart tgaFontDefault s) = LoadStep.go st1 →
      loadNodes st1 = LoadStep.go st2 →
      scanInt st2.stream = ScanInt.value v rest → v < 0 →
      CloudGraphLoad tgaFontDefault (some cloud) (some s) = some (3, none)) := by
  refine ⟨?_, ?_, ?_⟩
  · intro v rest hs hv
    have h1 : loadFamilies (loadStart tgaFontDefault s) = LoadStep.stop 3 := by
      simp only [loadFamilies]
      rw [show (loadStart tgaFontDefault s).stream = s from rfl, fscanf_d_one s v rest hs]
      simp [EOF, hv]
    simp only [CloudGraphLoad, loadRun, h1]
  · intro st1 v rest h1 hs hv
    have h2 : loadNodes st1 = LoadStep.stop 3 := by
      simp only [loadNodes]
      rw [fscanf_d_one _ v rest hs]
      simp [EOF, hv]
    simp only [CloudGraphLoad, loadRun, h1, h2]
  · intro st1 st2 v rest h1 h2 hs hv
    have h3 : loadLinks st2 = LoadStep.stop 3 := by
      simp only [loadLinks]
      rw [fscanf_d_one _ v rest hs]
      simp [EOF, hv]
    simp only [CloudGraphLoad, loadRun, h1, h2, h3]

/-- C19: one family is declared and the stream ends there: the read of the
family row fails at the end of the stream, and `CloudGraphLoad` returns 3, the
code of invalid data, where the reads of the three counts return 4. -/
theorem C19_row_read_failure_returns_3 (tgaFontDefault : TGAFont F) (cloud : CloudGraph F) :
    fscanf_d 4 true "\n".toList = some { ret := EOF, vals := [], rest := [] } ∧
    CloudGraphLoad tgaFontDefault (some cloud) (some "1\n".toList) = some (3, none) ∧
    CloudGraphLoad tgaFontDefault (some cloud) (some "".toList) = some (4, none) :=
  ⟨rfl, rfl, rfl⟩

/-- C20: two links are declared and the stream ends after the first link row:
`CloudGraphLoad` returns 0 with a cloud in which the link of the first row
appears twice. -/
theorem C20_missing_link_row_accepted (tgaFontDefault : TGAFont F) (cloud : CloudGraph F) :
    (CloudGraphLoad tgaFontDefault (some cloud)
      (some "1\n0 0 0 0 f\n2\n0 0 a\n1 0 b\n2\n0 1\n".toList)).map
      (fun r => (r.1, r.2.map (fun c => c._links.map (fun l => (l._nodes0, l._nodes1))))) =
      some (0, some [(0, 1), (0, 1)]) :=
  rfl

end Claims17

/-- Witness of C17 on three streams. -/
theorem C17_bad_count_is_invalid_data_witness :
    CloudGraphLoad (exampleCloud ℚ [] [] [])._font (some (exampleCloud ℚ [] [] []))
      (some "0\n".toList) = some (3, none) ∧
    CloudGraphLoad (exampleCloud ℚ [] [] [])._font (some (exampleCloud ℚ [] [] []))
      (some "1\n0 1 2 3 f\n0\n".toList) = some (3, none) ∧
    CloudGraphLoad (exampleCloud ℚ [] [] [])._font (some (exampleCloud ℚ [] [] []))
      (some "1\n0 1 2 3 f\n1\n0 0 a\n-1\n".toList) = some (3, none) :=
  ⟨(C17_bad_count_is_invalid_data _ _ _).1 0 _ rfl (by decide),
   (C17_bad_count_is_invalid_data _ _ _).2.1 _ 0 _ rfl rfl (by decide),
   (C17_bad_count_is_invalid_data _ _ _).2.2 _ _ (-1) _ rfl rfl rfl (by decide)⟩

end CG
namespace CG

theorem toUChar_of_range (v : Int) (h0 : 0 ≤ v) (h1 : v ≤ 255) :
    toUChar v = v.toNat ∧ toUChar v ≤ 255 := by
  unfold toUChar
  have : v % 256 = v := Int.emod_eq_of_lt h0 (by omega)
  rw [this]
  exact ⟨rfl, by omega⟩

/-- A `for` loop of the loader keeps what each of its iterations keeps. -/
theorem loadLoop_inv {α : Type} (body : α → LoadStep α) (Q : Nat → α → Prop)
    (hstep : ∀ k st st1, Q k st → body st = LoadStep.go st1 → Q (k + 1) st1) :
    ∀ (n k : Nat) (st st1 : α), Q k st → loadLoop body n st = LoadStep.go st1 →
      Q (k + n) st1 := by
  intro n
  induction n with
  | zero =>
    intro k st st1 hQ h
    cases h
    exact hQ
  | succ n ih =>
    intro k st st1 hQ h
    unfold loadLoop at h
    split at h
    · cases h
    · cases h
    · rename_i st2 hb
      have := ih (k + 1) st2 st1 (hstep k st st2 hQ hb) h
      rwa [Nat.add_assoc, Nat.add_comm 1 n] at this

/-- What `fscanf(stream, "%d", &n)` read when it converted a value. -/
theorem fscanf_d_one_value (s : List Char) (out : ScanOut) (v : Int) (vs : List Int)
    (h : fscanf_d 1 false s = some out) (hv : out.vals = v :: vs) :
    scanInt s = ScanInt.value v out.rest := by
  unfold fscanf_d at h
  split at h
  · cases h
  · rename_i vs1 rest e hsc
    cases h
    simp only at hv
    subst hv
    unfold scanInts at hsc
    split at hsc
    · cases hsc
    · cases hsc
    · cases hsc
    · rename_i v1 rest1 hs
      simp only [scanInts] at hsc
      cases hsc
      simpa using hs

section LoadFamilyStep
variable {F : Type}

/-- What one iteration of the loop on the families does when it goes on. -/
theorem loadFamily_go (st st1 : LoadLocals F) (h : loadFamily st = LoadStep.go st1) :
    ∃ (out : ScanOut) (f : CloudGraphFamily F),
      fscanf_d 4 true st.stream = some out ∧
      st1.cloud._families = st.cloud._families ++ [f] ∧
      st1.cloud._nodes = st.cloud._nodes ∧ st1.cloud._links = st.cloud._links ∧
      (∀ g ∈ st.cloud._families, g._id ≠ f._id) ∧
      f._id = out.vals.getD 0 st.family._id ∧
      0 ≤ f._id ∧ f._id < st.nbFamily ∧
      (0 ≤ out.vals.getD 1 st.rgb0 ∧ out.vals.getD 1 st.rgb0 ≤ 255) ∧
      (0 ≤ out.vals.getD 2 st.rgb1 ∧ out.vals.getD 2 st.rgb1 ≤ 255) ∧
      (0 ≤ out.vals.getD 3 st.rgb2 ∧ out.vals.getD 3 st.rgb2 ≤ 255) ∧
      f._rgba = ((st.family._rgba.set 2 (toUChar (out.vals.getD 3 st.rgb2))).set 1
        (toUChar (out.vals.getD 2 st.rgb1))).set 0 (toUChar (out.vals.getD 1 st.rgb0)) ∧
      st1.family._rgba = f._rgba ∧
      st1.nbFamily = st.nbFamily ∧ st1.nbNode = st.nbNode := by
  unfold loadFamily at h
  split at h
  · cases h
  · rename_i out hout
    simp only at h
    split at h
    · cases h
    · rename_i hcond
      split at h
      · cases h
      · split at h
        · cases h
        · split at h
          · cases h
          · rename_i cloud hadd
            cases h
            unfold CloudGraphAddFamily at hadd
            split at hadd
            · cases hadd
            · rename_i hany
              obtain rfl := (Prod.mk.inj hadd).2
              simp only [not_or, not_lt, ge_iff_le, gt_iff_lt, not_le] at hcond
              obtain ⟨-, c1, c2, c3, c4, c5, c6, c7, c8⟩ := hcond
              refine ⟨out, _, hout, rfl, rfl, rfl, ?_, rfl, c1, c2, ⟨c3, c4⟩, ⟨c5, c6⟩,
                ⟨c7, c8⟩, rfl, rfl, rfl, rfl⟩
              intro g hg hgid
              apply hany
              rw [List.any_eq_true]
              exact ⟨g, hg, by simp [hgid]⟩

end LoadFamilyStep

section LoadSteps
variable {F : Type} [LinearOrderedField F]

/-- What one iteration of the loop on the nodes does when it goes on. -/
theorem loadNode_go (st st1 : LoadLocals F) (h : loadNode st = LoadStep.go st1) :
    ∃ n : CloudGraphNode F,
      st1.cloud._nodes = st.cloud._nodes ++ [n] ∧
      st1.cloud._families = st.cloud._families ∧ st1.cloud._links = st.cloud._links ∧
      0 ≤ n._id ∧ n._id < st.nbNode ∧ 0 ≤ n._family ∧ n._family < st.nbFamily ∧
      st1.nbFamily = st.nbFamily ∧ st1.nbNode = st.nbNode := by
  unfold loadNode at h
  split at h
  · cases h
  · rename_i out hout
    simp only at h
    split at h
    · cases h
    · rename_i hcond
      split at h
      · cases h
      · split at h
        · cases h
        · split at h
          · cases h
          · rename_i cloud hadd
            cases h
            obtain rfl := (Prod.mk.inj hadd).2
            simp only [not_or, not_lt, ge_iff_le, not_le] at hcond
            obtain ⟨-, c1, c2, c3, c4⟩ := hcond
            exact ⟨_, rfl, rfl, rfl, c1, c2, c3, c4, rfl, rfl⟩

/-- What one iteration of the loop on the links does when it goes on. -/
theorem loadLink_go (st st1 : LoadLocals F) (h : loadLink st = LoadStep.go st1) :
    ∃ l : CloudGraphLink F,
      st1.cloud._links = st.cloud._links ++ [l] ∧
      st1.cloud._families = st.cloud._families ∧ st1.cloud._nodes = st.cloud._nodes ∧
      l._nodes0 ≠ l._nodes1 ∧ 0 ≤ l._nodes0 ∧ l._nodes0 < st.nbNode ∧
      0 ≤ l._nodes1 ∧ l._nodes1 < st.nbNode ∧
      st1.nbFamily = st.nbFamily ∧ st1.nbNode = st.nbNode ∧ st1.nbLink = st.nbLink := by
  unfold loadLink at h
  split at h
  · cases h
  · rename_i out hout
    simp only at h
    split at h
    · cases h
    · rename_i hcond
      split at h
      · cases h
      · rename_i cloud hadd
        cases h
        unfold CloudGraphAddLink at hadd
        split at hadd
        · cases hadd
        · rename_i hne
          obtain rfl := (Prod.mk.inj hadd).2
          simp only [not_or, not_lt, ge_iff_le, not_le] at hcond
          obtain ⟨c1, c2, c3, c4⟩ := hcond
          exact ⟨_, rfl, rfl, rfl, hne, c1, c2, c3, c4, rfl, rfl, rfl⟩

end LoadSteps
end CG
namespace CG

/-- Pairwise distinct integers of `[0, N)`, `N` of them, are all of `[0, N)`. -/
theorem ids_cover (ids : List Int) (N : Int) (hnd : ids.Nodup) (hlen : (ids.length : Int) = N)
    (hr : ∀ i ∈ ids, 0 ≤ i ∧ i < N) (v : Int) (h0 : 0 ≤ v) (h1 : v < N) : v ∈ ids := by
  have hsub : ids.toFinset ⊆ Finset.Ico 0 N := by
    intro i hi
    rw [List.mem_toFinset] at hi
    rw [Finset.mem_Ico]
    exact hr i hi
  have hcard : (Finset.Ico 0 N).card ≤ ids.toFinset.card := by
    rw [List.toFinset_card_of_nodup hnd, Int.card_Ico]
    omega
  have heq := Finset.eq_of_subset_of_card_le hsub hcard
  have : v ∈ ids.toFinset := by
    rw [heq, Finset.mem_Ico]
    exact ⟨h0, h1⟩
  exact List.mem_toFinset.mp this

section LoadParts
variable {F : Type} [LinearOrderedField F]

/-- What the part of the loader on the families leaves when it goes on. -/
theorem loadFamilies_go (tgaFontDefault : TGAFont F) (s : List Char) (st1 : LoadLocals F)
    (h : loadFamilies (loadStart tgaFontDefault s) = LoadStep.go st1) :
    (∃ rest, scanInt s = ScanInt.value st1.nbFamily rest) ∧ 1 ≤ st1.nbFamily ∧
    (st1.cloud._families.length : Int) = st1.nbFamily ∧
    (st1.cloud._families.map (fun f => f._id)).Nodup ∧
    (∀ f ∈ st1.cloud._families, 0 ≤ f._id ∧ f._id < st1.nbFamily ∧
      ∃ r g b : Nat, r ≤ 255 ∧ g ≤ 255 ∧ b ≤ 255 ∧ f._rgba = [r, g, b, 255]) ∧
    st1.cloud._nodes = [] ∧ st1.cloud._links = [] := by
  unfold loadFamilies at h
  split at h
  · cases h
  · rename_i out hout
    simp only at h
    split at h
    · cases h
    · split at h
      · cases h
      · rename_i hret hpos
        rw [not_le] at hpos
        obtain ⟨v, vs, hv⟩ : ∃ v vs, out.vals = v :: vs := by
          cases hvals : out.vals with
          | nil => rw [hvals] at hpos; simp at hpos
          | cons v vs => exact ⟨v, vs, rfl⟩
        have hscan := fscanf_d_one_value _ out v vs hout hv
        rw [hv] at h hpos
        simp only [List.getD_cons_zero] at h hpos
        have key := loadLoop_inv loadFamily
          (fun (k : Nat) (st : LoadLocals F) =>
            st.cloud._families.length = k ∧
            (st.cloud._families.map (fun f => f._id)).Nodup ∧
            (∀ f ∈ st.cloud._families, 0 ≤ f._id ∧ f._id < v ∧
              ∃ r g b : Nat, r ≤ 255 ∧ g ≤ 255 ∧ b ≤ 255 ∧ f._rgba = [r, g, b, 255]) ∧
            (∃ r g b : Nat, r ≤ 255 ∧ g ≤ 255 ∧ b ≤ 255 ∧ st.family._rgba = [r, g, b, 255]) ∧
            st.cloud._nodes = [] ∧ st.cloud._links = [] ∧ st.nbFamily = v)
          (by
            rintro k st st2 ⟨q1, q2, q3, ⟨r, g, b, -, -, -, q4⟩, q5, q6, q7⟩ hgo
            obtain ⟨o, f, -, p1, p2, p3, p4, -, p5, p6, ⟨a1, a2⟩, ⟨b1, b2⟩, ⟨c1, c2⟩, p7, p8,
              p9, -⟩ := loadFamily_go st st2 hgo
            have hrgba : f._rgba = [toUChar (o.vals.getD 1 st.rgb0),
                toUChar (o.vals.getD 2 st.rgb1), toUChar (o.vals.getD 3 st.rgb2), 255] := by
              rw [p7, q4]
              rfl
            have hok : ∃ r g b : Nat, r ≤ 255 ∧ g ≤ 255 ∧ b ≤ 255 ∧ f._rgba = [r, g, b, 255] :=
              ⟨_, _, _, (toUChar_of_range _ a1 a2).2, (toUChar_of_range _ b1 b2).2,
                (toUChar_of_range _ c1 c2).2, hrgba⟩
            refine ⟨by rw [p1, List.length_append, q1]; rfl, ?_, ?_, by rw [p8]; exact hok,
              by rw [p2, q5], by rw [p3, q6], by rw [p9, q7]⟩
            · rw [p1, List.map_append, List.nodup_append]
              refine ⟨q2, List.nodup_singleton _, ?_⟩
              intro a ha hb
              rw [List.map_singleton, List.mem_singleton] at hb
              obtain ⟨g0, hg0, rfl⟩ := List.mem_map.mp ha
              exact p4 g0 hg0 hb
            · intro f0 hf0
              rw [p1, List.mem_append, List.mem_singleton] at hf0
              rcases hf0 with hf0 | rfl
              · exact q3 f0 hf0
              · exact ⟨p5, by rw [← q7]; exact p6, hok⟩)
          v.toNat 0 _ st1
          (by exact ⟨rfl, List.nodup_nil, fun f hf => absurd hf (List.not_mem_nil f),
            ⟨0, 0, 0, by omega, by omega, by omega, rfl⟩, rfl, rfl, rfl⟩) h
        obtain ⟨k1, k2, k3, -, k5, k6, k7⟩ := key
        rw [k7]
        refine ⟨⟨_, hscan⟩, by omega, by rw [k1]; omega, k2, k3, k5, k6⟩

/-- What the part of the loader on the nodes leaves when it goes on. -/
theorem loadNodes_go (st st1 : LoadLocals F) (h : loadNodes st = LoadStep.go st1) :
    (∃ rest, scanInt st.stream = ScanInt.value st1.nbNode rest) ∧ 1 ≤ st1.nbNode ∧
    st1.cloud._families = st.cloud._families ∧ st1.cloud._links = st.cloud._links ∧
    st1.nbFamily = st.nbFamily ∧
    ∃ ns : List (CloudGraphNode F), st1.cloud._nodes = st.cloud._nodes ++ ns ∧
      (ns.length : Int) = st1.nbNode ∧
      ∀ n ∈ ns, 0 ≤ n._id ∧ n._id < st1.nbNode ∧ 0 ≤ n._family ∧ n._family < st.nbFamily := by
  unfold loadNodes at h
  split at h
  · cases h
  · rename_i out hout
    simp only at h
    split at h
    · cases h
    · split at h
      · cases h
      · rename_i hret hpos
        rw [not_le] at hpos
        obtain ⟨v, vs, hv⟩ : ∃ v vs, out.vals = v :: vs := by
          cases hvals : out.vals with
          | nil => rw [hvals] at hpos; simp at hpos
          | cons v vs => exact ⟨v, vs, rfl⟩
        have hscan := fscanf_d_one_value _ out v vs hout hv
        rw [hv] at h hpos
        simp only [List.getD_cons_zero] at h hpos
        have key := loadLoop_inv loadNode
          (fun (k : Nat) (st2 : LoadLocals F) =>
            st2.cloud._families = st.cloud._families ∧ st2.cloud._links = st.cloud._links ∧
            st2.nbFamily = st.nbFamily ∧ st2.nbNode = v ∧
            ∃ ns : List (CloudGraphNode F), st2.cloud._nodes = st.cloud._nodes ++ ns ∧
              ns.length = k ∧
              ∀ n ∈ ns, 0 ≤ n._id ∧ n._id < v ∧ 0 ≤ n._family ∧ n._family < st.nbFamily)
          (by
            rintro k st2 st3 ⟨q1, q2, q3, q4, ns, q5, q6, q7⟩ hgo
            obtain ⟨n, p1, p2, p3, p4, p5, p6, p7, p8, p9⟩ := loadNode_go st2 st3 hgo
            refine ⟨by rw [p2, q1], by rw [p3, q2], by rw [p8, q3], by rw [p9, q4],
              ns ++ [n], by rw [p1, q5, List.append_assoc],
              by rw [List.length_append, q6]; rfl, ?_⟩
            intro n0 hn0
            rw [List.mem_append, List.mem_singleton] at hn0
            rcases hn0 with hn0 | rfl
            · exact q7 n0 hn0
            · exact ⟨p4, by rw [← q4]; exact p5, p6, by rw [← q3]; exact p7⟩)
          v.toNat 0 _ st1
          (by exact ⟨rfl, rfl, rfl, rfl, [], (List.append_nil _).symm, rfl,
            fun n hn => absurd hn (List.not_mem_nil n)⟩) h
        obtain ⟨k1, k2, k3, k4, ns, k5, k6, k7⟩ := key
        rw [k4]
        exact ⟨⟨_, hscan⟩, by omega, k1, k2, k3, ns, k5, by rw [k6]; omega, k7⟩

/-- What the part of the loader on the links leaves when it goes on. -/
theorem loadLinks_go (st st1 : LoadLocals F) (h : loadLinks st = LoadStep.go st1) :
    (∃ rest, scanInt st.stream = ScanInt.value st1.nbLink rest) ∧ 0 ≤ st1.nbLink ∧
    st1.cloud._families = st.cloud._families ∧ st1.cloud._nodes = st.cloud._nodes ∧
    st1.nbFamily = st.nbFamily ∧ st1.nbNode = st.nbNode ∧
    ∃ ls : List (CloudGraphLink F), st1.cloud._links = st.cloud._links ++ ls ∧
      (ls.length : Int) = st1.nbLink ∧
      ∀ l ∈ ls, l._nodes0 ≠ l._nodes1 ∧ 0 ≤ l._nodes0 ∧ l._nodes0 < st.nbNode ∧
        0 ≤ l._nodes1 ∧ l._nodes1 < st.nbNode := by
  unfold loadLinks at h
  split at h
  · cases h
  · rename_i out hout
    split at h
    · cases h
    · split at h
      · cases h
      · rename_i hret v vs hv
        split at h
        · cases h
        · rename_i hpos
          rw [not_lt] at hpos
          have hscan := fscanf_d_one_value _ out v vs hout hv
          have key := loadLoop_inv loadLink
            (fun (k : Nat) (st2 : LoadLocals F) =>
              st2.cloud._families = st.cloud._families ∧ st2.cloud._nodes = st.cloud._nodes ∧
              st2.nbFamily = st.nbFamily ∧ st2.nbNode = st.nbNode ∧ st2.nbLink = v ∧
              ∃ ls : List (CloudGraphLink F), st2.cloud._links = st.cloud._links ++ ls ∧
                ls.length = k ∧
                ∀ l ∈ ls, l._nodes0 ≠ l._nodes1 ∧ 0 ≤ l._nodes0 ∧ l._nodes0 < st.nbNode ∧
                  0 ≤ l._nodes1 ∧ l._nodes1 < st.nbNode)
            (by
              rintro k st2 st3 ⟨q1, q2, q3, q4, q5, ls, q6, q7, q8⟩ hgo
              obtain ⟨l, p1, p2, p3, p4, p5, p6, p7, p8, p9, p10, p11⟩ :=
                loadLink_go st2 st3 hgo
              refine ⟨by rw [p2, q1], by rw [p3, q2], by rw [p9, q3], by rw [p10, q4],
                by rw [p11, q5], ls ++ [l], by rw [p1, q6, List.append_assoc],
                by rw [List.length_append, q7]; rfl, ?_⟩
              intro l0 hl0
              rw [List.mem_append, List.mem_singleton] at hl0
              rcases hl0 with hl0 | rfl
              · exact q8 l0 hl0
              · exact ⟨p4, p5, by rw [← q4]; exact p6, p7, by rw [← q4]; exact p8⟩)
            v.toNat 0 _ st1
            (by exact ⟨rfl, rfl, rfl, rfl, rfl, [], (List.append_nil _).symm, rfl,
              fun l hl => absurd hl (List.not_mem_nil l)⟩) h
          obtain ⟨k1, k2, k3, k4, k5, ls, k6, k7, k8⟩ := key
          rw [k5]
          exact ⟨⟨_, hscan⟩, hpos, k1, k2, k3, k4, ls, k6, by rw [k7]; omega, k8⟩

end LoadParts
end CG
namespace CG
section LoadContract
variable {F : Type} [LinearOrderedField F]

/-- A call of `CloudGraphLoad` that returns 0 ran its three parts to the end. -/
theorem load_success (tgaFontDefault : TGAFont F) (cloud : CloudGraph F) (s : List Char)
    (g : CloudGraph F)
    (h : CloudGraphLoad tgaFontDefault (some cloud) (some s) = some (0, some g)) :
    ∃ st1 st2 st3 : LoadLocals F,
      loadFamilies (loadStart tgaFontDefault s) = LoadStep.go st1 ∧
      loadNodes st1 = LoadStep.go st2 ∧ loadLinks st2 = LoadStep.go st3 ∧ g = st3.cloud := by
  simp only [CloudGraphLoad, loadRun] at h
  cases h1 : loadFamilies (loadStart tgaFontDefault s) with
  | undefined => rw [h1] at h; cases h
  | stop code => rw [h1] at h; cases h
  | go st1 =>
    rw [h1] at h
    simp only at h
    cases h2 : loadNodes st1 with
    | undefined => rw [h2] at h; cases h
    | stop code => rw [h2] at h; cases h
    | go st2 =>
      rw [h2] at h
      simp only at h
      cases h3 : loadLinks st2 with
      | undefined => rw [h3] at h; cases h
      | stop code => rw [h3] at h; cases h
      | go st3 =>
        rw [h3] at h
        cases h
        exact ⟨st1, st2, st3, rfl, h2, h3, rfl⟩

/-- The cloud left by the three parts of the loader satisfies the data
contract for the three numbers read. -/
theorem load_contract (tgaFontDefault : TGAFont F) (s : List Char) (st1 st2 st3 : LoadLocals F)
    (h1 : loadFamilies (loadStart tgaFontDefault s) = LoadStep.go st1)
    (h2 : loadNodes st1 = LoadStep.go st2) (h3 : loadLinks st2 = LoadStep.go st3) :
    (∃ rest, scanInt s = ScanInt.value st3.nbFamily rest) ∧
    (∃ rest, scanInt st1.stream = ScanInt.value st3.nbNode rest) ∧
    (∃ rest, scanInt st2.stream = ScanInt.value st3.nbLink rest) ∧
    DataContract st3.nbFamily st3.nbNode st3.nbLink st3.cloud := by
  obtain ⟨a1, a2, a3, a4, a5, a6, a7⟩ := loadFamilies_go tgaFontDefault s st1 h1
  obtain ⟨b1, b2, b3, b4, b5, ns, b6, b7, b8⟩ := loadNodes_go st1 st2 h2
  obtain ⟨c1, c2, c3, c4, c5, c6, ls, c7, c8, c9⟩ := loadLinks_go st2 st3 h3
  have hF : st3.nbFamily = st1.nbFamily := by rw [c5, b5]
  have hfam : st3.cloud._families = st1.cloud._families := by rw [c3, b3]
  have hnodes : st3.cloud._nodes = ns := by rw [c4, b6, a6, List.nil_append]
  have hlinks : st3.cloud._links = ls := by rw [c7, b4, a7, List.nil_append]
  rw [hF, c6]
  refine ⟨a1, b1, c1, a2, b2, c2, by rw [hfam]; exact a3, by rw [hnodes]; exact b7,
    by rw [hlinks]; exact c8, by rw [hfam]; exact a4, by rw [hfam]; exact a5, ?_, ?_⟩
  · intro n hn
    rw [hnodes] at hn
    obtain ⟨n1, n2, n3, n4⟩ := b8 n hn
    refine ⟨n1, n2, ?_⟩
    have hmem := ids_cover _ st1.nbFamily a4 (by rw [List.length_map]; exact a3)
      (fun i hi => by
        obtain ⟨f, hf, rfl⟩ := List.mem_map.mp hi
        exact ⟨(a5 f hf).1, (a5 f hf).2.1⟩) n._family n3 n4
    obtain ⟨f, hf, hfid⟩ := List.mem_map.mp hmem
    exact ⟨f, by rw [hfam]; exact hf, hfid⟩
  · intro l hl
    rw [hlinks] at hl
    exact c9 l hl

end LoadContract

section LoadRow
variable {F : Type}

/-- A family row that holds its four numbers gives the family its id and its
colour. -/
theorem loadFamily_row (st st1 : LoadLocals F) (id r g b : Int) (rest : List Char)
    (r0 g0 b0 alpha : Nat)
    (hrow : scanInts 4 st.stream = some ([id, r, g, b], rest, false))
    (hrgba : st.family._rgba = [r0, g0, b0, alpha])
    (h : loadFamily st = LoadStep.go st1) :
    ∃ f : CloudGraphFamily F, st1.cloud._families = st.cloud._families ++ [f] ∧ f._id = id ∧
      (0 ≤ r ∧ r ≤ 255) ∧ (0 ≤ g ∧ g ≤ 255) ∧ (0 ≤ b ∧ b ≤ 255) ∧
      f._rgba = [r.toNat, g.toNat, b.toNat, alpha] := by
  obtain ⟨out, f, hout, p1, -, -, -, p2, -, -, hr, hg, hb, p3, -, -, -⟩ := loadFamily_go st st1 h
  have hvals : out.vals = [id, r, g, b] := by
    unfold fscanf_d at hout
    rw [hrow] at hout
    simp only [Option.some.injEq] at hout
    rw [← hout]
  rw [hvals] at p2 p3 hr hg hb
  simp only [List.getD_cons_zero, List.getD_cons_succ] at p2 p3 hr hg hb
  refine ⟨f, p1, p2, hr, hg, hb, ?_⟩
  rw [p3, hrgba, (toUChar_of_range r hr.1 hr.2).1, (toUChar_of_range g hg.1 hg.2).1,
    (toUChar_of_range b hb.1 hb.2).1]
  rfl

end LoadRow
end CG
namespace CG
section Claims18
variable {F : Type} [LinearOrderedField F]

/-- C18, as amended: when `CloudGraphLoad`, called with a cloud and a stream,
returns 0, the three numbers declared in the stream (read before the family
rows, before the node rows and before the link rows) and the cloud returned
satisfy the data contract: the cloud has exactly these numbers of families
(at least 1), nodes (at least 1) and links (at least 0); the family ids are
pairwise distinct and in `[0, familyCount)`; every family colour is
`(r, g, b, 255)` with `r`, `g`, `b` in `[0, 255]`; every node id is in
`[0, nodeCount)`; every node's family is the id of a family of the cloud; every
link has two distinct node ids in `[0, nodeCount)`. A family row that holds
its four numbers gives the family added this id and these three colour
components. -/
theorem C18_load_contract (tgaFontDefault : TGAFont F) (cloud : CloudGraph F) (s : List Char)
    (g : CloudGraph F)
    (h : CloudGraphLoad tgaFontDefault (some cloud) (some s) = some (0, some g)) :
    (∃ (st1 st2 : LoadLocals F) (nbFamily nbNode nbLink : Int) (r1 r2 r3 : List Char),
      loadFamilies (loadStart tgaFontDefault s) = LoadStep.go st1 ∧
      loadNodes st1 = LoadStep.go st2 ∧
      scanInt s = ScanInt.value nbFamily r1 ∧
      scanInt st1.stream = ScanInt.value nbNode r2 ∧
      scanInt st2.stream = ScanInt.value nbLink r3 ∧
      DataContract nbFamily nbNode nbLink g) ∧
    (∀ (st st1 : LoadLocals F) (id r g b : Int) (rest : List Char) (r0 g0 b0 alpha : Nat),
      scanInts 4 st.stream = some ([id, r, g, b], rest, false) →
      st.family._rgba = [r0, g0, b0, alpha] →
      loadFamily st = LoadStep.go st1 →
      ∃ f : CloudGraphFamily F, st1.cloud._families = st.cloud._families ++ [f] ∧
        f._id = id ∧ f._rgba = [r.toNat, g.toNat, b.toNat, alpha]) := by
  constructor
  · obtain ⟨st1, st2, st3, h1, h2, h3, rfl⟩ := load_success tgaFontDefault cloud s g h
    obtain ⟨⟨r1, a1⟩, ⟨r2, a2⟩, ⟨r3, a3⟩, hc⟩ := load_contract tgaFontDefault s st1 st2 st3 h1 h2 h3
    exact ⟨st1, st2, _, _, _, r1, r2, r3, h1, h2, a1, a2, a3, hc⟩
  · intro st st1 id r g b rest r0 g0 b0 alpha hrow hrgba hgo
    obtain ⟨f, p1, p2, -, -, -, p3⟩ := loadFamily_row st st1 id r g b rest r0 g0 b0 alpha hrow
      hrgba hgo
    exact ⟨f, p1, p2, p3⟩

end Claims18

/-- Counterexample to C18: the only family row holds the id 0 and no colour;
the read of the row converts the id alone, and `CloudGraphLoad` returns 0 with
a family of colour `(0, 0, 0, 255)`, which was not read. -/
theorem C18_colour_not_read :
    scanInts 4 "\n0 red\n1\n0 0 a\n0\n".toList =
      some ([0], "red\n1\n0 0 a\n0\n".toList, false) ∧
    (CloudGraphLoad (exampleCloud ℚ [] [] [])._font (some (exampleCloud ℚ [] [] []))
      (some "1\n0 red\n1\n0 0 a\n0\n".toList)).map
      (fun r => (r.1, r.2.map (fun c => c._families.map (fun f => (f._id, f._rgba, f._label))))) =
      some (0, some [(0, [0, 0, 0, 255], some "red")]) :=
  ⟨rfl, rfl⟩

/-- Witness of the amended C18 on a stream of two families, three nodes and
two links. -/
theorem C18_load_contract_witness :
    ∃ g : CloudGraph ℚ,
      CloudGraphLoad (exampleCloud ℚ [] [] [])._font (some (exampleCloud ℚ [] [] []))
        (some "2\n0 255 0 0 Red fam\n1 0 0 255 Blue\n3\n0 0 a\n1 1 b\n2 0 c\n2\n0 1\n1 2\n".toList) =
        some (0, some g) ∧
      ∃ nbFamily nbNode nbLink : Int, DataContract nbFamily nbNode nbLink g := by
  have hr : (CloudGraphLoad (exampleCloud ℚ [] [] [])._font (some (exampleCloud ℚ [] [] []))
      (some "2\n0 255 0 0 Red fam\n1 0 0 255 Blue\n3\n0 0 a\n1 1 b\n2 0 c\n2\n0 1\n1 2\n".toList)).map
      (fun r => (r.1, r.2.isSome)) = some (0, true) := rfl
  cases hL : CloudGraphLoad (exampleCloud ℚ [] [] [])._font (some (exampleCloud ℚ [] [] []))
      (some "2\n0 255 0 0 Red fam\n1 0 0 255 Blue\n3\n0 0 a\n1 1 b\n2 0 c\n2\n0 1\n1 2\n".toList) with
  | none => rw [hL] at hr; cases hr
  | some r =>
    obtain ⟨code, og⟩ := r
    rw [hL] at hr
    cases og with
    | none => simp at hr
    | some g =>
      have hcode : code = 0 := by simpa using hr
      subst hcode
      obtain ⟨⟨-, -, nbFamily, nbNode, nbLink, -, -, -, -, -, -, -, -, hc⟩, -⟩ :=
        C18_load_contract (exampleCloud ℚ [] [] [])._font (exampleCloud ℚ [] [] []) _ g hL
      exact ⟨g, rfl, nbFamily, nbNode, nbLink, hc⟩

end CG
namespace CG
section OptFields
variable {F : Type} [LinearOrderedField F]

/-- The loop on the nodes of `CloudGraphArrangeLine` reads the size of the font
of nodes only. -/
theorem arrangeLineNodes_congr (opt1 opt2 : CloudGraphOpt F)
    (h : opt1._fontSizeNode = opt2._fontSizeNode) :
    ∀ (nodes : List (CloudGraphNode F)) (iNode : Nat) (posFamily : List F) (nbFamily : List Int),
      arrangeLineNodes opt1 iNode nodes posFamily nbFamily =
        arrangeLineNodes opt2 iNode nodes posFamily nbFamily := by
  intro nodes
  induction nodes with
  | nil => intro iNode posFamily nbFamily; rfl
  | cons node rest ih =>
    intro iNode posFamily nbFamily
    simp only [arrangeLineNodes, h, ih]

theorem arrangeLineFamilies_congr (opt1 opt2 : CloudGraphOpt F)
    (h : opt1._fontSizeNode = opt2._fontSizeNode) (posFamily : List F) :
    ∀ families : List (CloudGraphFamily F),
      arrangeLineFamilies opt1 posFamily families = arrangeLineFamilies opt2 posFamily families := by
  intro families
  induction families with
  | nil => rfl
  | cons family rest ih => simp only [arrangeLineFamilies, h, ih]

theorem arrangeCircleFamilies_congr (m : PBMath F) (r : F) (opt1 opt2 : CloudGraphOpt F)
    (h : opt1._fontSizeNode = opt2._fontSizeNode) (posFamily : List F) :
    ∀ families : List (CloudGraphFamily F),
      arrangeCircleFamilies m r opt1 posFamily families =
        arrangeCircleFamilies m r opt2 posFamily families := by
  intro families
  induction families with
  | nil => rfl
  | cons family rest ih => simp only [arrangeCircleFamilies, h, ih]

theorem updateNodes_congr (ext : Ext F) (opt1 opt2 : CloudGraphOpt F)
    (h : opt1._fontSizeNode = opt2._fontSizeNode)
    (hl : opt1._nodeLabelMode = opt2._nodeLabelMode) :
    ∀ (nodes : List (CloudGraphNode F)) (font : TGAFont F) (maxLength : F),
      updateNodes ext opt1 nodes font maxLength = updateNodes ext opt2 nodes font maxLength := by
  intro nodes
  induction nodes with
  | nil => intro font maxLength; rfl
  | cons node rest ih =>
    intro font maxLength
    simp only [updateNodes, nodeBox, h, hl, ih]

theorem updateFamilies_congr (ext : Ext F) (opt1 opt2 : CloudGraphOpt F)
    (h : opt1._fontSizeNode = opt2._fontSizeNode)
    (hl : opt1._nodeLabelMode = opt2._nodeLabelMode)
    (hf : opt1._familyLabelMode = opt2._familyLabelMode) (maxLength : F) :
    ∀ (families : List (CloudGraphFamily F)) (font : TGAFont F),
      updateFamilies ext opt1 maxLength families font =
        updateFamilies ext opt2 maxLength families font := by
  intro families
  induction families with
  | nil => intro font; rfl
  | cons family rest ih =>
    intro font
    simp only [updateFamilies, h, hl, hf, ih]

/-- `CloudGraphUpdateBoundingBox` reads the size of the font of nodes and the
two modes of labels only. -/
theorem updateBoundingBox_congr (ext : Ext F) (cloud : CloudGraph F) (opt1 opt2 : CloudGraphOpt F)
    (h : opt1._fontSizeNode = opt2._fontSizeNode)
    (hl : opt1._nodeLabelMode = opt2._nodeLabelMode)
    (hf : opt1._familyLabelMode = opt2._familyLabelMode) :
    CloudGraphUpdateBoundingBox ext cloud opt1 = CloudGraphUpdateBoundingBox ext cloud opt2 := by
  simp only [CloudGraphUpdateBoundingBox, addBorder, h,
    updateNodes_congr ext opt1 opt2 h hl, updateFamilies_congr ext opt1 opt2 h hl hf]

/-- `CloudGraphArrange` reads the mode, the curvature, the size of the font of
nodes and the two modes of labels only. -/
theorem arrange_congr (ext : Ext F) (cloud : CloudGraph F) (opt1 opt2 : CloudGraphOpt F)
    (hm : opt1._mode = opt2._mode) (hc : opt1._curvature = opt2._curvature)
    (h : opt1._fontSizeNode = opt2._fontSizeNode)
    (hl : opt1._nodeLabelMode = opt2._nodeLabelMode)
    (hf : opt1._familyLabelMode = opt2._familyLabelMode) :
    CloudGraphArrange ext cloud opt1 = CloudGraphArrange ext cloud opt2 := by
  simp only [CloudGraphArrange, CloudGraphArrangeLine, CloudGraphArrangeCircle, hm, hc, h,
    arrangeLineNodes_congr opt1 opt2 h, arrangeLineFamilies_congr opt1 opt2 h,
    arrangeCircleFamilies_congr _ _ opt1 opt2 h, updateBoundingBox_congr ext _ opt1 opt2 h hl hf]

/-- C29: `CloudGraphArrange` does not read `_curvedLink`: with the flag set to
any value and the other options unchanged, the call has the same outcome and
returns the same cloud (positions, control points of the links and all
boxes). -/
theorem C29_curvedLink_ignored (ext : Ext F) (cloud : CloudGraph F) (opt : CloudGraphOpt F)
    (curved : Bool) :
    CloudGraphArrange ext cloud { opt with _curvedLink := curved } =
      CloudGraphArrange ext cloud opt :=
  arrange_congr ext cloud _ opt rfl rfl rfl rfl rfl

end OptFields
end CG
namespace CG

/-- C24: one family labelled "f" looking to the right, no node, the size of the
font of nodes 10: with the size of the font of families 20 or 40 the box of
the label of the family is the one of the font metrics at size 10 (first axis
`(5, 0)` for the scale `0.5`, second axis `(0, 10)`), the same in both cases. -/
theorem C24_family_box_uses_node_font_size :
    (CloudGraphUpdateBoundingBox (exampleExt ⟨Real.cos, Real.sin, Real.sqrt, Real.pi⟩)
        (cloudFamilyOnly ℝ)
        { exampleOpt ℝ CloudGraphMode.CloudGraphModeLine
            CloudGraphOptNodeLabel.CloudGraphOptNodeLabelNone
            CloudGraphOptFamilyLabel.CloudGraphOptFamilyLabelAll 10 with
          _fontSizeFamily := 20 })._families.map
      (fun f => f._boundingBox.map (fun b => (b._axis0, b._axis1))) =
        [some (⟨5, 0⟩, ⟨0, 10⟩)] ∧
    (CloudGraphUpdateBoundingBox (exampleExt ⟨Real.cos, Real.sin, Real.sqrt, Real.pi⟩)
        (cloudFamilyOnly ℝ)
        { exampleOpt ℝ CloudGraphMode.CloudGraphModeLine
            CloudGraphOptNodeLabel.CloudGraphOptNodeLabelNone
            CloudGraphOptFamilyLabel.CloudGraphOptFamilyLabelAll 10 with
          _fontSizeFamily := 40 })._families.map
      (fun f => f._boundingBox.map (fun b => (b._axis0, b._axis1))) =
        [some (⟨5, 0⟩, ⟨0, 10⟩)] ∧
    (exampleExt ⟨Real.cos, Real.sin, Real.sqrt, Real.pi⟩).TGAFontGetStringBound
        { (cloudFamilyOnly ℝ)._font with _size := 20, _right := ⟨1, 0⟩ } (some "f") =
      ⟨⟨0, 0⟩, ⟨10, 0⟩, ⟨0, 20⟩⟩ := by
  have hf : "f".length = 1 := rfl
  refine ⟨?_, ?_, ?_⟩
  · rw [updateBoundingBox_families]
    norm_num [cloudFamilyOnly, exampleCloud, exampleFamily, exampleOpt, boxFamily, exampleExt,
      VecOp, hf]
  · rw [updateBoundingBox_families]
    norm_num [cloudFamilyOnly, exampleCloud, exampleFamily, exampleOpt, boxFamily, exampleExt,
      VecOp, hf]
  · norm_num [cloudFamilyOnly, exampleCloud, exampleFamily, exampleExt, VecOp, hf]

/-- C25: three nodes labelled with one character, the labels of nodes
displayed, the size of the font 10, in line mode: after `CloudGraphArrange` the
first axis of the box of every label is `(5, 0)`, of length 5, and
`CloudGraphGetMaxLengthLblNode` returns 10, the side of the box of the
markers. -/
theorem C25_max_length_reads_marker_box :
    ∃ cloud1,
      CloudGraphArrange (exampleExt ⟨Real.cos, Real.sin, Real.sqrt, Real.pi⟩) (cloud3 ℝ)
        (exampleOpt ℝ CloudGraphMode.CloudGraphModeLine
          CloudGraphOptNodeLabel.CloudGraphOptNodeLabelAll
          CloudGraphOptFamilyLabel.CloudGraphOptFamilyLabelNone 10) = some cloud1 ∧
      cloud1._nodes.map (fun n => n._boundingBoxLbl.map (fun b => b._axis0)) =
        [some ⟨5, 0⟩, some ⟨5, 0⟩, some ⟨5, 0⟩] ∧
      cloud1._nodes.map (fun n => n._boundingBox._axis0) = [⟨10, 0⟩, ⟨10, 0⟩, ⟨10, 0⟩] ∧
      CloudGraphGetMaxLengthLblNode cloud1
        (exampleOpt ℝ CloudGraphMode.CloudGraphModeLine
          CloudGraphOptNodeLabel.CloudGraphOptNodeLabelAll
          CloudGraphOptFamilyLabel.CloudGraphOptFamilyLabelNone 10) = 10 := by
  have hW : WellIndexed (cloud3 ℝ) := by
    simp [WellIndexed, cloud3, exampleCloud, exampleNode, exampleFamily]
  have ha : "a".length = 1 := rfl
  have hb : "b".length = 1 := rfl
  have hc : "c".length = 1 := rfl
  refine ⟨_, arrange_line_spec _ _ _ rfl hW, ?_, ?_, ?_⟩
  · rw [updateBoundingBox_nodes]
    norm_num [lineLayout, lineNodes, CloudGraphSortNodeByFamily, GSetSort, List.orderedInsert,
      cloud3, exampleCloud, exampleNode, List.iterate, lineNode, boxNode, labelBox, exampleExt,
      exampleOpt, VecOp, ha, hb, hc]
  · rw [updateBoundingBox_nodes]
    norm_num [lineLayout, lineNodes, CloudGraphSortNodeByFamily, GSetSort, List.orderedInsert,
      cloud3, exampleCloud, exampleNode, List.iterate, lineNode, boxNode, nodeBox,
      exampleOpt]
  · simp only [CloudGraphGetMaxLengthLblNode]
    rw [updateBoundingBox_nodes]
    norm_num [lineLayout, lineNodes, CloudGraphSortNodeByFamily, GSetSort, List.orderedInsert,
      cloud3, exampleCloud, exampleNode, List.iterate, lineNode, boxNode, nodeBox,
      exampleOpt]
    decide

section Claims30
variable {F : Type} [LinearOrderedField F]

/-- C30: the stream declares the family 1 (red) then the family 0 (blue) and a
node of family 0: `CloudGraphLoad` returns 0, and for this node the family at
position 0 of the families, which `CloudGraphToTGA` uses for the colour, is
the family 1 (red), while `CloudGraphGetFamily` returns the family 0 (blue). -/
theorem C30_positional_family_differs (tgaFontDefault : TGAFont F) (cloud : CloudGraph F) :
    (CloudGraphLoad tgaFontDefault (some cloud)
      (some "2\n1 255 0 0 A\n0 0 0 255 B\n1\n0 0 a\n0\n".toList)).map
      (fun r => (r.1, r.2.map (fun g => g._nodes.map (fun n =>
        (n._family,
          (toTGANodeFamily g n).map (fun f => (f._id, f._rgba)),
          (CloudGraphGetFamily g n._family).map (fun f => (f._id, f._rgba))))))) =
      some (0, some [(0, some (1, [255, 0, 0, 255]), some (0, [0, 0, 255, 255]))]) :=
  rfl

end Claims30
end CG
namespace CG
section Contract26
variable {F : Type}

/-- A cloud that satisfies the data contract indexes the per-family arrays of
the arrangements inside their bounds. -/
theorem dataContract_wellIndexed (nbFamily nbNode nbLink : Int) (g : CloudGraph F)
    (h : DataContract nbFamily nbNode nbLink g) : WellIndexed g := by
  obtain ⟨-, -, -, hlen, -, -, hnd, hfam, hnode, -⟩ := h
  constructor
  · intro n hn
    obtain ⟨-, -, f, hf, hfid⟩ := hnode n hn
    rw [← hfid, hlen]
    exact ⟨(hfam f hf).1, (hfam f hf).2.1⟩
  · intro f hf
    rw [hlen]
    exact ⟨(hfam f hf).1, (hfam f hf).2.1⟩

end Contract26

section Claims26
variable {F : Type} [LinearOrderedField F]

/-- C26: in the cloud returned by a call of `CloudGraphLoad` that returns 0,
the family of every node and the id of every family lie in
`[0, number of families)`, the bounds of the arrays `posFamily` and `nbFamily`;
so `CloudGraphArrange` (line or circle, by the mode of the options) is defined
on it: no index leaves the arrays. -/
theorem C26_loaded_cloud_indexes_in_bounds (tgaFontDefault : TGAFont F) (cloud : CloudGraph F)
    (s : List Char) (g : CloudGraph F)
    (h : CloudGraphLoad tgaFontDefault (some cloud) (some s) = some (0, some g)) :
    (∀ n ∈ g._nodes, 0 ≤ n._family ∧ n._family < (g._families.length : Int)) ∧
    (∀ f ∈ g._families, 0 ≤ f._id ∧ f._id < (g._families.length : Int)) ∧
    (∀ (m : PBMath F) (opt : CloudGraphOpt F),
      (∃ g1, CloudGraphArrangeLine m (CloudGraphSortNodeByFamily g) opt = some g1) ∧
      (∃ g1, CloudGraphArrangeCircle m (CloudGraphSortNodeByFamily g) opt = some g1)) ∧
    ∀ (ext : Ext F) (opt : CloudGraphOpt F), ∃ g1, CloudGraphArrange ext g opt = some g1 := by
  obtain ⟨st1, st2, st3, h1, h2, h3, rfl⟩ := load_success tgaFontDefault cloud s g h
  obtain ⟨-, -, -, hc⟩ := load_contract tgaFontDefault s st1 st2 st3 h1 h2 h3
  have hW := dataContract_wellIndexed _ _ _ _ hc
  refine ⟨hW.1, hW.2, ?_, fun ext opt => (arrange_defined_iff ext _ opt).mpr (Or.inr hW)⟩
  intro m opt
  have hS := sort_wellIndexed _ hW
  exact ⟨⟨_, arrangeLine_spec m _ opt hS⟩, ⟨_, arrangeCircle_spec m _ opt hS⟩⟩

end Claims26

/-- Witness of C26 on a stream of two families (declared in the order 1, 0),
three nodes and two links. -/
theorem C26_loaded_cloud_indexes_in_bounds_witness :
    ∃ g : CloudGraph ℚ,
      CloudGraphLoad (exampleCloud ℚ [] [] [])._font (some (exampleCloud ℚ [] [] []))
        (some "2\n1 255 0 0 Red fam\n0 0 0 255 Blue\n3\n0 0 a\n1 1 b\n2 0 c\n2\n0 1\n1 2\n".toList) =
        some (0, some g) ∧
      WellIndexed g := by
  have hr : (CloudGraphLoad (exampleCloud ℚ [] [] [])._font (some (exampleCloud ℚ [] [] []))
      (some "2\n1 255 0 0 Red fam\n0 0 0 255 Blue\n3\n0 0 a\n1 1 b\n2 0 c\n2\n0 1\n1 2\n".toList)).map
      (fun r => (r.1, r.2.isSome)) = some (0, true) := rfl
  cases hL : CloudGraphLoad (exampleCloud ℚ [] [] [])._font (some (exampleCloud ℚ [] [] []))
      (some "2\n1 255 0 0 Red fam\n0 0 0 255 Blue\n3\n0 0 a\n1 1 b\n2 0 c\n2\n0 1\n1 2\n".toList) with
  | none => rw [hL] at hr; cases hr
  | some r =>
    obtain ⟨code, og⟩ := r
    rw [hL] at hr
    cases og with
    | none => simp at hr
    | some g =>
      have hcode : code = 0 := by simpa using hr
      subst hcode
      obtain ⟨w1, w2, -, -⟩ :=
        C26_loaded_cloud_indexes_in_bounds (exampleCloud ℚ [] [] [])._font
          (exampleCloud ℚ [] [] []) _ g hL
      exact ⟨g, rfl, w1, w2⟩

end CG
namespace CG

/-- A `for` loop whose iterations all go through and keep an invariant goes
through and keeps the invariant. -/
theorem forLoop_inv {σ : Type} (body : Int → σ → Option σ) (Q : Nat → σ → Prop) (a : Int)
    (n : Nat)
    (hstep : ∀ k, k < n → ∀ s, Q k s → ∃ s1, body (a + (k : Int)) s = some s1 ∧ Q (k + 1) s1) :
    ∀ s, Q 0 s → ∃ s1, forLoop body n a s = some s1 ∧ Q n s1 := by
  have key : ∀ m, m ≤ n → ∀ s, Q (n - m) s →
      ∃ s1, forLoop body m (a + ((n - m : Nat) : Int)) s = some s1 ∧ Q n s1 := by
    intro m
    induction m with
    | zero =>
      intro _ s hQ
      exact ⟨s, rfl, by simpa using hQ⟩
    | succ m ih =>
      intro hm s hQ
      obtain ⟨s1, hb, hQ1⟩ := hstep (n - (m + 1)) (by omega) s hQ
      have h1 : n - (m + 1) + 1 = n - m := by omega
      rw [h1] at hQ1
      obtain ⟨s2, hf, hQ2⟩ := ih (by omega) s1 hQ1
      refine ⟨s2, ?_, hQ2⟩
      rw [forLoop, hb]
      have h2 : a + ((n - (m + 1) : Nat) : Int) + 1 = a + ((n - m : Nat) : Int) := by omega
      simp only [h2]
      exact hf
  intro s hQ
  have := key n (le_refl n) s (by simpa using hQ)
  simpa using this

/-- The list `nodePairs n` holds each pair `(i, j)` with `0 ≤ i < j < n` once,
and nothing else. -/
theorem nodePairs_spec (n : Nat) :
    (nodePairs n).Nodup ∧
    (∀ a b : Int, (a, b) ∈ nodePairs n ↔ 0 ≤ a ∧ a < b ∧ b < (n : Int)) ∧
    2 * (nodePairs n).length = n * (n - 1) := by
  unfold nodePairs
  refine ⟨?_, ?_, ?_⟩
  · rw [List.nodup_flatMap]
    constructor
    · intro i _
      apply List.Nodup.map _ (List.nodup_range _)
      intro t1 t2 h
      simp only [Prod.mk.injEq, true_and] at h
      omega
    · apply List.Pairwise.imp _ (List.nodup_range (n - 1))
      intro i j hij
      simp only [Function.onFun, List.disjoint_left, List.mem_map, List.mem_range]
      rintro ⟨a, b⟩ ⟨t1, -, h1⟩ ⟨t2, -, h2⟩
      simp only [Prod.mk.injEq] at h1 h2
      omega
  · intro a b
    simp only [List.mem_flatMap, List.mem_map, List.mem_range, Prod.mk.injEq]
    constructor
    · rintro ⟨i, hi, t, ht, rfl, rfl⟩
      omega
    · rintro ⟨h0, h1, h2⟩
      exact ⟨a.toNat, by omega, (b - a - 1).toNat, by omega, by omega, by omega⟩
  · have hsum : ∀ m : Nat, 2 * ((List.range m).map (fun i => m - i)).sum = m * (m + 1) := by
      intro m
      induction m with
      | zero => rfl
      | succ m ih =>
        rw [List.range_succ_eq_map, List.map_cons, List.map_map, List.sum_cons]
        have : ((fun i => m + 1 - i) ∘ Nat.succ) = (fun i => m - i) := by
          funext i
          simp
        rw [this, Nat.mul_add, ih, Nat.sub_zero]
        ring
    rw [List.length_flatMap]
    have hfun : ∀ m : Nat, (List.length ∘ fun i : Nat => List.map
        (fun t : Nat => ((i : Int), (i : Int) + 1 + (t : Int))) (List.range (m - i))) =
        (fun i => m - i) := by
      intro m
      funext i
      simp
    rcases n with _ | n
    · rfl
    · simp only [Nat.add_sub_cancel]
      rw [hfun n, hsum n]
      ring

end CG
namespace CG
section RndBounds
variable {F : Type} [LinearOrderedField F]

/-- The value of `rnd()` lies in `[0, 1]`. -/
theorem rnd_bounds (RAND_MAX r : Int) (hR : 0 < RAND_MAX) (h0 : 0 ≤ r) (h1 : r ≤ RAND_MAX) :
    (0 : F) ≤ rnd RAND_MAX r ∧ (rnd RAND_MAX r : F) ≤ 1 := by
  have hRF : (0 : F) < (RAND_MAX : F) := by exact_mod_cast hR
  have h0F : (0 : F) ≤ (r : F) := by exact_mod_cast h0
  have h1F : (r : F) ≤ (RAND_MAX : F) := by exact_mod_cast h1
  exact ⟨div_nonneg h0F hRF.le, (div_le_one hRF).mpr h1F⟩

end RndBounds

section RndLemmas
variable {F : Type} [LinearOrderedField F] [FloorRing F]

/-- The value of `(int)floor(rnd() * (float)d)` lies in `[0, d]` for `d ≥ 0`. -/
theorem floor_rnd_mul (RAND_MAX r : Int) (hR : 0 < RAND_MAX) (h0 : 0 ≤ r) (h1 : r ≤ RAND_MAX)
    (d : Int) (hd : 0 ≤ d) :
    0 ≤ ⌊(rnd RAND_MAX r : F) * (d : F)⌋ ∧ ⌊(rnd RAND_MAX r : F) * (d : F)⌋ ≤ d := by
  obtain ⟨b0, b1⟩ := rnd_bounds (F := F) RAND_MAX r hR h0 h1
  have hdF : (0 : F) ≤ (d : F) := by exact_mod_cast hd
  constructor
  · exact Int.floor_nonneg.mpr (mul_nonneg b0 hdF)
  · have : (rnd RAND_MAX r : F) * (d : F) ≤ (d : F) := by
      calc (rnd RAND_MAX r : F) * (d : F) ≤ 1 * (d : F) := mul_le_mul_of_nonneg_right b1 hdF
        _ = (d : F) := one_mul _
    have h2 := Int.floor_mono this
    rwa [Int.floor_intCast] at h2

/-- The loop of `CloudGraphCreateRnd` on the families goes through and adds
the families of ids `0` to `n - 1`. -/
theorem rndFamilies_run (RAND_MAX : Int) (rand : Nat → Int) (n : Nat) (st0 : RndLocals F)
    (h0 : st0.cloud._families = []) :
    ∃ st1, forLoop (rndFamily RAND_MAX rand) n 0 st0 = some st1 ∧
      st1.cloud._families.map (fun f => f._id) = (List.range n).map (fun i : Nat => (i : Int)) ∧
      st1.cloud._nodes = st0.cloud._nodes ∧ st1.cloud._links = st0.cloud._links ∧
      st1.n = st0.n ∧ st1.l = st0.l ∧ st1.calls = st0.calls + 3 * n := by
  apply forLoop_inv (rndFamily RAND_MAX rand)
    (fun k s => s.cloud._families.map (fun f => f._id) =
        (List.range k).map (fun i : Nat => (i : Int)) ∧
      s.cloud._nodes = st0.cloud._nodes ∧ s.cloud._links = st0.cloud._links ∧
      s.n = st0.n ∧ s.l = st0.l ∧ s.calls = st0.calls + 3 * k) 0 n
  · rintro k _ s ⟨q1, q2, q3, q4, q5, q6⟩
    have hany : ¬ (s.cloud._families.any (fun g => (0 + (k : Int)) == g._id) = true) := by
      rw [List.any_eq_true]
      rintro ⟨g, hg, hid⟩
      have hmem : g._id ∈ s.cloud._families.map (fun f => f._id) := List.mem_map_of_mem _ hg
      rw [q1, List.mem_map] at hmem
      obtain ⟨i, hi, hig⟩ := hmem
      rw [List.mem_range] at hi
      have := beq_iff_eq.mp hid
      omega
    simp only [rndFamily, CloudGraphAddFamily, if_neg hany]
    refine ⟨_, rfl, ?_, q2, q3, q4, q5, ?_⟩
    · simp only [List.map_append, q1, List.range_succ, List.map_cons, List.map_nil, zero_add]
    · simp only [q6]
      ring
  · exact ⟨by rw [h0]; rfl, rfl, rfl, rfl, rfl, rfl⟩

/-- The loop of `CloudGraphCreateRnd` on the nodes goes through and adds the
nodes of ids `0` to `n - 1`. -/
theorem rndNodes_run (RAND_MAX : Int) (rand : Nat → Int) (nbFamily : Int) (n : Nat)
    (st0 : RndLocals F) (h0 : st0.cloud._nodes = []) :
    ∃ st1, forLoop (rndNode RAND_MAX rand nbFamily) n 0 st0 = some st1 ∧
      st1.cloud._nodes.map (fun x => x._id) = (List.range n).map (fun i : Nat => (i : Int)) ∧
      st1.cloud._families = st0.cloud._families ∧ st1.cloud._links = st0.cloud._links ∧
      st1.l = st0.l := by
  apply forLoop_inv (rndNode RAND_MAX rand nbFamily)
    (fun k s => s.cloud._nodes.map (fun x => x._id) =
        (List.range k).map (fun i : Nat => (i : Int)) ∧
      s.cloud._families = st0.cloud._families ∧ s.cloud._links = st0.cloud._links ∧
      s.l = st0.l) 0 n
  · rintro k _ s ⟨q1, q2, q3, q4⟩
    refine ⟨_, rfl, ?_, q2, q3, q4⟩
    simp only [CloudGraphAddNode, List.map_append, q1, List.range_succ, List.map_cons,
      List.map_nil, zero_add]
  · exact ⟨by rw [h0]; rfl, rfl, rfl, rfl⟩

end RndLemmas

section RndLinkLemmas
variable {F : Type} [LinearOrderedField F]

/-- With a density that no value of `rnd()` exceeds, the inner loop on the
pairs goes through and adds a link from `i` to each of the `m` next ids. -/
theorem rndLinks_inner (RAND_MAX : Int) (rand : Nat → Int) (density : F)
    (hd : ∀ k, (rnd RAND_MAX (rand k) : F) ≤ density) (i m : Nat) (st0 : RndLocals F) :
    ∃ st1, forLoop (rndLink RAND_MAX rand density (i : Int)) m ((i : Int) + 1) st0 = some st1 ∧
      st1.cloud._links.map (fun l => (l._nodes0, l._nodes1)) =
        st0.cloud._links.map (fun l => (l._nodes0, l._nodes1)) ++
          (List.range m).map (fun t : Nat => ((i : Int), (i : Int) + 1 + (t : Int))) ∧
      st1.cloud._nodes = st0.cloud._nodes ∧ st1.cloud._families = st0.cloud._families := by
  apply forLoop_inv (rndLink RAND_MAX rand density (i : Int))
    (fun k s => s.cloud._links.map (fun l => (l._nodes0, l._nodes1)) =
        st0.cloud._links.map (fun l => (l._nodes0, l._nodes1)) ++
          (List.range k).map (fun t : Nat => ((i : Int), (i : Int) + 1 + (t : Int))) ∧
      s.cloud._nodes = st0.cloud._nodes ∧ s.cloud._families = st0.cloud._families)
    ((i : Int) + 1) m
  · rintro k _ s ⟨q1, q2, q3⟩
    have hne : ¬ ((i : Int) = (i : Int) + 1 + (k : Int)) := by omega
    simp only [rndLink, if_pos (hd s.calls), CloudGraphAddLink, if_neg hne]
    refine ⟨_, rfl, ?_, q2, q3⟩
    simp only [List.map_append, q1, List.range_succ, List.map_cons, List.map_nil,
      List.append_assoc]
  · exact ⟨by simp, rfl, rfl⟩

/-- With a density that no value of `rnd()` exceeds, the two loops on the
pairs go through and add the links of `nodePairs n`. -/
theorem rndLinks_run (RAND_MAX : Int) (rand : Nat → Int) (density : F)
    (hd : ∀ k, (rnd RAND_MAX (rand k) : F) ≤ density) (n : Nat) (st0 : RndLocals F)
    (h0 : st0.cloud._links = []) :
    ∃ st1, forLoop (rndLinks RAND_MAX rand density (n : Int)) (n - 1) 0 st0 = some st1 ∧
      st1.cloud._links.map (fun l => (l._nodes0, l._nodes1)) = nodePairs n ∧
      st1.cloud._nodes = st0.cloud._nodes ∧ st1.cloud._families = st0.cloud._families := by
  apply forLoop_inv (rndLinks RAND_MAX rand density (n : Int))
    (fun k s => s.cloud._links.map (fun l => (l._nodes0, l._nodes1)) =
        (List.range k).flatMap
          (fun i : Nat => (List.range (n - 1 - i)).map
            (fun t : Nat => ((i : Int), (i : Int) + 1 + (t : Int)))) ∧
      s.cloud._nodes = st0.cloud._nodes ∧ s.cloud._families = st0.cloud._families) 0 (n - 1)
  · rintro k hk s ⟨q1, q2, q3⟩
    obtain ⟨s1, r1, r2, r3, r4⟩ := rndLinks_inner RAND_MAX rand density hd k (n - 1 - k) s
    have hcount : ((n : Int) - ((k : Int) + 1)).toNat = n - 1 - k := by omega
    refine ⟨s1, ?_, ?_, by rw [r3, q2], by rw [r4, q3]⟩
    · simp only [rndLinks, hcount, zero_add]
      exact r1
    · rw [r2, q1, List.range_succ, List.flatMap_append]
      simp
  · exact ⟨by rw [h0]; rfl, rfl, rfl⟩

end RndLinkLemmas
end CG
namespace CG
section Claims21
variable {F : Type} [LinearOrderedField F] [FloorRing F]

/-- C21: with valid arguments and the density 1, whatever the values returned
by `rand()` (in `[0, RAND_MAX]`), `CloudGraphCreateRnd` returns true with a
cloud of `n` nodes, `nbNodeMin ≤ n ≤ nbNodeMax`, of ids `0` to `n - 1`, whose
links are pairwise different, are exactly the pairs `(i, j)` with
`0 ≤ i < j < n`, and are `n * (n - 1) / 2` in number. -/
theorem C21_density_one_all_pairs (tgaFontDefault : TGAFont F) (RAND_MAX : Int)
    (rand : Nat → Int) (cloud : Option (CloudGraph F))
    (nbNodeMin nbNodeMax nbFamilyMin nbFamilyMax : Int)
    (hR : 0 < RAND_MAX) (hrand : ∀ k, 0 ≤ rand k ∧ rand k ≤ RAND_MAX)
    (h1 : 1 ≤ nbNodeMin) (h2 : nbNodeMin ≤ nbNodeMax)
    (h3 : 1 ≤ nbFamilyMin) (h4 : nbFamilyMin ≤ nbFamilyMax) :
    ∃ (g : CloudGraph F) (n : Nat),
      CloudGraphCreateRnd tgaFontDefault RAND_MAX rand cloud nbNodeMin nbNodeMax nbFamilyMin
        nbFamilyMax 1 = (true, some g) ∧
      nbNodeMin ≤ (n : Int) ∧ (n : Int) ≤ nbNodeMax ∧
      g._nodes.map (fun x => x._id) = (List.range n).map (fun i : Nat => (i : Int)) ∧
      (g._links.map (fun l => (l._nodes0, l._nodes1))).Nodup ∧
      (∀ a b : Int, (a, b) ∈ g._links.map (fun l => (l._nodes0, l._nodes1)) ↔
        0 ≤ a ∧ a < b ∧ b < (n : Int)) ∧
      g._links.length = n * (n - 1) / 2 := by
  have hargs : ¬ (nbNodeMin < 1 ∨ nbNodeMax < nbNodeMin ∨ nbFamilyMin < 1 ∨
      nbFamilyMax < nbFamilyMin ∨ (1 : F) < 0 ∨ (1 : F) > 1) := by
    simp only [not_or, not_lt, gt_iff_lt]
    exact ⟨h1, h2, h3, h4, zero_le_one, le_refl _⟩
  obtain ⟨n0, n1⟩ := floor_rnd_mul (F := F) RAND_MAX (rand 0) hR (hrand 0).1 (hrand 0).2
    (nbNodeMax - nbNodeMin) (by omega)
  obtain ⟨st1, f1, -, f3, f4, -, -, -⟩ := rndFamilies_run (F := F) RAND_MAX rand
    (nbFamilyMin + ⌊(rnd RAND_MAX (rand 1) : F) * ((nbFamilyMax - nbFamilyMin : Int) : F)⌋).toNat
    { cloud := CloudGraphCreate tgaFontDefault, family := CloudGraphCreateFamily
      n := CloudGraphCreateNode, l := CloudGraphCreateLink, calls := 2 } rfl
  obtain ⟨st2, g1, g2, -, g4, -⟩ := rndNodes_run (F := F) RAND_MAX rand
    (nbFamilyMin + ⌊(rnd RAND_MAX (rand 1) : F) * ((nbFamilyMax - nbFamilyMin : Int) : F)⌋)
    (nbNodeMin + ⌊(rnd RAND_MAX (rand 0) : F) * ((nbNodeMax - nbNodeMin : Int) : F)⌋).toNat
    st1 f3
  have hn : ((nbNodeMin + ⌊(rnd RAND_MAX (rand 0) : F) *
      ((nbNodeMax - nbNodeMin : Int) : F)⌋).toNat : Int) =
      nbNodeMin + ⌊(rnd RAND_MAX (rand 0) : F) * ((nbNodeMax - nbNodeMin : Int) : F)⌋ :=
    Int.toNat_of_nonneg (by omega)
  obtain ⟨st3, k1, k2, k3, -⟩ := rndLinks_run (F := F) RAND_MAX rand 1
    (fun k => (rnd_bounds RAND_MAX (rand k) hR (hrand k).1 (hrand k).2).2)
    (nbNodeMin + ⌊(rnd RAND_MAX (rand 0) : F) * ((nbNodeMax - nbNodeMin : Int) : F)⌋).toNat
    st2 (by rw [g4, f4]; rfl)
  have hcount : (nbNodeMin + ⌊(rnd RAND_MAX (rand 0) : F) *
      ((nbNodeMax - nbNodeMin : Int) : F)⌋ - 1).toNat =
      (nbNodeMin + ⌊(rnd RAND_MAX (rand 0) : F) *
        ((nbNodeMax - nbNodeMin : Int) : F)⌋).toNat - 1 := by omega
  rw [hn] at k1
  obtain ⟨p1, p2, p3⟩ := nodePairs_spec
    (nbNodeMin + ⌊(rnd RAND_MAX (rand 0) : F) * ((nbNodeMax - nbNodeMin : Int) : F)⌋).toNat
  refine ⟨st3.cloud, _, ?_, by rw [hn]; omega, by rw [hn]; omega, by rw [k3]; exact g2,
    by rw [k2]; exact p1, by rw [k2]; exact p2, ?_⟩
  · simp only [CloudGraphCreateRnd, if_neg hargs, f1, g1, hcount, k1]
  · have hlen : st3.cloud._links.length = (nodePairs (nbNodeMin + ⌊(rnd RAND_MAX (rand 0) : F) *
        ((nbNodeMax - nbNodeMin : Int) : F)⌋).toNat).length := by
      rw [← k2, List.length_map]
    rw [hlen]
    exact (Nat.div_eq_of_eq_mul_right (by norm_num) p3.symm).symm

end Claims21

/-- Witness of C21: between 3 and 6 nodes, between 2 and 4 families, the values
of `rand()` taken from a linear congruence. -/
theorem C21_density_one_all_pairs_witness :
    ∃ (g : CloudGraph ℚ) (n : Nat),
      CloudGraphCreateRnd (exampleCloud ℚ [] [] [])._font 2147483647
        (fun k => (1000000007 * ((k : Int) + 1)) % 2147483648) none 3 6 2 4 1 = (true, some g) ∧
      (3 : Int) ≤ (n : Int) ∧ (n : Int) ≤ 6 ∧
      g._links.length = n * (n - 1) / 2 := by
  obtain ⟨g, n, w1, w2, w3, -, -, -, w7⟩ :=
    C21_density_one_all_pairs (exampleCloud ℚ [] [] [])._font 2147483647
      (fun k => (1000000007 * ((k : Int) + 1)) % 2147483648) none 3 6 2 4 (by norm_num)
      (fun k => ⟨Int.emod_nonneg _ (by norm_num), by
        show (1000000007 * ((k : Int) + 1)) % 2147483648 ≤ 2147483647
        omega⟩)
      (by norm_num) (by norm_num) (by norm_num) (by norm_num)
  exact ⟨g, n, w1, w2, w3, w7⟩

end CG
namespace CG
section Claims22
variable {F : Type} [LinearOrderedField F] [FloorRing F]

/-- C22: `CloudGraphCreateRnd(&cloud, 2, 2, 1, 1, 0.0)` makes 8 calls of
`rand()`, the last one for the pair of nodes `(0, 1)`; when this call returns
0, `rnd() <= density` holds with the density 0 and the call returns true with
a cloud that has the link `(0, 1)`. -/
theorem C22_zero_draw_adds_link (tgaFontDefault : TGAFont F) (RAND_MAX : Int)
    (rand : Nat → Int) (cloud : Option (CloudGraph F)) (h7 : rand 7 = 0) :
    (CloudGraphCreateRnd tgaFontDefault RAND_MAX rand cloud 2 2 1 1 0).1 = true ∧
    (CloudGraphCreateRnd tgaFontDefault RAND_MAX rand cloud 2 2 1 1 0).2.map
      (fun g => (g._nodes.map (fun x => x._id),
        g._links.map (fun l => (l._nodes0, l._nodes1)))) = some ([0, 1], [(0, 1)]) := by
  have h10 : ¬ ((1 : F) < 0) := not_lt.mpr zero_le_one
  simp [CloudGraphCreateRnd, forLoop, rndFamily, rndNode, rndLinks, rndLink,
    CloudGraphAddFamily, CloudGraphAddNode, CloudGraphAddLink, CloudGraphCreate, rnd, h7, h10]

/-- C23: `CloudGraphCreateRnd(&cloud, 1, 1, 1, 1, density)` makes 6 calls of
`rand()`, the last one for the family of the node 0; when this call returns
`RAND_MAX`, `rnd()` is 1 and the call returns true with a cloud whose only
family has the id 0 and whose node has the family 1. -/
theorem C23_max_draw_family_out_of_range (tgaFontDefault : TGAFont F) (RAND_MAX : Int)
    (rand : Nat → Int) (cloud : Option (CloudGraph F)) (density : F)
    (hR : 0 < RAND_MAX) (hd0 : 0 ≤ density) (hd1 : density ≤ 1) (h5 : rand 5 = RAND_MAX) :
    (CloudGraphCreateRnd tgaFontDefault RAND_MAX rand cloud 1 1 1 1 density).1 = true ∧
    (CloudGraphCreateRnd tgaFontDefault RAND_MAX rand cloud 1 1 1 1 density).2.map
      (fun g => (g._families.map (fun f => f._id),
        g._nodes.map (fun x => (x._id, x._family)))) = some ([0], [(0, 1)]) := by
  have hRF : (RAND_MAX : F) ≠ 0 := by exact_mod_cast hR.ne'
  have hargs : ¬ (density < 0 ∨ 1 < density) := by
    simp only [not_or, not_lt]
    exact ⟨hd0, hd1⟩
  simp [CloudGraphCreateRnd, forLoop, rndFamily, rndNode,
    CloudGraphAddFamily, CloudGraphAddNode, CloudGraphCreate, rnd, h5, hargs, hRF]

end Claims22

/-- Witness of C22: the call number 7 of `rand()` returns 0, the others 12345. -/
theorem C22_zero_draw_adds_link_witness :
    (CloudGraphCreateRnd (exampleCloud ℚ [] [] [])._font 2147483647
        (fun k => if k = 7 then 0 else 12345) none 2 2 1 1 0).2.map
      (fun g => (g._nodes.map (fun x => x._id),
        g._links.map (fun l => (l._nodes0, l._nodes1)))) = some ([0, 1], [(0, 1)]) :=
  (C22_zero_draw_adds_link (exampleCloud ℚ [] [] [])._font 2147483647
    (fun k => if k = 7 then 0 else 12345) none rfl).2

/-- Witness of C23: the call number 5 of `rand()` returns `RAND_MAX`, the
others 12345; the density is one half. -/
theorem C23_max_draw_family_out_of_range_witness :
    (CloudGraphCreateRnd (exampleCloud ℚ [] [] [])._font 2147483647
        (fun k => if k = 5 then 2147483647 else 12345) none 1 1 1 1 (1 / 2)).2.map
      (fun g => (g._families.map (fun f => f._id),
        g._nodes.map (fun x => (x._id, x._family)))) = some ([0], [(0, 1)]) :=
  (C23_max_draw_family_out_of_range (exampleCloud ℚ [] [] [])._font 2147483647
    (fun k => if k = 5 then 2147483647 else 12345) none (1 / 2) (by norm_num) (by norm_num)
    (by norm_num) rfl).2

end CG
namespace CG
section Blocks
variable {F : Type}

/-- A list of nodes sorted by family is made of the nodes of the families
below `k`, then the nodes of the family `k`, then the nodes of the families
above `k`. -/
theorem sorted_blocks (S : List (CloudGraphNode F))
    (hs : S.Pairwise (fun a b => a._family ≤ b._family)) (k : Int) :
    S = S.filter (fun n => decide (n._family < k)) ++
      (S.filter (fun n => decide (n._family = k)) ++
        S.filter (fun n => decide (k < n._family))) := by
  induction S with
  | nil => rfl
  | cons x xs ih =>
    rw [List.pairwise_cons] at hs
    obtain ⟨hx, hxs⟩ := hs
    have ih1 := ih hxs
    rcases lt_trichotomy x._family k with hlt | heq | hgt
    · rw [List.filter_cons_of_pos (by simpa using hlt),
        List.filter_cons_of_neg (by simpa using hlt.ne),
        List.filter_cons_of_neg (by simpa using hlt.le), List.cons_append, ← ih1]
    · have hnil : xs.filter (fun n => decide (n._family < k)) = [] := by
        rw [List.filter_eq_nil_iff]
        intro y hy
        have := hx y hy
        simp only [decide_eq_true_eq, not_lt]
        omega
      rw [hnil] at ih1
      rw [List.filter_cons_of_neg (by simpa using heq.ge), hnil,
        List.filter_cons_of_pos (by simpa using heq),
        List.filter_cons_of_neg (by simpa using heq.le), List.nil_append, List.cons_append]
      rw [List.nil_append] at ih1
      rw [← ih1]
    · have hnil : xs.filter (fun n => decide (n._family < k)) = [] := by
        rw [List.filter_eq_nil_iff]
        intro y hy
        have := hx y hy
        simp only [decide_eq_true_eq, not_lt]
        omega
      have hnil2 : xs.filter (fun n => decide (n._family = k)) = [] := by
        rw [List.filter_eq_nil_iff]
        intro y hy
        have := hx y hy
        simp only [decide_eq_true_eq]
        omega
      rw [hnil, hnil2] at ih1
      rw [List.filter_cons_of_neg (by simpa using hgt.le), hnil,
        List.filter_cons_of_neg (by simpa using hgt.ne'), hnil2,
        List.filter_cons_of_pos (by simpa using hgt), List.nil_append, List.nil_append]
      rw [List.nil_append, List.nil_append] at ih1
      rw [← ih1]

end Blocks

section LineFrom
variable {F : Type} [LinearOrderedField F]

theorem lineNodesFrom_nil (opt : CloudGraphOpt F) (s : Nat) : lineNodesFrom opt s [] = [] := rfl

theorem lineNodesFrom_cons (opt : CloudGraphOpt F) (s : Nat) (x : CloudGraphNode F)
    (xs : List (CloudGraphNode F)) :
    lineNodesFrom opt s (x :: xs) = lineNode opt s x :: lineNodesFrom opt (s + 1) xs := rfl

theorem lineNodes_eq_from (opt : CloudGraphOpt F) (nodes : List (CloudGraphNode F)) :
    lineNodes opt nodes = lineNodesFrom opt 0 nodes := rfl

theorem lineNodesFrom_length (opt : CloudGraphOpt F) :
    ∀ (l : List (CloudGraphNode F)) (s : Nat), (lineNodesFrom opt s l).length = l.length := by
  intro l
  induction l with
  | nil => intro s; rfl
  | cons x xs ih => intro s; rw [lineNodesFrom_cons, List.length_cons, ih, List.length_cons]

theorem lineNodesFrom_append (opt : CloudGraphOpt F) :
    ∀ (l1 l2 : List (CloudGraphNode F)) (s : Nat),
      lineNodesFrom opt s (l1 ++ l2) =
        lineNodesFrom opt s l1 ++ lineNodesFrom opt (s + l1.length) l2 := by
  intro l1
  induction l1 with
  | nil => intro l2 s; rfl
  | cons x xs ih =>
    intro l2 s
    rw [List.cons_append, lineNodesFrom_cons, lineNodesFrom_cons, ih, List.cons_append,
      List.length_cons]
    have : s + 1 + xs.length = s + (xs.length + 1) := by omega
    rw [this]

/-- The loop keeps the nodes of a family among the nodes of this family, and
none among the nodes of the other families. -/
theorem lineNodesFrom_filter (opt : CloudGraphOpt F) (k : Int) :
    ∀ (l : List (CloudGraphNode F)) (s : Nat),
      ((∀ n ∈ l, n._family = k) → members k (lineNodesFrom opt s l) = lineNodesFrom opt s l) ∧
      ((∀ n ∈ l, n._family ≠ k) → members k (lineNodesFrom opt s l) = []) := by
  intro l
  induction l with
  | nil => intro s; exact ⟨fun _ => rfl, fun _ => rfl⟩
  | cons x xs ih =>
    intro s
    constructor
    · intro h
      have hx : (lineNode opt s x)._family = k := h x (List.mem_cons_self _ _)
      rw [lineNodesFrom_cons, members, List.filter_cons_of_pos (by simpa using hx)]
      have := (ih (s + 1)).1 (fun n hn => h n (List.mem_cons_of_mem _ hn))
      rw [members] at this
      rw [this]
    · intro h
      have hx : (lineNode opt s x)._family ≠ k := h x (List.mem_cons_self _ _)
      rw [lineNodesFrom_cons, members, List.filter_cons_of_neg (by simpa using hx)]
      exact (ih (s + 1)).2 (fun n hn => h n (List.mem_cons_of_mem _ hn))

/-- The ordinates written by the loop from the index `s`. -/
theorem lineNodesFrom_y (opt : CloudGraphOpt F) :
    ∀ (l : List (CloudGraphNode F)) (s : Nat),
      (lineNodesFrom opt s l).map (fun n => n._pos.y) =
        (List.range l.length).map
          (fun j : Nat => 2 * opt._fontSizeNode * (((s + j : Nat) : F) + 1 / 2)) := by
  intro l
  induction l with
  | nil => intro s; rfl
  | cons x xs ih =>
    intro s
    rw [lineNodesFrom_cons, List.map_cons, ih, List.length_cons, List.range_succ_eq_map,
      List.map_cons, List.map_map]
    congr 1
    apply List.map_congr_left
    intro j _
    simp only [Function.comp_apply, Nat.succ_eq_add_one]
    have : s + 1 + j = s + (j + 1) := by omega
    rw [this]

/-- In the nodes laid out in line from a list sorted by family, the nodes of
a family are the `m` nodes from the index `a`, for `a` the number of nodes of
the families below and `m` the number of nodes of the family. -/
theorem line_members_block (opt : CloudGraphOpt F) (S : List (CloudGraphNode F))
    (hs : S.Pairwise (fun a b => a._family ≤ b._family)) (k : Int) :
    members k (lineNodes opt S) =
      lineNodesFrom opt (S.filter (fun n => decide (n._family < k))).length
        (S.filter (fun n => decide (n._family = k))) ∧
    members k (lineNodes opt S) =
      ((lineNodes opt S).drop (S.filter (fun n => decide (n._family < k))).length).take
        (S.filter (fun n => decide (n._family = k))).length := by
  have hb := sorted_blocks S hs k
  have hA : ∀ n ∈ S.filter (fun n => decide (n._family < k)), n._family ≠ k := by
    intro n hn
    have := (List.mem_filter.mp hn).2
    simp only [decide_eq_true_eq] at this
    omega
  have hB : ∀ n ∈ S.filter (fun n => decide (n._family = k)), n._family = k := by
    intro n hn
    simpa using (List.mem_filter.mp hn).2
  have hC : ∀ n ∈ S.filter (fun n => decide (k < n._family)), n._family ≠ k := by
    intro n hn
    have := (List.mem_filter.mp hn).2
    simp only [decide_eq_true_eq] at this
    omega
  have hL : lineNodes opt S =
      lineNodesFrom opt 0 (S.filter (fun n => decide (n._family < k))) ++
        (lineNodesFrom opt (S.filter (fun n => decide (n._family < k))).length
            (S.filter (fun n => decide (n._family = k))) ++
          lineNodesFrom opt ((S.filter (fun n => decide (n._family < k))).length +
              (S.filter (fun n => decide (n._family = k))).length)
            (S.filter (fun n => decide (k < n._family)))) := by
    conv_lhs => rw [lineNodes_eq_from, hb]
    rw [lineNodesFrom_append, lineNodesFrom_append, Nat.zero_add]
  constructor
  · rw [hL, members, List.filter_append, List.filter_append]
    have e1 := (lineNodesFrom_filter opt k _ 0).2 hA
    have e2 := (lineNodesFrom_filter opt k _
      (S.filter (fun n => decide (n._family < k))).length).1 hB
    have e3 := (lineNodesFrom_filter opt k _
      ((S.filter (fun n => decide (n._family < k))).length +
        (S.filter (fun n => decide (n._family = k))).length)).2 hC
    rw [members] at e1 e2 e3
    rw [e1, e2, e3, List.nil_append, List.append_nil]
  · rw [hL, members, List.filter_append, List.filter_append]
    have e1 := (lineNodesFrom_filter opt k _ 0).2 hA
    have e2 := (lineNodesFrom_filter opt k _
      (S.filter (fun n => decide (n._family < k))).length).1 hB
    have e3 := (lineNodesFrom_filter opt k _
      ((S.filter (fun n => decide (n._family < k))).length +
        (S.filter (fun n => decide (n._family = k))).length)).2 hC
    rw [members] at e1 e2 e3
    rw [e1, e2, e3, List.nil_append, List.append_nil]
    rw [List.drop_left' (lineNodesFrom_length opt _ 0),
      List.take_left' (lineNodesFrom_length opt _ _)]

end LineFrom
end CG
namespace CG
section Claims27
variable {F : Type} [LinearOrderedField F]

/-- Twice the sum of `m` terms `c + d * j` of an arithmetic progression. -/
theorem arith_sum (c d : F) (m : Nat) :
    2 * ((List.range m).map (fun j : Nat => c + d * (j : F))).sum =
      (m : F) * (2 * c + d * ((m : F) - 1)) := by
  induction m with
  | zero => simp
  | succ m ih =>
    rw [List.range_succ, List.map_append, List.sum_append, mul_add, ih]
    simp only [List.map_cons, List.map_nil, List.sum_cons, List.sum_nil, add_zero]
    push_cast
    ring

/-- After `CloudGraphArrange` in line mode, in exact arithmetic, with the
labels of nodes not displayed, on a cloud whose family ids and node families
lie in `[0, number of families)`: for every family with a node, its nodes are
consecutive in the sequence of the nodes (the `m` nodes from an index `start`),
the ordinate of the family is the midpoint of the ordinates of the first and
of the last of them, and lies between any lower and upper bounds of the
ordinates of its nodes. -/
theorem line_anchor_is_midpoint (ext : Ext F) (cloud : CloudGraph F) (opt : CloudGraphOpt F)
    (hmode : opt._mode = CloudGraphMode.CloudGraphModeLine)
    (hlbl : opt._nodeLabelMode = CloudGraphOptNodeLabel.CloudGraphOptNodeLabelNone)
    (hW : WellIndexed cloud) :
    ∃ cloud1, CloudGraphArrange ext cloud opt = some cloud1 ∧
      ∀ f ∈ cloud1._families, ∀ first last : CloudGraphNode F,
        (members f._id cloud1._nodes).head? = some first →
        (members f._id cloud1._nodes).getLast? = some last →
        (∃ start : Nat, members f._id cloud1._nodes =
          (cloud1._nodes.drop start).take (members f._id cloud1._nodes).length) ∧
        f._pos.y = (first._pos.y + last._pos.y) / 2 ∧
        ∀ lo hi : F, (∀ n ∈ members f._id cloud1._nodes, lo ≤ n._pos.y ∧ n._pos.y ≤ hi) →
          lo ≤ f._pos.y ∧ f._pos.y ≤ hi := by
  refine ⟨_, arrange_line_spec ext cloud opt hmode hW, ?_⟩
  intro f hf first last hfirst hlast
  rw [updateBoundingBox_families] at hf
  simp only [lineLayout, List.map_map, List.mem_map, Function.comp_apply] at hf
  obtain ⟨f0, _, rfl⟩ := hf
  have hid : (boxFamily ext opt
      { (CloudGraphSortNodeByFamily cloud)._font with _size := opt._fontSizeNode }
      (maxLabelLength ext
        { (CloudGraphSortNodeByFamily cloud)._font with _size := opt._fontSizeNode } 0
        (lineNodes opt (CloudGraphSortNodeByFamily cloud)._nodes))
      (lineFamily opt
        (fun k => famMean k (fun n => n._pos.y)
          (lineNodes opt (CloudGraphSortNodeByFamily cloud)._nodes)) f0))._id = f0._id := rfl
  have hy : (boxFamily ext opt
      { (CloudGraphSortNodeByFamily cloud)._font with _size := opt._fontSizeNode }
      (maxLabelLength ext
        { (CloudGraphSortNodeByFamily cloud)._font with _size := opt._fontSizeNode } 0
        (lineNodes opt (CloudGraphSortNodeByFamily cloud)._nodes))
      (lineFamily opt
        (fun k => famMean k (fun n => n._pos.y)
          (lineNodes opt (CloudGraphSortNodeByFamily cloud)._nodes)) f0))._pos.y =
      famMean f0._id (fun n => n._pos.y)
        (lineNodes opt (CloudGraphSortNodeByFamily cloud)._nodes) := by
    simp [boxFamily, familyPos, hlbl, lineFamily]
  rw [hid] at hfirst hlast ⊢
  rw [hy]
  have hnodes : (CloudGraphUpdateBoundingBox ext
      (lineLayout ext.toPBMath (CloudGraphSortNodeByFamily cloud) opt) opt)._nodes =
      (lineNodes opt (CloudGraphSortNodeByFamily cloud)._nodes).map
        (boxNode ext opt
          { (CloudGraphSortNodeByFamily cloud)._font with _size := opt._fontSizeNode }) := by
    rw [updateBoundingBox_nodes]
    rfl
  rw [hnodes] at hfirst hlast ⊢
  have hmm := members_map f0._id
    (boxNode ext opt
      { (CloudGraphSortNodeByFamily cloud)._font with _size := opt._fontSizeNode })
    (fun _ => rfl) (lineNodes opt (CloudGraphSortNodeByFamily cloud)._nodes)
  rw [hmm] at hfirst hlast ⊢
  obtain ⟨hblock, hdrop⟩ := line_members_block opt (CloudGraphSortNodeByFamily cloud)._nodes
    (sortNodes_sorted cloud) f0._id
  have hys := lineNodesFrom_y opt
    ((CloudGraphSortNodeByFamily cloud)._nodes.filter (fun n => decide (n._family = f0._id)))
    ((CloudGraphSortNodeByFamily cloud)._nodes.filter
      (fun n => decide (n._family < f0._id))).length
  rw [← hblock] at hys
  have hlen : (members f0._id (lineNodes opt (CloudGraphSortNodeByFamily cloud)._nodes)).length =
      ((CloudGraphSortNodeByFamily cloud)._nodes.filter
        (fun n => decide (n._family = f0._id))).length := by
    rw [hblock, lineNodesFrom_length]
  have h1 := congrArg (Option.map (fun n : CloudGraphNode F => n._pos.y)) hfirst
  have h2 := congrArg (Option.map (fun n : CloudGraphNode F => n._pos.y)) hlast
  rw [← List.head?_map, List.map_map] at h1
  rw [← List.getLast?_map, List.map_map] at h2
  have hcomp : ((fun n : CloudGraphNode F => n._pos.y) ∘ boxNode ext opt
      { (CloudGraphSortNodeByFamily cloud)._font with _size := opt._fontSizeNode }) =
      (fun n : CloudGraphNode F => n._pos.y) := rfl
  rw [hcomp, hys] at h1 h2
  rw [List.head?_map, List.head?_range] at h1
  rw [List.getLast?_map, List.getLast?_range] at h2
  have hmean : famMean f0._id (fun n => n._pos.y)
      (lineNodes opt (CloudGraphSortNodeByFamily cloud)._nodes) =
      (first._pos.y + last._pos.y) / 2 := by
    rw [famMean, famSum, hys, hlen]
    by_cases hm : ((CloudGraphSortNodeByFamily cloud)._nodes.filter
        (fun n => decide (n._family = f0._id))).length = 0
    · rw [if_pos hm] at h1
      cases h1
    · rw [if_neg hm] at h1 h2
      simp only [Option.map_some', Option.some.injEq] at h1 h2
      have hs := arith_sum
        (2 * opt._fontSizeNode *
          ((((CloudGraphSortNodeByFamily cloud)._nodes.filter
            (fun n => decide (n._family < f0._id))).length : F) + 1 / 2))
        (2 * opt._fontSizeNode)
        ((CloudGraphSortNodeByFamily cloud)._nodes.filter
          (fun n => decide (n._family = f0._id))).length
      have hfun : (fun j : Nat => 2 * opt._fontSizeNode *
          (((((CloudGraphSortNodeByFamily cloud)._nodes.filter
            (fun n => decide (n._family < f0._id))).length + j : Nat) : F) + 1 / 2)) =
          (fun j : Nat => 2 * opt._fontSizeNode *
            ((((CloudGraphSortNodeByFamily cloud)._nodes.filter
              (fun n => decide (n._family < f0._id))).length : F) + 1 / 2) +
            2 * opt._fontSizeNode * (j : F)) := by
        funext j
        push_cast
        ring
      rw [hfun]
      have hmF : ((((CloudGraphSortNodeByFamily cloud)._nodes.filter
          (fun n => decide (n._family = f0._id))).length : Nat) : F) ≠ 0 :=
        Nat.cast_ne_zero.mpr hm
      have hlast1 : (((((CloudGraphSortNodeByFamily cloud)._nodes.filter
          (fun n => decide (n._family = f0._id))).length - 1 : Nat) : F)) =
          ((((CloudGraphSortNodeByFamily cloud)._nodes.filter
            (fun n => decide (n._family = f0._id))).length : Nat) : F) - 1 := by
        rw [Nat.cast_sub (Nat.one_le_iff_ne_zero.mpr hm), Nat.cast_one]
      rw [← h1, ← h2]
      generalize ((List.range ((CloudGraphSortNodeByFamily cloud)._nodes.filter
          (fun n => decide (n._family = f0._id))).length).map
          (fun j : Nat => 2 * opt._fontSizeNode *
            ((((CloudGraphSortNodeByFamily cloud)._nodes.filter
              (fun n => decide (n._family < f0._id))).length : F) + 1 / 2) +
            2 * opt._fontSizeNode * (j : F))).sum = total at hs ⊢
      push_cast
      rw [hlast1, div_eq_div_iff hmF two_ne_zero]
      linear_combination hs
  refine ⟨⟨((CloudGraphSortNodeByFamily cloud)._nodes.filter
    (fun n => decide (n._family < f0._id))).length, ?_⟩, hmean, ?_⟩
  · rw [List.length_map, ← List.map_drop, hlen, ← List.map_take, ← hdrop]
  · intro lo hi hb
    rw [hmean]
    have b1 := hb first (List.mem_of_mem_head? hfirst)
    have b2 := hb last (List.mem_of_mem_getLast? hlast)
    constructor
    · linarith [b1.1, b2.1]
    · linarith [b1.2, b2.2]

/-- C27, as amended: after `CloudGraphArrange` in line mode, in exact
arithmetic, with the labels of nodes not displayed, on a cloud whose family
ids and node families lie in `[0, number of families)`: the nodes after the
call are the nodes of the cloud in the sorted order, the families are the
families of the cloud in their order, and for every family with a node, its
nodes are consecutive in the sequence of the nodes (the `m` nodes from an
index `start`), the ordinate of the family is the midpoint of the ordinates of
the first and of the last of them, and lies between any lower and upper bounds
of the ordinates of its nodes. -/
theorem C27_line_anchor_is_midpoint (ext : Ext F) (cloud : CloudGraph F) (opt : CloudGraphOpt F)
    (hmode : opt._mode = CloudGraphMode.CloudGraphModeLine)
    (hlbl : opt._nodeLabelMode = CloudGraphOptNodeLabel.CloudGraphOptNodeLabelNone)
    (hW : WellIndexed cloud) :
    ∃ cloud1, CloudGraphArrange ext cloud opt = some cloud1 ∧
      cloud1._nodes.map (fun n => (n._id, n._family, n._label)) =
        (CloudGraphSortNodeByFamily cloud)._nodes.map (fun n => (n._id, n._family, n._label)) ∧
      cloud1._families.map (fun f => (f._id, f._rgba, f._label)) =
        cloud._families.map (fun f => (f._id, f._rgba, f._label)) ∧
      ∀ f ∈ cloud1._families, ∀ first last : CloudGraphNode F,
        (members f._id cloud1._nodes).head? = some first →
        (members f._id cloud1._nodes).getLast? = some last →
        (∃ start : Nat, members f._id cloud1._nodes =
          (cloud1._nodes.drop start).take (members f._id cloud1._nodes).length) ∧
        f._pos.y = (first._pos.y + last._pos.y) / 2 ∧
        ∀ lo hi : F, (∀ n ∈ members f._id cloud1._nodes, lo ≤ n._pos.y ∧ n._pos.y ≤ hi) →
          lo ≤ f._pos.y ∧ f._pos.y ≤ hi := by
  obtain ⟨cloud1, h1, h2⟩ := line_anchor_is_midpoint ext cloud opt hmode hlbl hW
  obtain ⟨t1, t2⟩ := arrange_ties ext cloud cloud1 opt (Or.inl hmode) hW h1
  exact ⟨cloud1, h1, t1, t2, h2⟩

end Claims27
/-- Witness of C27: the cloud `cloudMixed` (four nodes of two families in mixed
order), font size 10, no label displayed. -/
theorem C27_line_anchor_is_midpoint_witness :
    WellIndexed (cloudMixed ℝ) ∧
    ∃ cloud1,
      CloudGraphArrange (exampleExt ⟨Real.cos, Real.sin, Real.sqrt, Real.pi⟩) (cloudMixed ℝ)
        (exampleOpt ℝ CloudGraphMode.CloudGraphModeLine
          CloudGraphOptNodeLabel.CloudGraphOptNodeLabelNone
          CloudGraphOptFamilyLabel.CloudGraphOptFamilyLabelNone 10) = some cloud1 ∧
      ∀ f ∈ cloud1._families, ∀ first last : CloudGraphNode ℝ,
        (members f._id cloud1._nodes).head? = some first →
        (members f._id cloud1._nodes).getLast? = some last →
        f._pos.y = (first._pos.y + last._pos.y) / 2 := by
  have hW : WellIndexed (cloudMixed ℝ) := by
    simp [WellIndexed, cloudMixed, exampleCloud, exampleNode, exampleFamily]
  obtain ⟨cloud1, h1, -, -, h2⟩ :=
    C27_line_anchor_is_midpoint (exampleExt ⟨Real.cos, Real.sin, Real.sqrt, Real.pi⟩)
      (cloudMixed ℝ)
      (exampleOpt ℝ CloudGraphMode.CloudGraphModeLine
        CloudGraphOptNodeLabel.CloudGraphOptNodeLabelNone
        CloudGraphOptFamilyLabel.CloudGraphOptFamilyLabelNone 10) rfl rfl hW
  exact ⟨hW, cloud1, h1, fun f hf first last a b => (h2 f hf first last a b).2.1⟩

end CG
namespace CG
section Claims28
variable {F : Type} [LinearOrderedField F]

/-- Two points of the circle of radius `r` are at most `2 r` apart, and the
control point `A - A.right * (dist * k)` of a link is `(r - dist * k) * A.right`
with `0 ≤ r - dist * k ≤ r` for `0 ≤ k ≤ 1 / 2`. -/
theorem circle_chord (m : PBMath F) (r ta tb k : F) (hr : 0 ≤ r) (hk0 : 0 ≤ k)
    (hk1 : k ≤ 1 / 2)
    (htrig : ∀ t, m.cos t * m.cos t + m.sin t * m.sin t = 1)
    (hsqrt : ∀ x, 0 ≤ x → 0 ≤ m.sqrt x ∧ m.sqrt x * m.sqrt x = x) :
    0 ≤ r - VecDist m ⟨r * m.cos ta, r * m.sin ta⟩ ⟨r * m.cos tb, r * m.sin tb⟩ * k ∧
    r - VecDist m ⟨r * m.cos ta, r * m.sin ta⟩ ⟨r * m.cos tb, r * m.sin tb⟩ * k ≤ r := by
  have ha := htrig ta
  have hb := htrig tb
  have hX0 : 0 ≤ (r * m.cos ta - r * m.cos tb) * (r * m.cos ta - r * m.cos tb) +
      (r * m.sin ta - r * m.sin tb) * (r * m.sin ta - r * m.sin tb) :=
    add_nonneg (mul_self_nonneg _) (mul_self_nonneg _)
  obtain ⟨hD0, hDD⟩ := hsqrt _ hX0
  have hX4 : (r * m.cos ta - r * m.cos tb) * (r * m.cos ta - r * m.cos tb) +
      (r * m.sin ta - r * m.sin tb) * (r * m.sin ta - r * m.sin tb) ≤ (2 * r) * (2 * r) := by
    have h1 : 0 ≤ (r * m.cos ta + r * m.cos tb) * (r * m.cos ta + r * m.cos tb) +
        (r * m.sin ta + r * m.sin tb) * (r * m.sin ta + r * m.sin tb) :=
      add_nonneg (mul_self_nonneg _) (mul_self_nonneg _)
    linear_combination h1 + (2 * r * r) * ha + (2 * r * r) * hb
  have hD2 : VecDist m ⟨r * m.cos ta, r * m.sin ta⟩ ⟨r * m.cos tb, r * m.sin tb⟩ ≤ 2 * r := by
    simp only [VecDist]
    rw [mul_self_le_mul_self_iff hD0 (by linarith), hDD]
    exact hX4
  have hD0' : 0 ≤ VecDist m ⟨r * m.cos ta, r * m.sin ta⟩ ⟨r * m.cos tb, r * m.sin tb⟩ := hD0
  constructor
  · have : VecDist m ⟨r * m.cos ta, r * m.sin ta⟩ ⟨r * m.cos tb, r * m.sin tb⟩ * k ≤
        (2 * r) * (1 / 2) := mul_le_mul hD2 hk1 hk0 (by linarith)
    linarith
  · have := mul_nonneg hD0' hk0
    linarith

/-- The norm of `c * (cos t, sin t)` is `c` for `c ≥ 0`. -/
theorem norm_scaled_unit (m : PBMath F) (c t : F) (hc : 0 ≤ c)
    (htrig : ∀ t, m.cos t * m.cos t + m.sin t * m.sin t = 1)
    (hsqrt : ∀ x, 0 ≤ x → 0 ≤ m.sqrt x ∧ m.sqrt x * m.sqrt x = x) :
    VecNorm m ⟨c * m.cos t, c * m.sin t⟩ = c := by
  have h := htrig t
  have hX : c * m.cos t * (c * m.cos t) + c * m.sin t * (c * m.sin t) = c * c := by
    linear_combination (c * c) * h
  simp only [VecNorm]
  rw [hX]
  obtain ⟨h0, h1⟩ := hsqrt (c * c) (mul_self_nonneg c)
  exact (mul_self_inj h0 hc).mp h1

/-- C28, as amended: after `CloudGraphArrange` in circle mode, on a cloud
whose family ids and node families lie in `[0, number of families)`, with the curvature in
`[0, 1]` and the size of the font of nodes positive (exact arithmetic,
`cos² + sin² = 1`, `pi > 0`, `sqrt` the non negative square root): the links
after the call are the links of the cloud (same ends, same order), an id
resolves after the call exactly when it resolves before, and for every link
whose two ends `a`, `b` resolve and `c = r - dist(a, b) * curvature / 2`,
`r = nodeCount * fontSizeNode / pi`: `0 ≤ c ≤ r`, the two inner control points
are `c * a.right` and `c * b.right`, and their norms are at most `r`. -/
theorem C28_circle_control_points_inside (ext : Ext F) (cloud : CloudGraph F)
    (opt : CloudGraphOpt F)
    (hmode : opt._mode = CloudGraphMode.CloudGraphModeCircle) (hW : WellIndexed cloud)
    (hc0 : 0 ≤ opt._curvature) (hc1 : opt._curvature ≤ 1) (hfs : 0 < opt._fontSizeNode)
    (hpi : 0 < ext.pi)
    (htrig : ∀ t, ext.cos t * ext.cos t + ext.sin t * ext.sin t = 1)
    (hsqrt : ∀ x, 0 ≤ x → 0 ≤ ext.sqrt x ∧ ext.sqrt x * ext.sqrt x = x) :
    ∃ cloud1, CloudGraphArrange ext cloud opt = some cloud1 ∧
      cloud1._links.map (fun l => (l._nodes0, l._nodes1)) =
        cloud._links.map (fun l => (l._nodes0, l._nodes1)) ∧
      (∀ id, (CloudGraphGetNode cloud1 id).isSome = (CloudGraphGetNode cloud id).isSome) ∧
      ∀ l ∈ cloud1._links, ∀ a b : CloudGraphNode F,
        CloudGraphGetNode cloud1 l._nodes0 = some a →
        CloudGraphGetNode cloud1 l._nodes1 = some b →
        0 ≤ (cloud._nodes.length : F) * opt._fontSizeNode / ext.pi -
          VecDist ext.toPBMath a._pos b._pos * opt._curvature / 2 ∧
        (cloud._nodes.length : F) * opt._fontSizeNode / ext.pi -
          VecDist ext.toPBMath a._pos b._pos * opt._curvature / 2 ≤
            (cloud._nodes.length : F) * opt._fontSizeNode / ext.pi ∧
        l._curve._ctrl1 =
          ⟨((cloud._nodes.length : F) * opt._fontSizeNode / ext.pi -
              VecDist ext.toPBMath a._pos b._pos * opt._curvature / 2) * a._right.x,
            ((cloud._nodes.length : F) * opt._fontSizeNode / ext.pi -
              VecDist ext.toPBMath a._pos b._pos * opt._curvature / 2) * a._right.y⟩ ∧
        l._curve._ctrl2 =
          ⟨((cloud._nodes.length : F) * opt._fontSizeNode / ext.pi -
              VecDist ext.toPBMath a._pos b._pos * opt._curvature / 2) * b._right.x,
            ((cloud._nodes.length : F) * opt._fontSizeNode / ext.pi -
              VecDist ext.toPBMath a._pos b._pos * opt._curvature / 2) * b._right.y⟩ ∧
        VecNorm ext.toPBMath l._curve._ctrl1 ≤
          (cloud._nodes.length : F) * opt._fontSizeNode / ext.pi ∧
        VecNorm ext.toPBMath l._curve._ctrl2 ≤
          (cloud._nodes.length : F) * opt._fontSizeNode / ext.pi := by
  have hspec := arrange_circle_spec ext cloud opt hmode hW
  obtain ⟨cloudL, hU, hlinks⟩ :=
    arrange_links ext cloud opt (by rw [hmode]; decide) hW _ hspec
  refine ⟨_, hspec, ?_, ?_, ?_⟩
  · rw [hlinks, List.map_map]
    apply List.map_congr_left
    intro l0 _
    obtain ⟨s0, s1, -, -⟩ := arrangeLink_spec ext.toPBMath cloudL
      (if opt._mode = CloudGraphMode.CloudGraphModeCircle
        then opt._curvature * (1 / 2) else opt._curvature) l0
    show ((boxLink ext _)._nodes0, (boxLink ext _)._nodes1) = _
    exact Prod.ext s0 s1
  · intro id
    obtain ⟨c1, hc1, hid⟩ := arrange_nodes_identity ext cloud opt (Or.inr hW)
    rw [hspec] at hc1
    obtain rfl := Option.some.inj hc1
    have h2 : (CloudGraphUpdateBoundingBox ext
        (circleLayout ext.toPBMath (CloudGraphSortNodeByFamily cloud) opt) opt)._nodes.map
          (fun n => n._id) =
        (CloudGraphSortNodeByFamily cloud)._nodes.map (fun n => n._id) := by
      have := congrArg (List.map (fun t : Int × Int × Option String => t.1)) hid
      simpa [List.map_map, Function.comp_def] using this
    rw [getNode_isSome_ids _ _ h2]
    exact getNode_isSome_perm _ _ (sortNodes_perm cloud) id
  intro l hl a b ha hb
  rw [hlinks, List.mem_map] at hl
  obtain ⟨l0, _, rfl⟩ := hl
  simp only [hmode, if_true] at ha hb ⊢
  obtain ⟨s0, s1, s2, -⟩ := arrangeLink_spec ext.toPBMath cloudL (opt._curvature * (1 / 2)) l0
  have hn0 : (boxLink ext (arrangeLink ext.toPBMath cloudL (opt._curvature * (1 / 2)) l0))._nodes0 =
      l0._nodes0 := s0
  have hn1 : (boxLink ext (arrangeLink ext.toPBMath cloudL (opt._curvature * (1 / 2)) l0))._nodes1 =
      l0._nodes1 := s1
  rw [hn0] at ha
  rw [hn1] at hb
  have hmemA := List.mem_of_find?_eq_some ha
  have hmemB := List.mem_of_find?_eq_some hb
  obtain ⟨i, hi, hai⟩ := List.getElem_of_mem hmemA
  obtain ⟨j, hj, hbj⟩ := List.getElem_of_mem hmemB
  obtain ⟨-, pa, ra⟩ := arrange_circle_node ext cloud opt i hi
  obtain ⟨-, pb, rb⟩ := arrange_circle_node ext cloud opt j hj
  rw [hai] at pa ra
  rw [hbj] at pb rb
  have hget : ∀ id, CloudGraphGetNode (CloudGraphUpdateBoundingBox ext
      (circleLayout ext.toPBMath (CloudGraphSortNodeByFamily cloud) opt) opt) id =
      (CloudGraphGetNode cloudL id).map
        (boxNode ext opt { cloudL._font with _size := opt._fontSizeNode }) := by
    intro id
    rw [hU]
    exact getNode_update ext cloudL opt id
  rw [hget, Option.map_eq_some'] at ha hb
  obtain ⟨a0, ha0, ha0eq⟩ := ha
  obtain ⟨b0, hb0, hb0eq⟩ := hb
  have hcurve := (s2 a0 b0 ha0 hb0).1
  have hpa0 : a0._pos = a._pos := by rw [← ha0eq]; rfl
  have hra0 : a0._right = a._right := by rw [← ha0eq]; rfl
  have hpb0 : b0._pos = b._pos := by rw [← hb0eq]; rfl
  have hrb0 : b0._right = b._right := by rw [← hb0eq]; rfl
  rw [hpa0, hra0, hpb0, hrb0] at hcurve
  have hr : 0 ≤ (cloud._nodes.length : F) * opt._fontSizeNode / ext.pi :=
    div_nonneg (mul_nonneg (Nat.cast_nonneg _) hfs.le) hpi.le
  have hk : opt._curvature * (1 / 2) ≤ 1 / 2 := by linarith
  have hk0 : 0 ≤ opt._curvature * (1 / 2) := by linarith
  obtain ⟨c0, c1⟩ := circle_chord ext.toPBMath
    ((cloud._nodes.length : F) * opt._fontSizeNode / ext.pi)
    ((i : F) * (2 * ext.pi / (cloud._nodes.length : F)))
    ((j : F) * (2 * ext.pi / (cloud._nodes.length : F))) (opt._curvature * (1 / 2)) hr hk0 hk
    htrig hsqrt
  rw [← pa, ← pb] at c0 c1
  have hceq : VecDist ext.toPBMath a._pos b._pos * opt._curvature / 2 =
      VecDist ext.toPBMath a._pos b._pos * (opt._curvature * (1 / 2)) := by ring
  rw [hceq]
  have hctrl1 : (boxLink ext (arrangeLink ext.toPBMath cloudL (opt._curvature * (1 / 2))
      l0))._curve._ctrl1 =
      ⟨((cloud._nodes.length : F) * opt._fontSizeNode / ext.pi -
          VecDist ext.toPBMath a._pos b._pos * (opt._curvature * (1 / 2))) * a._right.x,
        ((cloud._nodes.length : F) * opt._fontSizeNode / ext.pi -
          VecDist ext.toPBMath a._pos b._pos * (opt._curvature * (1 / 2))) * a._right.y⟩ := by
    show (arrangeLink ext.toPBMath cloudL (opt._curvature * (1 / 2)) l0)._curve._ctrl1 = _
    rw [hcurve]
    simp only
    rw [VecFloat.mk.injEq]
    constructor
    · rw [congrArg VecFloat.x pa, congrArg VecFloat.x ra]
      ring
    · rw [congrArg VecFloat.y pa, congrArg VecFloat.y ra]
      ring
  have hctrl2 : (boxLink ext (arrangeLink ext.toPBMath cloudL (opt._curvature * (1 / 2))
      l0))._curve._ctrl2 =
      ⟨((cloud._nodes.length : F) * opt._fontSizeNode / ext.pi -
          VecDist ext.toPBMath a._pos b._pos * (opt._curvature * (1 / 2))) * b._right.x,
        ((cloud._nodes.length : F) * opt._fontSizeNode / ext.pi -
          VecDist ext.toPBMath a._pos b._pos * (opt._curvature * (1 / 2))) * b._right.y⟩ := by
    show (arrangeLink ext.toPBMath cloudL (opt._curvature * (1 / 2)) l0)._curve._ctrl2 = _
    rw [hcurve]
    simp only
    rw [VecFloat.mk.injEq]
    constructor
    · rw [congrArg VecFloat.x pb, congrArg VecFloat.x rb]
      ring
    · rw [congrArg VecFloat.y pb, congrArg VecFloat.y rb]
      ring
  refine ⟨c0, c1, hctrl1, hctrl2, ?_, ?_⟩
  · rw [hctrl1, congrArg VecFloat.x ra, congrArg VecFloat.y ra,
      norm_scaled_unit ext.toPBMath _ _ c0 htrig hsqrt]
    exact c1
  · rw [hctrl2, congrArg VecFloat.x rb, congrArg VecFloat.y rb,
      norm_scaled_unit ext.toPBMath _ _ c0 htrig hsqrt]
    exact c1

end Claims28
/-- Witness of C28: the cloud `cloudMixed` in circle mode, with the real `cos`,
`sin`, `sqrt` and `pi`, the curvature 1 and the font size 10. -/
theorem C28_circle_control_points_inside_witness :
    WellIndexed (cloudMixed ℝ) ∧
    ∃ cloud1,
      CloudGraphArrange (exampleExt ⟨Real.cos, Real.sin, Real.sqrt, Real.pi⟩) (cloudMixed ℝ)
        (exampleOpt ℝ CloudGraphMode.CloudGraphModeCircle
          CloudGraphOptNodeLabel.CloudGraphOptNodeLabelNone
          CloudGraphOptFamilyLabel.CloudGraphOptFamilyLabelNone 10) = some cloud1 ∧
      cloud1._links.map (fun l => (l._nodes0, l._nodes1)) = [(0, 1), (2, 7)] ∧
      ∀ l ∈ cloud1._links, ∀ a b : CloudGraphNode ℝ,
        CloudGraphGetNode cloud1 l._nodes0 = some a →
        CloudGraphGetNode cloud1 l._nodes1 = some b →
        VecNorm ⟨Real.cos, Real.sin, Real.sqrt, Real.pi⟩ l._curve._ctrl1 ≤
          ((cloudMixed ℝ)._nodes.length : ℝ) * 10 / Real.pi ∧
        VecNorm ⟨Real.cos, Real.sin, Real.sqrt, Real.pi⟩ l._curve._ctrl2 ≤
          ((cloudMixed ℝ)._nodes.length : ℝ) * 10 / Real.pi := by
  have hW : WellIndexed (cloudMixed ℝ) := by
    simp [WellIndexed, cloudMixed, exampleCloud, exampleNode, exampleFamily]
  obtain ⟨cloud1, h1, hl1, -, h2⟩ :=
    C28_circle_control_points_inside (exampleExt ⟨Real.cos, Real.sin, Real.sqrt, Real.pi⟩)
      (cloudMixed ℝ)
      (exampleOpt ℝ CloudGraphMode.CloudGraphModeCircle
        CloudGraphOptNodeLabel.CloudGraphOptNodeLabelNone
        CloudGraphOptFamilyLabel.CloudGraphOptFamilyLabelNone 10) rfl hW
      (show (0 : ℝ) ≤ 1 from zero_le_one) (show (1 : ℝ) ≤ 1 from le_refl _)
      (show (0 : ℝ) < 10 by norm_num) Real.pi_pos
      (fun t => by
        show Real.cos t * Real.cos t + Real.sin t * Real.sin t = 1
        have := Real.cos_sq_add_sin_sq t
        nlinarith [this])
      (fun x hx => ⟨Real.sqrt_nonneg x, Real.mul_self_sqrt hx⟩)
  exact ⟨hW, cloud1, h1, hl1, fun l hl a b ha hb =>
    ⟨(h2 l hl a b ha hb).2.2.2.2.1, (h2 l hl a b ha hb).2.2.2.2.2⟩⟩

end CG
namespace CG
section Outside
variable {F : Type} [LinearOrderedField F]

/-- In line or circle mode the arrangement of a cloud that is not
`WellIndexed` reads or writes outside `posFamily`: the call is undefined. -/
theorem arrange_undefined (ext : Ext F) (cloud : CloudGraph F) (opt : CloudGraphOpt F)
    (hmode : opt._mode ≠ CloudGraphMode.CloudGraphModeOther) (hW : ¬ WellIndexed cloud) :
    CloudGraphArrange ext cloud opt = none := by
  cases h : CloudGraphArrange ext cloud opt with
  | none => rfl
  | some c =>
    rcases (arrange_defined_iff ext _ opt).mp ⟨c, h⟩ with h1 | h1
    · exact absurd h1 hmode
    · exact absurd h1 hW

/-- The cloud `cloudOutside` has one node, of family 1, and one family, of
id 1: both indexes are outside `[0, 1)`. -/
theorem cloudOutside_not_wellIndexed : ¬ WellIndexed (cloudOutside F) := by
  intro h
  have := h.1 _ (List.mem_singleton_self _)
  simp [cloudOutside, CloudGraphAddNode, CloudGraphAddFamily, CloudGraphCreate,
    CloudGraphCreateFamily, CloudGraphCreateNode] at this

/-- The cloud `cloudOutsideLinked` has one family, of id 1, outside `[0, 1)`. -/
theorem cloudOutsideLinked_not_wellIndexed : ¬ WellIndexed (cloudOutsideLinked F) := by
  intro h
  have := h.2 _ (List.mem_singleton_self _)
  simp [cloudOutsideLinked, CloudGraphAddNode, CloudGraphAddFamily, CloudGraphAddLink,
    CloudGraphCreate, CloudGraphCreateFamily, CloudGraphCreateNode, CloudGraphCreateLink] at this

end Outside

/-- C3 (counterexample): the cloud `cloudOutside` has one node and the size
of the font is 10, yet the call of `CloudGraphArrange` in circle mode is
undefined (the family 1 of the node is outside the arrays of one cell): there
is no cloud after it whose nodes are at the distance `r` from the origin. -/
theorem C3_undefined_outside_arrays :
    (cloudOutside ℝ)._nodes.length = 1 ∧
    ¬ WellIndexed (cloudOutside ℝ) ∧
    CloudGraphArrange (exampleExt ⟨Real.cos, Real.sin, Real.sqrt, Real.pi⟩) (cloudOutside ℝ)
      (exampleOpt ℝ CloudGraphMode.CloudGraphModeCircle
        CloudGraphOptNodeLabel.CloudGraphOptNodeLabelAll
        CloudGraphOptFamilyLabel.CloudGraphOptFamilyLabelNone 10) = none ∧
    ¬ ∃ cloud1,
      CloudGraphArrange (exampleExt ⟨Real.cos, Real.sin, Real.sqrt, Real.pi⟩) (cloudOutside ℝ)
        (exampleOpt ℝ CloudGraphMode.CloudGraphModeCircle
          CloudGraphOptNodeLabel.CloudGraphOptNodeLabelAll
          CloudGraphOptFamilyLabel.CloudGraphOptFamilyLabelNone 10) = some cloud1 ∧
      ∀ n ∈ cloud1._nodes,
        VecDist ⟨Real.cos, Real.sin, Real.sqrt, Real.pi⟩ ⟨0, 0⟩ n._pos = 1 * 10 / Real.pi := by
  have h := arrange_undefined (exampleExt ⟨Real.cos, Real.sin, Real.sqrt, Real.pi⟩)
    (cloudOutside ℝ)
    (exampleOpt ℝ CloudGraphMode.CloudGraphModeCircle
      CloudGraphOptNodeLabel.CloudGraphOptNodeLabelAll
      CloudGraphOptFamilyLabel.CloudGraphOptFamilyLabelNone 10) (by simp [exampleOpt])
    cloudOutside_not_wellIndexed
  refine ⟨rfl, cloudOutside_not_wellIndexed, h, ?_⟩
  rintro ⟨c, hc, -⟩
  rw [h] at hc
  cases hc

end CG
namespace CG

/-- The cloud `cloud3` is arranged in line mode (font
size 10, no label displayed): its family is at `(10, 30)` and looks to the
right. With the mode set to a value that is neither line nor circle and the
labels of nodes displayed, a first call of `CloudGraphArrange` runs no
arrangement and `CloudGraphUpdateBoundingBox` moves the family to `(25, 30)`
(the longest label is 5 long); a second call with the same options moves it
again, to `(40, 30)`. -/
theorem other_mode_pushes_again :
    ∃ c0 c1 c2 : CloudGraph ℝ,
      CloudGraphArrange (exampleExt ⟨Real.cos, Real.sin, Real.sqrt, Real.pi⟩) (cloud3 ℝ)
        (exampleOpt ℝ CloudGraphMode.CloudGraphModeLine
          CloudGraphOptNodeLabel.CloudGraphOptNodeLabelNone
          CloudGraphOptFamilyLabel.CloudGraphOptFamilyLabelNone 10) = some c0 ∧
      CloudGraphArrange (exampleExt ⟨Real.cos, Real.sin, Real.sqrt, Real.pi⟩) c0
        (exampleOpt ℝ CloudGraphMode.CloudGraphModeOther
          CloudGraphOptNodeLabel.CloudGraphOptNodeLabelAll
          CloudGraphOptFamilyLabel.CloudGraphOptFamilyLabelNone 10) = some c1 ∧
      CloudGraphArrange (exampleExt ⟨Real.cos, Real.sin, Real.sqrt, Real.pi⟩) c1
        (exampleOpt ℝ CloudGraphMode.CloudGraphModeOther
          CloudGraphOptNodeLabel.CloudGraphOptNodeLabelAll
          CloudGraphOptFamilyLabel.CloudGraphOptFamilyLabelNone 10) = some c2 ∧
      c0._families.map (fun f => f._pos) = [⟨10, 30⟩] ∧
      c1._families.map (fun f => f._pos) = [⟨25, 30⟩] ∧
      c2._families.map (fun f => f._pos) = [⟨40, 30⟩] ∧
      c2 ≠ c1 := by
  have hW : WellIndexed (cloud3 ℝ) := by
    simp [WellIndexed, cloud3, exampleCloud, exampleNode, exampleFamily]
  have ha : "a".length = 1 := rfl
  have hb : "b".length = 1 := rfl
  have hc : "c".length = 1 := rfl
  have hAN : ¬ (CloudGraphOptNodeLabel.CloudGraphOptNodeLabelAll =
      CloudGraphOptNodeLabel.CloudGraphOptNodeLabelNone) := by decide
  have hs : Real.sqrt 25 = 5 := by
    rw [show (25 : ℝ) = 5 * 5 by norm_num, Real.sqrt_mul_self (by norm_num)]
  have h0 : (CloudGraphUpdateBoundingBox (exampleExt ⟨Real.cos, Real.sin, Real.sqrt, Real.pi⟩)
      (lineLayout ⟨Real.cos, Real.sin, Real.sqrt, Real.pi⟩ (CloudGraphSortNodeByFamily (cloud3 ℝ))
        (exampleOpt ℝ CloudGraphMode.CloudGraphModeLine
          CloudGraphOptNodeLabel.CloudGraphOptNodeLabelNone
          CloudGraphOptFamilyLabel.CloudGraphOptFamilyLabelNone 10))
      (exampleOpt ℝ CloudGraphMode.CloudGraphModeLine
        CloudGraphOptNodeLabel.CloudGraphOptNodeLabelNone
        CloudGraphOptFamilyLabel.CloudGraphOptFamilyLabelNone 10))._families.map
        (fun f => (f._pos, f._right)) = [(⟨10, 30⟩, ⟨1, 0⟩)] := by
    rw [updateBoundingBox_families]
    norm_num [lineLayout, lineNodes, CloudGraphSortNodeByFamily, GSetSort, List.orderedInsert,
      cloud3, exampleCloud, exampleNode, exampleFamily, List.iterate, lineNode, lineFamily,
      boxFamily, familyPos, famMean, famSum, members, exampleOpt]
  have h1 : (CloudGraphUpdateBoundingBox (exampleExt ⟨Real.cos, Real.sin, Real.sqrt, Real.pi⟩)
      (CloudGraphSortNodeByFamily
        (CloudGraphUpdateBoundingBox (exampleExt ⟨Real.cos, Real.sin, Real.sqrt, Real.pi⟩)
          (lineLayout ⟨Real.cos, Real.sin, Real.sqrt, Real.pi⟩
            (CloudGraphSortNodeByFamily (cloud3 ℝ))
            (exampleOpt ℝ CloudGraphMode.CloudGraphModeLine
              CloudGraphOptNodeLabel.CloudGraphOptNodeLabelNone
              CloudGraphOptFamilyLabel.CloudGraphOptFamilyLabelNone 10))
          (exampleOpt ℝ CloudGraphMode.CloudGraphModeLine
            CloudGraphOptNodeLabel.CloudGraphOptNodeLabelNone
            CloudGraphOptFamilyLabel.CloudGraphOptFamilyLabelNone 10)))
      (exampleOpt ℝ CloudGraphMode.CloudGraphModeOther
        CloudGraphOptNodeLabel.CloudGraphOptNodeLabelAll
        CloudGraphOptFamilyLabel.CloudGraphOptFamilyLabelNone 10))._families.map
        (fun f => f._pos) = [⟨25, 30⟩] := by
    rw [updateBoundingBox_families]
    simp only [CloudGraphSortNodeByFamily, updateBoundingBox_nodes, updateBoundingBox_families,
      updateBoundingBox_font]
    norm_num [lineLayout, lineNodes, GSetSort, List.orderedInsert,
      cloud3, exampleCloud, exampleNode, exampleFamily, List.iterate, lineNode, lineFamily,
      boxFamily, familyPos, famMean, famSum, members, exampleOpt, boxNode, maxLabelLength,
      labelLength, exampleExt, VecNorm, VecOp, fontAfter, ha, hb, hc, hs, hAN]
  have h2 : (CloudGraphUpdateBoundingBox (exampleExt ⟨Real.cos, Real.sin, Real.sqrt, Real.pi⟩)
      (CloudGraphSortNodeByFamily
        (CloudGraphUpdateBoundingBox (exampleExt ⟨Real.cos, Real.sin, Real.sqrt, Real.pi⟩)
          (CloudGraphSortNodeByFamily
            (CloudGraphUpdateBoundingBox
              (exampleExt ⟨Real.cos, Real.sin, Real.sqrt, Real.pi⟩)
              (lineLayout ⟨Real.cos, Real.sin, Real.sqrt, Real.pi⟩
                (CloudGraphSortNodeByFamily (cloud3 ℝ))
                (exampleOpt ℝ CloudGraphMode.CloudGraphModeLine
                  CloudGraphOptNodeLabel.CloudGraphOptNodeLabelNone
                  CloudGraphOptFamilyLabel.CloudGraphOptFamilyLabelNone 10))
              (exampleOpt ℝ CloudGraphMode.CloudGraphModeLine
                CloudGraphOptNodeLabel.CloudGraphOptNodeLabelNone
                CloudGraphOptFamilyLabel.CloudGraphOptFamilyLabelNone 10)))
          (exampleOpt ℝ CloudGraphMode.CloudGraphModeOther
            CloudGraphOptNodeLabel.CloudGraphOptNodeLabelAll
            CloudGraphOptFamilyLabel.CloudGraphOptFamilyLabelNone 10)))
      (exampleOpt ℝ CloudGraphMode.CloudGraphModeOther
        CloudGraphOptNodeLabel.CloudGraphOptNodeLabelAll
        CloudGraphOptFamilyLabel.CloudGraphOptFamilyLabelNone 10))._families.map
        (fun f => f._pos) = [⟨40, 30⟩] := by
    rw [updateBoundingBox_families]
    simp only [CloudGraphSortNodeByFamily, updateBoundingBox_nodes, updateBoundingBox_families,
      updateBoundingBox_font]
    norm_num [lineLayout, lineNodes, GSetSort, List.orderedInsert,
      cloud3, exampleCloud, exampleNode, exampleFamily, List.iterate, lineNode, lineFamily,
      boxFamily, familyPos, famMean, famSum, members, exampleOpt, boxNode, maxLabelLength,
      labelLength, exampleExt, VecNorm, VecOp, fontAfter, ha, hb, hc, hs, hAN]
  refine ⟨_, _, _, arrange_line_spec _ _ _ rfl hW, arrange_other_spec _ _ _ rfl,
    arrange_other_spec _ _ _ rfl, ?_, h1, h2, ?_⟩
  · have := congrArg (List.map Prod.fst) h0
    simpa [List.map_map, Function.comp_def] using this
  · intro h
    have h3 : ([⟨40, 30⟩] : List (VecFloat ℝ)) = [⟨25, 30⟩] :=
      h2.symm.trans
        ((congrArg (fun c : CloudGraph ℝ => c._families.map (fun f => f._pos)) h).trans h1)
    norm_num at h3

end CG
namespace CG

end CG
namespace CG

end CG
namespace CG

end CG
namespace CG
section Identity
variable {F : Type}

theorem find_identity (l : List (CloudGraphNode F)) (id : Int) :
    (l.find? (fun n => n._id == id)).map nodeIdentity =
      (l.map nodeIdentity).find? (fun t => t.1 == id) := by
  induction l with
  | nil => rfl
  | cons x xs ih =>
    by_cases h : x._id = id
    · simp [List.find?_cons, nodeIdentity, h]
    · have hb : (x._id == id) = false := beq_eq_false_iff_ne.mpr h
      simp only [List.find?_cons, List.map_cons, hb, nodeIdentity] at ih ⊢
      exact ih

theorem filter_identity (l : List (CloudGraphNode F)) (f : Int) :
    (l.filter (fun n => decide (n._family = f))).map nodeIdentity =
      (l.map nodeIdentity).filter (fun t => decide (t.2.1 = f)) := by
  rw [List.filter_map]
  rfl

/-- The first element with a given id is the first with this id among the
elements of its family. -/
theorem first_of_family (L : List (Int × Int × Option String)) (id : Int)
    (t : Int × Int × Option String) (h : L.find? (fun t => t.1 == id) = some t) :
    (L.filter (fun u => decide (u.2.1 = t.2.1))).find? (fun t => t.1 == id) = some t := by
  obtain ⟨hp, as, bs, hL, has⟩ := List.find?_eq_some.mp h
  rw [hL, List.filter_append, List.find?_append]
  have h1 : ((as.filter (fun u => decide (u.2.1 = t.2.1))).find? (fun t => t.1 == id)) =
      none := by
    rw [List.find?_eq_none]
    intro x hx
    have := has x (List.mem_filter.mp hx).1
    simpa using this
  rw [h1, Option.none_or, List.filter_cons_of_pos (by simp)]
  simp only [List.find?_cons, hp]

/-- In a list ordered by family, the first element with a given id has the
lowest family among the elements with this id. -/
theorem first_is_lowest (L : List (Int × Int × Option String))
    (hs : L.Pairwise (fun a b => a.2.1 ≤ b.2.1)) (id : Int)
    (t : Int × Int × Option String) (h : L.find? (fun t => t.1 == id) = some t) :
    ∀ u ∈ L, u.1 = id → t.2.1 ≤ u.2.1 := by
  obtain ⟨hp, as, bs, hL, has⟩ := List.find?_eq_some.mp h
  intro u hu hid
  rw [hL] at hu hs
  rcases List.mem_append.mp hu with h1 | h1
  · have := has u h1
    simp [hid] at this
  · rcases List.mem_cons.mp h1 with rfl | h1
    · exact le_refl _
    · exact List.rel_of_pairwise_cons (List.pairwise_append.mp hs).2.1 h1

/-- Two lists with the same elements of each family have the same elements. -/
theorem mem_of_filters (L1 L2 : List (Int × Int × Option String))
    (h : ∀ f : Int, L1.filter (fun u => decide (u.2.1 = f)) =
      L2.filter (fun u => decide (u.2.1 = f)))
    (t : Int × Int × Option String) : t ∈ L1 ↔ t ∈ L2 := by
  have e : ∀ L : List (Int × Int × Option String),
      t ∈ L ↔ t ∈ L.filter (fun u => decide (u.2.1 = t.2.1)) := by
    intro L
    simp [List.mem_filter]
  rw [e L1, e L2, h]

theorem addedNodes_append (l1 l2 : List (CloudGraphCall F)) :
    addedNodes (l1 ++ l2) = addedNodes l1 ++ addedNodes l2 := by
  induction l1 with
  | nil => rfl
  | cons c rest ih =>
    cases c with
    | addNode n => simp [addedNodes, ih]
    | arrange opt => simp [addedNodes, ih]

end Identity

section Calls
variable {F : Type} [LinearOrderedField F]

theorem addNode_identity (cloud : CloudGraph F) (n : CloudGraphNode F) :
    (CloudGraphAddNode cloud n).2._nodes.map nodeIdentity =
      cloud._nodes.map nodeIdentity ++ [nodeIdentity n] := by
  simp [CloudGraphAddNode, nodeIdentity]

end Calls
end CG
namespace CG
section ExactRounding
variable {F : Type} [LinearOrderedField F]

theorem sortR_exact (cloud : CloudGraph F) :
    CloudGraphSortNodeByFamilyR Rounding.exact cloud = CloudGraphSortNodeByFamily cloud := rfl

theorem lineY_exact (opt : CloudGraphOpt F) (iNode : Nat) :
    lineY Rounding.exact opt iNode = 2 * opt._fontSizeNode * ((iNode : F) + 1 / 2) := rfl

theorem arrangeLineNodesR_exact (opt : CloudGraphOpt F) :
    ∀ (nodes : List (CloudGraphNode F)) (iNode : Nat) (pf : List F) (nf : List Int),
      arrangeLineNodesR Rounding.exact opt iNode nodes pf nf =
        arrangeLineNodes opt iNode nodes pf nf := by
  intro nodes
  induction nodes with
  | nil => intro iNode pf nf; rfl
  | cons n rest ih =>
    intro iNode pf nf
    simp only [arrangeLineNodesR, arrangeLineNodes, ih, lineY_exact]
    rfl

theorem averageFamilyR_exact (pf : List F) (nf : List Int) :
    averageFamilyR Rounding.exact pf nf = averageFamily pf nf := rfl

theorem arrangeLinkR_exact (m : PBMath F) (cloud : CloudGraph F) (k : F)
    (link : CloudGraphLink F) :
    arrangeLinkR m cloud (fun dist => -1 * dist * k) link = arrangeLink m cloud k link := rfl

theorem arrangeLineR_exact (m : PBMath F) (cloud : CloudGraph F) (opt : CloudGraphOpt F) :
    CloudGraphArrangeLineR Rounding.exact m cloud opt = CloudGraphArrangeLine m cloud opt := by
  simp only [CloudGraphArrangeLineR, CloudGraphArrangeLine, arrangeLineNodesR_exact,
    averageFamilyR_exact, arrangeLinks]
  rfl

theorem arrangeCircleNodesR_exact (m : PBMath F) (r dTheta : F) :
    ∀ (nodes : List (CloudGraphNode F)) (theta : F) (pf : List F) (nf : List Int),
      arrangeCircleNodesR Rounding.exact m r dTheta theta nodes pf nf =
        arrangeCircleNodes m r dTheta theta nodes pf nf := by
  intro nodes
  induction nodes with
  | nil => intro theta pf nf; rfl
  | cons n rest ih =>
    intro theta pf nf
    simp only [arrangeCircleNodesR, arrangeCircleNodes]
    rw [show Rounding.exact.toFloat (theta + dTheta) = theta + dTheta from rfl]
    simp only [ih]
    rfl

theorem arrangeCircleFamiliesR_exact (m : PBMath F) (r : F) (opt : CloudGraphOpt F)
    (pf : List F) :
    ∀ fams : List (CloudGraphFamily F),
      arrangeCircleFamiliesR Rounding.exact m r opt pf fams =
        arrangeCircleFamilies m r opt pf fams := by
  intro fams
  induction fams with
  | nil => rfl
  | cons f rest ih =>
    simp only [arrangeCircleFamiliesR, arrangeCircleFamilies, ih]
    rfl

theorem arrangeCircleR_exact (m : PBMath F) (cloud : CloudGraph F) (opt : CloudGraphOpt F) :
    CloudGraphArrangeCircleR Rounding.exact m cloud opt =
      CloudGraphArrangeCircle m cloud opt := by
  simp only [CloudGraphArrangeCircleR, CloudGraphArrangeCircle, averageFamilyR_exact,
    arrangeLinks]
  rw [show Rounding.exact.toFloat (Rounding.exact.toDouble
      (Rounding.exact.toFloat (Rounding.exact.toFloat (cloud._nodes.length : F) *
        opt._fontSizeNode) / m.pi)) = (cloud._nodes.length : F) * opt._fontSizeNode / m.pi
      from rfl,
    show Rounding.exact.toFloat (Rounding.exact.toDouble
      (Rounding.exact.toDouble (2 * m.pi) / Rounding.exact.toFloat (cloud._nodes.length : F))) =
      2 * m.pi / (cloud._nodes.length : F) from rfl]
  simp only [arrangeCircleNodesR_exact, arrangeCircleFamiliesR_exact]
  have e : (fun dist : F => Rounding.exact.toFloat (Rounding.exact.toDouble
      (Rounding.exact.toDouble (Rounding.exact.toDouble (-1 * dist) * opt._curvature) *
        (1 / 2)))) = fun dist => -1 * dist * (opt._curvature * (1 / 2)) := by
    funext dist
    show -1 * dist * opt._curvature * (1 / 2) = -1 * dist * (opt._curvature * (1 / 2))
    ring
  rw [e]
  rfl

/-- In exact arithmetic the arrangement with roundings is
`CloudGraphArrange`. -/
theorem CloudGraphArrangeR_exact (ext : Ext F) (cloud : CloudGraph F) (opt : CloudGraphOpt F) :
    CloudGraphArrangeR Rounding.exact ext cloud opt = CloudGraphArrange ext cloud opt := by
  simp only [CloudGraphArrangeR, CloudGraphArrange, sortR_exact, arrangeLineR_exact,
    arrangeCircleR_exact]

end ExactRounding
end CG
namespace CG
section RoundLemmas
variable {F : Type} [LinearOrderedField F] [FloorRing F]

theorem roundHalfEven_intCast (k : Int) : roundHalfEven ((k : F)) = k := by
  simp [roundHalfEven]

/-- An integer within less than one half of `x` is the rounding of `x`. -/
theorem roundHalfEven_of_lt (x : F) (k : Int) (h1 : (k : F) - 1 / 2 < x)
    (h2 : x < (k : F) + 1 / 2) : roundHalfEven x = k := by
  unfold roundHalfEven
  rcases le_or_lt (k : F) x with h | h
  · have hf : ⌊x⌋ = k := by
      rw [Int.floor_eq_iff]
      exact ⟨h, by linarith⟩
    rw [hf, if_pos (by linarith)]
  · have hf : ⌊x⌋ = k - 1 := by
      rw [Int.floor_eq_iff]
      push_cast
      exact ⟨by linarith, by linarith⟩
    rw [hf]
    push_cast
    rw [if_neg (by linarith), if_pos (by linarith)]
    ring

/-- Half way between `k` and `k + 1`, the rounding is the even one. -/
theorem roundHalfEven_tie (x : F) (k : Int) (h : x = (k : F) + 1 / 2) :
    roundHalfEven x = if k % 2 = 0 then k else k + 1 := by
  unfold roundHalfEven
  have hf : ⌊x⌋ = k := by
    rw [Int.floor_eq_iff, h]
    exact ⟨by linarith, by linarith⟩
  rw [hf, h, if_neg (by linarith), if_neg (by linarith)]

theorem log_two_eq (x : F) (l : Int) (hx : 0 < x) (h1 : (2 : F) ^ l ≤ x)
    (h2 : x < (2 : F) ^ (l + 1)) : Int.log 2 x = l := by
  have a : l ≤ Int.log 2 x := by
    rw [← Int.zpow_le_iff_le_log (by norm_num) hx]
    exact_mod_cast h1
  have b : Int.log 2 x < l + 1 := by
    rw [← Int.lt_zpow_iff_log_lt (by norm_num) hx]
    exact_mod_cast h2
  omega

/-- The rounding of a positive `x` of binary exponent `l`. -/
theorem roundBinary_eval (p : Nat) (x : F) (l : Int) (hx : 0 < x) (h1 : (2 : F) ^ l ≤ x)
    (h2 : x < (2 : F) ^ (l + 1)) :
    roundBinary p x =
      (roundHalfEven (x / (2 : F) ^ (l - ((p : Int) - 1))) : F) *
        (2 : F) ^ (l - ((p : Int) - 1)) := by
  unfold roundBinary
  rw [if_neg hx.ne', abs_of_pos hx, log_two_eq x l hx h1 h2]

/-- A positive number `n * 2 ^ z` with `n < 2 ^ p` is a floating-point number
of precision `p`: its rounding is itself. -/
theorem roundBinary_of_exact (p : Nat) (n : Nat) (z : Int) (hn : 0 < n) (hlt : n < 2 ^ p) :
    roundBinary p ((n : F) * (2 : F) ^ z) = (n : F) * (2 : F) ^ z := by
  have h2 : (0 : F) < 2 := by norm_num
  have hx : (0 : F) < (n : F) * (2 : F) ^ z :=
    mul_pos (by exact_mod_cast hn) (zpow_pos h2 z)
  have hl1 := Int.zpow_log_le_self (b := 2) (r := (n : F) * (2 : F) ^ z) (by norm_num) hx
  have hl2 := Int.lt_zpow_succ_log_self (b := 2) (by norm_num) ((n : F) * (2 : F) ^ z)
  rw [roundBinary_eval p _ (Int.log 2 ((n : F) * (2 : F) ^ z)) hx (by exact_mod_cast hl1)
    (by exact_mod_cast hl2)]
  have hzp : (n : F) * (2 : F) ^ z < (2 : F) ^ ((p : Int) + z) := by
    rw [zpow_add₀ h2.ne']
    apply mul_lt_mul_of_pos_right _ (zpow_pos h2 z)
    rw [zpow_natCast]
    exact_mod_cast hlt
  have hL : Int.log 2 ((n : F) * (2 : F) ^ z) < (p : Int) + z := by
    have h3 : ((2 : Nat) : F) ^ Int.log 2 ((n : F) * (2 : F) ^ z) < (2 : F) ^ ((p : Int) + z) :=
      lt_of_le_of_lt hl1 hzp
    have h4 : (1 : F) < ((2 : Nat) : F) := by norm_num
    have h5 : ((2 : Nat) : F) ^ Int.log 2 ((n : F) * (2 : F) ^ z) <
        ((2 : Nat) : F) ^ ((p : Int) + z) := by exact_mod_cast h3
    exact (zpow_lt_zpow_iff_right₀ h4).mp h5
  obtain ⟨d, hd⟩ : ∃ d : Nat, z - (Int.log 2 ((n : F) * (2 : F) ^ z) - ((p : Int) - 1)) = d :=
    ⟨(z - (Int.log 2 ((n : F) * (2 : F) ^ z) - ((p : Int) - 1))).toNat,
      (Int.toNat_of_nonneg (by omega)).symm⟩
  have hdiv : (n : F) * (2 : F) ^ z /
      (2 : F) ^ (Int.log 2 ((n : F) * (2 : F) ^ z) - ((p : Int) - 1)) =
      (((n * 2 ^ d : Nat) : Int) : F) := by
    rw [mul_div_assoc, ← zpow_sub₀ h2.ne', hd, zpow_natCast]
    push_cast
    ring
  rw [hdiv, roundHalfEven_intCast]
  push_cast
  rw [mul_assoc, ← zpow_natCast, ← hd, ← zpow_add₀ h2.ne']
  congr 2
  ring

theorem roundBinary_zero (p : Nat) : roundBinary p (0 : F) = 0 := by
  simp [roundBinary]

end RoundLemmas
end CG
namespace CG
section RoundReal

/-- A number `n * 2 ^ z` with `0 < n < 2 ^ p` is its own rounding. -/
theorem roundBinary_rep (p : Nat) (x : ℝ) (n : Nat) (z : Int) (hn : 0 < n) (hlt : n < 2 ^ p)
    (hx : x = (n : ℝ) * (2 : ℝ) ^ z) : roundBinary p x = x := by
  rw [hx]
  exact roundBinary_of_exact p n z hn hlt

/-- The rounding of a positive `x` of binary exponent `l` whose quotient by
`2 ^ (l - (p - 1))` is within less than one half of `k`. -/
theorem roundBinary_near (p : Nat) (x : ℝ) (l k : Int) (hx : 0 < x) (h1 : (2 : ℝ) ^ l ≤ x)
    (h2 : x < (2 : ℝ) ^ (l + 1))
    (hk1 : (k : ℝ) - 1 / 2 < x / (2 : ℝ) ^ (l - ((p : Int) - 1)))
    (hk2 : x / (2 : ℝ) ^ (l - ((p : Int) - 1)) < (k : ℝ) + 1 / 2) :
    roundBinary p x = (k : ℝ) * (2 : ℝ) ^ (l - ((p : Int) - 1)) := by
  rw [roundBinary_eval p x l hx h1 h2, roundHalfEven_of_lt _ k hk1 hk2]

/-- The rounding of a positive `x` of binary exponent `l` whose quotient by
`2 ^ (l - (p - 1))` is half way between the even `k` and `k + 1`. -/
theorem roundBinary_tie (p : Nat) (x : ℝ) (l k : Int) (hx : 0 < x) (h1 : (2 : ℝ) ^ l ≤ x)
    (h2 : x < (2 : ℝ) ^ (l + 1))
    (hk : x / (2 : ℝ) ^ (l - ((p : Int) - 1)) = (k : ℝ) + 1 / 2) (he : k % 2 = 0) :
    roundBinary p x = (k : ℝ) * (2 : ℝ) ^ (l - ((p : Int) - 1)) := by
  rw [roundBinary_eval p x l hx h1 h2, roundHalfEven_tie _ k hk, if_pos he]

/-- The ordinates that `CloudGraphArrangeLine` gives to the first three nodes
when the size of the font is the `float` nearest to 0.1
(`13421773 / 134217728`): the exact values `0.1f`, `3 * 0.1f` and `5 * 0.1f`
are rounded to `float`. -/
theorem lineY_tenth :
    lineY Rounding.ieee
        (exampleOpt ℝ CloudGraphMode.CloudGraphModeLine
          CloudGraphOptNodeLabel.CloudGraphOptNodeLabelNone
          CloudGraphOptFamilyLabel.CloudGraphOptFamilyLabelNone (13421773 / 134217728)) 0 =
      13421773 / 134217728 ∧
    lineY Rounding.ieee
        (exampleOpt ℝ CloudGraphMode.CloudGraphModeLine
          CloudGraphOptNodeLabel.CloudGraphOptNodeLabelNone
          CloudGraphOptFamilyLabel.CloudGraphOptFamilyLabelNone (13421773 / 134217728)) 1 =
      5033165 / 16777216 ∧
    lineY Rounding.ieee
        (exampleOpt ℝ CloudGraphMode.CloudGraphModeLine
          CloudGraphOptNodeLabel.CloudGraphOptNodeLabelNone
          CloudGraphOptFamilyLabel.CloudGraphOptFamilyLabelNone (13421773 / 134217728)) 2 =
      1 / 2 := by
  have d2 : roundBinary 53 ((2 : ℝ) * (13421773 / 134217728)) = 13421773 / 67108864 := by
    rw [roundBinary_rep 53 _ 13421773 (-26) (by norm_num) (by norm_num) (by norm_num)]
    norm_num
  have f0 : roundBinary 24 (((0 : Nat) : ℝ)) = 0 := by
    rw [Nat.cast_zero, roundBinary_zero]
  have f1 : roundBinary 24 (((1 : Nat) : ℝ)) = 1 := by
    rw [roundBinary_rep 24 _ 1 0 (by norm_num) (by norm_num) (by norm_num)]
    norm_num
  have f2 : roundBinary 24 (((2 : Nat) : ℝ)) = 2 := by
    rw [roundBinary_rep 24 _ 2 0 (by norm_num) (by norm_num) (by norm_num)]
    norm_num
  have h0 : roundBinary 53 ((0 : ℝ) + 1 / 2) = 1 / 2 := by
    rw [roundBinary_rep 53 _ 1 (-1) (by norm_num) (by norm_num) (by norm_num)]
    norm_num
  have h1 : roundBinary 53 ((1 : ℝ) + 1 / 2) = 3 / 2 := by
    rw [roundBinary_rep 53 _ 3 (-1) (by norm_num) (by norm_num) (by norm_num)]
    norm_num
  have h2 : roundBinary 53 ((2 : ℝ) + 1 / 2) = 5 / 2 := by
    rw [roundBinary_rep 53 _ 5 (-1) (by norm_num) (by norm_num) (by norm_num)]
    norm_num
  have p0 : roundBinary 53 ((13421773 / 67108864 : ℝ) * (1 / 2)) = 13421773 / 134217728 := by
    rw [roundBinary_rep 53 _ 13421773 (-27) (by norm_num) (by norm_num) (by norm_num)]
    norm_num
  have p1 : roundBinary 53 ((13421773 / 67108864 : ℝ) * (3 / 2)) = 40265319 / 134217728 := by
    rw [roundBinary_rep 53 _ 40265319 (-27) (by norm_num) (by norm_num) (by norm_num)]
    norm_num
  have p2 : roundBinary 53 ((13421773 / 67108864 : ℝ) * (5 / 2)) = 67108865 / 134217728 := by
    rw [roundBinary_rep 53 _ 67108865 (-27) (by norm_num) (by norm_num) (by norm_num)]
    norm_num
  have y0 : roundBinary 24 (13421773 / 134217728 : ℝ) = 13421773 / 134217728 :=
    roundBinary_rep 24 _ 13421773 (-27) (by norm_num) (by norm_num) (by norm_num)
  have y1 : roundBinary 24 (40265319 / 134217728 : ℝ) = 5033165 / 16777216 := by
    rw [roundBinary_near 24 _ (-2) 10066330 (by norm_num) (by norm_num) (by norm_num)
      (by norm_num) (by norm_num)]
    norm_num
  have y2 : roundBinary 24 (67108865 / 134217728 : ℝ) = 1 / 2 := by
    rw [roundBinary_near 24 _ (-1) 8388608 (by norm_num) (by norm_num) (by norm_num)
      (by norm_num) (by norm_num)]
    norm_num
  refine ⟨?_, ?_, ?_⟩
  · show roundBinary 24 (roundBinary 53 (roundBinary 53 ((2 : ℝ) * (13421773 / 134217728)) *
      roundBinary 53 (roundBinary 24 (((0 : Nat) : ℝ)) + 1 / 2))) = _
    rw [d2, f0, h0, p0, y0]
  · show roundBinary 24 (roundBinary 53 (roundBinary 53 ((2 : ℝ) * (13421773 / 134217728)) *
      roundBinary 53 (roundBinary 24 (((1 : Nat) : ℝ)) + 1 / 2))) = _
    rw [d2, f1, h1, p1, y1]
  · show roundBinary 24 (roundBinary 53 (roundBinary 53 ((2 : ℝ) * (13421773 / 134217728)) *
      roundBinary 53 (roundBinary 24 (((2 : Nat) : ℝ)) + 1 / 2))) = _
    rw [d2, f2, h2, p2, y2]

end RoundReal
end CG
namespace CG
section Cloud3R
variable {F : Type} [LinearOrderedField F]

/-- `CloudGraphArrangeLine` with roundings on the cloud `cloud3` (three nodes
of the family 0): the ordinates of the nodes, and the ordinate of the family,
which is the sum of the three ordinates, added one at a time in `float`,
divided in `float` by the number of nodes. -/
theorem arrangeLineR_cloud3 (R : Rounding F) (m : PBMath F) (opt : CloudGraphOpt F) :
    ∃ c, CloudGraphArrangeLineR R m (cloud3 F) opt = some c ∧
      c._nodes.map (fun n => (n._id, n._family, n._pos)) =
        [(0, 0, ⟨0, lineY R opt 0⟩), (1, 0, ⟨0, lineY R opt 1⟩), (2, 0, ⟨0, lineY R opt 2⟩)] ∧
      c._families.map (fun f => (f._id, f._pos, f._right)) =
        [(0, ⟨opt._fontSizeNode,
          R.toFloat (R.toFloat (R.toFloat (R.toFloat (0 + lineY R opt 0) + lineY R opt 1) +
            lineY R opt 2) / R.toFloat ((3 : Int) : F))⟩, ⟨1, 0⟩)] :=
  ⟨_, rfl, rfl, rfl⟩

end Cloud3R
end CG
namespace CG

/-- The arrangement in line mode with the roundings of `float` and `double`,
on the cloud `cloud3` (three nodes of the family 0) with the size of the font
the `float` nearest to 0.1: the ordinates of the nodes are
`13421773 / 134217728`, `5033165 / 16777216` and `1 / 2`, and the family is
at the ordinate `10066329 / 33554432`. -/
theorem arrangeR_cloud3_tenth :
    ∃ cloud1,
      CloudGraphArrangeR Rounding.ieee (exampleExt ⟨Real.cos, Real.sin, Real.sqrt, Real.pi⟩)
        (cloud3 ℝ)
        (exampleOpt ℝ CloudGraphMode.CloudGraphModeLine
          CloudGraphOptNodeLabel.CloudGraphOptNodeLabelNone
          CloudGraphOptFamilyLabel.CloudGraphOptFamilyLabelNone (13421773 / 134217728)) =
        some cloud1 ∧
      cloud1._nodes.map (fun n => (n._id, n._family, n._pos)) =
        [(0, 0, ⟨0, 13421773 / 134217728⟩), (1, 0, ⟨0, 5033165 / 16777216⟩),
          (2, 0, ⟨0, 1 / 2⟩)] ∧
      cloud1._families.map (fun f => (f._id, f._pos, f._right)) =
        [(0, ⟨13421773 / 134217728, 10066329 / 33554432⟩, ⟨1, 0⟩)] := by
  have hsort : CloudGraphSortNodeByFamilyR Rounding.ieee (cloud3 ℝ) = cloud3 ℝ := by
    norm_num [CloudGraphSortNodeByFamilyR, cloud3, exampleCloud, exampleNode, GSetSort,
      Rounding.ieee, roundBinary_zero, List.orderedInsert]
  obtain ⟨c, hc, hn, hf⟩ := arrangeLineR_cloud3 Rounding.ieee
    (exampleExt ⟨Real.cos, Real.sin, Real.sqrt, Real.pi⟩).toPBMath
    (exampleOpt ℝ CloudGraphMode.CloudGraphModeLine
      CloudGraphOptNodeLabel.CloudGraphOptNodeLabelNone
      CloudGraphOptFamilyLabel.CloudGraphOptFamilyLabelNone (13421773 / 134217728))
  obtain ⟨e0, e1, e2⟩ := lineY_tenth
  have a0 : roundBinary 24 ((0 : ℝ) + 13421773 / 134217728) = 13421773 / 134217728 := by
    rw [roundBinary_rep 24 _ 13421773 (-27) (by norm_num) (by norm_num) (by norm_num)]
    norm_num
  have a1 : roundBinary 24 ((13421773 / 134217728 : ℝ) + 5033165 / 16777216) =
      13421773 / 33554432 := by
    rw [roundBinary_near 24 _ (-2) 13421773 (by norm_num) (by norm_num) (by norm_num)
      (by norm_num) (by norm_num)]
    norm_num
  have a2 : roundBinary 24 ((13421773 / 33554432 : ℝ) + 1 / 2) = 7549747 / 8388608 := by
    rw [roundBinary_tie 24 _ (-1) 15099494 (by norm_num) (by norm_num) (by norm_num)
      (by norm_num) (by norm_num)]
    norm_num
  have f3 : roundBinary 24 (((3 : Int) : ℝ)) = 3 := by
    rw [roundBinary_rep 24 _ 3 0 (by norm_num) (by norm_num) (by norm_num)]
    norm_num
  have an : roundBinary 24 ((7549747 / 8388608 : ℝ) / 3) = 10066329 / 33554432 := by
    rw [roundBinary_near 24 _ (-2) 10066329 (by norm_num) (by norm_num) (by norm_num)
      (by norm_num) (by norm_num)]
    norm_num
  rw [e0, e1, e2] at hn hf
  have hf2 : c._families.map (fun f => (f._id, f._pos, f._right)) =
      [(0, ⟨13421773 / 134217728, 10066329 / 33554432⟩, ⟨1, 0⟩)] := by
    rw [hf]
    show [((0 : Int), (⟨13421773 / 134217728,
      roundBinary 24 (roundBinary 24 (roundBinary 24 (roundBinary 24
        ((0 : ℝ) + 13421773 / 134217728) + 5033165 / 16777216) + 1 / 2) /
        roundBinary 24 (((3 : Int) : ℝ)))⟩ : VecFloat ℝ), (⟨1, 0⟩ : VecFloat ℝ))] = _
    rw [a0, a1, a2, f3, an]
  refine ⟨CloudGraphUpdateBoundingBox (exampleExt ⟨Real.cos, Real.sin, Real.sqrt, Real.pi⟩) c
    (exampleOpt ℝ CloudGraphMode.CloudGraphModeLine
      CloudGraphOptNodeLabel.CloudGraphOptNodeLabelNone
      CloudGraphOptFamilyLabel.CloudGraphOptFamilyLabelNone (13421773 / 134217728)), ?_, ?_, ?_⟩
  · simp only [CloudGraphArrangeR, hsort, exampleOpt]
    simp only [exampleOpt] at hc
    rw [hc]
  · rw [updateBoundingBox_nodes, List.map_map, ← hn]
    rfl
  · rw [updateBoundingBox_families, List.map_map, ← hf2]
    apply List.map_congr_left
    intro f _
    simp [boxFamily, familyPos, exampleOpt]

end CG
namespace CG

/-- C1 (counterexample), in two parts. First, the cloud `cloudOutside`, built
with the public functions, has a node of family 1 and one family only: in
line mode the loop on the nodes writes `posFamily[1]` outside the array of
one cell, so the call of `CloudGraphArrange` is undefined. Second, with the
roundings of `float` and `double`, on the cloud `cloud3` with the size of the
font the `float` nearest to 0.1 (`13421773 / 134217728`), the ordinates of
the three nodes are `13421773 / 134217728`, `5033165 / 16777216` and `1 / 2`:
the second is not `2 * fontSizeNode * 1.5`, and neither difference of two
consecutive ordinates is `2 * fontSizeNode`. -/
theorem C1_undefined_or_rounded :
    (¬ WellIndexed (cloudOutside ℝ) ∧
      CloudGraphArrange (exampleExt ⟨Real.cos, Real.sin, Real.sqrt, Real.pi⟩) (cloudOutside ℝ)
        (exampleOpt ℝ CloudGraphMode.CloudGraphModeLine
          CloudGraphOptNodeLabel.CloudGraphOptNodeLabelNone
          CloudGraphOptFamilyLabel.CloudGraphOptFamilyLabelNone 10) = none) ∧
    ∃ cloud1,
      CloudGraphArrangeR Rounding.ieee (exampleExt ⟨Real.cos, Real.sin, Real.sqrt, Real.pi⟩)
        (cloud3 ℝ)
        (exampleOpt ℝ CloudGraphMode.CloudGraphModeLine
          CloudGraphOptNodeLabel.CloudGraphOptNodeLabelNone
          CloudGraphOptFamilyLabel.CloudGraphOptFamilyLabelNone (13421773 / 134217728)) =
        some cloud1 ∧
      cloud1._nodes.map (fun n => n._pos) =
        [⟨0, 13421773 / 134217728⟩, ⟨0, 5033165 / 16777216⟩, ⟨0, 1 / 2⟩] ∧
      (5033165 / 16777216 : ℝ) ≠ 2 * (13421773 / 134217728) * (1 + 1 / 2) ∧
      (5033165 / 16777216 : ℝ) - 13421773 / 134217728 ≠ 2 * (13421773 / 134217728) ∧
      (1 / 2 : ℝ) - 5033165 / 16777216 ≠ 2 * (13421773 / 134217728) := by
  refine ⟨⟨cloudOutside_not_wellIndexed,
    arrange_undefined _ _ _ (by simp [exampleOpt]) cloudOutside_not_wellIndexed⟩, ?_⟩
  obtain ⟨cloud1, h1, hn, -⟩ := arrangeR_cloud3_tenth
  refine ⟨cloud1, h1, ?_, by norm_num, by norm_num, by norm_num⟩
  have := congrArg (List.map (fun t : Int × Int × VecFloat ℝ => t.2.2)) hn
  simpa [List.map_map, Function.comp_def] using this

/-- C5 (counterexample): with the roundings of `float` and `double`, on the
cloud `cloud3` (three nodes of the family 0, the labels of nodes not
displayed) with the size of the font the `float` nearest to 0.1, the ordinates
of the nodes are `13421773 / 134217728`, `5033165 / 16777216` and `1 / 2`, and
the family is at the ordinate `10066329 / 33554432` (the three ordinates added
one at a time and the sum divided by 3, each result rounded to `float`), which
is not the mean `40265319 / 134217728` of the three ordinates. -/
theorem C5_rounded_anchor_is_not_the_mean :
    WellIndexed (cloud3 ℝ) ∧
    ∃ cloud1,
      CloudGraphArrangeR Rounding.ieee (exampleExt ⟨Real.cos, Real.sin, Real.sqrt, Real.pi⟩)
        (cloud3 ℝ)
        (exampleOpt ℝ CloudGraphMode.CloudGraphModeLine
          CloudGraphOptNodeLabel.CloudGraphOptNodeLabelNone
          CloudGraphOptFamilyLabel.CloudGraphOptFamilyLabelNone (13421773 / 134217728)) =
        some cloud1 ∧
      cloud1._nodes.map (fun n => (n._family, n._pos.y)) =
        [(0, 13421773 / 134217728), (0, 5033165 / 16777216), (0, 1 / 2)] ∧
      cloud1._families.map (fun f => (f._id, f._pos)) =
        [(0, ⟨13421773 / 134217728, 10066329 / 33554432⟩)] ∧
      ∀ f ∈ cloud1._families, members f._id cloud1._nodes ≠ [] ∧
        famMean f._id (fun n => n._pos.y) cloud1._nodes = 40265319 / 134217728 ∧
        f._pos.y ≠ famMean f._id (fun n => n._pos.y) cloud1._nodes := by
  have hW : WellIndexed (cloud3 ℝ) := by
    simp [WellIndexed, cloud3, exampleCloud, exampleNode, exampleFamily]
  obtain ⟨cloud1, h1, hn, hf⟩ := arrangeR_cloud3_tenth
  have hn2 : cloud1._nodes.map (fun n => (n._family, n._pos.y)) =
      [(0, 13421773 / 134217728), (0, 5033165 / 16777216), (0, 1 / 2)] := by
    have := congrArg (List.map (fun t : Int × Int × VecFloat ℝ => (t.2.1, t.2.2.y))) hn
    simpa [List.map_map, Function.comp_def] using this
  have hf2 : cloud1._families.map (fun f => (f._id, f._pos)) =
      [(0, ⟨13421773 / 134217728, 10066329 / 33554432⟩)] := by
    have := congrArg (List.map (fun t : Int × VecFloat ℝ × VecFloat ℝ => (t.1, t.2.1))) hf
    simpa [List.map_map, Function.comp_def] using this
  refine ⟨hW, cloud1, h1, hn2, hf2, ?_⟩
  intro f hfm
  have hfid : (f._id, f._pos) = (0, (⟨13421773 / 134217728, 10066329 / 33554432⟩ : VecFloat ℝ)) := by
    have h := List.mem_map_of_mem (fun f : CloudGraphFamily ℝ => (f._id, f._pos)) hfm
    rw [hf2] at h
    simpa using h
  have hid : f._id = 0 := congrArg Prod.fst hfid
  have hpos : f._pos = ⟨13421773 / 134217728, 10066329 / 33554432⟩ := congrArg Prod.snd hfid
  obtain ⟨n0, n1, n2, hl⟩ : ∃ n0 n1 n2, cloud1._nodes = [n0, n1, n2] := by
    have hlen : cloud1._nodes.length = 3 := by
      have := congrArg List.length hn2
      simpa using this
    match hc : cloud1._nodes, hlen with
    | [a, b, c], _ => exact ⟨a, b, c, rfl⟩
  rw [hl] at hn2 ⊢
  simp only [List.map_cons, List.map_nil, List.cons.injEq, Prod.mk.injEq, and_true] at hn2
  obtain ⟨⟨a0, b0⟩, ⟨a1, b1⟩, a2, b2⟩ := hn2
  have hmean : famMean f._id (fun n => n._pos.y) [n0, n1, n2] = 40265319 / 134217728 := by
    simp only [famMean, famSum, members, hid, List.filter, a0, a1, a2, decide_True,
      List.map_cons, List.map_nil, List.sum_cons, List.sum_nil, List.length_cons,
      List.length_nil, b0, b1, b2]
    norm_num
  refine ⟨?_, hmean, ?_⟩
  · simp [members, hid, a0]
  · rw [hmean, hpos]
    norm_num

/-- C27 (counterexample): with the roundings of `float` and `double`, on the
cloud `cloud3` (three nodes of the family 0, the labels of nodes not
displayed) with the size of the font the `float` nearest to 0.1, the first
node of the family is at the ordinate `13421773 / 134217728`, the last at
`1 / 2`, and the family at `10066329 / 33554432`, which is not the midpoint
`80530637 / 268435456` of the two. -/
theorem C27_rounded_anchor_is_not_the_midpoint :
    WellIndexed (cloud3 ℝ) ∧
    ∃ cloud1,
      CloudGraphArrangeR Rounding.ieee (exampleExt ⟨Real.cos, Real.sin, Real.sqrt, Real.pi⟩)
        (cloud3 ℝ)
        (exampleOpt ℝ CloudGraphMode.CloudGraphModeLine
          CloudGraphOptNodeLabel.CloudGraphOptNodeLabelNone
          CloudGraphOptFamilyLabel.CloudGraphOptFamilyLabelNone (13421773 / 134217728)) =
        some cloud1 ∧
      cloud1._families.map (fun f => f._id) = [0] ∧
      ∀ f ∈ cloud1._families,
        ∃ first last : CloudGraphNode ℝ,
          (members f._id cloud1._nodes).head? = some first ∧
          (members f._id cloud1._nodes).getLast? = some last ∧
          first._pos.y = 13421773 / 134217728 ∧ last._pos.y = 1 / 2 ∧
          f._pos.y = 10066329 / 33554432 ∧
          f._pos.y ≠ (first._pos.y + last._pos.y) / 2 := by
  have hW : WellIndexed (cloud3 ℝ) := by
    simp [WellIndexed, cloud3, exampleCloud, exampleNode, exampleFamily]
  obtain ⟨cloud1, h1, hn, hf⟩ := arrangeR_cloud3_tenth
  have hn2 : cloud1._nodes.map (fun n => (n._family, n._pos.y)) =
      [(0, 13421773 / 134217728), (0, 5033165 / 16777216), (0, 1 / 2)] := by
    have := congrArg (List.map (fun t : Int × Int × VecFloat ℝ => (t.2.1, t.2.2.y))) hn
    simpa [List.map_map, Function.comp_def] using this
  have hf2 : cloud1._families.map (fun f => (f._id, f._pos)) =
      [(0, ⟨13421773 / 134217728, 10066329 / 33554432⟩)] := by
    have := congrArg (List.map (fun t : Int × VecFloat ℝ × VecFloat ℝ => (t.1, t.2.1))) hf
    simpa [List.map_map, Function.comp_def] using this
  have hf3 : cloud1._families.map (fun f => f._id) = [0] := by
    have := congrArg (List.map (fun t : Int × VecFloat ℝ => t.1)) hf2
    simpa [List.map_map, Function.comp_def] using this
  refine ⟨hW, cloud1, h1, hf3, ?_⟩
  intro f hfm
  have hfid : (f._id, f._pos) = (0, (⟨13421773 / 134217728, 10066329 / 33554432⟩ : VecFloat ℝ)) := by
    have h := List.mem_map_of_mem (fun f : CloudGraphFamily ℝ => (f._id, f._pos)) hfm
    rw [hf2] at h
    simpa using h
  have hid : f._id = 0 := congrArg Prod.fst hfid
  have hpos : f._pos = ⟨13421773 / 134217728, 10066329 / 33554432⟩ := congrArg Prod.snd hfid
  obtain ⟨n0, n1, n2, hl⟩ : ∃ n0 n1 n2, cloud1._nodes = [n0, n1, n2] := by
    have hlen : cloud1._nodes.length = 3 := by
      have := congrArg List.length hn2
      simpa using this
    match hc : cloud1._nodes, hlen with
    | [a, b, c], _ => exact ⟨a, b, c, rfl⟩
  rw [hl] at hn2 ⊢
  simp only [List.map_cons, List.map_nil, List.cons.injEq, Prod.mk.injEq, and_true] at hn2
  obtain ⟨⟨a0, b0⟩, ⟨a1, b1⟩, a2, b2⟩ := hn2
  refine ⟨n0, n2, ?_, ?_, b0, b2, ?_, ?_⟩
  · simp [members, hid, a0]
  · simp [members, hid, a0, a1, a2]
  · rw [hpos]
  · rw [hpos, b0, b2]
    norm_num

end CG
namespace CG
section RoundError
variable {F : Type} [LinearOrderedField F] [FloorRing F]

/-- The rounding to the nearest integer moves a number by one half at most. -/
theorem roundHalfEven_abs_sub_le (x : F) : |((roundHalfEven x : Int) : F) - x| ≤ 1 / 2 := by
  have hf1 := Int.floor_le x
  have hf2 := Int.lt_floor_add_one x
  unfold roundHalfEven
  rw [abs_le]
  split_ifs with h1 h2 h3
  · constructor <;> linarith
  · push_cast
    constructor <;> linarith
  · constructor <;> linarith
  · push_cast
    have h4 : x - (⌊x⌋ : F) = 1 / 2 := le_antisymm (not_lt.mp h2) (not_lt.mp h1)
    constructor <;> linarith

/-- The rounding of a positive `x` of binary exponent `l` to the precision `p`
moves it by half a unit in the last place at most. -/
theorem roundBinary_abs_sub_le (p : Nat) (x : F) (l : Int) (hx : 0 < x) (h1 : (2 : F) ^ l ≤ x)
    (h2 : x < (2 : F) ^ (l + 1)) :
    |roundBinary p x - x| ≤ (2 : F) ^ (l - ((p : Int) - 1)) / 2 := by
  have hpos : (0 : F) < (2 : F) ^ (l - ((p : Int) - 1)) := zpow_pos (by norm_num) _
  rw [roundBinary_eval p x l hx h1 h2]
  have h := roundHalfEven_abs_sub_le (x / (2 : F) ^ (l - ((p : Int) - 1)))
  have e : ((roundHalfEven (x / (2 : F) ^ (l - ((p : Int) - 1))) : Int) : F) *
      (2 : F) ^ (l - ((p : Int) - 1)) - x =
      (((roundHalfEven (x / (2 : F) ^ (l - ((p : Int) - 1))) : Int) : F) -
        x / (2 : F) ^ (l - ((p : Int) - 1))) * (2 : F) ^ (l - ((p : Int) - 1)) := by
    field_simp
  rw [e, abs_mul, abs_of_pos hpos]
  calc |((roundHalfEven (x / (2 : F) ^ (l - ((p : Int) - 1))) : Int) : F) -
        x / (2 : F) ^ (l - ((p : Int) - 1))| * (2 : F) ^ (l - ((p : Int) - 1))
      ≤ 1 / 2 * (2 : F) ^ (l - ((p : Int) - 1)) := mul_le_mul_of_nonneg_right h hpos.le
    _ = (2 : F) ^ (l - ((p : Int) - 1)) / 2 := by ring

end RoundError

/-- The `float` `dTheta` of `CloudGraphArrangeCircle` for four nodes,
`2.0 * PBMATH_PI / (float)4` computed in `double`: it is `13176795 / 8388608`
for every value of `PBMATH_PI` from `105414357 / 33554432` (3.14159265...) to
`13176795 / 4194304` (3.14159274...); the `double` nearest to π, the `float`
nearest to π and 3.14159265359 are in this range. -/
theorem dTheta_four_nodes (pi : ℝ) (h1 : 105414357 / 33554432 ≤ pi)
    (h2 : pi ≤ 13176795 / 4194304) :
    roundBinary 24 (roundBinary 53 (roundBinary 53 (2 * pi) / roundBinary 24 (((4 : Nat) : ℝ)))) =
      13176795 / 8388608 := by
  have f4 : roundBinary 24 (((4 : Nat) : ℝ)) = 4 := by
    rw [roundBinary_rep 24 _ 4 0 (by norm_num) (by norm_num) (by norm_num)]
    norm_num
  rw [f4]
  have e1 := roundBinary_abs_sub_le 53 (2 * pi) 2 (by linarith) (by norm_num; linarith)
    (by norm_num; linarith)
  rw [abs_le] at e1
  norm_num at e1
  have e2 := roundBinary_abs_sub_le 53 (roundBinary 53 (2 * pi) / 4) 0 (by linarith)
    (by norm_num; linarith) (by norm_num; linarith)
  rw [abs_le] at e2
  norm_num at e2
  rw [roundBinary_near 24 _ 0 13176795 (by linarith) (by norm_num; linarith)
    (by norm_num; linarith) (by norm_num; linarith) (by norm_num; linarith)]
  norm_num

/-- The `float` `r` of `CloudGraphArrangeCircle` for three nodes and the size
of font 3, `(float)3 * 3 / PBMATH_PI` computed in `double`: it is
`3003949 / 1048576`, more than `9 / PBMATH_PI`, for every value of `PBMATH_PI`
from `105414357 / 33554432` to `13176795 / 4194304`. -/
theorem radius_three_nodes (pi : ℝ) (h1 : 105414357 / 33554432 ≤ pi)
    (h2 : pi ≤ 13176795 / 4194304) :
    roundBinary 24 (roundBinary 53 (roundBinary 24 (roundBinary 24 (((3 : Nat) : ℝ)) * 3) / pi)) =
      3003949 / 1048576 ∧ ((3 : Nat) : ℝ) * 3 / pi < 3003949 / 1048576 := by
  have f3 : roundBinary 24 (((3 : Nat) : ℝ)) = 3 := by
    rw [roundBinary_rep 24 _ 3 0 (by norm_num) (by norm_num) (by norm_num)]
    norm_num
  have f9 : roundBinary 24 ((3 : ℝ) * 3) = 9 := by
    rw [roundBinary_rep 24 _ 9 0 (by norm_num) (by norm_num) (by norm_num)]
    norm_num
  rw [f3, f9]
  have hpi : (0 : ℝ) < pi := by linarith
  have q1 : (9 : ℝ) / pi ≤ 9 / (105414357 / 33554432) :=
    div_le_div_of_nonneg_left (by norm_num) (by norm_num) h1
  have q2 : (9 : ℝ) / (13176795 / 4194304) ≤ 9 / pi :=
    div_le_div_of_nonneg_left (by norm_num) hpi h2
  norm_num at q1 q2
  have e1 := roundBinary_abs_sub_le 53 (9 / pi) 1 (by positivity) (by norm_num; linarith)
    (by norm_num; linarith)
  rw [abs_le] at e1
  norm_num at e1
  constructor
  · rw [roundBinary_near 24 _ 1 12015796 (by linarith) (by norm_num; linarith)
      (by norm_num; linarith) (by norm_num; linarith) (by norm_num; linarith)]
    norm_num
  · norm_num
    linarith

end CG
namespace CG
section Cloud4R
variable {F : Type} [LinearOrderedField F]

/-- `CloudGraphArrangeCircle` with roundings on the cloud `cloud4` (four nodes
of the family 0): the angles of the nodes, each the sum in `float` of the
angle before and of `dTheta`, and the angle of the family, the sum of the
four angles, added one at a time in `float`, divided in `float` by the number
of nodes. -/
theorem arrangeCircleR_cloud4 (R : Rounding F) (m : PBMath F) (opt : CloudGraphOpt F)
    (d : F)
    (hd : d = R.toFloat (R.toDouble (R.toDouble (2 * m.pi) / R.toFloat ((4 : Nat) : F)))) :
    ∃ c, CloudGraphArrangeCircleR R m (cloud4 F) opt = some c ∧
      c._nodes.map (fun n => (n._id, n._family, n._theta)) =
        [(0, 0, 0), (1, 0, R.toFloat (0 + d)), (2, 0, R.toFloat (R.toFloat (0 + d) + d)),
          (3, 0, R.toFloat (R.toFloat (R.toFloat (0 + d) + d) + d))] ∧
      c._families.map (fun f => (f._id, f._right)) =
        [(0, VecRot2D m ⟨1, 0⟩
          (R.toFloat (R.toFloat (R.toFloat (R.toFloat (R.toFloat (0 + 0) + R.toFloat (0 + d)) +
            R.toFloat (R.toFloat (0 + d) + d)) +
            R.toFloat (R.toFloat (R.toFloat (0 + d) + d) + d)) / R.toFloat ((4 : Int) : F))))] := by
  subst hd
  exact ⟨_, rfl, rfl, rfl⟩

end Cloud4R
end CG
namespace CG

/-- The arrangement in circle mode with the roundings of `float` and `double`,
on the cloud `cloud4` (four nodes of the family 0), for every value of
`PBMATH_PI` from `105414357 / 33554432` (3.14159265...) to
`13176795 / 4194304` (3.14159274...): `dTheta` is the `float`
`13176795 / 8388608`, the angles of the nodes are 0, `dTheta`, `2 * dTheta` and
`2470649 / 524288` (the `float` nearest to `3 * dTheta`), and the family is
turned by the angle `2470649 / 1048576`. -/
theorem arrangeR_cloud4_pi (pi : ℝ) (h1 : 105414357 / 33554432 ≤ pi)
    (h2 : pi ≤ 13176795 / 4194304) :
    ∃ cloud1,
      CloudGraphArrangeR Rounding.ieee (exampleExt ⟨Real.cos, Real.sin, Real.sqrt, pi⟩)
        (cloud4 ℝ)
        (exampleOpt ℝ CloudGraphMode.CloudGraphModeCircle
          CloudGraphOptNodeLabel.CloudGraphOptNodeLabelNone
          CloudGraphOptFamilyLabel.CloudGraphOptFamilyLabelNone 10) =
        some cloud1 ∧
      cloud1._nodes.map (fun n => (n._id, n._family, n._theta)) =
        [(0, 0, 0), (1, 0, 13176795 / 8388608), (2, 0, 13176795 / 4194304),
          (3, 0, 2470649 / 524288)] ∧
      cloud1._families.map (fun f => (f._id, f._right)) =
        [(0, VecRot2D (exampleExt ⟨Real.cos, Real.sin, Real.sqrt, pi⟩).toPBMath ⟨1, 0⟩
          (2470649 / 1048576))] := by
  have hsort : CloudGraphSortNodeByFamilyR Rounding.ieee (cloud4 ℝ) = cloud4 ℝ := by
    norm_num [CloudGraphSortNodeByFamilyR, cloud4, exampleCloud, exampleNode, GSetSort,
      Rounding.ieee, roundBinary_zero, List.orderedInsert]
  have hd : (13176795 / 8388608 : ℝ) =
      Rounding.ieee.toFloat (Rounding.ieee.toDouble (Rounding.ieee.toDouble
        (2 * (exampleExt (F := ℝ) ⟨Real.cos, Real.sin, Real.sqrt, pi⟩).toPBMath.pi) /
        Rounding.ieee.toFloat ((4 : Nat) : ℝ))) :=
    (dTheta_four_nodes pi h1 h2).symm
  obtain ⟨c, hc, hn, hf⟩ := arrangeCircleR_cloud4 Rounding.ieee
    (exampleExt ⟨Real.cos, Real.sin, Real.sqrt, pi⟩).toPBMath
    (exampleOpt ℝ CloudGraphMode.CloudGraphModeCircle
      CloudGraphOptNodeLabel.CloudGraphOptNodeLabelNone
      CloudGraphOptFamilyLabel.CloudGraphOptFamilyLabelNone 10) _ hd
  have t1 : roundBinary 24 ((0 : ℝ) + 13176795 / 8388608) = 13176795 / 8388608 := by
    rw [roundBinary_rep 24 _ 13176795 (-23) (by norm_num) (by norm_num) (by norm_num)]
    norm_num
  have t2 : roundBinary 24 ((13176795 / 8388608 : ℝ) + 13176795 / 8388608) =
      13176795 / 4194304 := by
    rw [roundBinary_rep 24 _ 13176795 (-22) (by norm_num) (by norm_num) (by norm_num)]
    norm_num
  have t3 : roundBinary 24 ((13176795 / 4194304 : ℝ) + 13176795 / 8388608) =
      2470649 / 524288 := by
    rw [roundBinary_near 24 _ 2 9882596 (by norm_num) (by norm_num) (by norm_num)
      (by norm_num) (by norm_num)]
    norm_num
  have p0 : roundBinary 24 ((0 : ℝ) + 0) = 0 := by
    rw [add_zero, roundBinary_zero]
  have p2 : roundBinary 24 ((13176795 / 8388608 : ℝ) + 13176795 / 4194304) =
      2470649 / 524288 := by
    rw [roundBinary_near 24 _ 2 9882596 (by norm_num) (by norm_num) (by norm_num)
      (by norm_num) (by norm_num)]
    norm_num
  have p3 : roundBinary 24 ((2470649 / 524288 : ℝ) + 2470649 / 524288) = 2470649 / 262144 := by
    rw [roundBinary_rep 24 _ 2470649 (-18) (by norm_num) (by norm_num) (by norm_num)]
    norm_num
  have f4i : roundBinary 24 (((4 : Int) : ℝ)) = 4 := by
    rw [roundBinary_rep 24 _ 4 0 (by norm_num) (by norm_num) (by norm_num)]
    norm_num
  have an : roundBinary 24 ((2470649 / 262144 : ℝ) / 4) = 2470649 / 1048576 := by
    rw [roundBinary_rep 24 _ 2470649 (-20) (by norm_num) (by norm_num) (by norm_num)]
    norm_num
  have hn2 : c._nodes.map (fun n => (n._id, n._family, n._theta)) =
      [(0, 0, 0), (1, 0, 13176795 / 8388608), (2, 0, 13176795 / 4194304),
        (3, 0, 2470649 / 524288)] := by
    rw [hn]
    show [((0 : Int), (0 : Int), (0 : ℝ)),
      (1, 0, roundBinary 24 ((0 : ℝ) + 13176795 / 8388608)),
      (2, 0, roundBinary 24 (roundBinary 24 ((0 : ℝ) + 13176795 / 8388608) +
        13176795 / 8388608)),
      (3, 0, roundBinary 24 (roundBinary 24 (roundBinary 24 ((0 : ℝ) + 13176795 / 8388608) +
        13176795 / 8388608) + 13176795 / 8388608))] = _
    rw [t1, t2, t3]
  have hf2 : c._families.map (fun f => (f._id, f._right)) =
      [(0, VecRot2D (exampleExt ⟨Real.cos, Real.sin, Real.sqrt, pi⟩).toPBMath ⟨1, 0⟩
        (2470649 / 1048576))] := by
    rw [hf]
    show [((0 : Int), VecRot2D (exampleExt ⟨Real.cos, Real.sin, Real.sqrt, pi⟩).toPBMath ⟨1, 0⟩
        (roundBinary 24 (roundBinary 24 (roundBinary 24 (roundBinary 24
          (roundBinary 24 ((0 : ℝ) + 0) + roundBinary 24 ((0 : ℝ) + 13176795 / 8388608)) +
          roundBinary 24 (roundBinary 24 ((0 : ℝ) + 13176795 / 8388608) +
            13176795 / 8388608)) +
          roundBinary 24 (roundBinary 24 (roundBinary 24 ((0 : ℝ) + 13176795 / 8388608) +
            13176795 / 8388608) + 13176795 / 8388608)) / roundBinary 24 (((4 : Int) : ℝ)))))] = _
    rw [p0, t1, t1, t2, t3, p2, p3, f4i, an]
  refine ⟨CloudGraphUpdateBoundingBox
    (exampleExt ⟨Real.cos, Real.sin, Real.sqrt, pi⟩) c
    (exampleOpt ℝ CloudGraphMode.CloudGraphModeCircle
      CloudGraphOptNodeLabel.CloudGraphOptNodeLabelNone
      CloudGraphOptFamilyLabel.CloudGraphOptFamilyLabelNone 10), ?_, ?_, ?_⟩
  · simp only [CloudGraphArrangeR, hsort, exampleOpt]
    simp only [exampleOpt] at hc
    rw [hc]
  · rw [updateBoundingBox_nodes, List.map_map, ← hn2]
    rfl
  · rw [updateBoundingBox_families, List.map_map, ← hf2]
    apply List.map_congr_left
    intro f _
    simp [boxFamily, familyPos, exampleOpt]

end CG
namespace CG

/-- C2 (counterexample), in two parts. First, the cloud `cloudOutside`, built
with the public functions, has one node, of family 1, and one family only: in
circle mode the loop on the nodes writes `posFamily[1]` outside the array of
one cell, so the call of `CloudGraphArrange` is undefined. Second, with the
roundings of `float` and `double`, on the cloud `cloud4` (four nodes),
`PBMATH_PI` being the `double` nearest to π (the header that defines it is
not among the sources; every value from 3.14159265... to 3.14159274... gives
the same angles, `arrangeR_cloud4_pi`), the angles of the nodes are 0,
`13176795 / 8388608`, `13176795 / 4194304` and `2470649 / 524288`: the second
is not `2 * pi / 4`, the fourth is not `3 * (2 * pi / 4)`, and the difference
of the last two angles is neither `2 * pi / 4` nor the difference of the two
angles before. -/
theorem C2_undefined_or_rounded :
    ((cloudOutside ℝ)._nodes.length = 1 ∧ ¬ WellIndexed (cloudOutside ℝ) ∧
      CloudGraphArrange (exampleExt ⟨Real.cos, Real.sin, Real.sqrt, Real.pi⟩) (cloudOutside ℝ)
        (exampleOpt ℝ CloudGraphMode.CloudGraphModeCircle
          CloudGraphOptNodeLabel.CloudGraphOptNodeLabelNone
          CloudGraphOptFamilyLabel.CloudGraphOptFamilyLabelNone 10) = none) ∧
    ∃ cloud1,
      CloudGraphArrangeR Rounding.ieee
        (exampleExt ⟨Real.cos, Real.sin, Real.sqrt, 884279719003555 / 281474976710656⟩)
        (cloud4 ℝ)
        (exampleOpt ℝ CloudGraphMode.CloudGraphModeCircle
          CloudGraphOptNodeLabel.CloudGraphOptNodeLabelNone
          CloudGraphOptFamilyLabel.CloudGraphOptFamilyLabelNone 10) =
        some cloud1 ∧
      cloud1._nodes.map (fun n => n._theta) =
        [0, 13176795 / 8388608, 13176795 / 4194304, 2470649 / 524288] ∧
      (13176795 / 8388608 : ℝ) ≠ 1 * (2 * (884279719003555 / 281474976710656) / 4) ∧
      (2470649 / 524288 : ℝ) ≠ 3 * (2 * (884279719003555 / 281474976710656) / 4) ∧
      (2470649 / 524288 : ℝ) - 13176795 / 4194304 ≠
        2 * (884279719003555 / 281474976710656) / 4 ∧
      (2470649 / 524288 : ℝ) - 13176795 / 4194304 ≠
        13176795 / 4194304 - 13176795 / 8388608 := by
  refine ⟨⟨rfl, cloudOutside_not_wellIndexed,
    arrange_undefined _ _ _ (by simp [exampleOpt]) cloudOutside_not_wellIndexed⟩, ?_⟩
  obtain ⟨cloud1, h1, hn, -⟩ := arrangeR_cloud4_pi (884279719003555 / 281474976710656)
    (by norm_num) (by norm_num)
  refine ⟨cloud1, h1, ?_, by norm_num, by norm_num, by norm_num, by norm_num⟩
  have := congrArg (List.map (fun t : Int × Int × ℝ => t.2.2)) hn
  simpa [List.map_map, Function.comp_def] using this

/-- C6 (counterexample): with the roundings of `float` and `double`, on the
cloud `cloud4` (four nodes of the family 0, the labels of nodes not
displayed), `PBMATH_PI` being the `double` nearest to π (the header that
defines it is not among the sources; every value from 3.14159265... to
3.14159274... gives the same angles, `arrangeR_cloud4_pi`), the angles of the
nodes are 0, `13176795 / 8388608`, `13176795 / 4194304` and
`2470649 / 524288`, of mean `79060769 / 33554432`, and the family has
`right = (1,0)` rotated by `2470649 / 1048576` (the four angles added one at a
time and the sum divided by 4, each result rounded to `float`), which is not
`(1,0)` rotated by the mean of the angles. -/
theorem C6_rounded_anchor_is_not_the_mean_angle :
    WellIndexed (cloud4 ℝ) ∧
    ∃ cloud1,
      CloudGraphArrangeR Rounding.ieee
        (exampleExt ⟨Real.cos, Real.sin, Real.sqrt, 884279719003555 / 281474976710656⟩)
        (cloud4 ℝ)
        (exampleOpt ℝ CloudGraphMode.CloudGraphModeCircle
          CloudGraphOptNodeLabel.CloudGraphOptNodeLabelNone
          CloudGraphOptFamilyLabel.CloudGraphOptFamilyLabelNone 10) =
        some cloud1 ∧
      cloud1._nodes.map (fun n => (n._family, n._theta)) =
        [(0, 0), (0, 13176795 / 8388608), (0, 13176795 / 4194304), (0, 2470649 / 524288)] ∧
      cloud1._families.map (fun f => f._id) = [0] ∧
      ∀ f ∈ cloud1._families, members f._id cloud1._nodes ≠ [] ∧
        famMean f._id (fun n => n._theta) cloud1._nodes = 79060769 / 33554432 ∧
        f._right = VecRot2D (exampleExt
          ⟨Real.cos, Real.sin, Real.sqrt, 884279719003555 / 281474976710656⟩).toPBMath ⟨1, 0⟩
          (2470649 / 1048576) ∧
        f._right ≠ VecRot2D (exampleExt
          ⟨Real.cos, Real.sin, Real.sqrt, 884279719003555 / 281474976710656⟩).toPBMath ⟨1, 0⟩
          (famMean f._id (fun n => n._theta) cloud1._nodes) := by
  have hW : WellIndexed (cloud4 ℝ) := by
    simp [WellIndexed, cloud4, exampleCloud, exampleNode, exampleFamily]
  obtain ⟨cloud1, h1, hn, hf⟩ := arrangeR_cloud4_pi (884279719003555 / 281474976710656)
    (by norm_num) (by norm_num)
  have hn2 : cloud1._nodes.map (fun n => (n._family, n._theta)) =
      [(0, 0), (0, 13176795 / 8388608), (0, 13176795 / 4194304), (0, 2470649 / 524288)] := by
    have := congrArg (List.map (fun t : Int × Int × ℝ => (t.2.1, t.2.2))) hn
    simpa [List.map_map, Function.comp_def] using this
  have hf3 : cloud1._families.map (fun f => f._id) = [0] := by
    have := congrArg (List.map (fun t : Int × VecFloat ℝ => t.1)) hf
    simpa [List.map_map, Function.comp_def] using this
  refine ⟨hW, cloud1, h1, hn2, hf3, ?_⟩
  intro f hfm
  have hfid : (f._id, f._right) = (0, VecRot2D (exampleExt
      ⟨Real.cos, Real.sin, Real.sqrt, 884279719003555 / 281474976710656⟩).toPBMath ⟨1, 0⟩
      (2470649 / 1048576)) := by
    have h := List.mem_map_of_mem (fun f : CloudGraphFamily ℝ => (f._id, f._right)) hfm
    rw [hf] at h
    simpa using h
  have hid : f._id = 0 := congrArg Prod.fst hfid
  have hright : f._right = _ := congrArg Prod.snd hfid
  obtain ⟨n0, n1, n2, n3, hl⟩ : ∃ n0 n1 n2 n3, cloud1._nodes = [n0, n1, n2, n3] := by
    have hlen : cloud1._nodes.length = 4 := by
      have := congrArg List.length hn2
      simpa using this
    match hc : cloud1._nodes, hlen with
    | [a, b, c, d], _ => exact ⟨a, b, c, d, rfl⟩
  rw [hl] at hn2 ⊢
  simp only [List.map_cons, List.map_nil, List.cons.injEq, Prod.mk.injEq, and_true] at hn2
  obtain ⟨⟨a0, b0⟩, ⟨a1, b1⟩, ⟨a2, b2⟩, a3, b3⟩ := hn2
  have hmean : famMean f._id (fun n => n._theta) [n0, n1, n2, n3] = 79060769 / 33554432 := by
    simp only [famMean, famSum, members, hid, List.filter, a0, a1, a2, a3, decide_True,
      List.map_cons, List.map_nil, List.sum_cons, List.sum_nil, List.length_cons,
      List.length_nil, b0, b1, b2, b3]
    norm_num
  refine ⟨?_, hmean, hright, ?_⟩
  · simp [members, hid, a0]
  · rw [hmean, hright]
    intro h
    have hx := congrArg VecFloat.x h
    simp only [VecRot2D, exampleExt, mul_one, mul_zero, sub_zero] at hx
    have hpi := Real.pi_gt_three
    have hinj := Real.injOn_cos
      (show (2470649 / 1048576 : ℝ) ∈ Set.Icc 0 Real.pi from
        ⟨by norm_num, by linarith [show (2470649 / 1048576 : ℝ) < 3 by norm_num]⟩)
      (show (79060769 / 33554432 : ℝ) ∈ Set.Icc 0 Real.pi from
        ⟨by norm_num, by linarith [show (79060769 / 33554432 : ℝ) < 3 by norm_num]⟩) hx
    norm_num at hinj

end CG
namespace CG

/-- C8 (counterexample), in two parts. First, on the cloud `cloudOutside`
(one node, of family 1, one family) the first call of `CloudGraphArrange`, in
line mode, writes `posFamily[1]` outside the array of one cell and is
undefined: there is no state after it. Second, the cloud `cloud3` is arranged
in line mode (font size 10, no label displayed): its family is at `(10, 30)`
and looks to the right; with the mode set to a value that is neither line nor
circle and the labels of nodes displayed, a first call of `CloudGraphArrange`
runs no arrangement and `CloudGraphUpdateBoundingBox` moves the family to
`(25, 30)`; a second call with the same options moves it again, to
`(40, 30)`. -/
theorem C8_undefined_or_pushed_again :
    (¬ WellIndexed (cloudOutside ℝ) ∧
      CloudGraphArrange (exampleExt ⟨Real.cos, Real.sin, Real.sqrt, Real.pi⟩) (cloudOutside ℝ)
        (exampleOpt ℝ CloudGraphMode.CloudGraphModeLine
          CloudGraphOptNodeLabel.CloudGraphOptNodeLabelAll
          CloudGraphOptFamilyLabel.CloudGraphOptFamilyLabelNone 10) = none) ∧
    ∃ c0 c1 c2 : CloudGraph ℝ,
      CloudGraphArrange (exampleExt ⟨Real.cos, Real.sin, Real.sqrt, Real.pi⟩) (cloud3 ℝ)
        (exampleOpt ℝ CloudGraphMode.CloudGraphModeLine
          CloudGraphOptNodeLabel.CloudGraphOptNodeLabelNone
          CloudGraphOptFamilyLabel.CloudGraphOptFamilyLabelNone 10) = some c0 ∧
      CloudGraphArrange (exampleExt ⟨Real.cos, Real.sin, Real.sqrt, Real.pi⟩) c0
        (exampleOpt ℝ CloudGraphMode.CloudGraphModeOther
          CloudGraphOptNodeLabel.CloudGraphOptNodeLabelAll
          CloudGraphOptFamilyLabel.CloudGraphOptFamilyLabelNone 10) = some c1 ∧
      CloudGraphArrange (exampleExt ⟨Real.cos, Real.sin, Real.sqrt, Real.pi⟩) c1
        (exampleOpt ℝ CloudGraphMode.CloudGraphModeOther
          CloudGraphOptNodeLabel.CloudGraphOptNodeLabelAll
          CloudGraphOptFamilyLabel.CloudGraphOptFamilyLabelNone 10) = some c2 ∧
      c0._families.map (fun f => f._pos) = [⟨10, 30⟩] ∧
      c1._families.map (fun f => f._pos) = [⟨25, 30⟩] ∧
      c2._families.map (fun f => f._pos) = [⟨40, 30⟩] ∧
      c2 ≠ c1 :=
  ⟨⟨cloudOutside_not_wellIndexed,
    arrange_undefined _ _ _ (by simp [exampleOpt]) cloudOutside_not_wellIndexed⟩,
    other_mode_pushes_again⟩

end CG
namespace CG
section ArrangeRNodes
variable {F : Type} [LinearOrderedField F]

theorem sortR_perm (R : Rounding F) (cloud : CloudGraph F) :
    (CloudGraphSortNodeByFamilyR R cloud)._nodes.Perm cloud._nodes := by
  have h := (GSetSort_perm (cloud._nodes.map
    (fun node => (R.toFloat (node._family : F), node)))).map Prod.snd
  simpa [CloudGraphSortNodeByFamilyR, List.map_map, Function.comp_def] using h

/-- When the conversion to `float` of the family of every node is exact, the
sort on the `float` values is the sort on the families. -/
theorem sortR_of_key (R : Rounding F) (cloud : CloudGraph F)
    (hkey : ∀ n ∈ cloud._nodes, R.toFloat (n._family : F) = (n._family : F)) :
    CloudGraphSortNodeByFamilyR R cloud = CloudGraphSortNodeByFamily cloud := by
  have h : cloud._nodes.map (fun node => (R.toFloat (node._family : F), node)) =
      cloud._nodes.map (fun node => ((node._family : F), node)) := by
    apply List.map_congr_left
    intro n hn
    rw [hkey n hn]
  simp only [CloudGraphSortNodeByFamilyR, CloudGraphSortNodeByFamily, h]

theorem arrangeLineNodesR_some (R : Rounding F) (opt : CloudGraphOpt F) :
    ∀ (nodes : List (CloudGraphNode F)) (i : Nat) (pf : List F) (nf : List Int),
      nf.length = pf.length →
      (∀ n ∈ nodes, 0 ≤ n._family ∧ n._family < (pf.length : Int)) →
      ∃ ns pf1 nf1, arrangeLineNodesR R opt i nodes pf nf = some (ns, pf1, nf1) ∧
        ns.map (fun n => (n._id, n._family, n._label)) =
          nodes.map (fun n => (n._id, n._family, n._label)) ∧
        pf1.length = pf.length ∧ nf1.length = pf.length := by
  intro nodes
  induction nodes with
  | nil =>
    intro i pf nf hlen _
    exact ⟨[], pf, nf, rfl, rfl, rfl, hlen⟩
  | cons node rest ih =>
    intro i pf nf hlen hin
    obtain ⟨hidx, hlt, hcast⟩ := arrIdx_of_mem (hin node (List.mem_cons_self _ _))
    obtain ⟨ns, pf1, nf1, hrun, hid, hl1, hl2⟩ :=
      ih (i + 1) (pf.set node._family.toNat
          (R.toFloat (pf.getD node._family.toNat 0 + lineY R opt i)))
        (nf.set node._family.toNat (nf.getD node._family.toNat 0 + 1))
        (by simp [hlen])
        (fun n hn => by simpa using hin n (List.mem_cons_of_mem _ hn))
    refine ⟨{ node with _pos := ⟨0, lineY R opt i⟩, _right := ⟨1, 0⟩, _theta := 0 } :: ns,
      pf1, nf1, ?_, ?_, by simpa using hl1, by simpa using hl2⟩
    · simp only [arrangeLineNodesR, hidx, hrun]
    · simp only [List.map_cons, hid]

theorem arrangeCircleNodesR_some (R : Rounding F) (m : PBMath F) (r dTheta : F) :
    ∀ (nodes : List (CloudGraphNode F)) (theta : F) (pf : List F) (nf : List Int),
      nf.length = pf.length →
      (∀ n ∈ nodes, 0 ≤ n._family ∧ n._family < (pf.length : Int)) →
      ∃ ns pf1 nf1, arrangeCircleNodesR R m r dTheta theta nodes pf nf = some (ns, pf1, nf1) ∧
        ns.map (fun n => (n._id, n._family, n._label)) =
          nodes.map (fun n => (n._id, n._family, n._label)) ∧
        pf1.length = pf.length ∧ nf1.length = pf.length := by
  intro nodes
  induction nodes with
  | nil =>
    intro theta pf nf hlen _
    exact ⟨[], pf, nf, rfl, rfl, rfl, hlen⟩
  | cons node rest ih =>
    intro theta pf nf hlen hin
    obtain ⟨hidx, hlt, hcast⟩ := arrIdx_of_mem (hin node (List.mem_cons_self _ _))
    obtain ⟨ns, pf1, nf1, hrun, hid, hl1, hl2⟩ :=
      ih (R.toFloat (theta + dTheta)) (pf.set node._family.toNat
          (R.toFloat (pf.getD node._family.toNat 0 + theta)))
        (nf.set node._family.toNat (nf.getD node._family.toNat 0 + 1))
        (by simp [hlen])
        (fun n hn => by simpa using hin n (List.mem_cons_of_mem _ hn))
    refine ⟨{ node with
        _pos := ⟨R.toFloat (R.toDouble (r * m.cos theta)),
          R.toFloat (R.toDouble (r * m.sin theta))⟩
        _right := VecRot2D m ⟨1, 0⟩ theta
        _theta := theta } :: ns,
      pf1, nf1, ?_, ?_, by simpa using hl1, by simpa using hl2⟩
    · simp only [arrangeCircleNodesR, hidx, hrun]
    · simp only [List.map_cons, hid]

theorem averageFamilyR_length (R : Rounding F) (pf : List F) (nf : List Int)
    (h : nf.length = pf.length) : (averageFamilyR R pf nf).length = pf.length := by
  unfold averageFamilyR
  rw [List.length_zipWith, h, min_self]

theorem arrangeLineFamilies_defined (opt : CloudGraphOpt F) (pf : List F) :
    ∀ fams : List (CloudGraphFamily F),
      (∀ f ∈ fams, 0 ≤ f._id ∧ f._id < (pf.length : Int)) →
      ∃ res, arrangeLineFamilies opt pf fams = some res :=
  fun fams h => ⟨_, arrangeLineFamilies_spec opt pf (fun k => pf.getD k.toNat 0)
    (fun _ _ => by simp) fams h⟩

theorem arrangeCircleFamiliesR_defined (R : Rounding F) (m : PBMath F) (r : F)
    (opt : CloudGraphOpt F) (pf : List F) :
    ∀ fams : List (CloudGraphFamily F),
      (∀ f ∈ fams, 0 ≤ f._id ∧ f._id < (pf.length : Int)) →
      ∃ res, arrangeCircleFamiliesR R m r opt pf fams = some res := by
  intro fams
  induction fams with
  | nil => intro _; exact ⟨[], rfl⟩
  | cons f rest ih =>
    intro h
    obtain ⟨hidx, -, -⟩ := arrIdx_of_mem (h f (List.mem_cons_self _ _))
    obtain ⟨res, hres⟩ := ih (fun f1 h1 => h f1 (List.mem_cons_of_mem _ h1))
    simp only [arrangeCircleFamiliesR, hidx, hres]
    exact ⟨_, rfl⟩

/-- Whatever the roundings and the mode, `CloudGraphArrange` is defined on a
cloud whose indices lie in the per-family arrays, and the nodes after it
carry, in the same order, the ids, families and labels of the sorted nodes. -/
theorem arrangeR_nodes_identity (R : Rounding F) (ext : Ext F) (cloud : CloudGraph F)
    (opt : CloudGraphOpt F)
    (hD : opt._mode = CloudGraphMode.CloudGraphModeOther ∨ WellIndexed cloud) :
    ∃ cloud1, CloudGraphArrangeR R ext cloud opt = some cloud1 ∧
      cloud1._nodes.map (fun n => (n._id, n._family, n._label)) =
        (CloudGraphSortNodeByFamilyR R cloud)._nodes.map
          (fun n => (n._id, n._family, n._label)) := by
  have hbox : ∀ c : CloudGraph F,
      (CloudGraphUpdateBoundingBox ext c opt)._nodes.map (fun n => (n._id, n._family, n._label)) =
        c._nodes.map (fun n => (n._id, n._family, n._label)) := by
    intro c
    rw [updateBoundingBox_nodes, List.map_map]
    rfl
  have hfam : (CloudGraphSortNodeByFamilyR R cloud)._families = cloud._families := rfl
  cases hmode : opt._mode with
  | CloudGraphModeOther =>
    exact ⟨_, by simp only [CloudGraphArrangeR, hmode], hbox _⟩
  | CloudGraphModeLine =>
    have hW : WellIndexed cloud := by
      rcases hD with h | h
      · rw [hmode] at h; cases h
      · exact h
    obtain ⟨ns, pf1, nf1, hrun, hid, hl1, hl2⟩ := arrangeLineNodesR_some R opt
      (CloudGraphSortNodeByFamilyR R cloud)._nodes 0
      (List.replicate (CloudGraphSortNodeByFamilyR R cloud)._families.length 0)
      (List.replicate (CloudGraphSortNodeByFamilyR R cloud)._families.length 0)
      (by simp)
      (fun n hn => by
        simpa [hfam] using hW.1 n ((sortR_perm R cloud).mem_iff.mp hn))
    obtain ⟨fams, hf⟩ := arrangeLineFamilies_defined opt (averageFamilyR R pf1 nf1)
      (CloudGraphSortNodeByFamilyR R cloud)._families
      (fun f hf => by
        rw [averageFamilyR_length R _ _ (by rw [hl1, hl2]), hl1]
        simpa [hfam] using hW.2 f hf)
    have hc : ∃ c, CloudGraphArrangeLineR R ext.toPBMath (CloudGraphSortNodeByFamilyR R cloud)
        opt = some c ∧ c._nodes = ns := by
      simp only [CloudGraphArrangeLineR, hrun, hf]
      exact ⟨_, rfl, rfl⟩
    obtain ⟨c, hc, hcn⟩ := hc
    refine ⟨CloudGraphUpdateBoundingBox ext c opt,
      by simp only [CloudGraphArrangeR, hmode, hc], ?_⟩
    rw [hbox, hcn]
    exact hid
  | CloudGraphModeCircle =>
    have hW : WellIndexed cloud := by
      rcases hD with h | h
      · rw [hmode] at h; cases h
      · exact h
    obtain ⟨ns, pf1, nf1, hrun, hid, hl1, hl2⟩ := arrangeCircleNodesR_some R ext.toPBMath
      (R.toFloat (R.toDouble (R.toFloat
        (R.toFloat ((CloudGraphSortNodeByFamilyR R cloud)._nodes.length : F) *
          opt._fontSizeNode) / ext.toPBMath.pi)))
      (R.toFloat (R.toDouble (R.toDouble (2 * ext.toPBMath.pi) /
        R.toFloat ((CloudGraphSortNodeByFamilyR R cloud)._nodes.length : F))))
      (CloudGraphSortNodeByFamilyR R cloud)._nodes 0
      (List.replicate (CloudGraphSortNodeByFamilyR R cloud)._families.length 0)
      (List.replicate (CloudGraphSortNodeByFamilyR R cloud)._families.length 0)
      (by simp)
      (fun n hn => by
        simpa [hfam] using hW.1 n ((sortR_perm R cloud).mem_iff.mp hn))
    obtain ⟨fams, hf⟩ := arrangeCircleFamiliesR_defined R ext.toPBMath
      (R.toFloat (R.toDouble (R.toFloat
        (R.toFloat ((CloudGraphSortNodeByFamilyR R cloud)._nodes.length : F) *
          opt._fontSizeNode) / ext.toPBMath.pi))) opt (averageFamilyR R pf1 nf1)
      (CloudGraphSortNodeByFamilyR R cloud)._families
      (fun f hf => by
        rw [averageFamilyR_length R _ _ (by rw [hl1, hl2]), hl1]
        simpa [hfam] using hW.2 f hf)
    have hc : ∃ c, CloudGraphArrangeCircleR R ext.toPBMath
        (CloudGraphSortNodeByFamilyR R cloud) opt = some c ∧ c._nodes = ns := by
      simp only [CloudGraphArrangeCircleR, hrun, hf]
      exact ⟨_, rfl, rfl⟩
    obtain ⟨c, hc, hcn⟩ := hc
    refine ⟨CloudGraphUpdateBoundingBox ext c opt,
      by simp only [CloudGraphArrangeR, hmode, hc], ?_⟩
    rw [hbox, hcn]
    exact hid

end ArrangeRNodes
end CG
namespace CG

/-- The conversion to `float` of an integer from 0 to `2 ^ 24` is exact. -/
theorem ieee_family_exact (k : Int) (h0 : 0 ≤ k) (h1 : k ≤ 2 ^ 24) :
    (Rounding.ieee : Rounding ℝ).toFloat ((k : Int) : ℝ) = ((k : Int) : ℝ) := by
  show roundBinary 24 ((k : Int) : ℝ) = ((k : Int) : ℝ)
  obtain ⟨n, rfl⟩ := Int.eq_ofNat_of_zero_le h0
  rcases Nat.eq_zero_or_pos n with hn | hn
  · subst hn
    simp [roundBinary_zero]
  · rcases Nat.lt_or_ge n (2 ^ 24) with hlt | hge
    · exact roundBinary_rep 24 _ n 0 hn hlt (by simp)
    · have hn2 : n = 2 ^ 24 := by
        have : (n : Int) ≤ 2 ^ 24 := h1
        have h3 : n ≤ 2 ^ 24 := by exact_mod_cast this
        omega
      subst hn2
      exact roundBinary_rep 24 _ 1 24 (by norm_num) (by norm_num) (by norm_num)

section Claims4R
variable {F : Type} [LinearOrderedField F]

/-- C4, as amended: whatever the roundings of the arithmetic, when the
conversion to `float` of the family of every node is exact (it is for every
family from 0 to `2 ^ 24`), on a cloud whose family ids and node families lie
in `[0, number of families)` (or in a mode that is neither line nor circle,
which reads no array), `CloudGraphArrange` succeeds in any mode and the
sequence of nodes after it is, up to the fields written by the layout, a
permutation `s` of the sequence before the call in which the nodes of each
family keep their relative order; it is ordered by non decreasing family,
hence the nodes of one family are contiguous. -/
theorem C4_nodes_stably_sorted (R : Rounding F) (ext : Ext F) (cloud : CloudGraph F)
    (opt : CloudGraphOpt F)
    (hkey : ∀ n ∈ cloud._nodes, R.toFloat ((n._family : Int) : F) = ((n._family : Int) : F))
    (hD : opt._mode = CloudGraphMode.CloudGraphModeOther ∨ WellIndexed cloud) :
    ∃ cloud1, CloudGraphArrangeR R ext cloud opt = some cloud1 ∧
      (∃ s : List (CloudGraphNode F), s.Perm cloud._nodes ∧
        cloud1._nodes.map (fun n => (n._id, n._family, n._label)) =
          s.map (fun n => (n._id, n._family, n._label)) ∧
        ∀ f : Int, s.filter (fun n => decide (n._family = f)) =
          cloud._nodes.filter (fun n => decide (n._family = f))) ∧
      cloud1._nodes.Pairwise (fun a b => a._family ≤ b._family) ∧
      ∀ (i j k : Nat) (_ : i ≤ j) (_ : j ≤ k) (_ : k < cloud1._nodes.length),
        cloud1._nodes[i]._family = cloud1._nodes[k]._family →
          cloud1._nodes[j]._family = cloud1._nodes[i]._family := by
  obtain ⟨cloud1, h1, hid⟩ := arrangeR_nodes_identity R ext cloud opt hD
  rw [sortR_of_key R cloud hkey] at hid
  have hfam : cloud1._nodes.map (fun n => n._family) =
      (CloudGraphSortNodeByFamily cloud)._nodes.map (fun n => n._family) := by
    have := congrArg (List.map (fun t : Int × Int × Option String => t.2.1)) hid
    simpa [List.map_map, Function.comp_def] using this
  have hpw : cloud1._nodes.Pairwise (fun a b => a._family ≤ b._family) := by
    have h2 : (cloud1._nodes.map (fun n => n._family)).Pairwise (fun a b => a ≤ b) := by
      rw [hfam, List.pairwise_map]
      exact sortNodes_sorted cloud
    rwa [List.pairwise_map] at h2
  refine ⟨cloud1, h1, ⟨_, sortNodes_perm cloud, hid, sortNodes_filter cloud⟩, hpw, ?_⟩
  intro i j k hij hjk hk heq
  rw [List.pairwise_iff_getElem] at hpw
  have h3 : cloud1._nodes[i]._family ≤ cloud1._nodes[j]._family := by
    rcases Nat.eq_or_lt_of_le hij with h | h
    · subst h; exact le_refl _
    · exact hpw i j (by omega) (by omega) h
  have h4 : cloud1._nodes[j]._family ≤ cloud1._nodes[k]._family := by
    rcases Nat.eq_or_lt_of_le hjk with h | h
    · subst h; exact le_refl _
    · exact hpw j k (by omega) (by omega) h
  omega

end Claims4R

/-- Witness of C4: with the roundings of `float` and `double`, the nodes
`0, 1, 2, 3` of families `1, 0, 1, 0` are sorted to `1, 3, 0, 2`. -/
theorem C4_nodes_stably_sorted_witness :
    (∀ n ∈ (cloudMixed ℝ)._nodes,
      (Rounding.ieee : Rounding ℝ).toFloat ((n._family : Int) : ℝ) = ((n._family : Int) : ℝ)) ∧
    WellIndexed (cloudMixed ℝ) ∧
    (CloudGraphSortNodeByFamilyR Rounding.ieee (cloudMixed ℝ))._nodes.map
        (fun n => (n._id, n._family)) =
      [(1, 0), (3, 0), (0, 1), (2, 1)] ∧
    ∃ cloud1,
      CloudGraphArrangeR Rounding.ieee (exampleExt ⟨Real.cos, Real.sin, Real.sqrt, Real.pi⟩)
        (cloudMixed ℝ)
        (exampleOpt ℝ CloudGraphMode.CloudGraphModeLine
          CloudGraphOptNodeLabel.CloudGraphOptNodeLabelNone
          CloudGraphOptFamilyLabel.CloudGraphOptFamilyLabelNone 10) = some cloud1 ∧
      (∃ s : List (CloudGraphNode ℝ), s.Perm (cloudMixed ℝ)._nodes ∧
        cloud1._nodes.map (fun n => (n._id, n._family, n._label)) =
          s.map (fun n => (n._id, n._family, n._label)) ∧
        ∀ f : Int, s.filter (fun n => decide (n._family = f)) =
          (cloudMixed ℝ)._nodes.filter (fun n => decide (n._family = f))) ∧
      cloud1._nodes.Pairwise (fun a b => a._family ≤ b._family) ∧
      ∀ (i j k : Nat) (_ : i ≤ j) (_ : j ≤ k) (_ : k < cloud1._nodes.length),
        cloud1._nodes[i]._family = cloud1._nodes[k]._family →
          cloud1._nodes[j]._family = cloud1._nodes[i]._family := by
  have hW : WellIndexed (cloudMixed ℝ) := by
    simp [WellIndexed, cloudMixed, exampleCloud, exampleNode, exampleFamily]
  have hkey : ∀ n ∈ (cloudMixed ℝ)._nodes,
      (Rounding.ieee : Rounding ℝ).toFloat ((n._family : Int) : ℝ) =
        ((n._family : Int) : ℝ) := by
    intro n hn
    have h := hW.1 n hn
    apply ieee_family_exact _ h.1
    have h2 : (((cloudMixed ℝ)._families.length : Nat) : Int) = 2 := rfl
    rw [h2] at h
    omega
  refine ⟨hkey, hW, ?_, C4_nodes_stably_sorted _ _ _ _ hkey (Or.inr hW)⟩
  rw [sortR_of_key _ _ hkey]
  norm_num [CloudGraphSortNodeByFamily, GSetSort, cloudMixed, exampleCloud, exampleNode,
    List.orderedInsert]

/-- C4 (counterexample), in two parts. First, on the cloud `cloudOutside`
(one node, of family 1, one family) the call of `CloudGraphArrange` in line
mode is undefined (after the sort, the loop on the nodes writes `posFamily[1]`
outside the array of one cell): there is no sequence of nodes after the call.
Second, the cloud `cloudFar` has a node of family 16777217 followed by a node
of family 16777216; the sort value `(float)(node->_family)` of both is
16777216, so the sort leaves them in this order, and after
`CloudGraphArrange` (in a mode that is neither line nor circle, which runs the
sort and no arrangement) the nodes are not ordered by non decreasing
family. -/
theorem C4_undefined_or_unsorted :
    (¬ WellIndexed (cloudOutside ℝ) ∧
      CloudGraphArrange (exampleExt ⟨Real.cos, Real.sin, Real.sqrt, Real.pi⟩) (cloudOutside ℝ)
        (exampleOpt ℝ CloudGraphMode.CloudGraphModeLine
          CloudGraphOptNodeLabel.CloudGraphOptNodeLabelAll
          CloudGraphOptFamilyLabel.CloudGraphOptFamilyLabelAll 10) = none) ∧
    (cloudFar ℝ)._nodes.map (fun n => (n._id, n._family)) = [(0, 16777217), (1, 16777216)] ∧
    (Rounding.ieee : Rounding ℝ).toFloat ((16777217 : Int) : ℝ) = 16777216 ∧
    (Rounding.ieee : Rounding ℝ).toFloat ((16777216 : Int) : ℝ) = 16777216 ∧
    (CloudGraphSortNodeByFamilyR Rounding.ieee (cloudFar ℝ))._nodes.map
        (fun n => (n._id, n._family)) = [(0, 16777217), (1, 16777216)] ∧
    ∃ cloud1,
      CloudGraphArrangeR Rounding.ieee (exampleExt ⟨Real.cos, Real.sin, Real.sqrt, Real.pi⟩)
        (cloudFar ℝ)
        (exampleOpt ℝ CloudGraphMode.CloudGraphModeOther
          CloudGraphOptNodeLabel.CloudGraphOptNodeLabelNone
          CloudGraphOptFamilyLabel.CloudGraphOptFamilyLabelNone 10) = some cloud1 ∧
      cloud1._nodes.map (fun n => (n._id, n._family)) = [(0, 16777217), (1, 16777216)] ∧
      ¬ cloud1._nodes.Pairwise (fun a b => a._family ≤ b._family) := by
  have k1 : roundBinary 24 (((16777217 : Int) : ℝ)) = 16777216 := by
    rw [roundBinary_tie 24 _ 24 8388608 (by norm_num) (by norm_num) (by norm_num)
      (by norm_num) (by norm_num)]
    norm_num
  have k0 : roundBinary 24 (((16777216 : Int) : ℝ)) = 16777216 := by
    rw [roundBinary_rep 24 _ 1 24 (by norm_num) (by norm_num) (by norm_num)]
    norm_num
  have hsort : (CloudGraphSortNodeByFamilyR Rounding.ieee (cloudFar ℝ))._nodes.map
      (fun n => (n._id, n._family)) = [(0, 16777217), (1, 16777216)] := by
    simp only [CloudGraphSortNodeByFamilyR, cloudFar, CloudGraphAddNode, CloudGraphCreate,
      CloudGraphCreateNode, Rounding.ieee, List.map_cons, List.map_nil, List.append_nil,
      List.nil_append, List.cons_append, List.singleton_append, k0, k1, GSetSort,
      List.insertionSort, List.orderedInsert, le_refl, if_true]
  obtain ⟨cloud1, h1, hid⟩ := arrangeR_nodes_identity Rounding.ieee
    (exampleExt ⟨Real.cos, Real.sin, Real.sqrt, Real.pi⟩) (cloudFar ℝ)
    (exampleOpt ℝ CloudGraphMode.CloudGraphModeOther
      CloudGraphOptNodeLabel.CloudGraphOptNodeLabelNone
      CloudGraphOptFamilyLabel.CloudGraphOptFamilyLabelNone 10) (Or.inl rfl)
  have hn : cloud1._nodes.map (fun n => (n._id, n._family)) =
      [(0, 16777217), (1, 16777216)] := by
    have := congrArg (List.map (fun t : Int × Int × Option String => (t.1, t.2.1))) hid
    simp only [List.map_map, Function.comp_def] at this
    rw [this, hsort]
  refine ⟨⟨cloudOutside_not_wellIndexed,
    arrange_undefined _ _ _ (by simp [exampleOpt]) cloudOutside_not_wellIndexed⟩,
    rfl, k1, k0, hsort, cloud1, h1, hn, ?_⟩
  intro hpw
  have h2 : (cloud1._nodes.map (fun n => (n._id, n._family))).Pairwise
      (fun a b => a.2 ≤ b.2) := by
    rw [List.pairwise_map]
    exact hpw
  rw [hn] at h2
  simp at h2

end CG
namespace CG
section Linked3R
variable {F : Type} [LinearOrderedField F]

/-- `CloudGraphArrangeCircle` with roundings on the cloud `cloudLinked3`: the
first inner control point of the link is the position of the node 0 (at the
angle 0) moved along its right by the last argument of `VecOp`. -/
theorem arrangeCircleR_cloudLinked3 (R : Rounding F) (m : PBMath F) (opt : CloudGraphOpt F)
    (r : F)
    (hr : r = R.toFloat (R.toDouble
      (R.toFloat (R.toFloat ((3 : Nat) : F) * opt._fontSizeNode) / m.pi))) :
    ∃ c dist, CloudGraphArrangeCircleR R m (cloudLinked3 F) opt = some c ∧
      c._links.map (fun l => (l._nodes0, l._nodes1, l._curve._ctrl1)) =
        [(0, 1, VecOp ⟨R.toFloat (R.toDouble (r * m.cos 0)),
            R.toFloat (R.toDouble (r * m.sin 0))⟩ 1 (VecRot2D m ⟨1, 0⟩ 0)
          (R.toFloat (R.toDouble
            (R.toDouble (R.toDouble (-1 * dist) * opt._curvature) * (1 / 2)))))] := by
  subst hr
  exact ⟨_, _, rfl, rfl⟩

end Linked3R

/-- The arrangement in circle mode with the roundings of `float` and `double`,
on the cloud `cloudLinked3` (three nodes, a link between the nodes 0 and 1),
with the size of the font 3 and the curvature 0, for every value of
`PBMATH_PI` from `105414357 / 33554432` to `13176795 / 4194304`: the radius
stored in the `float` `r` is `3003949 / 1048576`, and the first inner control
point of the link is the position `(r, 0)` of the node 0. -/
theorem arrangeR_cloudLinked3 (pi : ℝ) (h1 : 105414357 / 33554432 ≤ pi)
    (h2 : pi ≤ 13176795 / 4194304) :
    ∃ cloud1,
      CloudGraphArrangeR Rounding.ieee (exampleExt ⟨Real.cos, Real.sin, Real.sqrt, pi⟩)
        (cloudLinked3 ℝ)
        { exampleOpt ℝ CloudGraphMode.CloudGraphModeCircle
            CloudGraphOptNodeLabel.CloudGraphOptNodeLabelNone
            CloudGraphOptFamilyLabel.CloudGraphOptFamilyLabelNone 3 with _curvature := 0 } =
        some cloud1 ∧
      cloud1._links.map (fun l => (l._nodes0, l._nodes1, l._curve._ctrl1)) =
        [(0, 1, ⟨3003949 / 1048576, 0⟩)] := by
  have hsort : CloudGraphSortNodeByFamilyR Rounding.ieee (cloudLinked3 ℝ) = cloudLinked3 ℝ := by
    norm_num [CloudGraphSortNodeByFamilyR, cloudLinked3, exampleCloud, exampleNode, GSetSort,
      Rounding.ieee, roundBinary_zero, List.orderedInsert]
  have hr : (3003949 / 1048576 : ℝ) =
      Rounding.ieee.toFloat (Rounding.ieee.toDouble
        (Rounding.ieee.toFloat (Rounding.ieee.toFloat ((3 : Nat) : ℝ) *
          ({ exampleOpt ℝ CloudGraphMode.CloudGraphModeCircle
              CloudGraphOptNodeLabel.CloudGraphOptNodeLabelNone
              CloudGraphOptFamilyLabel.CloudGraphOptFamilyLabelNone 3 with
            _curvature := 0 } : CloudGraphOpt ℝ)._fontSizeNode) /
          (exampleExt (F := ℝ) ⟨Real.cos, Real.sin, Real.sqrt, pi⟩).toPBMath.pi)) :=
    (radius_three_nodes pi h1 h2).1.symm
  obtain ⟨c, dist, hc, hl⟩ := arrangeCircleR_cloudLinked3 Rounding.ieee
    (exampleExt ⟨Real.cos, Real.sin, Real.sqrt, pi⟩).toPBMath
    { exampleOpt ℝ CloudGraphMode.CloudGraphModeCircle
        CloudGraphOptNodeLabel.CloudGraphOptNodeLabelNone
        CloudGraphOptFamilyLabel.CloudGraphOptFamilyLabelNone 3 with _curvature := 0 } _ hr
  have d53 : roundBinary 53 (3003949 / 1048576 : ℝ) = 3003949 / 1048576 :=
    roundBinary_rep 53 _ 3003949 (-20) (by norm_num) (by norm_num) (by norm_num)
  have d24 : roundBinary 24 (3003949 / 1048576 : ℝ) = 3003949 / 1048576 :=
    roundBinary_rep 24 _ 3003949 (-20) (by norm_num) (by norm_num) (by norm_num)
  have hl2 : c._links.map (fun l => (l._nodes0, l._nodes1, l._curve._ctrl1)) =
      [(0, 1, ⟨3003949 / 1048576, 0⟩)] := by
    rw [hl]
    show [((0 : Int), (1 : Int), VecOp (⟨roundBinary 24 (roundBinary 53
        ((3003949 / 1048576 : ℝ) * Real.cos 0)),
        roundBinary 24 (roundBinary 53 ((3003949 / 1048576 : ℝ) * Real.sin 0))⟩ : VecFloat ℝ) 1
      (VecRot2D (exampleExt ⟨Real.cos, Real.sin, Real.sqrt, pi⟩).toPBMath ⟨1, 0⟩ 0)
      (roundBinary 24 (roundBinary 53 (roundBinary 53 (roundBinary 53 (-1 * dist) * 0) *
        (1 / 2)))))] = _
    rw [Real.cos_zero, Real.sin_zero, mul_one, mul_zero, mul_zero, roundBinary_zero, zero_mul,
      roundBinary_zero, roundBinary_zero, roundBinary_zero, d53, d24]
    simp [VecOp]
  refine ⟨CloudGraphUpdateBoundingBox
    (exampleExt ⟨Real.cos, Real.sin, Real.sqrt, pi⟩) c
    { exampleOpt ℝ CloudGraphMode.CloudGraphModeCircle
        CloudGraphOptNodeLabel.CloudGraphOptNodeLabelNone
        CloudGraphOptFamilyLabel.CloudGraphOptFamilyLabelNone 3 with _curvature := 0 }, ?_, ?_⟩
  · simp only [CloudGraphArrangeR, hsort, exampleOpt]
    simp only [exampleOpt] at hc
    rw [hc]
  · rw [updateBoundingBox_links, List.map_map, ← hl2]
    rfl

/-- C28 (counterexample), in two parts. First, the cloud `cloudOutsideLinked`
(two nodes of family 1, one family, a link whose two ends resolve), the
curvature 1 and the size of the font 10: in circle mode the loop on the nodes
writes `posFamily[1]` outside the array of one cell, the call of
`CloudGraphArrange` is undefined and no control point is set. Second, with
the roundings of `float` and `double`, on the cloud `cloudLinked3` (three
nodes, a link between the nodes 0 and 1) with the size of the font 3 and the
curvature 0, `PBMATH_PI` being the `double` nearest to π (every value from
3.14159265... to 3.14159274... gives the same radius, `radius_three_nodes`):
the first inner
control point of the link is `(3003949 / 1048576, 0)`, at the distance
`3003949 / 1048576` from the origin, which is more than
`nodeCount * fontSizeNode / pi`. -/
theorem C28_undefined_or_rounded :
    ((CloudGraphGetNode (cloudOutsideLinked ℝ) 0).isSome = true ∧
      (CloudGraphGetNode (cloudOutsideLinked ℝ) 1).isSome = true ∧
      (cloudOutsideLinked ℝ)._links.map (fun l => (l._nodes0, l._nodes1)) = [(0, 1)] ∧
      (exampleOpt ℝ CloudGraphMode.CloudGraphModeCircle
        CloudGraphOptNodeLabel.CloudGraphOptNodeLabelNone
        CloudGraphOptFamilyLabel.CloudGraphOptFamilyLabelNone 10)._curvature = 1 ∧
      ¬ WellIndexed (cloudOutsideLinked ℝ) ∧
      CloudGraphArrange (exampleExt ⟨Real.cos, Real.sin, Real.sqrt, Real.pi⟩)
        (cloudOutsideLinked ℝ)
        (exampleOpt ℝ CloudGraphMode.CloudGraphModeCircle
          CloudGraphOptNodeLabel.CloudGraphOptNodeLabelNone
          CloudGraphOptFamilyLabel.CloudGraphOptFamilyLabelNone 10) = none) ∧
    WellIndexed (cloudLinked3 ℝ) ∧
    (CloudGraphGetNode (cloudLinked3 ℝ) 0).isSome = true ∧
    (CloudGraphGetNode (cloudLinked3 ℝ) 1).isSome = true ∧
    ∃ cloud1,
      CloudGraphArrangeR Rounding.ieee
        (exampleExt ⟨Real.cos, Real.sin, Real.sqrt, 884279719003555 / 281474976710656⟩)
        (cloudLinked3 ℝ)
        { exampleOpt ℝ CloudGraphMode.CloudGraphModeCircle
            CloudGraphOptNodeLabel.CloudGraphOptNodeLabelNone
            CloudGraphOptFamilyLabel.CloudGraphOptFamilyLabelNone 3 with _curvature := 0 } =
        some cloud1 ∧
      cloud1._links.map (fun l => (l._nodes0, l._nodes1, l._curve._ctrl1)) =
        [(0, 1, ⟨3003949 / 1048576, 0⟩)] ∧
      VecNorm (exampleExt
          ⟨Real.cos, Real.sin, Real.sqrt, 884279719003555 / 281474976710656⟩).toPBMath
        ⟨3003949 / 1048576, 0⟩ = 3003949 / 1048576 ∧
      ((3 : Nat) : ℝ) * 3 / (884279719003555 / 281474976710656) < 3003949 / 1048576 := by
  have hW : WellIndexed (cloudLinked3 ℝ) := by
    simp [WellIndexed, cloudLinked3, exampleCloud, exampleNode, exampleFamily]
  obtain ⟨cloud1, h1, hl⟩ := arrangeR_cloudLinked3 (884279719003555 / 281474976710656)
    (by norm_num) (by norm_num)
  refine ⟨?_, hW, rfl, rfl, cloud1, h1, hl, ?_, by norm_num⟩
  · refine ⟨?_, ?_, ?_, rfl, cloudOutsideLinked_not_wellIndexed,
      arrange_undefined _ _ _ (by simp [exampleOpt]) cloudOutsideLinked_not_wellIndexed⟩
    · simp [cloudOutsideLinked, CloudGraphGetNode, CloudGraphAddNode, CloudGraphAddFamily,
        CloudGraphAddLink, CloudGraphCreate, CloudGraphCreateFamily, CloudGraphCreateNode,
        CloudGraphCreateLink]
    · simp [cloudOutsideLinked, CloudGraphGetNode, CloudGraphAddNode, CloudGraphAddFamily,
        CloudGraphAddLink, CloudGraphCreate, CloudGraphCreateFamily, CloudGraphCreateNode,
        CloudGraphCreateLink]
    · simp [cloudOutsideLinked, CloudGraphAddNode, CloudGraphAddFamily,
        CloudGraphAddLink, CloudGraphCreate, CloudGraphCreateFamily, CloudGraphCreateNode,
        CloudGraphCreateLink]
  · show Real.sqrt ((3003949 / 1048576 : ℝ) * (3003949 / 1048576) + 0 * 0) = _
    rw [mul_zero, add_zero, Real.sqrt_mul_self (by norm_num)]

end CG
namespace CG
section CallsR
variable {F : Type} [LinearOrderedField F]

theorem arrangeLineNodesR_result (R : Rounding F) (opt : CloudGraphOpt F) :
    ∀ (nodes : List (CloudGraphNode F)) (i : Nat) (pf : List F) (nf : List Int)
      (res : List (CloudGraphNode F) × List F × List Int),
      arrangeLineNodesR R opt i nodes pf nf = some res →
      res.1.map nodeIdentity = nodes.map nodeIdentity := by
  intro nodes
  induction nodes with
  | nil =>
    intro i pf nf res h
    simp only [arrangeLineNodesR] at h
    obtain rfl := Option.some.inj h
    rfl
  | cons node rest ih =>
    intro i pf nf res h
    simp only [arrangeLineNodesR] at h
    cases hi : arrIdx pf.length node._family with
    | none => rw [hi] at h; cases h
    | some k =>
      rw [hi] at h
      simp only at h
      cases hr : arrangeLineNodesR R opt (i + 1) rest
          (pf.set k (R.toFloat (pf.getD k 0 + lineY R opt i)))
          (nf.set k (nf.getD k 0 + 1)) with
      | none => rw [hr] at h; cases h
      | some r =>
        rw [hr] at h
        obtain rfl := Option.some.inj h
        have := ih _ _ _ _ hr
        simp only [List.map_cons, this]
        rfl

theorem arrangeCircleNodesR_result (R : Rounding F) (m : PBMath F) (r dTheta : F) :
    ∀ (nodes : List (CloudGraphNode F)) (theta : F) (pf : List F) (nf : List Int)
      (res : List (CloudGraphNode F) × List F × List Int),
      arrangeCircleNodesR R m r dTheta theta nodes pf nf = some res →
      res.1.map nodeIdentity = nodes.map nodeIdentity := by
  intro nodes
  induction nodes with
  | nil =>
    intro theta pf nf res h
    simp only [arrangeCircleNodesR] at h
    obtain rfl := Option.some.inj h
    rfl
  | cons node rest ih =>
    intro theta pf nf res h
    simp only [arrangeCircleNodesR] at h
    cases hi : arrIdx pf.length node._family with
    | none => rw [hi] at h; cases h
    | some k =>
      rw [hi] at h
      simp only at h
      cases hr : arrangeCircleNodesR R m r dTheta (R.toFloat (theta + dTheta)) rest
          (pf.set k (R.toFloat (pf.getD k 0 + theta)))
          (nf.set k (nf.getD k 0 + 1)) with
      | none => rw [hr] at h; cases h
      | some r1 =>
        rw [hr] at h
        obtain rfl := Option.some.inj h
        have := ih _ _ _ _ hr
        simp only [List.map_cons, this]
        rfl

theorem arrangeLineFamilies_ids (opt : CloudGraphOpt F) (pf : List F) :
    ∀ (fams res : List (CloudGraphFamily F)), arrangeLineFamilies opt pf fams = some res →
      res.map (fun f => f._id) = fams.map (fun f => f._id) := by
  intro fams
  induction fams with
  | nil =>
    intro res h
    simp only [arrangeLineFamilies] at h
    obtain rfl := Option.some.inj h
    rfl
  | cons fam rest ih =>
    intro res h
    simp only [arrangeLineFamilies] at h
    cases hi : arrIdx pf.length fam._id with
    | none => rw [hi] at h; cases h
    | some i =>
      rw [hi] at h
      simp only at h
      cases hr : arrangeLineFamilies opt pf rest with
      | none => rw [hr] at h; cases h
      | some r =>
        rw [hr] at h
        obtain rfl := Option.some.inj h
        simp only [List.map_cons, ih _ hr]

theorem arrangeCircleFamiliesR_ids (R : Rounding F) (m : PBMath F) (r : F)
    (opt : CloudGraphOpt F) (pf : List F) :
    ∀ (fams res : List (CloudGraphFamily F)),
      arrangeCircleFamiliesR R m r opt pf fams = some res →
      res.map (fun f => f._id) = fams.map (fun f => f._id) := by
  intro fams
  induction fams with
  | nil =>
    intro res h
    simp only [arrangeCircleFamiliesR] at h
    obtain rfl := Option.some.inj h
    rfl
  | cons fam rest ih =>
    intro res h
    simp only [arrangeCircleFamiliesR] at h
    cases hi : arrIdx pf.length fam._id with
    | none => rw [hi] at h; cases h
    | some i =>
      rw [hi] at h
      simp only at h
      cases hr : arrangeCircleFamiliesR R m r opt pf rest with
      | none => rw [hr] at h; cases h
      | some r1 =>
        rw [hr] at h
        obtain rfl := Option.some.inj h
        simp only [List.map_cons, ih _ hr]

/-- Whatever the roundings, a defined call of `CloudGraphArrange` leaves the
nodes of the sort, with their ids, families and labels, and the families, in
their order, with their ids. -/
theorem arrangeR_result (R : Rounding F) (ext : Ext F) (cloud cloud1 : CloudGraph F)
    (opt : CloudGraphOpt F) (h : CloudGraphArrangeR R ext cloud opt = some cloud1) :
    cloud1._nodes.map nodeIdentity =
      (CloudGraphSortNodeByFamilyR R cloud)._nodes.map nodeIdentity ∧
    cloud1._families.map (fun f => f._id) = cloud._families.map (fun f => f._id) := by
  have hbox : ∀ c : CloudGraph F,
      (CloudGraphUpdateBoundingBox ext c opt)._nodes.map nodeIdentity =
        c._nodes.map nodeIdentity ∧
      (CloudGraphUpdateBoundingBox ext c opt)._families.map (fun f => f._id) =
        c._families.map (fun f => f._id) := by
    intro c
    constructor
    · rw [updateBoundingBox_nodes, List.map_map]
      rfl
    · rw [updateBoundingBox_families, List.map_map]
      rfl
  simp only [CloudGraphArrangeR] at h
  cases hmode : opt._mode with
  | CloudGraphModeOther =>
    rw [hmode] at h
    obtain rfl := Option.some.inj h
    exact hbox _
  | CloudGraphModeLine =>
    rw [hmode] at h
    simp only [CloudGraphArrangeLineR] at h
    cases hr : arrangeLineNodesR R opt 0 (CloudGraphSortNodeByFamilyR R cloud)._nodes
        (List.replicate (CloudGraphSortNodeByFamilyR R cloud)._families.length 0)
        (List.replicate (CloudGraphSortNodeByFamilyR R cloud)._families.length 0) with
    | none => rw [hr] at h; cases h
    | some res =>
      rw [hr] at h
      simp only at h
      cases hf : arrangeLineFamilies opt (averageFamilyR R res.2.1 res.2.2)
          (CloudGraphSortNodeByFamilyR R cloud)._families with
      | none => rw [hf] at h; cases h
      | some fams =>
        rw [hf] at h
        obtain rfl := Option.some.inj h
        refine ⟨(hbox _).1.trans (arrangeLineNodesR_result R opt _ _ _ _ _ hr),
          (hbox _).2.trans (arrangeLineFamilies_ids opt _ _ _ hf)⟩
  | CloudGraphModeCircle =>
    rw [hmode] at h
    simp only [CloudGraphArrangeCircleR] at h
    cases hr : arrangeCircleNodesR R ext.toPBMath
        (R.toFloat (R.toDouble (R.toFloat
          (R.toFloat ((CloudGraphSortNodeByFamilyR R cloud)._nodes.length : F) *
            opt._fontSizeNode) / ext.toPBMath.pi)))
        (R.toFloat (R.toDouble (R.toDouble (2 * ext.toPBMath.pi) /
          R.toFloat ((CloudGraphSortNodeByFamilyR R cloud)._nodes.length : F))))
        0 (CloudGraphSortNodeByFamilyR R cloud)._nodes
        (List.replicate (CloudGraphSortNodeByFamilyR R cloud)._families.length 0)
        (List.replicate (CloudGraphSortNodeByFamilyR R cloud)._families.length 0) with
    | none => rw [hr] at h; cases h
    | some res =>
      rw [hr] at h
      simp only at h
      cases hf : arrangeCircleFamiliesR R ext.toPBMath
          (R.toFloat (R.toDouble (R.toFloat
            (R.toFloat ((CloudGraphSortNodeByFamilyR R cloud)._nodes.length : F) *
              opt._fontSizeNode) / ext.toPBMath.pi))) opt (averageFamilyR R res.2.1 res.2.2)
          (CloudGraphSortNodeByFamilyR R cloud)._families with
      | none => rw [hf] at h; cases h
      | some fams =>
        rw [hf] at h
        obtain rfl := Option.some.inj h
        refine ⟨(hbox _).1.trans (arrangeCircleNodesR_result R _ _ _ _ _ _ _ _ hr),
          (hbox _).2.trans (arrangeCircleFamiliesR_ids R _ _ opt _ _ _ hf)⟩

/-- When the conversion to `float` of the family of every node is exact, a
defined call of `CloudGraphArrange` leaves the nodes in the order of the
stable sort by family: ordered by family, the nodes of each family in the
order they had. -/
theorem arrangeR_identity (R : Rounding F) (ext : Ext F) (cloud cloud1 : CloudGraph F)
    (opt : CloudGraphOpt F)
    (hkey : ∀ n ∈ cloud._nodes, R.toFloat ((n._family : Int) : F) = ((n._family : Int) : F))
    (h : CloudGraphArrangeR R ext cloud opt = some cloud1) :
    (cloud1._nodes.map nodeIdentity).Pairwise (fun a b => a.2.1 ≤ b.2.1) ∧
    ∀ f : Int, (cloud1._nodes.map nodeIdentity).filter (fun u => decide (u.2.1 = f)) =
      (cloud._nodes.map nodeIdentity).filter (fun u => decide (u.2.1 = f)) := by
  have hid := (arrangeR_result R ext cloud cloud1 opt h).1
  rw [sortR_of_key R cloud hkey] at hid
  rw [hid]
  constructor
  · rw [List.pairwise_map]
    exact sortNodes_sorted cloud
  · intro f
    rw [← filter_identity, ← filter_identity, sortNodes_filter]

theorem runCalls_append (R : Rounding F) (ext : Ext F) (l1 l2 : List (CloudGraphCall F)) :
    ∀ cloud : CloudGraph F,
      runCalls R ext cloud (l1 ++ l2) =
        (runCalls R ext cloud l1).bind (fun c => runCalls R ext c l2) := by
  induction l1 with
  | nil => intro cloud; rfl
  | cons c rest ih =>
    intro cloud
    cases c with
    | addNode n => exact ih _
    | arrange opt =>
      simp only [List.cons_append, runCalls]
      cases CloudGraphArrangeR R ext cloud opt with
      | none => rfl
      | some c1 => exact ih c1

/-- Nodes of the same id, family and label have the same sort value. -/
theorem key_of_identity (R : Rounding F) (l1 l2 : List (CloudGraphNode F))
    (h : ∀ t, t ∈ l1.map nodeIdentity → t ∈ l2.map nodeIdentity)
    (hkey : ∀ n ∈ l2, R.toFloat ((n._family : Int) : F) = ((n._family : Int) : F)) :
    ∀ n ∈ l1, R.toFloat ((n._family : Int) : F) = ((n._family : Int) : F) := by
  intro n hn
  obtain ⟨m, hm, hmn⟩ := List.mem_map.mp (h _ (List.mem_map_of_mem nodeIdentity hn))
  have hf : m._family = n._family := congrArg (fun t => t.2.1) hmn
  rw [← hf]
  exact hkey m hm

/-- Through a sequence of calls that are all defined, when the conversion to
`float` of the family of every node is exact, the nodes of each family stay in
the order in which they were added. -/
theorem runCalls_filter (R : Rounding F) (ext : Ext F) (calls : List (CloudGraphCall F)) :
    ∀ cloud cloud1 : CloudGraph F,
      (∀ n ∈ cloud._nodes, R.toFloat ((n._family : Int) : F) = ((n._family : Int) : F)) →
      (∀ n ∈ addedNodes calls, R.toFloat ((n._family : Int) : F) = ((n._family : Int) : F)) →
      runCalls R ext cloud calls = some cloud1 →
      ∀ f : Int, (cloud1._nodes.map nodeIdentity).filter (fun u => decide (u.2.1 = f)) =
        (cloud._nodes.map nodeIdentity ++ (addedNodes calls).map nodeIdentity).filter
          (fun u => decide (u.2.1 = f)) := by
  induction calls with
  | nil =>
    intro cloud cloud1 _ _ h f
    obtain rfl := Option.some.inj h
    simp [addedNodes]
  | cons c rest ih =>
    intro cloud cloud1 hkey hadd h f
    cases c with
    | addNode n =>
      have hkey1 : ∀ m ∈ (CloudGraphAddNode cloud n).2._nodes,
          R.toFloat ((m._family : Int) : F) = ((m._family : Int) : F) := by
        intro m hm
        simp only [CloudGraphAddNode, List.mem_append, List.mem_singleton] at hm
        rcases hm with hm | rfl
        · exact hkey m hm
        · exact hadd n (List.mem_cons_self _ _)
      have := ih _ cloud1 hkey1 (fun m hm => hadd m (List.mem_cons_of_mem _ hm)) h f
      rw [this, addNode_identity]
      simp [addedNodes]
    | arrange opt =>
      simp only [runCalls] at h
      cases ha : CloudGraphArrangeR R ext cloud opt with
      | none => rw [ha] at h; cases h
      | some c1 =>
        rw [ha] at h
        have hkey1 : ∀ m ∈ c1._nodes,
            R.toFloat ((m._family : Int) : F) = ((m._family : Int) : F) := by
          apply key_of_identity R c1._nodes cloud._nodes _ hkey
          intro t ht
          rw [(arrangeR_result R ext cloud c1 opt ha).1] at ht
          exact ((sortR_perm R cloud).map nodeIdentity).mem_iff.mp ht
        have := ih c1 cloud1 hkey1 hadd h f
        rw [this, List.filter_append, List.filter_append,
          (arrangeR_identity R ext _ _ _ hkey ha).2 f]
        rfl

/-- Calls of `CloudGraphAddNode` append the nodes in the order of the calls. -/
theorem runCalls_onlyAdds (R : Rounding F) (ext : Ext F) (calls : List (CloudGraphCall F)) :
    ∀ cloud : CloudGraph F, onlyAdds calls = true →
      ∃ cloud1, runCalls R ext cloud calls = some cloud1 ∧
        cloud1._nodes.map nodeIdentity =
          cloud._nodes.map nodeIdentity ++ (addedNodes calls).map nodeIdentity := by
  induction calls with
  | nil => intro cloud _; exact ⟨cloud, rfl, by simp [addedNodes]⟩
  | cons c rest ih =>
    intro cloud h
    cases c with
    | addNode n =>
      obtain ⟨c1, h1, h2⟩ := ih (CloudGraphAddNode cloud n).2 h
      refine ⟨c1, h1, ?_⟩
      rw [h2, addNode_identity]
      simp [addedNodes]
    | arrange opt => cases h

/-- Whatever the roundings, every call of a sequence is defined when the ids
of the families of the cloud and the families of its nodes and of the nodes
added lie in `[0, number of families)`. -/
theorem runCalls_defined (R : Rounding F) (ext : Ext F) (calls : List (CloudGraphCall F)) :
    ∀ cloud : CloudGraph F, WellIndexed cloud →
      (∀ n ∈ addedNodes calls, 0 ≤ n._family ∧ n._family < (cloud._families.length : Int)) →
      ∃ cloud1, runCalls R ext cloud calls = some cloud1 := by
  induction calls with
  | nil => intro cloud _ _; exact ⟨cloud, rfl⟩
  | cons c rest ih =>
    intro cloud hW hN
    cases c with
    | addNode n =>
      have hW1 : WellIndexed (CloudGraphAddNode cloud n).2 := by
        refine ⟨?_, hW.2⟩
        intro m hm
        simp only [CloudGraphAddNode, List.mem_append, List.mem_singleton] at hm
        rcases hm with hm | rfl
        · exact hW.1 m hm
        · exact hN n (List.mem_cons_self _ _)
      exact ih _ hW1 (fun m hm => hN m (List.mem_cons_of_mem _ hm))
    | arrange opt =>
      obtain ⟨c1, hc1, -⟩ := arrangeR_nodes_identity R ext cloud opt (Or.inr hW)
      obtain ⟨hid, hfam⟩ := arrangeR_result R ext cloud c1 opt hc1
      have hlen : c1._families.length = cloud._families.length := by
        have := congrArg List.length hfam
        simpa using this
      have hW1 : WellIndexed c1 := by
        constructor
        · intro m hm
          have h1 : nodeIdentity m ∈ c1._nodes.map nodeIdentity := List.mem_map_of_mem _ hm
          rw [hid] at h1
          obtain ⟨k, hk, hkm⟩ := List.mem_map.mp h1
          have hf : k._family = m._family := congrArg (fun t => t.2.1) hkm
          rw [hlen, ← hf]
          exact hW.1 k ((sortR_perm R cloud).mem_iff.mp hk)
        · intro g hg
          have h1 : g._id ∈ c1._families.map (fun f => f._id) :=
            List.mem_map_of_mem (fun f : CloudGraphFamily F => f._id) hg
          rw [hfam] at h1
          obtain ⟨k, hk, hkg⟩ := List.mem_map.mp h1
          rw [hlen, ← hkg]
          exact hW.2 k hk
      obtain ⟨c2, hc2⟩ := ih c1 hW1 (fun m hm => by rw [hlen]; exact hN m hm)
      exact ⟨c2, by simp only [runCalls, hc1]; exact hc2⟩

end CallsR

section Claims16R
variable {F : Type} [LinearOrderedField F]

/-- C16, as amended: nodes are added to a cloud without node and
`CloudGraphArrange` is called, in any order and any number of times, whatever
the roundings of the arithmetic. Every call is defined when the ids of the
families and the families of the nodes added lie in `[0, number of families)`.
When the conversion to `float` of the family of every node added is exact (it
is for every family from 0 to `2 ^ 24`), in every state so reached an id
resolves exactly when a node was added with it, and the node `a` that
`CloudGraphGetNode` returns is the first added among the nodes of this id and
of the family of `a`; it is the first added of all the nodes of this id as
long as `CloudGraphArrange` has not been called; and once it has been called,
with `init` the calls before the last call of `CloudGraphArrange` and `tail`
the nodes added since: if a node of `init` has this id, `a` is of the lowest
family among the nodes of `init` with this id (the first added among those of
this family), else `a` is the first node of `tail` with this id. -/
theorem C16_lookup_in_reachable_state (R : Rounding F) (ext : Ext F) (cloud0 : CloudGraph F)
    (calls : List (CloudGraphCall F)) (id : Int) (h0 : cloud0._nodes = [])
    (hkey : ∀ n ∈ addedNodes calls,
      R.toFloat ((n._family : Int) : F) = ((n._family : Int) : F)) :
    (WellIndexed cloud0 →
      (∀ n ∈ addedNodes calls, 0 ≤ n._family ∧ n._family < (cloud0._families.length : Int)) →
      ∃ cloud1, runCalls R ext cloud0 calls = some cloud1) ∧
    ∀ cloud1, runCalls R ext cloud0 calls = some cloud1 →
      (CloudGraphGetNode cloud1 id).isSome =
        ((addedNodes calls).find? (fun n => n._id == id)).isSome ∧
      ∀ a, CloudGraphGetNode cloud1 id = some a →
        (((addedNodes calls).filter (fun n => decide (n._family = a._family))).find?
          (fun n => n._id == id)).map nodeIdentity = some (nodeIdentity a) ∧
        (onlyAdds calls = true →
          ((addedNodes calls).find? (fun n => n._id == id)).map nodeIdentity =
            some (nodeIdentity a)) ∧
        ∀ (init : List (CloudGraphCall F)) (opt : CloudGraphOpt F)
          (tail : List (CloudGraphCall F)),
          calls = init ++ CloudGraphCall.arrange opt :: tail → onlyAdds tail = true →
          ((∃ n ∈ addedNodes init, n._id = id) →
            (∀ n ∈ addedNodes init, n._id = id → a._family ≤ n._family) ∧
            (((addedNodes init).filter (fun n => decide (n._family = a._family))).find?
              (fun n => n._id == id)).map nodeIdentity = some (nodeIdentity a)) ∧
          ((∀ n ∈ addedNodes init, n._id ≠ id) →
            ((addedNodes tail).find? (fun n => n._id == id)).map nodeIdentity =
              some (nodeIdentity a)) := by
  have hkey0 : ∀ n ∈ cloud0._nodes,
      R.toFloat ((n._family : Int) : F) = ((n._family : Int) : F) := by
    rw [h0]
    intro n hn
    cases hn
  refine ⟨fun hW hN => runCalls_defined R ext calls cloud0 hW hN, ?_⟩
  intro cloud1 hrun
  have hfil := runCalls_filter R ext calls cloud0 cloud1 hkey0 hkey hrun
  rw [h0, List.map_nil, List.nil_append] at hfil
  have hmem := mem_of_filters _ _ hfil
  constructor
  · rw [Bool.eq_iff_iff, CloudGraphGetNode, List.find?_isSome, List.find?_isSome]
    constructor
    · rintro ⟨x, hx, hp⟩
      have h1 : nodeIdentity x ∈ (addedNodes calls).map nodeIdentity :=
        (hmem _).mp (List.mem_map_of_mem _ hx)
      obtain ⟨y, hy, hxy⟩ := List.mem_map.mp h1
      refine ⟨y, hy, ?_⟩
      have : y._id = x._id := congrArg Prod.fst hxy
      rw [this]
      exact hp
    · rintro ⟨y, hy, hp⟩
      have h1 : nodeIdentity y ∈ cloud1._nodes.map nodeIdentity :=
        (hmem _).mpr (List.mem_map_of_mem _ hy)
      obtain ⟨x, hx, hxy⟩ := List.mem_map.mp h1
      refine ⟨x, hx, ?_⟩
      have : x._id = y._id := congrArg Prod.fst hxy
      rw [this]
      exact hp
  intro a ha
  have hfind : (cloud1._nodes.map nodeIdentity).find? (fun t => t.1 == id) =
      some (nodeIdentity a) := by
    rw [← find_identity]
    simp only [CloudGraphGetNode] at ha
    rw [ha]
    rfl
  refine ⟨?_, ?_, ?_⟩
  · have h1 := first_of_family _ id _ hfind
    rw [hfil] at h1
    rw [find_identity, filter_identity]
    exact h1
  · intro hadds
    obtain ⟨c1, hc1, hid⟩ := runCalls_onlyAdds R ext calls cloud0 hadds
    rw [hrun] at hc1
    obtain rfl := Option.some.inj hc1
    rw [h0, List.map_nil, List.nil_append] at hid
    rw [find_identity, ← hid]
    exact hfind
  · intro init opt tail hcalls htail
    subst hcalls
    have hkeyI : ∀ n ∈ addedNodes init,
        R.toFloat ((n._family : Int) : F) = ((n._family : Int) : F) := by
      intro n hn
      apply hkey
      rw [addedNodes_append]
      exact List.mem_append_left _ hn
    rw [runCalls_append] at hrun
    cases hi : runCalls R ext cloud0 init with
    | none => rw [hi] at hrun; cases hrun
    | some ci =>
      rw [hi] at hrun
      simp only [Option.some_bind, runCalls] at hrun
      cases hAr : CloudGraphArrangeR R ext ci opt with
      | none => rw [hAr] at hrun; cases hrun
      | some ca =>
        rw [hAr] at hrun
        simp only at hrun
        obtain ⟨c1, hc1, hid⟩ := runCalls_onlyAdds R ext tail ca htail
        rw [hrun] at hc1
        obtain rfl := Option.some.inj hc1
        have hifil := runCalls_filter R ext init cloud0 ci hkey0 hkeyI hi
        rw [h0, List.map_nil, List.nil_append] at hifil
        have hkeyC : ∀ n ∈ ci._nodes,
            R.toFloat ((n._family : Int) : F) = ((n._family : Int) : F) :=
          key_of_identity R ci._nodes (addedNodes init)
            (fun t ht => (mem_of_filters _ _ hifil t).mp ht) hkeyI
        obtain ⟨hsorted, hafil⟩ := arrangeR_identity R ext ci ca opt hkeyC hAr
        have hLa : ∀ f : Int,
            (ca._nodes.map nodeIdentity).filter (fun u => decide (u.2.1 = f)) =
              ((addedNodes init).map nodeIdentity).filter (fun u => decide (u.2.1 = f)) :=
          fun f => (hafil f).trans (hifil f)
        have hmemA := mem_of_filters _ _ hLa
        rw [hid, List.find?_append] at hfind
        constructor
        · rintro ⟨n, hn, hnid⟩
          have hnA : nodeIdentity n ∈ ca._nodes.map nodeIdentity :=
            (hmemA _).mpr (List.mem_map_of_mem _ hn)
          have hsome : ((ca._nodes.map nodeIdentity).find? (fun t => t.1 == id)).isSome := by
            rw [List.find?_isSome]
            exact ⟨_, hnA, by simp [nodeIdentity, hnid]⟩
          obtain ⟨t, ht⟩ := Option.isSome_iff_exists.mp hsome
          rw [ht] at hfind
          have hta : t = nodeIdentity a := Option.some.inj hfind
          subst hta
          constructor
          · intro m hm hmid
            have hmA : nodeIdentity m ∈ ca._nodes.map nodeIdentity :=
              (hmemA _).mpr (List.mem_map_of_mem _ hm)
            exact first_is_lowest _ hsorted id _ ht _ hmA hmid
          · have h1 := first_of_family _ id _ ht
            rw [hLa] at h1
            rw [find_identity, filter_identity]
            exact h1
        · intro hnone
          have hn : (ca._nodes.map nodeIdentity).find? (fun t => t.1 == id) = none := by
            rw [List.find?_eq_none]
            intro t ht
            have htI := (hmemA t).mp ht
            obtain ⟨m, hm, rfl⟩ := List.mem_map.mp htI
            have := hnone m hm
            simpa [nodeIdentity] using this
          rw [hn, Option.none_or] at hfind
          rw [find_identity]
          exact hfind

end Claims16R

/-- Witness of the amended C16, with the roundings of `float` and `double`:
two families (ids 0 and 1); a node of id 0 and of family 1 is added
(`first`), then a node of id 0 and of family 0 (`second`),
`CloudGraphArrange` is called in line mode, then a node of id 0 and of
family 0 is added (`third`). Every call is defined, and the id 0 resolves to
`second`: the node of the lowest family among those added before the
arrangement. -/
theorem C16_lookup_in_reachable_state_witness :
    (exampleCloud ℝ [] [exampleFamily ℝ 0 "f", exampleFamily ℝ 1 "g"] [])._nodes = [] ∧
    (∀ n ∈ addedNodes
        [CloudGraphCall.addNode (exampleNode ℝ 0 1 "first"),
          CloudGraphCall.addNode (exampleNode ℝ 0 0 "second"),
          CloudGraphCall.arrange (exampleOpt ℝ CloudGraphMode.CloudGraphModeLine
            CloudGraphOptNodeLabel.CloudGraphOptNodeLabelNone
            CloudGraphOptFamilyLabel.CloudGraphOptFamilyLabelNone 10),
          CloudGraphCall.addNode (exampleNode ℝ 0 0 "third")],
      (Rounding.ieee : Rounding ℝ).toFloat ((n._family : Int) : ℝ) = ((n._family : Int) : ℝ)) ∧
    ∃ cloud1,
      runCalls Rounding.ieee (exampleExt ⟨Real.cos, Real.sin, Real.sqrt, Real.pi⟩)
        (exampleCloud ℝ [] [exampleFamily ℝ 0 "f", exampleFamily ℝ 1 "g"] [])
        [CloudGraphCall.addNode (exampleNode ℝ 0 1 "first"),
          CloudGraphCall.addNode (exampleNode ℝ 0 0 "second"),
          CloudGraphCall.arrange (exampleOpt ℝ CloudGraphMode.CloudGraphModeLine
            CloudGraphOptNodeLabel.CloudGraphOptNodeLabelNone
            CloudGraphOptFamilyLabel.CloudGraphOptFamilyLabelNone 10),
          CloudGraphCall.addNode (exampleNode ℝ 0 0 "third")] = some cloud1 ∧
      (CloudGraphGetNode cloud1 0).isSome = true ∧
      ∀ a, CloudGraphGetNode cloud1 0 = some a → nodeIdentity a = (0, 0, some "second") := by
  have hkey : ∀ n ∈ addedNodes
      [CloudGraphCall.addNode (exampleNode ℝ 0 1 "first"),
        CloudGraphCall.addNode (exampleNode ℝ 0 0 "second"),
        CloudGraphCall.arrange (exampleOpt ℝ CloudGraphMode.CloudGraphModeLine
          CloudGraphOptNodeLabel.CloudGraphOptNodeLabelNone
          CloudGraphOptFamilyLabel.CloudGraphOptFamilyLabelNone 10),
        CloudGraphCall.addNode (exampleNode ℝ 0 0 "third")],
      (Rounding.ieee : Rounding ℝ).toFloat ((n._family : Int) : ℝ) =
        ((n._family : Int) : ℝ) := by
    intro n hn
    simp only [addedNodes, List.mem_cons, List.mem_singleton, List.not_mem_nil, or_false] at hn
    rcases hn with rfl | rfl | rfl
    · exact ieee_family_exact _ (by simp [exampleNode]) (by simp [exampleNode])
    · exact ieee_family_exact _ (by simp [exampleNode]) (by simp [exampleNode])
    · exact ieee_family_exact _ (by simp [exampleNode]) (by simp [exampleNode])
  refine ⟨rfl, hkey, ?_⟩
  obtain ⟨hdef, hprop⟩ :=
    C16_lookup_in_reachable_state Rounding.ieee
      (exampleExt ⟨Real.cos, Real.sin, Real.sqrt, Real.pi⟩)
      (exampleCloud ℝ [] [exampleFamily ℝ 0 "f", exampleFamily ℝ 1 "g"] [])
      [CloudGraphCall.addNode (exampleNode ℝ 0 1 "first"),
        CloudGraphCall.addNode (exampleNode ℝ 0 0 "second"),
        CloudGraphCall.arrange (exampleOpt ℝ CloudGraphMode.CloudGraphModeLine
          CloudGraphOptNodeLabel.CloudGraphOptNodeLabelNone
          CloudGraphOptFamilyLabel.CloudGraphOptFamilyLabelNone 10),
        CloudGraphCall.addNode (exampleNode ℝ 0 0 "third")] 0 rfl hkey
  obtain ⟨cloud1, hrun⟩ := hdef
    (by simp [WellIndexed, exampleCloud, exampleFamily])
    (by simp [addedNodes, exampleNode, exampleCloud])
  obtain ⟨hsome, hall⟩ := hprop cloud1 hrun
  refine ⟨cloud1, hrun, ?_, ?_⟩
  · rw [hsome]
    rfl
  · intro a ha
    obtain ⟨-, -, h5⟩ := hall a ha
    obtain ⟨hcase, -⟩ := h5
      [CloudGraphCall.addNode (exampleNode ℝ 0 1 "first"),
        CloudGraphCall.addNode (exampleNode ℝ 0 0 "second")]
      (exampleOpt ℝ CloudGraphMode.CloudGraphModeLine
        CloudGraphOptNodeLabel.CloudGraphOptNodeLabelNone
        CloudGraphOptFamilyLabel.CloudGraphOptFamilyLabelNone 10)
      [CloudGraphCall.addNode (exampleNode ℝ 0 0 "third")] rfl rfl
    obtain ⟨hlow, hfirst⟩ := hcase
      ⟨exampleNode ℝ 0 1 "first", by simp [addedNodes], rfl⟩
    have hle : a._family ≤ 0 := hlow (exampleNode ℝ 0 0 "second") (by simp [addedNodes]) rfl
    by_cases hfam : a._family = 0
    · rw [hfam] at hfirst
      simp only [addedNodes, exampleNode] at hfirst
      have h2 := Option.some.inj hfirst
      rw [← h2]
      rfl
    · exfalso
      have hlt : a._family < 0 := lt_of_le_of_ne hle hfam
      have h1 : ¬ (1 : Int) = a._family := by omega
      have h0 : ¬ (0 : Int) = a._family := by omega
      simp [addedNodes, exampleNode, h1, h0] at hfirst

end CG
